import Mathlib

/-! # Diagnostics of the Fortran front end: `gcc/fortran/error.c`

A shallow embedding of the error and warning reporting module of the
Fortran front end, followed by theorems about it.

Conventions of the embedding.

* A C string (`const char *`) is the list of the bytes stored at the
  pointer; the string itself is what precedes the first NUL (`cstr`).
* `gfc_char_t` (an unsigned 32-bit code point) is a natural number; a wide
  line is the list of its characters, the terminating zero being implicit.
* `int` counters are unbounded integers: the counters of this module count
  diagnostics and nesting levels and are never near `INT_MAX`.
* The static variables of the file are the fields of `gfc_state`; what the
  module shares with the rest of the compiler (the error stream, the option
  variables, the diagnostic context and the pretty-printer buffers) is the
  field `w : world`.
* A function of the module is a function from states to results (`M`): it
  either returns, or stops the process (failed assertion, fatal error,
  `exit`, undefined behaviour), in both cases with the state reached.
* Functions that are declared in headers which are not part of the sources
  at hand are parameters (`Externals`).
-/

namespace GfcError

/-! ## Data model -/

/-- The NUL byte. -/
def NUL : Char := Char.ofNat 0

/-- The characters of the C string stored in the bytes `p`: all that precedes
the first NUL. -/
def cstr (p : List Char) : List Char := p.takeWhile (fun c => c != NUL)

/-- Allocated bytes; `none` is a byte that was never written. -/
abbrev Mem := List (Option Char)

/-- The assignment `m[i] = c`. -/
def memWrite (m : Mem) (i : Nat) (c : Char) : Mem :=
  if i < m.length then m.set i (some c)
  else m ++ List.replicate (i - m.length) none ++ [some c]

/-- The C string that starts at the first byte of `m`: `none` when a byte
that was never written, or the end of the block, comes before a NUL. -/
def memStr : Mem → Option (List Char)
  | [] => none
  | none :: _ => none
  | some c :: r => if c = NUL then some [] else (memStr r).map (fun t => c :: t)

/-- The bytes of a C string together with its terminator, as written by
`xstrdup` and `memcpy`. -/
def strBytes (t : List Char) : Mem := (t ++ [NUL]).map some

/-- The type `gfc_file`: a file name, the line of its inclusion and the
including file (`up`, absent for the main file). -/
inductive gfc_file where
  | top (filename : List Char) (inclusion_line : Int)
  | sub (filename : List Char) (inclusion_line : Int) (up : gfc_file)
  deriving DecidableEq, Repr

def gfc_file.filename : gfc_file → List Char
  | .top f _ => f
  | .sub f _ _ => f

def gfc_file.inclusion_line : gfc_file → Int
  | .top _ i => i
  | .sub _ i _ => i

def gfc_file.up : gfc_file → Option gfc_file
  | .top _ _ => none
  | .sub _ _ u => some u

/-- The type `gfc_linebuf`: the address of the object, by which two
pointers to line buffers are compared, the location of the line, its file
and its characters (the terminating zero is implicit). -/
structure gfc_linebuf where
  addr : Nat
  location : Nat
  file : gfc_file
  line : List Nat
  deriving DecidableEq, Repr

/-- The type `locus`: `nextc` is kept as the offset `nextc - lb->line`;
`lb` may be the null pointer. -/
structure locus where
  nextc : Int
  lb : Option gfc_linebuf
  deriving DecidableEq, Repr

/-- The value of the pointer `loc->lb`: the address of the line buffer it
points to, or nothing for the null pointer. -/
def locus.lb_addr (loc : locus) : Option Nat := loc.lb.map (fun lb => lb.addr)

/-- The type `gfc_error_buf`. `message` is `none` for the null pointer. -/
structure gfc_error_buf where
  flag : Int
  allocated : Nat
  index : Nat
  message : Option Mem
  deriving DecidableEq, Repr

/-- Modelled from the spec: the pretty-printer's `output_buffer`
(pretty-print.h is not among the sources), a buffered-text accumulator with
its `flush_p` flag. -/
structure output_buffer where
  text : List Char
  flush_p : Bool
  deriving DecidableEq, Repr

/-- Which of the two error buffers `cur_error_buffer` points to. -/
inductive BufSel where
  | error_buffer
  | warning_buffer
  deriving DecidableEq, Repr

/-- The output buffers the printer's `buffer` field can point to. -/
inductive PPSel where
  | pp_buffer
  | pp_error_buffer
  | pp_warning_buffer
  deriving DecidableEq, Repr

/-- The kinds of diagnostic used by the module. -/
inductive diagnostic_t where
  | DK_WARNING
  | DK_ERROR
  | DK_FATAL
  | DK_ICE
  deriving DecidableEq, Repr

/-- One value of a variable argument list, with the C type it was passed
with. -/
inductive VaArg where
  | int (v : Int)
  | uint (v : Nat)
  | long (v : Int)
  | ulong (v : Nat)
  | str (p : List Char)
  | loc (l : Option locus)
  deriving DecidableEq, Repr

/-- What the module shares with the rest of the compiler. -/
structure world where
  /-- bytes written to the error stream so far -/
  stderr : List Char
  inhibit_warnings : Bool
  warnings_are_errors : Bool
  flag_fatal_errors : Bool
  /-- the option `gfc_option.max_errors` -/
  max_errors : Int
  /-- the option `gfc_option.warn_std` -/
  warn_std : Nat
  /-- the option `gfc_option.allow_std` -/
  allow_std : Nat
  gfc_current_locus : locus
  /-- the counters of the diagnostic context -/
  errorcount : Int
  warningcount : Int
  werrorcount : Int
  sorrycount : Int
  /-- fields of `global_dc` -/
  fatal_errors : Bool
  abort_on_error : Bool
  last_location : Nat
  caret_char : Char
  /-- the objects `pp_error_buffer` and `pp_warning_buffer` point to -/
  pp_error_buffer : output_buffer
  pp_warning_buffer : output_buffer
  /-- the printer's own buffer -/
  pp_buffer : output_buffer
  /-- the buffer `global_dc->printer->buffer` points to -/
  printer_buffer : PPSel
  deriving DecidableEq, Repr

/-- The static variables of `error.c`. -/
structure gfc_state where
  suppress_errors : Int
  warnings_not_errors : Bool
  terminal_width : Int
  errors : Int
  warnings : Int
  error_buffer : gfc_error_buf
  warning_buffer : gfc_error_buf
  cur_error_buffer : Option BufSel
  buffered_p : Bool
  warningcount_buffered : Int
  werrorcount_buffered : Int
  /-- `line[0 .. index)` of `error_char`: the characters of the line under
  construction -/
  line : List Char
  /-- `allocated` of `error_char` -/
  line_allocated : Nat
  /-- `wide_char_print_buffer` -/
  wide_char_print_buffer : List Char
  w : world
  deriving DecidableEq, Repr

/-- The exit statuses the module uses. -/
inductive ExitCode where
  | FATAL_EXIT_CODE
  | EXIT_FAILURE
  deriving DecidableEq, Repr

/-- The ways a function of the module ends the process. -/
inductive Stop where
  /-- a `gcc_assert` failed -/
  | assertion
  /-- `gcc_unreachable ()` was reached -/
  | unreachable
  /-- `exit (code)` -/
  | exit (code : ExitCode)
  /-- `abort ()` -/
  | abort
  /-- undefined behaviour: an access outside an object, a null pointer
  dereferenced, a `va_arg` of the wrong type -/
  | undefined
  deriving DecidableEq, Repr

/-- The result of running a function of the module. -/
inductive Res (α : Type) where
  | ok (a : α) (s : gfc_state)
  | stop (r : Stop) (s : gfc_state)
  deriving DecidableEq, Repr

/-- A function of the module. -/
def M (α : Type) : Type := gfc_state → Res α

def M.pure {α : Type} (a : α) : M α := fun s => .ok a s

def M.bind {α β : Type} (m : M α) (f : α → M β) : M β := fun s =>
  match m s with
  | .ok a s1 => f a s1
  | .stop r s1 => .stop r s1

instance : Monad M where
  pure := M.pure
  bind := M.bind

/-- End the process. -/
def halt {α : Type} (r : Stop) : M α := fun s => .stop r s

/-- Read the state. -/
def getState : M gfc_state := fun s => .ok s s

/-- Change the state. -/
def modifyState (f : gfc_state → gfc_state) : M Unit := fun s => .ok () (f s)

/-- The macro `gcc_assert`. -/
def gcc_assert (b : Bool) : M Unit := if b then pure () else halt .assertion

/-- What is declared outside the sources at hand. -/
structure Externals where
  /-- `gfc_wide_is_printable` (scanner) -/
  gfc_wide_is_printable : Nat → Bool
  /-- the macro `LOCATION_LINE` (line maps) -/
  LOCATION_LINE : Nat → Int
  /-- `report_diagnostic` of the common diagnostics machinery, with the
  diagnostic's kind, message, arguments and option index: it acts on what is
  shared; it returns its result and the kind the diagnostic ended with, or
  ends the process -/
  report_diagnostic : diagnostic_t → List Char → List VaArg → Int → world →
    Except (Stop × world) ((Bool × diagnostic_t) × world)
  /-- `diagnostic_action_after_output` -/
  diagnostic_action_after_output : diagnostic_t → world → Except (Stop × world) world
  /-- `tree_diagnostics_defaults (global_dc)` -/
  tree_diagnostics_defaults : world → world
  /-- `isatty (STDERR_FILENO)` and `get_terminal_width ()` -/
  isatty_stderr : Bool
  get_terminal_width : Int
  /-- the language standard flags `GFC_STD_*` (libgfortran.h) -/
  GFC_STD_F2008_TS : Nat
  GFC_STD_F2008_OBS : Nat
  GFC_STD_F2008 : Nat
  GFC_STD_F2003 : Nat
  GFC_STD_GNU : Nat
  GFC_STD_LEGACY : Nat
  GFC_STD_F95_OBS : Nat
  GFC_STD_F95_DEL : Nat

/-! ## Output sink -/

def gfc_state.buf (s : gfc_state) : BufSel → gfc_error_buf
  | .error_buffer => s.error_buffer
  | .warning_buffer => s.warning_buffer

def gfc_state.setBuf (s : gfc_state) (sel : BufSel) (b : gfc_error_buf) : gfc_state :=
  match sel with
  | .error_buffer => { s with error_buffer := b }
  | .warning_buffer => { s with warning_buffer := b }

/-- The function `fputs (p, stderr)`. -/
def fputs_stderr (p : List Char) (s : gfc_state) : gfc_state :=
  { s with w := { s.w with stderr := s.w.stderr ++ p } }

/-- The buffer after the capacity check of `error_char`: when `index` has
reached `allocated` the capacity becomes 1000 or is doubled and the block is
resized (`XRESIZEVEC` keeps the bytes it held). -/
def grow (b : gfc_error_buf) : gfc_error_buf :=
  if b.index ≥ b.allocated then
    { b with allocated := if b.allocated != 0 then b.allocated * 2 else 1000,
             message := some (b.message.getD []) }
  else b

/-- The buffered branch of `error_char` on the current buffer: the
capacity check, then `message[index++] = c`; `none` when the store falls
outside the block. -/
def buffer_char (b : gfc_error_buf) (c : Char) : Option gfc_error_buf :=
  let b1 := grow b
  match b1.message with
  | none => none
  | some m =>
    if b1.index < b1.allocated then
      some { b1 with message := some (memWrite m b1.index c), index := b1.index + 1 }
    else none

/-- The other branch of `error_char`, for a character that is not NUL: the
capacity check of the line under construction, `line[index++] = c`, and,
when `c` is a newline, the line is written to the error stream and `index`
is reset. -/
def line_char (c : Char) (s : gfc_state) : gfc_state :=
  let allocated : Nat :=
    if s.line.length + 1 ≥ s.line_allocated then
      (if s.line_allocated != 0 then s.line_allocated * 2 else 1000)
    else s.line_allocated
  if c = '\n' then
    { s with line_allocated := allocated, line := [],
             w := { s.w with stderr := s.w.stderr ++ (s.line ++ [c]) } }
  else
    { s with line_allocated := allocated, line := s.line ++ [c] }

/-- The function `error_char`: add one character to the current error
buffer, or to the line under construction, which goes to the error stream
when a newline completes it. -/
def error_char (c : Char) : M Unit := fun s =>
  if s.buffered_p then
    match s.cur_error_buffer with
    | none => .stop .undefined s
    | some sel =>
      match buffer_char (s.buf sel) c with
      | none => .stop .undefined s
      | some b => .ok () (s.setBuf sel b)
  else
    if c != NUL then .ok () (line_char c s) else .ok () s

/-- The function `error_string`: `while (*p) error_char (*p++)`. -/
def error_string : List Char → M Unit
  | [] => pure ()
  | c :: p => if c = NUL then pure () else do error_char c; error_string p

/-- The constant `IBUF_LEN`. -/
def IBUF_LEN : Nat := 60

/-- The digit loop of `error_uinteger`, `while (i > 0)`, writing downwards
into the `room` bytes that are left of `int_buf`; `none` when it would leave
the array. -/
def uinteger_digits : Nat → Nat → List Char → Option (List Char)
  | 0, i, acc => if i > 0 then none else some acc
  | room + 1, i, acc =>
    if i > 0 then uinteger_digits room (i / 10) (Char.ofNat (i % 10 + 48) :: acc) else some acc

/-- The function `error_uinteger`. -/
def error_uinteger (i : Nat) : M Unit :=
  let start : List Char × Nat := if i = 0 then (['0'], IBUF_LEN - 2) else ([], IBUF_LEN - 1)
  match uinteger_digits start.2 i start.1 with
  | none => halt .undefined
  | some ds => error_string (ds ++ [NUL])

/-- The function `error_integer`; the conversion to `unsigned long` is the
reduction modulo `2^64`. -/
def error_integer (i : Int) : M Unit :=
  if i < 0 then do
    let u := ((-i) % 2 ^ 64).toNat
    error_char '-'
    error_uinteger u
  else
    error_uinteger (i % 2 ^ 64).toNat

/-! ## Character codec -/

/-- The function `gfc_widechar_display_length`. -/
def gfc_widechar_display_length (X : Externals) (c : Nat) : Nat :=
  if X.gfc_wide_is_printable c || c == 9 then 1
  else if c < 1 <<< 8 then 4
  else if c < 1 <<< 16 then 6
  else 10

/-- The function `gfc_wide_display_length`, on the characters from the
pointer on. -/
def gfc_wide_display_length (X : Externals) : List Nat → Nat
  | [] => 0
  | c :: str => if c = 0 then 0 else gfc_widechar_display_length X c + gfc_wide_display_length X str

/-- The table `xdigit`. -/
def xdigit (n : Nat) : Char := "0123456789ABCDEF".toList.getD n '0'

/-- The function `print_wide_char_into_buffer`: the value returned and the
bytes written to `buf`, from `buf[0]` on. -/
def print_wide_char_into_buffer (X : Externals) (c : Nat) : Nat × List Char :=
  if X.gfc_wide_is_printable c || c == 9 then
    (1, [Char.ofNat ((if c == 9 then 32 else c) % 256), NUL])
  else if c < 1 <<< 8 then
    (4, ['\\', 'x', xdigit ((c >>> 4) &&& 15), xdigit (c &&& 15), NUL])
  else if c < 1 <<< 16 then
    (6, ['\\', 'u', xdigit ((c >>> 12) &&& 15), xdigit ((c >>> 8) &&& 15),
         xdigit ((c >>> 4) &&& 15), xdigit (c &&& 15), NUL])
  else
    (10, ['\\', 'U', xdigit ((c >>> 28) &&& 15), xdigit ((c >>> 24) &&& 15),
          xdigit ((c >>> 20) &&& 15), xdigit ((c >>> 16) &&& 15),
          xdigit ((c >>> 12) &&& 15), xdigit ((c >>> 8) &&& 15),
          xdigit ((c >>> 4) &&& 15), xdigit (c &&& 15), NUL])

/-- The function `gfc_print_wide_char`. -/
def gfc_print_wide_char (X : Externals) (c : Nat) : M (List Char) := fun s =>
  let buf := (print_wide_char_into_buffer X c).2
  .ok buf { s with wide_char_print_buffer := buf }

/-! ## Format engine, first part: scanning the template -/

/-- The constant `MAX_ARGS`. -/
def MAX_ARGS : Nat := 10

/-- The anonymous `enum` of `error_print`. -/
inductive ArgType where
  | TYPE_CURRENTLOC
  | TYPE_LOCUS
  | TYPE_INTEGER
  | TYPE_UINTEGER
  | TYPE_LONGINT
  | TYPE_ULONGINT
  | TYPE_CHAR
  | TYPE_STRING
  | NOTYPE
  deriving DecidableEq, Repr

/-- The union `u` of an argument or specifier: the member that was last
stored, or nothing yet. -/
inductive UVal where
  | unset
  | intval (v : Int)
  | uintval (v : Nat)
  | longintval (v : Int)
  | ulongintval (v : Nat)
  | charval (c : Char)
  | stringval (p : List Char)
  deriving DecidableEq, Repr

/-- The macro `ISDIGIT`. -/
def ISDIGIT (c : Char) : Bool := decide ('0' ≤ c) && decide (c ≤ '9')

/-- The function `atoi` on a string that starts with a digit. -/
def atoi (p : List Char) : Int :=
  ((p.takeWhile ISDIGIT).foldl (fun acc c => 10 * acc + (c.toNat - 48)) 0 : Nat)

/-- The character `*format`; the end of the list is the terminator. -/
def peek (format : List Char) : Char := format.headD NUL

/-- The variables of the first pass over the template: `pos`, `maxpos`,
`n`, the `type` fields of `arg` and the `pos` fields of `spec`. -/
structure Scan where
  pos : Int
  maxpos : Int
  n : Nat
  arg_type : List ArgType
  spec_pos : List Int
  deriving DecidableEq, Repr

/-- The variables before the first pass. -/
def Scan.init : Scan :=
  { pos := -1, maxpos := -1, n := 0,
    arg_type := List.replicate MAX_ARGS .NOTYPE,
    spec_pos := List.replicate MAX_ARGS (-1) }

/-- The `switch (c)` of the first pass: the type a conversion character
stands for and the template after it; `%l` reads one more character. -/
def scan_type (c : Char) (format : List Char) : Except Stop (ArgType × List Char) :=
  if c = 'C' then .ok (.TYPE_CURRENTLOC, format)
  else if c = 'L' then .ok (.TYPE_LOCUS, format)
  else if c = 'd' ∨ c = 'i' then .ok (.TYPE_INTEGER, format)
  else if c = 'u' then .ok (.TYPE_UINTEGER, format)
  else if c = 'l' then
    let c1 := peek format
    if c1 = 'u' then .ok (.TYPE_ULONGINT, format.tail)
    else if c1 = 'i' ∨ c1 = 'd' then .ok (.TYPE_LONGINT, format.tail)
    else .error .unreachable
  else if c = 'c' then .ok (.TYPE_CHAR, format)
  else if c = 's' then .ok (.TYPE_STRING, format)
  else .error .unreachable

/-- The position part of a specifier in the first pass: the new `pos` and
the template after the position. -/
def scan_pos (pos : Int) (format : List Char) : Except Stop (Int × List Char) :=
  if ISDIGIT (peek format) then
    let pos1 := atoi format - 1
    if pos1 ≥ 0 then
      let format1 := format.dropWhile ISDIGIT
      if peek format1 = '$' then .ok (pos1, format1.tail) else .error .assertion
    else .error .assertion
  else .ok (pos + 1, format)

/-- The first loop of `error_print`, "parse the format string for position
specifiers"; one unit of `fuel` per iteration. -/
def scan : Nat → List Char → Scan → Except Stop Scan
  | 0, _, _ => .error .undefined
  | _ + 1, [], st => .ok st
  | fuel + 1, c :: format, st =>
    if c ≠ '%' then scan fuel format st
    else if peek format = '%' then scan fuel format.tail st
    else
      match scan_pos st.pos format with
      | .error r => .error r
      | .ok (pos, format1) =>
        let c1 := peek format1
        let maxpos := if pos > st.maxpos then pos else st.maxpos
        match scan_type c1 format1.tail with
        | .error r => .error r
        | .ok (ty, format2) =>
          if 0 ≤ pos ∧ pos < MAX_ARGS ∧ st.n < MAX_ARGS then
            scan fuel format2
              { pos := pos, maxpos := maxpos, n := st.n + 1,
                arg_type := st.arg_type.set pos.toNat ty,
                spec_pos := st.spec_pos.set st.n pos }
          else .error .undefined

/-! ## Format engine, second part: the arguments -/

/-- The variables of the second loop of `error_print`: the unions of
`arg`, the loci found and what is left of the argument list. -/
structure Conv where
  arg_u : List UVal
  have_l1 : Bool
  l1 : Option locus
  l2 : Option locus
  argp : List VaArg
  deriving DecidableEq, Repr

/-- What a locus slot does in the second loop: the first one found becomes
`l1` and is printed as "(1)", the next one `l2`, printed as "(2)". -/
def conv_locus (cv : Conv) (pos : Nat) (loc : Option locus) (argp : List VaArg) : Conv :=
  if cv.have_l1 then
    { cv with l2 := loc, arg_u := cv.arg_u.set pos (.stringval "(2)".toList), argp := argp }
  else
    { cv with l1 := loc, have_l1 := true, arg_u := cv.arg_u.set pos (.stringval "(1)".toList),
              argp := argp }

/-- One iteration of the second loop of `error_print`: the value of slot
`pos` is taken from the argument list according to the slot's type. -/
def conv_step (cur : locus) (ty : ArgType) (pos : Nat) (cv : Conv) : Except Stop Conv :=
  match ty, cv.argp with
  | .NOTYPE, _ => .error .assertion
  | .TYPE_CURRENTLOC, argp => .ok (conv_locus cv pos (some cur) argp)
  | .TYPE_LOCUS, .loc l :: argp => .ok (conv_locus cv pos l argp)
  | .TYPE_INTEGER, .int v :: argp =>
    .ok { cv with arg_u := cv.arg_u.set pos (.intval v), argp := argp }
  | .TYPE_UINTEGER, .uint v :: argp =>
    .ok { cv with arg_u := cv.arg_u.set pos (.uintval v), argp := argp }
  | .TYPE_LONGINT, .long v :: argp =>
    .ok { cv with arg_u := cv.arg_u.set pos (.longintval v), argp := argp }
  | .TYPE_ULONGINT, .ulong v :: argp =>
    .ok { cv with arg_u := cv.arg_u.set pos (.ulongintval v), argp := argp }
  | .TYPE_CHAR, .int v :: argp =>
    .ok { cv with arg_u := cv.arg_u.set pos (.charval (Char.ofNat (v % 256).toNat)), argp := argp }
  | .TYPE_STRING, .str p :: argp =>
    .ok { cv with arg_u := cv.arg_u.set pos (.stringval p), argp := argp }
  | _, _ => .error .undefined

/-- The second loop of `error_print`, `for (pos = 0; pos <= maxpos; pos++)`,
from `pos` on with `count` iterations to go. -/
def conv_loop (cur : locus) (arg_type : List ArgType) : Nat → Nat → Conv → Except Stop Conv
  | 0, _, cv => .ok cv
  | count + 1, pos, cv =>
    match arg_type.get? pos with
    | none => .error .undefined
    | some ty =>
      match conv_step cur ty pos cv with
      | .error r => .error r
      | .ok cv1 => conv_loop cur arg_type count (pos + 1) cv1

/-- The third loop of `error_print`,
`for (n = 0; spec[n].pos >= 0; n++) spec[n].u = arg[spec[n].pos].u`,
from `n` on; it stops at the first specifier whose `pos` is negative, and
looks for it beyond the array when there is none. -/
def copy_loop (spec_pos : List Int) (arg_u : List UVal) : Nat → Nat → List UVal → Except Stop (List UVal)
  | 0, _, _ => .error .undefined
  | fuel + 1, n, spec_u =>
    match spec_pos.get? n with
    | none => .error .undefined
    | some p =>
      if p ≥ 0 then
        match arg_u.get? p.toNat with
        | none => .error .undefined
        | some u => copy_loop spec_pos arg_u fuel (n + 1) (spec_u.set n u)
      else .ok spec_u

/-! ## Format engine, third part: printing -/

/-- Run a computation that has no access to the state. -/
def liftE {α : Type} : Except Stop α → M α
  | .ok a => pure a
  | .error r => halt r

/-- The position part of a specifier in the last loop of `error_print`:
the digits are skipped, then one more character, the dollar sign; `none`
when this leaves the string. -/
def print_skip_pos (format : List Char) : Option (List Char) :=
  if ISDIGIT (peek format) then
    match format.dropWhile ISDIGIT with
    | [] => none
    | _ :: format1 => some format1
  else some format

/-- The element `spec[n].u`. -/
def spec_at (spec_u : List UVal) (n : Nat) : M UVal :=
  match spec_u.get? n with
  | none => halt .undefined
  | some u => pure u

/-- The `switch (*format)` of the last loop of `error_print`, `c` being
`*format` and `format` what follows it: the value of the next specifier is
printed; the result is the new `n` and the template after the loop's
`format++`. -/
def print_spec (c : Char) (format : List Char) (n : Nat) (spec_u : List UVal) :
    M (Nat × List Char) :=
  if c = '%' then do
    error_char '%'
    pure (n, format)
  else if c = 'c' then do
    match (← spec_at spec_u n) with
    | .charval v => error_char v
    | _ => halt .undefined
    pure (n + 1, format)
  else if c = 's' ∨ c = 'C' ∨ c = 'L' then do
    match (← spec_at spec_u n) with
    | .stringval p => error_string p
    | _ => halt .undefined
    pure (n + 1, format)
  else if c = 'd' ∨ c = 'i' then do
    match (← spec_at spec_u n) with
    | .intval v => error_integer v
    | _ => halt .undefined
    pure (n + 1, format)
  else if c = 'u' then do
    match (← spec_at spec_u n) with
    | .uintval v => error_uinteger v
    | _ => halt .undefined
    pure (n + 1, format)
  else if c = 'l' then do
    if peek format = 'u' then
      match (← spec_at spec_u n) with
      | .ulongintval v => error_uinteger v
      | _ => halt .undefined
    else
      match (← spec_at spec_u n) with
      | .longintval v => error_integer v
      | _ => halt .undefined
    match format with
    | [] => halt .undefined
    | _ :: format1 => pure (n + 1, format1)
  else pure (n, format)

/-- The last loop of `error_print`, `for (; *format; format++)`; one unit
of `fuel` per iteration. -/
def print_loop : Nat → List Char → Nat → List UVal → M Unit
  | 0, _, _, _ => halt .undefined
  | _ + 1, [], _, _ => pure ()
  | fuel + 1, c :: format, n, spec_u =>
    if c ≠ '%' then do
      error_char c
      print_loop fuel format n spec_u
    else
      match print_skip_pos format with
      | none => halt .undefined
      | some [] => halt .undefined
      | some (c1 :: format1) => do
        let r ← print_spec c1 format1 n spec_u
        print_loop fuel r.2 r.1 spec_u

/-- The function `error_print`, with the function it shows the loci with
as a parameter: `error_print` calls `show_loci`, which calls `show_locus`,
which calls `error_print` again, through `error_printf`, for a fixed
template without a locus. -/
def error_print_with (show_loci : Option locus → Option locus → M Unit)
    (type : List Char) (format0 : List Char) (argp : List VaArg) : M Unit := do
  let format := cstr format0
  let st ← liftE (scan (format.length + 1) format Scan.init)
  let s ← getState
  let cv ← liftE (conv_loop s.w.gfc_current_locus st.arg_type (st.maxpos + 1).toNat 0
    { arg_u := List.replicate MAX_ARGS .unset, have_l1 := false, l1 := none, l2 := none,
      argp := argp })
  let spec_u ← liftE (copy_loop st.spec_pos cv.arg_u (MAX_ARGS + 1) 0
    (List.replicate MAX_ARGS .unset))
  if cv.have_l1 then show_loci cv.l1 cv.l2
  if peek type ≠ NUL then do
    error_string type
    error_char ' '
  print_loop (format.length + 1) format 0 spec_u
  error_char '\n'

/-- The function `error_printf` as `show_locus` and `show_loci` call it: its
templates name no locus, so that `show_loci` is not called again. -/
def error_printf (gmsgid : List Char) (argp : List VaArg) : M Unit :=
  error_print_with (fun _ _ => halt .undefined) [] gmsgid argp

/-! ## Locus renderer -/

/-- The loop `for (;;)` of `show_locus` over the including files. -/
def show_includes : gfc_file → M Unit
  | .top _ _ => pure ()
  | .sub _ i up => do
    error_printf "    Included at %s:%d:".toList [.str up.filename, .int i]
    show_includes up

/-- The character `line[i]`; the terminating zero is at the end of the
list, and nothing of the line lies beyond it. -/
def line_at (line : List Nat) (i : Nat) : M Nat :=
  match (line ++ [0]).get? i with
  | none => halt .undefined
  | some c => pure c

/-- The horizontal offset of `show_locus`, from `cmax`. -/
def locus_offset (terminal_width cmax : Int) : Int :=
  if cmax > terminal_width - 5 then cmax - terminal_width + 5 else 0

/-- The loop `while (i > 0)` of `show_locus` that prints the source line
from `line[p]` on; `i` decreases at each iteration, the first argument
bounds the number of iterations. -/
def show_line_loop (X : Externals) (line : List Nat) : Nat → Int → Nat → M Unit
  | 0, _, _ => pure ()
  | fuel + 1, i, p =>
    if i > 0 then do
      let c ← line_at line p
      let r := print_wide_char_into_buffer X c
      error_string r.2
      show_line_loop X line fuel (i - r.1) (p + 1)
    else pure ()

/-- The loop `for (j = 0; j < spaces; j++) error_char (' ')`. -/
def error_spaces : Nat → M Unit
  | 0 => pure ()
  | k + 1 => do
    error_char ' '
    error_spaces k

/-- The loop `for (i = 0; i < cmax; i++)` of `show_locus` that prints the
markers, with the number of iterations to go, `i` and the index of `*p`. -/
def marker_loop (X : Externals) (line : List Nat) (c1 c2 : Int) : Nat → Int → Nat → M Unit
  | 0, _, _ => pure ()
  | k + 1, i, p => do
    let c ← line_at line p
    let spaces : Int := gfc_widechar_display_length X c
    if i = c1 then do
      error_char '1'
      error_spaces (spaces - 1).toNat
    else if i = c2 then do
      error_char '2'
      error_spaces (spaces - 1).toNat
    else
      error_spaces spaces.toNat
    marker_loop X line c1 c2 k (i + 1) (p + 1)

/-- The header line of `show_locus`: file, line and columns. -/
def show_locus_header (X : Externals) (lb : gfc_linebuf) (c1 c2 : Int) : M Unit := do
  error_string lb.file.filename
  error_char ':'
  error_integer (X.LOCATION_LINE lb.location)
  if c1 > 0 ∨ c2 > 0 then error_char '.'
  if c1 > 0 then error_integer c1
  if c1 > 0 ∧ c2 > 0 then error_char '-'
  if c2 > 0 then error_integer c2
  error_char ':'
  error_char '\n'

/-- The part of `show_locus` that shows the line itself, from `offset`;
`str` is what the pointer `&(lb->line[offset])` points to, which is nothing
when `offset` lies beyond the terminator. -/
def show_locus_line (X : Externals) (lb : gfc_linebuf) (offset : Int) : M Unit := do
  let s ← getState
  let str := (lb.line ++ [0]).drop offset.toNat
  if str = [] then halt .undefined
  else do
    let i0 : Int := gfc_wide_display_length X str
    let i : Int := if i0 > s.terminal_width then s.terminal_width - 1 else i0
    show_line_loop X lb.line i.toNat i offset.toNat
    error_char '\n'

/-- The part of `show_locus` that shows the markers, with `c1`, `c2` and
`cmax` already reduced by `offset`. -/
def show_locus_markers (X : Externals) (lb : gfc_linebuf) (offset c1 c2 cmax : Int) : M Unit := do
  marker_loop X lb.line c1 c2 cmax.toNat 0 offset.toNat
  let i : Int := cmax.toNat
  if i = c1 then error_char '1'
  else if i = c2 then error_char '2'
  error_char '\n'

/-- The function `show_locus`. -/
def show_locus (X : Externals) (loc : locus) (c1 c2 : Int) : M Unit :=
  match loc.lb with
  | none => halt .undefined
  | some lb => do
    show_locus_header X lb c1 c2
    show_includes lb.file
    error_char '\n'
    let c2 := if c1 = c2 then c2 + 1 else c2
    let cmax := if c1 < c2 then c2 else c1
    let s ← getState
    let offset := locus_offset s.terminal_width cmax
    show_locus_line X lb offset
    show_locus_markers X lb offset (c1 - offset) (c2 - offset) (cmax - offset)

/-- The function `show_loci`. The test `l1->lb != l2->lb` compares the two
pointers. When `l2->lb` is the null pointer the value of `c2` is of no
consequence: the pointers differ, the first locus is shown alone, and
`show_locus` then reads the second one through the null pointer. -/
def show_loci (X : Externals) (l1 l2 : Option locus) : M Unit :=
  match l1 with
  | none => error_printf "<During initialization>\n".toList []
  | some loc1 =>
    match loc1.lb with
    | none => error_printf "<During initialization>\n".toList []
    | some _ =>
      let c1 := loc1.nextc
      match l2 with
      | none => show_locus X loc1 c1 (-1)
      | some loc2 => do
        let c2 := loc2.nextc
        let m := if c1 < c2 then c2 - c1 else c1 - c2
        let s ← getState
        if loc1.lb_addr ≠ loc2.lb_addr ∨ m > s.terminal_width - 10 then do
          show_locus X loc1 c1 (-1)
          show_locus X loc2 (-1) c2
        else
          show_locus X loc1 c1 c2

/-- The function `error_print`. -/
def error_print (X : Externals) (type : List Char) (format0 : List Char)
    (argp : List VaArg) : M Unit :=
  error_print_with (show_loci X) type format0 argp

/-! ## Severity state machine and diagnostic surface

Messages are not translated: the macro `_` is the identity. -/

/-- Run a function of the common diagnostics machinery on what is shared. -/
def liftW {α : Type} (f : world → Except (Stop × world) (α × world)) : M α := fun s =>
  match f s.w with
  | .ok (a, w1) => .ok a { s with w := w1 }
  | .error (r, w1) => .stop r { s with w := w1 }

/-- Change what is shared. -/
def modifyWorld (f : world → world) : M Unit :=
  modifyState (fun s => { s with w := f s.w })

/-- The constant `INT_MAX`. -/
def INT_MAX : Int := 2 ^ 31 - 1

/-- The constant `UNKNOWN_LOCATION`. -/
def UNKNOWN_LOCATION : Nat := 0

/-- The function `gfc_output_buffer_empty_p`. -/
def gfc_output_buffer_empty_p (buf : output_buffer) : Bool := buf.text.isEmpty

/-- The function `gfc_push_suppress_errors`. -/
def gfc_push_suppress_errors : M Unit := do
  let s ← getState
  gcc_assert (decide (s.suppress_errors ≥ 0))
  modifyState (fun s => { s with suppress_errors := s.suppress_errors + 1 })

/-- The function `gfc_pop_suppress_errors`. -/
def gfc_pop_suppress_errors : M Unit := do
  let s ← getState
  gcc_assert (decide (s.suppress_errors > 0))
  modifyState (fun s => { s with suppress_errors := s.suppress_errors - 1 })

/-- The function `gfc_get_terminal_width`. -/
def gfc_get_terminal_width (X : Externals) : Int :=
  if X.isatty_stderr then X.get_terminal_width else INT_MAX

/-- The function `gfc_buffer_error`. -/
def gfc_buffer_error (flag : Bool) : M Unit :=
  modifyState (fun s => { s with buffered_p := flag })

/-- The function `gfc_error_init_1`. -/
def gfc_error_init_1 (X : Externals) : M Unit := do
  modifyState (fun s => { s with terminal_width := gfc_get_terminal_width X })
  modifyState (fun s => { s with errors := 0 })
  modifyState (fun s => { s with warnings := 0 })
  gfc_buffer_error false

/-- The function `gfc_fatal_error`, "Fatal error, never returns". -/
def gfc_fatal_error {α : Type} (X : Externals) (gmsgid : List Char) (argp : List VaArg) : M α := do
  let _ ← liftW (X.report_diagnostic .DK_FATAL gmsgid argp 0)
  halt .unreachable

/-- The function `gfc_increment_error_count`. -/
def gfc_increment_error_count (X : Externals) : M Unit := do
  modifyState (fun s => { s with errors := s.errors + 1 })
  let s ← getState
  if s.w.max_errors ≠ 0 ∧ s.errors ≥ s.w.max_errors then
    gfc_fatal_error X "Error count reached limit of %d.".toList [.int s.w.max_errors]

/-- Modelled from the spec: `pp_clear_output_area` (pretty-print.c is not
among the sources) empties the buffered text. -/
def pp_clear_output_area (buf : output_buffer) : output_buffer := { buf with text := [] }

/-- The function `gfc_clear_pp_buffer`, returning the buffer cleared. -/
def gfc_clear_pp_buffer (this_buffer : output_buffer) : M output_buffer := do
  modifyWorld (fun w => { w with last_location := UNKNOWN_LOCATION })
  pure (pp_clear_output_area this_buffer)

/-- The call `gfc_clear_pp_buffer (pp_warning_buffer)`. -/
def clear_pp_warning_buffer : M Unit := do
  let s ← getState
  let b ← gfc_clear_pp_buffer s.w.pp_warning_buffer
  modifyWorld (fun w => { w with pp_warning_buffer := b })

/-- The call `gfc_clear_pp_buffer (pp_error_buffer)`. -/
def clear_pp_error_buffer : M Unit := do
  let s ← getState
  let b ← gfc_clear_pp_buffer s.w.pp_error_buffer
  modifyWorld (fun w => { w with pp_error_buffer := b })

/-- The state after the statements that start a report in one of the two
error buffers: `flag = 1`, `index = 0` and `cur_error_buffer` set to the
buffer. -/
def started (sel : BufSel) (s : gfc_state) : gfc_state :=
  { s.setBuf sel { s.buf sel with flag := 1, index := 0 } with cur_error_buffer := some sel }

/-- The statements that start a report in one of the two error buffers. -/
def start_buffer (sel : BufSel) : M Unit := modifyState (started sel)

/-- The body of `gfc_warning_1`. -/
def warning_1_body (X : Externals) (gmsgid : List Char) (argp : List VaArg) : M Unit := do
  let s ← getState
  if s.w.inhibit_warnings then pure ()
  else do
    start_buffer .warning_buffer
    error_print X "Warning:".toList gmsgid argp
    error_char NUL
    let s ← getState
    if ¬ s.buffered_p then do
      modifyState (fun s => { s with warnings := s.warnings + 1 })
      if s.w.warnings_are_errors then gfc_increment_error_count X

/-- The function `gfc_warning_1`. -/
def gfc_warning_1 (X : Externals) (gmsgid : List Char) (argp : List VaArg) : M Unit :=
  warning_1_body X gmsgid argp

/-- The function `gfc_clear_warning`. -/
def gfc_clear_warning : M Unit := do
  modifyState (fun s => { s with warning_buffer := { s.warning_buffer with flag := 0 } })
  clear_pp_warning_buffer
  modifyState (fun s => { s with warningcount_buffered := 0 })
  modifyState (fun s => { s with werrorcount_buffered := 0 })

/-- The function `fputs (message, stderr)` on one of the error buffers'
blocks. -/
def fputs_message (m : Mem) : M Unit :=
  match memStr m with
  | none => halt .undefined
  | some t => modifyState (fputs_stderr t)

/-- Modelled from the spec: `pp_really_flush` (pretty-print.c is not among
the sources) writes the text of the printer's current buffer to the error
stream and empties the buffer. Here for the warning buffer. -/
def pp_really_flush_warning : M Unit :=
  modifyWorld (fun w => { w with stderr := w.stderr ++ w.pp_warning_buffer.text,
                                 pp_warning_buffer := pp_clear_output_area w.pp_warning_buffer })

/-- Modelled from the spec: `pp_really_flush`, for the error buffer. -/
def pp_really_flush_error : M Unit :=
  modifyWorld (fun w => { w with stderr := w.stderr ++ w.pp_error_buffer.text,
                                 pp_error_buffer := pp_clear_output_area w.pp_error_buffer })

/-- The function `gfc_warning_check`. -/
def gfc_warning_check (X : Externals) : M Unit := do
  let s ← getState
  if s.warning_buffer.flag ≠ 0 then do
    modifyState (fun s => { s with warnings := s.warnings + 1 })
    match s.warning_buffer.message with
    | none => pure ()
    | some m => fputs_message m
    gfc_clear_warning
  else if ¬ gfc_output_buffer_empty_p s.w.pp_warning_buffer then do
    let tmp_buffer := s.w.printer_buffer
    modifyWorld (fun w => { w with printer_buffer := .pp_warning_buffer })
    pp_really_flush_warning
    modifyWorld (fun w => { w with warningcount := w.warningcount + s.warningcount_buffered })
    modifyWorld (fun w => { w with werrorcount := w.werrorcount + s.werrorcount_buffered })
    gcc_assert (decide (s.warningcount_buffered + s.werrorcount_buffered = 1))
    liftW (fun w =>
      (X.diagnostic_action_after_output
        (if s.warningcount_buffered ≠ 0 then .DK_WARNING else .DK_ERROR) w).map
        (fun w1 => ((), w1)))
    modifyWorld (fun w => { w with printer_buffer := tmp_buffer })

/-- The function `gfc_error_1`. -/
def gfc_error_1 (X : Externals) (gmsgid : List Char) (argp : List VaArg) : M Unit := do
  let s ← getState
  if s.warnings_not_errors then
    -- the statements after the label `warning`
    if s.w.inhibit_warnings then pure ()
    else do
      start_buffer .warning_buffer
      error_print X "Warning:".toList gmsgid argp
      error_char NUL
      let s ← getState
      if ¬ s.buffered_p then do
        modifyState (fun s => { s with warnings := s.warnings + 1 })
        if s.w.warnings_are_errors then gfc_increment_error_count X
  else if s.suppress_errors ≠ 0 then pure ()
  else do
    start_buffer .error_buffer
    error_print X "Error:".toList gmsgid argp
    error_char NUL
    let s ← getState
    if ¬ s.buffered_p then gfc_increment_error_count X

/-- The function `gfc_warning_now_1`. -/
def gfc_warning_now_1 (X : Externals) (gmsgid : List Char) (argp : List VaArg) : M Unit := do
  let s ← getState
  if s.w.inhibit_warnings then pure ()
  else do
    let buffered_p_saved := s.buffered_p
    modifyState (fun s => { s with buffered_p := false })
    modifyState (fun s => { s with warnings := s.warnings + 1 })
    error_print X "Warning:".toList gmsgid argp
    error_char NUL
    if s.w.warnings_are_errors then gfc_increment_error_count X
    modifyState (fun s => { s with buffered_p := buffered_p_saved })

/-- The function `exit`. -/
def exit {α : Type} (code : ExitCode) : M α := halt (.exit code)

/-- The function `gfc_error_now_1`. -/
def gfc_error_now_1 (X : Externals) (gmsgid : List Char) (argp : List VaArg) : M Unit := do
  start_buffer .error_buffer
  let s ← getState
  let buffered_p_saved := s.buffered_p
  modifyState (fun s => { s with buffered_p := false })
  error_print X "Error:".toList gmsgid argp
  error_char NUL
  gfc_increment_error_count X
  modifyState (fun s => { s with buffered_p := buffered_p_saved })
  if s.w.flag_fatal_errors then exit .FATAL_EXIT_CODE

/-- The function `gfc_clear_error`. -/
def gfc_clear_error : M Unit := do
  modifyState (fun s => { s with error_buffer := { s.error_buffer with flag := 0 } })
  modifyState (fun s => { s with warnings_not_errors := false })
  clear_pp_error_buffer

/-- The function `gfc_error_flag_test`. -/
def gfc_error_flag_test : M Bool := do
  let s ← getState
  pure (s.error_buffer.flag ≠ 0 || ! gfc_output_buffer_empty_p s.w.pp_error_buffer)

/-- The function `gfc_error_check`. -/
def gfc_error_check (X : Externals) : M Bool := do
  let s ← getState
  let error_raised : Bool := s.error_buffer.flag ≠ 0
  if error_raised then do
    match s.error_buffer.message with
    | none => pure ()
    | some m => fputs_message m
    modifyState (fun s => { s with error_buffer := { s.error_buffer with flag := 0 } })
    clear_pp_error_buffer
    gfc_increment_error_count X
    if s.w.flag_fatal_errors then exit .FATAL_EXIT_CODE
    pure error_raised
  else if ¬ gfc_output_buffer_empty_p s.w.pp_error_buffer then do
    let tmp_buffer := s.w.printer_buffer
    modifyWorld (fun w => { w with printer_buffer := .pp_error_buffer })
    pp_really_flush_error
    modifyWorld (fun w => { w with errorcount := w.errorcount + 1 })
    let s1 ← getState
    gcc_assert (gfc_output_buffer_empty_p s1.w.pp_error_buffer)
    liftW (fun w => (X.diagnostic_action_after_output .DK_ERROR w).map (fun w1 => ((), w1)))
    modifyWorld (fun w => { w with printer_buffer := tmp_buffer })
    pure true
  else pure error_raised

/-- Modelled from the spec: `output_buffer_formatted_text` and
`output_buffer_append_r` (pretty-print.h is not among the sources): the text
of the source buffer, a C string, is appended to the target up to the length
given. -/
def output_buffer_append_r (buf : output_buffer) (str : List Char) (len : Nat) : output_buffer :=
  { buf with text := buf.text ++ str.take len }

/-- The function `strlen`. -/
def strlen (str : List Char) : Nat := (cstr str).length

/-- The function `gfc_move_output_buffer_from_to`, returning both buffers,
`from` first. -/
def gfc_move_output_buffer_from_to (from_buf to_buf : output_buffer) :
    M (output_buffer × output_buffer) := do
  let to1 ← gfc_clear_pp_buffer to_buf
  let to2 : output_buffer := { to1 with flush_p := false }
  if ¬ gfc_output_buffer_empty_p from_buf then do
    let str := from_buf.text
    let to3 := output_buffer_append_r to2 str (strlen str)
    let from1 ← gfc_clear_pp_buffer from_buf
    pure (from1, to3)
  else pure (from_buf, to2)

/-- The function `xstrdup` on one of the error buffers' messages. -/
def xstrdup (message : Option Mem) : M Mem :=
  match message with
  | none => halt .undefined
  | some m =>
    match memStr m with
    | none => halt .undefined
    | some t => pure (strBytes t)

/-- The function `gfc_push_error`; the objects `buffer_err` and `err`
belong to the caller and are returned. -/
def gfc_push_error (buffer_err : output_buffer) (err : gfc_error_buf) :
    M (output_buffer × gfc_error_buf) := do
  let s ← getState
  let err1 : gfc_error_buf := { err with flag := s.error_buffer.flag }
  let err2 : gfc_error_buf ←
    if s.error_buffer.flag ≠ 0 then do
      let m ← xstrdup s.error_buffer.message
      pure { err1 with message := some m }
    else pure err1
  modifyState (fun s => { s with error_buffer := { s.error_buffer with flag := 0 } })
  let r ← gfc_move_output_buffer_from_to s.w.pp_error_buffer buffer_err
  modifyWorld (fun w => { w with pp_error_buffer := r.1 })
  pure (r.2, err2)

/-- The function `gfc_pop_error`; the objects `buffer_err` and `err` belong
to the caller and are returned, the message freed being the null pointer. -/
def gfc_pop_error (buffer_err : output_buffer) (err : gfc_error_buf) :
    M (output_buffer × gfc_error_buf) := do
  modifyState (fun s => { s with error_buffer := { s.error_buffer with flag := err.flag } })
  let err1 : gfc_error_buf ←
    if err.flag ≠ 0 then do
      let src ← xstrdup err.message
      let len := src.length
      let s ← getState
      gcc_assert (decide (len ≤ s.error_buffer.allocated))
      match s.error_buffer.message with
      | none => halt .undefined
      | some dst =>
        modifyState (fun s =>
          { s with error_buffer := { s.error_buffer with message := some (src ++ dst.drop len) } })
        pure { err with message := none }
    else pure err
  let s ← getState
  let r ← gfc_move_output_buffer_from_to buffer_err s.w.pp_error_buffer
  modifyWorld (fun w => { w with pp_error_buffer := r.2 })
  pure (r.1, err1)

/-- The function `gfc_free_error`. -/
def gfc_free_error (buffer_err : output_buffer) (err : gfc_error_buf) :
    M (output_buffer × gfc_error_buf) := do
  let err1 : gfc_error_buf := if err.flag ≠ 0 then { err with message := none } else err
  let b ← gfc_clear_pp_buffer buffer_err
  pure (b, err1)

/-- The function `gfc_get_errors`: the values stored through `w` and `e`. -/
def gfc_get_errors : M (Int × Int) := do
  let s ← getState
  pure (s.warnings + s.w.warningcount + s.w.werrorcount,
        s.errors + s.w.errorcount + s.w.sorrycount + s.w.werrorcount)

/-- The function `gfc_errors_to_warnings`. -/
def gfc_errors_to_warnings (f : Bool) : M Unit :=
  modifyState (fun s => { s with warnings_not_errors := f })

/-- The function `gfc_warning` (the one taking a `va_list`), which reports
through the common diagnostics machinery. -/
def gfc_warning (X : Externals) (opt : Int) (gmsgid : List Char) (ap : List VaArg) : M Bool := do
  let s ← getState
  let fatal_errors := s.w.fatal_errors
  let tmp_buffer := s.w.printer_buffer
  clear_pp_warning_buffer
  if s.buffered_p then
    modifyWorld (fun w => { w with printer_buffer := .pp_warning_buffer, fatal_errors := false,
                                   werrorcount := w.werrorcount - 1 })
  let r ← liftW (X.report_diagnostic .DK_WARNING gmsgid ap opt)
  if s.buffered_p then do
    modifyWorld (fun w => { w with printer_buffer := tmp_buffer, fatal_errors := fatal_errors })
    modifyState (fun s => { s with warningcount_buffered := 0, werrorcount_buffered := 0 })
    if ¬ r.1 then
      modifyWorld (fun w => { w with werrorcount := w.werrorcount + 1 })
    else if r.2 = .DK_ERROR then
      modifyState (fun s => { s with werrorcount_buffered := s.werrorcount_buffered + 1 })
    else do
      modifyWorld (fun w => { w with werrorcount := w.werrorcount + 1,
                                     warningcount := w.warningcount - 1 })
      modifyState (fun s => { s with warningcount_buffered := s.warningcount_buffered + 1 })
  pure r.1

/-- The type `notification`. -/
inductive notification where
  | SILENT
  | WARNING
  | ERROR
  deriving DecidableEq, Repr

/-- The function `gfc_notification_std`. -/
def gfc_notification_std (std : Nat) : M notification := do
  let s ← getState
  let warning : Bool := (s.w.warn_std &&& std) ≠ 0 && ! s.w.inhibit_warnings
  if (s.w.allow_std &&& std) ≠ 0 ∧ ¬ warning then pure .SILENT
  else pure (if warning then .WARNING else .ERROR)

/-- The `switch (std)` of `gfc_notify_std_1` and `gfc_notify_std`: the
text that names the standard. -/
def std_text (X : Externals) (std : Nat) : M (List Char) :=
  if std = X.GFC_STD_F2008_TS then pure "TS 29113/TS 18508:".toList
  else if std = X.GFC_STD_F2008_OBS then pure "Fortran 2008 obsolescent feature:".toList
  else if std = X.GFC_STD_F2008 then pure "Fortran 2008:".toList
  else if std = X.GFC_STD_F2003 then pure "Fortran 2003:".toList
  else if std = X.GFC_STD_GNU then pure "GNU Extension:".toList
  else if std = X.GFC_STD_LEGACY then pure "Legacy Extension:".toList
  else if std = X.GFC_STD_F95_OBS then pure "Obsolescent feature:".toList
  else if std = X.GFC_STD_F95_DEL then pure "Deleted feature:".toList
  else halt .unreachable

/-- The function `gfc_notify_std_1`. -/
def gfc_notify_std_1 (X : Externals) (std : Nat) (gmsgid : List Char) (argp : List VaArg) :
    M Bool := do
  let s ← getState
  let warning : Bool := (s.w.warn_std &&& std) ≠ 0 && ! s.w.inhibit_warnings
  if (s.w.allow_std &&& std) ≠ 0 ∧ ¬ warning then pure true
  else if s.suppress_errors ≠ 0 then pure warning
  else do
    let sel : BufSel := if warning then .warning_buffer else .error_buffer
    modifyState (fun s => { s with cur_error_buffer := some sel })
    modifyState (fun s => s.setBuf sel { s.buf sel with flag := 1 })
    modifyState (fun s => s.setBuf sel { s.buf sel with index := 0 })
    let msg1 : List Char := if warning then "Warning:".toList else "Error:".toList
    let msg2 ← std_text X std
    let buffer := cstr msg1 ++ " ".toList ++ cstr msg2
    error_print X buffer gmsgid argp
    error_char NUL
    let s1 ← getState
    if ¬ s1.buffered_p then do
      if warning ∧ ¬ s.w.warnings_are_errors then
        modifyState (fun s => { s with warnings := s.warnings + 1 })
      else
        gfc_increment_error_count X
      modifyState (fun s => s.setBuf sel { s.buf sel with flag := 0 })
    pure (warning && ! s.w.warnings_are_errors)

/-- The function `gfc_error` (the one taking a `va_list`), which reports
through the common diagnostics machinery. -/
def gfc_error (X : Externals) (gmsgid : List Char) (ap : List VaArg) : M Unit := do
  let s ← getState
  if s.warnings_not_errors then do
    let _ ← gfc_warning X 0 gmsgid ap
    pure ()
  else if s.suppress_errors ≠ 0 then pure ()
  else do
    let fatal_errors := s.w.fatal_errors
    let tmp_buffer := s.w.printer_buffer
    clear_pp_error_buffer
    let saved_abort_on_error := if s.buffered_p then s.w.abort_on_error else false
    if s.buffered_p then
      modifyWorld (fun w => { w with abort_on_error := false, printer_buffer := .pp_error_buffer,
                                     fatal_errors := false, errorcount := w.errorcount - 1 })
    let _ ← liftW (X.report_diagnostic .DK_ERROR gmsgid ap 0)
    if s.buffered_p then
      modifyWorld (fun w => { w with printer_buffer := tmp_buffer, fatal_errors := fatal_errors,
                                     abort_on_error := saved_abort_on_error })

/-- The function `gfc_notify_std`. -/
def gfc_notify_std (X : Externals) (std : Nat) (gmsgid : List Char) (argp : List VaArg) :
    M Bool := do
  let s ← getState
  let warning : Bool := (s.w.warn_std &&& std) ≠ 0 && ! s.w.inhibit_warnings
  if (s.w.allow_std &&& std) ≠ 0 ∧ ¬ warning then pure true
  else if s.suppress_errors ≠ 0 then pure warning
  else do
    let msg ← std_text X std
    let buffer := cstr msg ++ " ".toList ++ cstr gmsgid
    if warning then do
      let _ ← gfc_warning X 0 buffer argp
      pure ()
    else
      gfc_error X buffer argp
    pure (warning && ! s.w.warnings_are_errors)

/-- The function `gfc_warning_now`. -/
def gfc_warning_now (X : Externals) (opt : Int) (gmsgid : List Char) (argp : List VaArg) :
    M Bool := do
  let r ← liftW (X.report_diagnostic .DK_WARNING gmsgid argp opt)
  pure r.1

/-- The function `gfc_error_now`. -/
def gfc_error_now (X : Externals) (gmsgid : List Char) (argp : List VaArg) : M Unit := do
  let _ ← liftW (X.report_diagnostic .DK_ERROR gmsgid argp 0)
  pure ()

/-- The function `gfc_internal_error`. -/
def gfc_internal_error {α : Type} (X : Externals) (gmsgid : List Char) (argp : List VaArg) :
    M α := do
  let we ← gfc_get_errors
  if we.2 > 0 then exit .EXIT_FAILURE
  let _ ← liftW (X.report_diagnostic .DK_ICE gmsgid argp 0)
  halt .unreachable

/-- The function `gfc_diagnostics_init`; the two buffers it allocates are
empty. -/
def gfc_diagnostics_init : M Unit :=
  modifyWorld (fun w => { w with caret_char := '^',
                                 pp_warning_buffer := { text := [], flush_p := false },
                                 pp_error_buffer := { text := [], flush_p := false } })

/-- The function `gfc_diagnostics_finish`. -/
def gfc_diagnostics_finish (X : Externals) : M Unit := do
  modifyWorld X.tree_diagnostics_defaults
  modifyWorld (fun w => { w with caret_char := '^' })

/-! ## The module as a transition system -/

/-- A call of one of the functions that the module exports, with its
arguments. -/
inductive Op where
  | push_suppress_errors
  | pop_suppress_errors
  | error_init_1
  | buffer_error (flag : Bool)
  | print_wide_char (c : Nat)
  | warning_1 (gmsgid : List Char) (argp : List VaArg)
  | warning (opt : Int) (gmsgid : List Char) (argp : List VaArg)
  | notification_std (std : Nat)
  | notify_std_1 (std : Nat) (gmsgid : List Char) (argp : List VaArg)
  | notify_std (std : Nat) (gmsgid : List Char) (argp : List VaArg)
  | warning_now_1 (gmsgid : List Char) (argp : List VaArg)
  | warning_now (opt : Int) (gmsgid : List Char) (argp : List VaArg)
  | error_now (gmsgid : List Char) (argp : List VaArg)
  | fatal_error (gmsgid : List Char) (argp : List VaArg)
  | clear_warning
  | warning_check
  | error_1 (gmsgid : List Char) (argp : List VaArg)
  | error (gmsgid : List Char) (argp : List VaArg)
  | error_now_1 (gmsgid : List Char) (argp : List VaArg)
  | internal_error (gmsgid : List Char) (argp : List VaArg)
  | clear_error
  | error_flag_test
  | error_check
  | push_error (buffer_err : output_buffer) (err : gfc_error_buf)
  | pop_error (buffer_err : output_buffer) (err : gfc_error_buf)
  | free_error (buffer_err : output_buffer) (err : gfc_error_buf)
  | get_errors
  | errors_to_warnings (f : Bool)
  | diagnostics_init
  | diagnostics_finish

/-- Forget the value a function returns. -/
def discard {α : Type} (m : M α) : M Unit := do
  let _ ← m
  pure ()

/-- The function an operation calls. -/
def Op.run (X : Externals) : Op → M Unit
  | .push_suppress_errors => gfc_push_suppress_errors
  | .pop_suppress_errors => gfc_pop_suppress_errors
  | .error_init_1 => gfc_error_init_1 X
  | .buffer_error flag => gfc_buffer_error flag
  | .print_wide_char c => discard (gfc_print_wide_char X c)
  | .warning_1 gmsgid argp => gfc_warning_1 X gmsgid argp
  | .warning opt gmsgid argp => discard (gfc_warning X opt gmsgid argp)
  | .notification_std std => discard (gfc_notification_std std)
  | .notify_std_1 std gmsgid argp => discard (gfc_notify_std_1 X std gmsgid argp)
  | .notify_std std gmsgid argp => discard (gfc_notify_std X std gmsgid argp)
  | .warning_now_1 gmsgid argp => gfc_warning_now_1 X gmsgid argp
  | .warning_now opt gmsgid argp => discard (gfc_warning_now X opt gmsgid argp)
  | .error_now gmsgid argp => gfc_error_now X gmsgid argp
  | .fatal_error gmsgid argp => gfc_fatal_error X gmsgid argp
  | .clear_warning => gfc_clear_warning
  | .warning_check => gfc_warning_check X
  | .error_1 gmsgid argp => gfc_error_1 X gmsgid argp
  | .error gmsgid argp => gfc_error X gmsgid argp
  | .error_now_1 gmsgid argp => gfc_error_now_1 X gmsgid argp
  | .internal_error gmsgid argp => gfc_internal_error X gmsgid argp
  | .clear_error => gfc_clear_error
  | .error_flag_test => discard gfc_error_flag_test
  | .error_check => discard (gfc_error_check X)
  | .push_error buffer_err err => discard (gfc_push_error buffer_err err)
  | .pop_error buffer_err err => discard (gfc_pop_error buffer_err err)
  | .free_error buffer_err err => discard (gfc_free_error buffer_err err)
  | .get_errors => discard gfc_get_errors
  | .errors_to_warnings f => gfc_errors_to_warnings f
  | .diagnostics_init => gfc_diagnostics_init
  | .diagnostics_finish => gfc_diagnostics_finish X

/-- The static variables when the program starts: all of them zero. -/
def gfc_state.initial (w : world) : gfc_state :=
  { suppress_errors := 0, warnings_not_errors := false, terminal_width := 0,
    errors := 0, warnings := 0,
    error_buffer := { flag := 0, allocated := 0, index := 0, message := none },
    warning_buffer := { flag := 0, allocated := 0, index := 0, message := none },
    cur_error_buffer := none, buffered_p := false,
    warningcount_buffered := 0, werrorcount_buffered := 0,
    line := [], line_allocated := 0,
    wide_char_print_buffer := List.replicate 11 NUL,
    w := w }

/-- The state an operation leaves, whether it returns or ends the process. -/
def Res.state {α : Type} : Res α → gfc_state
  | .ok _ s => s
  | .stop _ s => s

/-- The states the module can be in: the initial ones, and those that
operations lead to from them, the state in which an operation that ends the
process leaves the module included. -/
inductive Reachable (X : Externals) : gfc_state → Prop where
  | initial (w : world) : Reachable X (gfc_state.initial w)
  | step (op : Op) (s : gfc_state) : Reachable X s → Reachable X (op.run X s).state

/-! ## Definitions used to state the properties -/

/-- Run `m` a number of times in a row. -/
def times (m : M Unit) : Nat → M Unit
  | 0 => pure ()
  | n + 1 => do
    m
    times m n

/-- The calls `error_char (c)` for the characters `c` of a text, in order. -/
def emit : List Char → M Unit
  | [] => pure ()
  | c :: cs => do
    error_char c
    emit cs

/-- The width sum of `gfc_wide_display_length`, written with the list
functions: the widths of the characters that precede the terminator. -/
def display_width_sum (X : Externals) (str : List Nat) : Nat :=
  ((str.takeWhile (fun c => c != 0)).map (gfc_widechar_display_length X)).sum

/-! ## Sample values -/

/-- A printability test for the samples: the printable ASCII characters. -/
def sample_printable (c : Nat) : Bool := decide (32 ≤ c) && decide (c < 127)

/-- Externals for the samples: every diagnostic handed to the common
machinery ends the process with the fatal status. -/
def sample_externals : Externals :=
  { gfc_wide_is_printable := sample_printable
    LOCATION_LINE := fun l => l
    report_diagnostic := fun _ _ _ _ w => .error (.exit .FATAL_EXIT_CODE, w)
    diagnostic_action_after_output := fun _ w => .ok w
    tree_diagnostics_defaults := fun w => w
    isatty_stderr := true
    get_terminal_width := 80
    GFC_STD_F2008_TS := 512
    GFC_STD_F2008_OBS := 256
    GFC_STD_F2008 := 128
    GFC_STD_F2003 := 16
    GFC_STD_GNU := 32
    GFC_STD_LEGACY := 64
    GFC_STD_F95_OBS := 2
    GFC_STD_F95_DEL := 4 }

/-- An empty output buffer. -/
def sample_output_buffer : output_buffer := { text := [], flush_p := false }

/-- A world with nothing written, no option set and no limit on errors. -/
def sample_world : world :=
  { stderr := [], inhibit_warnings := false, warnings_are_errors := false,
    flag_fatal_errors := false, max_errors := 0, warn_std := 0, allow_std := 0,
    gfc_current_locus := { nextc := 0, lb := none },
    errorcount := 0, warningcount := 0, werrorcount := 0, sorrycount := 0,
    fatal_errors := false, abort_on_error := false, last_location := 0, caret_char := '^',
    pp_error_buffer := sample_output_buffer, pp_warning_buffer := sample_output_buffer,
    pp_buffer := sample_output_buffer, printer_buffer := .pp_buffer }

/-- The initial state in the sample world, on a terminal of 80 columns. -/
def sample_state : gfc_state := { gfc_state.initial sample_world with terminal_width := 80 }

/-! ## Relations between the state before and after a call -/

/-- The function `m` leaves, from every state `s`, a state related to `s`
by `R`, whether it returns or ends the process. -/
def Keeps (R : gfc_state → gfc_state → Prop) {α : Type} (m : M α) : Prop :=
  ∀ s, R s (m s).state

/-- A relation between states that holds from each state to itself and
through sequences. -/
class Frame (R : gfc_state → gfc_state → Prop) : Prop where
  refl : ∀ s, R s s
  trans : ∀ {a b c}, R a b → R b c → R a c

/-- The state `s1` is reached from `s` by calls of `error_char` alone. -/
def Emitted (s s1 : gfc_state) : Prop := ∃ cs, emit cs s = .ok () s1

/-- The suppression depth is the same in both states. -/
def SameDepth (s s1 : gfc_state) : Prop := s1.suppress_errors = s.suppress_errors

/-- A state with an error pending, the message "x", and the text "note" in
the pretty-printer's error buffer. -/
def pending_state : gfc_state :=
  { sample_state with
    error_buffer := { flag := 1, allocated := 1000, index := 2, message := some (strBytes ['x']) }
    w := { sample_world with pp_error_buffer := { text := "note".toList, flush_p := false } } }

/-- A state with no error pending and, in the pretty-printer's error buffer,
a text with a NUL byte in it. -/
def nul_text_state : gfc_state :=
  { sample_state with
    w := { sample_world with pp_error_buffer := { text := ['a', NUL, 'b'], flush_p := false } } }

/-! ## Sequences of reports -/

/-- A report: a message template and its arguments. -/
abbrev Report := List Char × List VaArg

/-- The calls `gfc_error_1 (gmsgid, ...)` for the reports of a list, in
order. -/
def report_errors (X : Externals) : List Report → M Unit
  | [] => pure ()
  | r :: rs => do
    gfc_error_1 X r.1 r.2
    report_errors X rs

/-- The report `r` can be printed as an error in immediate mode on the
terminal width and with the current locus of `s0`: `error_print` returns
(its template is well formed and matches its arguments, and the loci it
names lie in their lines). -/
def PrintsIn (X : Externals) (s0 : gfc_state) (r : Report) : Prop :=
  ∀ s : gfc_state, s.buffered_p = false → s.terminal_width = s0.terminal_width →
    s.w.gfc_current_locus = s0.w.gfc_current_locus →
    ∃ s1, error_print X "Error:".toList r.1 r.2 s = .ok () s1

/-- The sample state with the error limit 5. -/
def limit_state : gfc_state := { sample_state with w := { sample_world with max_errors := 5 } }

/-- In immediate mode the function returns, still in immediate mode. -/
def ReturnsImmediate {α : Type} (m : M α) : Prop :=
  ∀ s : gfc_state, s.buffered_p = false → ∃ a s1, m s = .ok a s1 ∧ s1.buffered_p = false

/-- Five reports of the same plain message. -/
def five_reports : List Report := List.replicate 5 ("Syntax error".toList, [])

/-- The sample state in buffered mode. -/
def buffered_state : gfc_state := { sample_state with buffered_p := true }

/-- The sample state in buffered mode with all warnings inhibited. -/
def inhibited_state : gfc_state :=
  { sample_state with buffered_p := true, w := { sample_world with inhibit_warnings := true } }

/-! ## Texts used to state what the locus renderer prints -/

/-- The text that `show_locus` prints for one character of the line: what
`print_wide_char_into_buffer` has written, up to its NUL. -/
def render (X : Externals) (c : Nat) : List Char := cstr (print_wide_char_into_buffer X c).2

/-- The characters of a wide string: what precedes its terminating zero. -/
def wcs (str : List Nat) : List Nat := str.takeWhile (fun c => c != 0)

/-- The sum of the display widths of the `k` characters of the line from
index `p` on, the terminating zero counting as a character of the line. -/
def span_width (X : Externals) (line : List Nat) (p k : Nat) : Nat :=
  ((((line ++ [0]).drop p).take k).map (gfc_widechar_display_length X)).sum

/-- The line buffer of line 10 of the file "file.f", which no file
includes, with the characters given. -/
def sample_linebuf (line : List Nat) : gfc_linebuf :=
  { addr := 4096, location := 10, file := .top "file.f".toList 0, line := line }

/-- The line "abcdefghij". -/
def plain_line : gfc_linebuf := sample_linebuf ("abcdefghij".toList.map Char.toNat)

/-- The line "abcdefghijklmnop". -/
def long_line : gfc_linebuf := sample_linebuf ("abcdefghijklmnop".toList.map Char.toNat)

/-- The line 'a', 'b', 'c', 1, 1, 'd', 'e', 'f', 'g', 'h': two characters
that are not printable after "abc". -/
def escaped_line : gfc_linebuf := sample_linebuf [97, 98, 99, 1, 1, 100, 101, 102, 103, 104]

/-- The line 'a', 'b', 1, 'c', 'd'. -/
def short_escaped_line : gfc_linebuf := sample_linebuf [97, 98, 1, 99, 100]

/-- The sample state on a terminal of the width given. -/
def width_state (w : Int) : gfc_state := { sample_state with terminal_width := w }

/-- The number that a text of decimal digits is read as. -/
def decimal_value (ds : List Char) : Nat := ds.foldl (fun v d => 10 * v + (d.toNat - 48)) 0

/-- The value of an upper-case hexadecimal digit. -/
def hex_digit_value (d : Char) : Nat :=
  if '0' ≤ d ∧ d ≤ '9' then d.toNat - 48 else d.toNat - 55

/-- The number that a text of upper-case hexadecimal digits is read as,
most significant digit first. -/
def hex_value (ds : List Char) : Nat := ds.foldl (fun v d => 16 * v + hex_digit_value d) 0

/-- An upper-case hexadecimal digit. -/
def is_upper_hex (d : Char) : Bool :=
  (decide ('0' ≤ d) && decide (d ≤ '9')) || (decide ('A' ≤ d) && decide (d ≤ 'F'))

/-- The character that a text written by `print_wide_char_into_buffer` for
a character that is not printable stands for: the tab for a space, and the
value of the hexadecimal digits after the two characters of an escape. -/
def escape_value (t : List Char) : Nat := if t = [' '] then 9 else hex_value (t.drop 2)

/-- The sample state inside one level of error suppression. -/
def suppressed_state : gfc_state := { sample_state with suppress_errors := 1 }

/-- The sample state in buffered mode inside one level of error
suppression. -/
def suppressed_buffered_state : gfc_state := { buffered_state with suppress_errors := 1 }

/-- The sample state with errors turned into warnings. -/
def redirected_state : gfc_state := { sample_state with warnings_not_errors := true }

/-- As long as the warning buffer is the current buffer, it stays so and
the error buffer is as it was. -/
def WarningSelected (s s1 : gfc_state) : Prop :=
  s.cur_error_buffer = some .warning_buffer →
    s1.cur_error_buffer = some .warning_buffer ∧ s1.error_buffer = s.error_buffer

/-- What `gfc_error_check` leaves of a state in which the flag of the error
buffer is set and the buffer holds the text `t`: the text is written to the
error stream, the flag is clear, the pretty-printer's error buffer is
cleared and one more error is counted. -/
def error_flushed (t : List Char) (s : gfc_state) : gfc_state :=
  { s with
    error_buffer := { s.error_buffer with flag := 0 }
    errors := s.errors + 1
    w := { s.w with stderr := s.w.stderr ++ t, last_location := UNKNOWN_LOCATION,
                    pp_error_buffer := pp_clear_output_area s.w.pp_error_buffer } }

/-- The state `pending_state` with the option `-ffatal-errors`. -/
def fatal_pending_state : gfc_state :=
  { pending_state with w := { pending_state.w with flag_fatal_errors := true } }

/-- Whenever the function returns, it returns the value `b`. -/
def Yields {β : Type} (b : β) (m : M β) : Prop := ∀ s b1 s1, m s = .ok b1 s1 → b1 = b

/-- The decimal text of an integer: a minus sign for a negative one, then
the digits of its magnitude. -/
def int_text (i : Int) : List Char :=
  if i < 0 then '-' :: Nat.toDigits 10 (-i).toNat else Nat.toDigits 10 i.toNat

/-- The columns of the header of an excerpt, after the line number: each
column that is greater than 0 is printed, after a dot, with a dash between
the two when both are. -/
def header_columns (c1 c2 : Int) : List Char :=
  if c1 > 0 ∧ c2 > 0 then ['.'] ++ int_text c1 ++ ['-'] ++ int_text c2
  else if c1 > 0 then ['.'] ++ int_text c1
  else if c2 > 0 then ['.'] ++ int_text c2
  else []

/-- The files that include a file, from the one that includes it directly
to the outermost, each with the line of the inclusion, which is recorded in
the included file. -/
def ancestors : gfc_file → List (List Char × Int)
  | .top _ _ => []
  | .sub _ i up => (up.filename, i) :: ancestors up

/-- The number of files in the include chain above a file. -/
def include_depth : gfc_file → Nat
  | .top _ _ => 0
  | .sub _ _ up => include_depth up + 1

/-- The line that `show_locus` prints for an including file, without its
newline. -/
def included_line (a : List Char × Int) : List Char :=
  "    Included at ".toList ++ cstr a.1 ++ [':'] ++ int_text a.2 ++ [':']

/-- The statements of `show_locus` that follow the empty line: the line
itself and the markers, from the offset that the terminal width and the
columns give. -/
def show_locus_excerpt (X : Externals) (lb : gfc_linebuf) (c1 c2 : Int) : M Unit := do
  let c2 := if c1 = c2 then c2 + 1 else c2
  let cmax := if c1 < c2 then c2 else c1
  let s ← getState
  let offset := locus_offset s.terminal_width cmax
  show_locus_line X lb offset
  show_locus_markers X lb offset (c1 - offset) (c2 - offset) (cmax - offset)

/-- The file "a.inc", included at line 7 of "b.f", which is included at
line 3 of "c.f". -/
def nested_file : gfc_file := .sub "a.inc".toList 7 (.sub "b.f".toList 3 (.top "c.f".toList 0))

/-- Line 10, "abcdefghij", of the file `nested_file`. -/
def nested_line : gfc_linebuf :=
  { addr := 4096, location := 10, file := nested_file,
    line := "abcdefghij".toList.map Char.toNat }

/-- The sample state with warnings treated as errors. -/
def werror_state : gfc_state :=
  { sample_state with w := { sample_world with warnings_are_errors := true } }

/-- The sample state with Fortran 2003 features allowed and warned about. -/
def std_warn_state : gfc_state :=
  { sample_state with w := { sample_world with warn_std := 16, allow_std := 16 } }

/-- Neither of the two counters `errors` and `warnings` is smaller in `s1`
than in `s`. -/
def CountersGrow (s s1 : gfc_state) : Prop := s.errors ≤ s1.errors ∧ s.warnings ≤ s1.warnings

/-- The two counters `errors` and `warnings` are the same in both states. -/
def CountersKept (s s1 : gfc_state) : Prop := s1.errors = s.errors ∧ s1.warnings = s.warnings

/-- The capacity of the error buffer is not smaller in `s1` than in `s`, and
its block is still there when it was. -/
def Capacity (s s1 : gfc_state) : Prop :=
  s.error_buffer.allocated ≤ s1.error_buffer.allocated
  ∧ (s.error_buffer.message ≠ none → s1.error_buffer.message ≠ none)

/-- The calls of a list of operations, in order. -/
def Op.runAll (X : Externals) : List Op → M Unit
  | [] => pure ()
  | op :: ops => do
    op.run X
    Op.runAll X ops

/-- The slot of a caller of `gfc_push_error` before the first push: no flag
and the null pointer for the message. -/
def empty_slot : gfc_error_buf := { flag := 0, allocated := 0, index := 0, message := none }

/-- The line 1, 1, 1, 1, 'a': four characters that are not printable
before the 'a'. -/
def escapes_line : gfc_linebuf := sample_linebuf [1, 1, 1, 1, 97]

/-- The number of arguments that a slot of the type given takes from the
argument list: none for the current locus, one for every other type. -/
def slot_consumes (ty : ArgType) : Nat := if ty = .TYPE_CURRENTLOC then 0 else 1

/-- The types of the slots that name a locus. -/
def is_locus_type (ty : ArgType) : Bool :=
  decide (ty = .TYPE_CURRENTLOC) || decide (ty = .TYPE_LOCUS)

/-- The number of arguments that the slots before `pos` take. -/
def args_before (types : List ArgType) (pos : Nat) : Nat :=
  ((types.take pos).map slot_consumes).sum

/-- The number of slots before `pos` that name a locus. -/
def loci_before (types : List ArgType) (pos : Nat) : Nat :=
  ((types.take pos).filter is_locus_type).length

/-- The value that a slot of a type other than a locus keeps of an argument
passed with the C type the slot reads. -/
def arg_value : ArgType → VaArg → Option UVal
  | .TYPE_INTEGER, .int v => some (.intval v)
  | .TYPE_UINTEGER, .uint v => some (.uintval v)
  | .TYPE_LONGINT, .long v => some (.longintval v)
  | .TYPE_ULONGINT, .ulong v => some (.ulongintval v)
  | .TYPE_CHAR, .int v => some (.charval (Char.ofNat (v % 256).toNat))
  | .TYPE_STRING, .str p => some (.stringval p)
  | _, _ => none

/-- The variables of the second loop of `error_print` before the loop. -/
def Conv.init (argp : List VaArg) : Conv :=
  { arg_u := List.replicate MAX_ARGS .unset, have_l1 := false, l1 := none, l2 := none,
    argp := argp }
/-- What the second loop of `error_print` has done after `count` slots. -/
structure ConvInv (cur : locus) (types : List ArgType) (argp : List VaArg) (count : Nat)
    (cv : Conv) : Prop where
  argp_eq : cv.argp = argp.drop (args_before types count)
  have_eq : cv.have_l1 = decide (0 < loci_before types count)
  len : cv.arg_u.length = MAX_ARGS
  value : ∀ pos ty, pos < count → types[pos]? = some ty → is_locus_type ty = false →
    ∃ a, argp[args_before types pos]? = some a ∧ arg_value ty a = cv.arg_u[pos]?
  text : ∀ pos ty, pos < count → types[pos]? = some ty → is_locus_type ty = true →
    cv.arg_u[pos]? = some (.stringval
      (if loci_before types pos = 0 then "(1)".toList else "(2)".toList))
  first : ∀ pos ty, pos < count → types[pos]? = some ty → is_locus_type ty = true →
    loci_before types pos = 0 →
    (ty = .TYPE_CURRENTLOC → cv.l1 = some cur)
    ∧ (ty = .TYPE_LOCUS → argp[args_before types pos]? = some (.loc cv.l1))
  last : ∀ pos ty, pos < count → types[pos]? = some ty → is_locus_type ty = true →
    0 < loci_before types pos → loci_before types count = loci_before types pos + 1 →
    (ty = .TYPE_CURRENTLOC → cv.l2 = some cur)
    ∧ (ty = .TYPE_LOCUS → argp[args_before types pos]? = some (.loc cv.l2))

/-- A locus at the column given of the line "abcdefghij". -/
def plain_locus (c : Int) : locus := { nextc := c, lb := some plain_line }

/-- The function `m` never ends on a failed assertion. -/
def NoAssert {α : Type} (m : M α) : Prop := ∀ s s1, m s ≠ .stop .assertion s1

/-- What the first loop of `error_print` keeps true of its variables: the
typed slots are those that a specifier names, and `maxpos` is the highest
of them. -/
structure ScanInv (st : Scan) : Prop where
  len_t : st.arg_type.length = MAX_ARGS
  len_s : st.spec_pos.length = MAX_ARGS
  n_le : st.n ≤ MAX_ARGS
  max_lt : st.maxpos < MAX_ARGS
  typed : ∀ p : Nat, p < MAX_ARGS →
    (st.arg_type[p]? = some .NOTYPE ↔ ∀ k, k < st.n → st.spec_pos[k]? ≠ some (p : Int))
  bound : ∀ k q, k < st.n → st.spec_pos[k]? = some q → 0 ≤ q ∧ q ≤ st.maxpos
  top : (st.n = 0 ∧ st.maxpos = -1) ∨ ∃ k, k < st.n ∧ st.spec_pos[k]? = some st.maxpos

/-- The block of an error buffer is there unless its capacity is 0, and the
index lies within the capacity. -/
def BufValid (b : gfc_error_buf) : Prop :=
  (b.message = none → b.allocated = 0) ∧ b.index ≤ b.allocated

/-- In buffered mode, on a current buffer that is valid, the function
returns, still in buffered mode and on that buffer, which is still valid. -/
def ReturnsBuffered {α : Type} (m : M α) : Prop :=
  ∀ (s : gfc_state) (sel : BufSel), s.buffered_p = true → s.cur_error_buffer = some sel →
    BufValid (s.buf sel) →
    ∃ a s1, m s = .ok a s1 ∧ s1.buffered_p = true ∧ s1.cur_error_buffer = some sel
      ∧ BufValid (s1.buf sel)

/-- The capacity of neither error buffer is smaller in `s1` than in `s`. -/
def Allocated (s s1 : gfc_state) : Prop :=
  s.error_buffer.allocated ≤ s1.error_buffer.allocated
  ∧ s.warning_buffer.allocated ≤ s1.warning_buffer.allocated

/-- The sample state with Fortran 2003 features allowed and warned about,
and warnings treated as errors. -/
def std_werror_state : gfc_state :=
  { sample_state with w := { sample_world with warn_std := 16, allow_std := 16,
                                               warnings_are_errors := true } }

/-- On a terminal of the width `w` and with the current locus `cur`, the
function prints a text and then returns a value or ends the process, the
same text and the same outcome in every state. -/
def Traced (w : Int) (cur : locus) {α : Type} (m : M α) : Prop :=
  ∃ (text : List Char) (res : Except Stop α), ∀ s : gfc_state,
    s.terminal_width = w → s.w.gfc_current_locus = cur →
    m s = (emit text >>= fun _ => liftE res) s

/-- In immediate mode the function leaves no partial line when it
returns. -/
def EndsLine {α : Type} (m : M α) : Prop :=
  ∀ (s s1 : gfc_state) (a : α), s.buffered_p = false → m s = .ok a s1 → s1.line = []

/-- The sample state on a terminal of the width given and with the current
locus given. -/
def state_at (w : Int) (cur : locus) : gfc_state :=
  { sample_state with terminal_width := w
                      w := { sample_world with gfc_current_locus := cur } }

/-- The line buffer of line 11 of the file "file.f", at another address than
the buffers of `sample_linebuf`, with the characters given. -/
def second_linebuf (line : List Nat) : gfc_linebuf :=
  { addr := 8192, location := 11, file := .top "file.f".toList 0, line := line }

/-! # Properties

Basic facts about `M` come first. -/

section basics

variable {α β : Type}

@[simp] theorem pure_apply (a : α) (s : gfc_state) : (pure a : M α) s = .ok a s := rfl

@[simp] theorem bind_apply (m : M α) (f : α → M β) (s : gfc_state) :
    (m >>= f) s = match m s with
      | .ok a s1 => f a s1
      | .stop r s1 => .stop r s1 := rfl

@[simp] theorem halt_apply (r : Stop) (s : gfc_state) : (halt r : M α) s = .stop r s := rfl

@[simp] theorem getState_apply (s : gfc_state) : getState s = .ok s s := rfl

@[simp] theorem modifyState_apply (f : gfc_state → gfc_state) (s : gfc_state) :
    modifyState f s = .ok () (f s) := rfl

@[simp] theorem modifyWorld_apply (f : world → world) (s : gfc_state) :
    modifyWorld f s = .ok () { s with w := f s.w } := rfl

theorem bind_ok {m : M α} {f : α → M β} {s s1 : gfc_state} {a : α} (h : m s = .ok a s1) :
    (m >>= f) s = f a s1 := by
  simp [h]

theorem bind_stop {m : M α} {f : α → M β} {s s1 : gfc_state} {r : Stop} (h : m s = .stop r s1) :
    (m >>= f) s = .stop r s1 := by
  simp [h]

@[simp] theorem gcc_assert_true (s : gfc_state) : gcc_assert true s = .ok () s := rfl

@[simp] theorem gcc_assert_false (s : gfc_state) : gcc_assert false s = .stop .assertion s := rfl

@[simp] theorem Res.state_ok (a : α) (s : gfc_state) : (Res.ok a s).state = s := rfl

@[simp] theorem Res.state_stop (r : Stop) (s : gfc_state) : (Res.stop r s : Res α).state = s := rfl

end basics

/-! ## Suppression depth (push and pop) -/

theorem push_suppress_apply (s : gfc_state) (h : 0 ≤ s.suppress_errors) :
    gfc_push_suppress_errors s = .ok () { s with suppress_errors := s.suppress_errors + 1 } := by
  simp [gfc_push_suppress_errors, h]

theorem pop_suppress_apply (s : gfc_state) (h : 0 < s.suppress_errors) :
    gfc_pop_suppress_errors s = .ok () { s with suppress_errors := s.suppress_errors - 1 } := by
  simp [gfc_pop_suppress_errors, h]

theorem pop_suppress_stop (s : gfc_state) (h : s.suppress_errors ≤ 0) :
    gfc_pop_suppress_errors s = .stop .assertion s := by
  have h1 : ¬ 0 < s.suppress_errors := by omega
  simp [gfc_pop_suppress_errors, h1]

theorem times_push (n : Nat) (s : gfc_state) (h : 0 ≤ s.suppress_errors) :
    times gfc_push_suppress_errors n s
      = .ok () { s with suppress_errors := s.suppress_errors + n } := by
  induction n generalizing s with
  | zero => simp [times]
  | succ n ih =>
    have h1 : (0 : Int) ≤ s.suppress_errors + 1 := by omega
    simp only [times, bind_apply, push_suppress_apply s h]
    rw [ih _ h1]
    simp only [Nat.cast_add, Nat.cast_one]
    congr 2
    omega

theorem times_pop (n : Nat) (s : gfc_state) (h : (n : Int) ≤ s.suppress_errors) :
    times gfc_pop_suppress_errors n s
      = .ok () { s with suppress_errors := s.suppress_errors - n } := by
  induction n generalizing s with
  | zero => simp [times]
  | succ n ih =>
    have h0 : (0 : Int) < s.suppress_errors := by omega
    have h1 : (n : Int) ≤ s.suppress_errors - 1 := by omega
    simp only [times, bind_apply, pop_suppress_apply s h0]
    rw [ih _ h1]
    simp only [Nat.cast_add, Nat.cast_one]
    congr 2
    omega

/-- C5: from every state whose suppression depth is not negative (every
state the module can be in), `n` calls of `gfc_push_suppress_errors` followed
by `n` calls of `gfc_pop_suppress_errors` all return, and the state they
leave is the starting state: the depth is restored and nothing else has
changed, so every later report behaves as it would have before. -/
theorem push_pop_suppress_restores (n : Nat) (s : gfc_state) (h : 0 ≤ s.suppress_errors) :
    (do times gfc_push_suppress_errors n
        times gfc_pop_suppress_errors n : M Unit) s = .ok () s := by
  simp only [bind_apply, times_push n s h]
  rw [times_pop n _ (by simpa using h)]
  simp

/-- C5, witness: three levels pushed and popped from the initial state. -/
theorem push_pop_suppress_restores_witness :
    0 ≤ sample_state.suppress_errors ∧
    (do times gfc_push_suppress_errors 3
        times gfc_pop_suppress_errors 3 : M Unit) sample_state = .ok () sample_state :=
  ⟨by decide, push_pop_suppress_restores 3 sample_state (by decide)⟩

/-! ## Character widths -/

theorem gfc_wide_display_length_eq_sum (X : Externals) (str : List Nat) :
    gfc_wide_display_length X str = display_width_sum X str := by
  induction str with
  | nil => rfl
  | cons c str ih =>
    by_cases hc : c = 0
    · simp [gfc_wide_display_length, display_width_sum, hc]
    · simp only [gfc_wide_display_length, hc, if_false, ih, display_width_sum]
      simp [List.takeWhile_cons, hc]

/-- C10: `gfc_widechar_display_length (c)` is 1 when `c` is printable or a
tab, otherwise 4 when `c < 2^8`, otherwise 6 when `c < 2^16`, otherwise 10;
and `gfc_wide_display_length` of a string is the sum of these widths over
the characters of the string (those before its terminating zero). -/
theorem display_length_by_cases (X : Externals) (c : Nat) (str : List Nat) :
    gfc_widechar_display_length X c
        = (if X.gfc_wide_is_printable c = true ∨ c = 9 then 1
           else if c < 2 ^ 8 then 4
           else if c < 2 ^ 16 then 6
           else 10)
      ∧ gfc_wide_display_length X str
        = ((str.takeWhile (fun d => d != 0)).map (gfc_widechar_display_length X)).sum := by
  refine ⟨?_, gfc_wide_display_length_eq_sum X str⟩
  unfold gfc_widechar_display_length
  by_cases h1 : X.gfc_wide_is_printable c = true <;> by_cases h2 : c = 9 <;>
    simp [h1, h2, Nat.shiftLeft_eq]

/-! ## Composing frame properties -/

section keeps

variable {α β : Type} {R : gfc_state → gfc_state → Prop}

theorem keeps_pure [Frame R] (a : α) : Keeps R (pure a : M α) := fun s => Frame.refl s

theorem keeps_halt [Frame R] (r : Stop) : Keeps R (halt r : M α) := fun s => Frame.refl s

theorem keeps_getState [Frame R] : Keeps R getState := fun s => Frame.refl s

theorem keeps_bind [Frame R] {m : M α} {f : α → M β} (hm : Keeps R m) (hf : ∀ a, Keeps R (f a)) :
    Keeps R (m >>= f) := by
  intro s
  have h1 := hm s
  simp only [bind_apply]
  cases h : m s with
  | ok a s1 =>
    rw [h] at h1
    exact Frame.trans h1 (hf a s1)
  | stop r s1 =>
    rw [h] at h1
    exact h1

theorem keeps_ite [Frame R] (c : Prop) [Decidable c] {m1 m2 : M α} (h1 : Keeps R m1)
    (h2 : Keeps R m2) : Keeps R (if c then m1 else m2) := by
  split
  · exact h1
  · exact h2

theorem keeps_modifyState (f : gfc_state → gfc_state) (h : ∀ s, R s (f s)) :
    Keeps R (modifyState f) := fun s => h s

theorem keeps_gcc_assert [Frame R] (b : Bool) : Keeps R (gcc_assert b) := by
  cases b
  · exact keeps_halt _
  · exact keeps_pure _

theorem keeps_liftE [Frame R] (e : Except Stop α) : Keeps R (liftE e) := by
  cases e with
  | error r => exact keeps_halt r
  | ok a => exact keeps_pure a

theorem keeps_exit [Frame R] (code : ExitCode) : Keeps R (exit code : M α) := fun s => Frame.refl s

theorem keeps_discard [Frame R] {m : M α} (h : Keeps R m) : Keeps R (discard m) :=
  keeps_bind h (fun _ => keeps_pure _)

theorem keeps_times [Frame R] {m : M Unit} (h : Keeps R m) (n : Nat) : Keeps R (times m n) := by
  induction n with
  | zero => exact keeps_pure _
  | succ n ih => exact keeps_bind h (fun _ => ih)

theorem Keeps.mono {R1 : gfc_state → gfc_state → Prop} {m : M α} (h : Keeps R m)
    (hR : ∀ s s1, R s s1 → R1 s s1) : Keeps R1 m := fun s => hR _ _ (h s)

end keeps

/-! ## What the printing functions do to the state: calls of `error_char` -/

theorem emit_append (a b : List Char) (s : gfc_state) :
    emit (a ++ b) s = (emit a >>= fun _ => emit b) s := by
  induction a generalizing s with
  | nil => simp [emit]
  | cons c a ih =>
    simp only [List.cons_append, emit, bind_apply]
    cases h : error_char c s with
    | ok u s1 => simpa using ih s1
    | stop r s1 => rfl

instance : Frame Emitted where
  refl := fun s => ⟨[], rfl⟩
  trans := by
    rintro a b c ⟨cs1, h1⟩ ⟨cs2, h2⟩
    exact ⟨cs1 ++ cs2, by rw [emit_append, bind_ok h1, h2]⟩

instance : Frame SameDepth where
  refl := fun _ => rfl
  trans := fun h1 h2 => by
    unfold SameDepth at *
    rw [h2, h1]

theorem error_char_stop_state (c : Char) (s : gfc_state) (r : Stop) (s1 : gfc_state)
    (h : error_char c s = .stop r s1) : s1 = s := by
  unfold error_char at h
  split at h
  · split at h
    · cases h; rfl
    · split at h
      · cases h; rfl
      · cases h
  · split at h <;> cases h

theorem keeps_error_char (c : Char) : Keeps Emitted (error_char c) := by
  intro s
  cases h : error_char c s with
  | ok u s1 => exact ⟨[c], by simp [emit, h]⟩
  | stop r s1 =>
    rw [error_char_stop_state c s r s1 h]
    exact Frame.refl s

theorem keeps_emit (cs : List Char) : Keeps Emitted (emit cs) := by
  induction cs with
  | nil => exact keeps_pure _
  | cons c cs ih => exact keeps_bind (keeps_error_char c) (fun _ => ih)

theorem keeps_error_string (p : List Char) : Keeps Emitted (error_string p) := by
  induction p with
  | nil => exact keeps_pure _
  | cons c p ih =>
    unfold error_string
    exact keeps_ite _ (keeps_pure _) (keeps_bind (keeps_error_char c) (fun _ => ih))

theorem keeps_error_uinteger (i : Nat) : Keeps Emitted (error_uinteger i) := by
  unfold error_uinteger
  generalize (if i = 0 then (['0'], IBUF_LEN - 2) else ([], IBUF_LEN - 1) : List Char × Nat) = start
  dsimp only
  cases uinteger_digits start.2 i start.1 with
  | none => exact keeps_halt _
  | some ds => exact keeps_error_string _

theorem keeps_error_integer (i : Int) : Keeps Emitted (error_integer i) := by
  unfold error_integer
  split
  · exact keeps_bind (keeps_error_char _) (fun _ => keeps_error_uinteger _)
  · exact keeps_error_uinteger _

theorem keeps_error_spaces (k : Nat) : Keeps Emitted (error_spaces k) := by
  induction k with
  | zero => exact keeps_pure _
  | succ k ih => exact keeps_bind (keeps_error_char _) (fun _ => ih)

theorem keeps_line_at (line : List Nat) (i : Nat) : Keeps Emitted (line_at line i) := by
  unfold line_at
  split
  · exact keeps_halt _
  · exact keeps_pure _

theorem keeps_spec_at (spec_u : List UVal) (n : Nat) : Keeps Emitted (spec_at spec_u n) := by
  unfold spec_at
  split
  · exact keeps_halt _
  · exact keeps_pure _

theorem keeps_print_spec (c : Char) (format : List Char) (n : Nat) (spec_u : List UVal) :
    Keeps Emitted (print_spec c format n spec_u) := by
  unfold print_spec
  repeat' (first
    | with_reducible exact keeps_pure _
    | with_reducible exact keeps_halt _
    | with_reducible exact keeps_error_char _
    | with_reducible exact keeps_error_string _
    | with_reducible exact keeps_error_integer _
    | with_reducible exact keeps_error_uinteger _
    | with_reducible exact keeps_spec_at _ _
    | with_reducible refine keeps_bind ?_ (fun _ => ?_)
    | with_reducible refine keeps_ite _ ?_ ?_
    | split)

theorem keeps_print_loop (fuel : Nat) (format : List Char) (n : Nat) (spec_u : List UVal) :
    Keeps Emitted (print_loop fuel format n spec_u) := by
  induction fuel generalizing format n with
  | zero => exact keeps_halt _
  | succ fuel ih =>
    cases format with
    | nil => exact keeps_pure _
    | cons c format =>
      unfold print_loop
      repeat' (first
        | with_reducible exact keeps_pure _
        | with_reducible exact keeps_halt _
        | with_reducible exact keeps_error_char _
        | with_reducible exact keeps_print_spec _ _ _ _
        | with_reducible exact ih _ _
        | with_reducible refine keeps_bind ?_ (fun _ => ?_)
        | with_reducible refine keeps_ite _ ?_ ?_
        | split)

theorem keeps_error_print_with (show_loci : Option locus → Option locus → M Unit)
    (h : ∀ l1 l2, Keeps Emitted (show_loci l1 l2)) (type format0 : List Char)
    (argp : List VaArg) : Keeps Emitted (error_print_with show_loci type format0 argp) := by
  unfold error_print_with
  repeat' (first
    | with_reducible exact keeps_pure _
    | with_reducible exact keeps_halt _
    | with_reducible exact keeps_getState
    | with_reducible exact keeps_liftE _
    | with_reducible exact keeps_error_char _
    | with_reducible exact keeps_error_string _
    | with_reducible exact keeps_print_loop _ _ _ _
    | with_reducible exact h _ _
    | with_reducible refine keeps_bind ?_ (fun _ => ?_)
    | with_reducible refine keeps_ite _ ?_ ?_)

theorem keeps_error_printf (gmsgid : List Char) (argp : List VaArg) :
    Keeps Emitted (error_printf gmsgid argp) :=
  keeps_error_print_with _ (fun _ _ => keeps_halt _) _ _ _

theorem keeps_show_includes (f : gfc_file) : Keeps Emitted (show_includes f) := by
  induction f with
  | top _ _ => exact keeps_pure _
  | sub _ i up ih => exact keeps_bind (keeps_error_printf _ _) (fun _ => ih)

theorem keeps_show_line_loop (X : Externals) (line : List Nat) (fuel : Nat) (i : Int) (p : Nat) :
    Keeps Emitted (show_line_loop X line fuel i p) := by
  induction fuel generalizing i p with
  | zero => exact keeps_pure _
  | succ fuel ih =>
    unfold show_line_loop
    repeat' (first
      | with_reducible exact keeps_pure _
      | with_reducible exact keeps_line_at _ _
      | with_reducible exact keeps_error_string _
      | with_reducible exact ih _ _
      | with_reducible refine keeps_bind ?_ (fun _ => ?_)
      | with_reducible refine keeps_ite _ ?_ ?_)

theorem keeps_marker_loop (X : Externals) (line : List Nat) (c1 c2 : Int) (k : Nat) (i : Int)
    (p : Nat) : Keeps Emitted (marker_loop X line c1 c2 k i p) := by
  induction k generalizing i p with
  | zero => exact keeps_pure _
  | succ k ih =>
    unfold marker_loop
    repeat' (first
      | with_reducible exact keeps_pure _
      | with_reducible exact keeps_line_at _ _
      | with_reducible exact keeps_error_char _
      | with_reducible exact keeps_error_spaces _
      | with_reducible exact ih _ _
      | with_reducible refine keeps_bind ?_ (fun _ => ?_)
      | with_reducible refine keeps_ite _ ?_ ?_)

theorem keeps_show_locus_header (X : Externals) (lb : gfc_linebuf) (c1 c2 : Int) :
    Keeps Emitted (show_locus_header X lb c1 c2) := by
  unfold show_locus_header
  repeat' (first
    | with_reducible exact keeps_pure _
    | with_reducible exact keeps_error_char _
    | with_reducible exact keeps_error_string _
    | with_reducible exact keeps_error_integer _
    | with_reducible refine keeps_bind ?_ (fun _ => ?_)
    | with_reducible refine keeps_ite _ ?_ ?_)

theorem keeps_show_locus_line (X : Externals) (lb : gfc_linebuf) (offset : Int) :
    Keeps Emitted (show_locus_line X lb offset) := by
  unfold show_locus_line
  repeat' (first
    | with_reducible exact keeps_pure _
    | with_reducible exact keeps_halt _
    | with_reducible exact keeps_getState
    | with_reducible exact keeps_error_char _
    | with_reducible exact keeps_show_line_loop _ _ _ _ _
    | with_reducible refine keeps_bind ?_ (fun _ => ?_)
    | with_reducible refine keeps_ite _ ?_ ?_)

theorem keeps_show_locus_markers (X : Externals) (lb : gfc_linebuf) (offset c1 c2 cmax : Int) :
    Keeps Emitted (show_locus_markers X lb offset c1 c2 cmax) := by
  unfold show_locus_markers
  repeat' (first
    | with_reducible exact keeps_pure _
    | with_reducible exact keeps_error_char _
    | with_reducible exact keeps_marker_loop _ _ _ _ _ _ _
    | with_reducible refine keeps_bind ?_ (fun _ => ?_)
    | with_reducible refine keeps_ite _ ?_ ?_)

theorem keeps_show_locus (X : Externals) (loc : locus) (c1 c2 : Int) :
    Keeps Emitted (show_locus X loc c1 c2) := by
  unfold show_locus
  repeat' (first
    | with_reducible exact keeps_pure _
    | with_reducible exact keeps_halt _
    | with_reducible exact keeps_getState
    | with_reducible exact keeps_error_char _
    | with_reducible exact keeps_show_locus_header _ _ _ _
    | with_reducible exact keeps_show_includes _
    | with_reducible exact keeps_show_locus_line _ _ _
    | with_reducible exact keeps_show_locus_markers _ _ _ _ _ _
    | with_reducible refine keeps_bind ?_ (fun _ => ?_)
    | split)

theorem keeps_show_loci (X : Externals) (l1 l2 : Option locus) :
    Keeps Emitted (show_loci X l1 l2) := by
  unfold show_loci
  repeat' (first
    | with_reducible exact keeps_pure _
    | with_reducible exact keeps_halt _
    | with_reducible exact keeps_getState
    | with_reducible exact keeps_error_printf _ _
    | with_reducible exact keeps_show_locus _ _ _ _
    | with_reducible refine keeps_bind ?_ (fun _ => ?_)
    | with_reducible refine keeps_ite _ ?_ ?_
    | split)

theorem keeps_error_print (X : Externals) (type format0 : List Char) (argp : List VaArg) :
    Keeps Emitted (error_print X type format0 argp) :=
  keeps_error_print_with _ (keeps_show_loci X) _ _ _

/-! ## What calls of `error_char` leave unchanged -/

theorem error_char_immediate (c : Char) (s : gfc_state) (h : s.buffered_p = false) :
    error_char c s = .ok () (if c != NUL then line_char c s else s) := by
  unfold error_char
  simp only [h, Bool.false_eq_true, if_false]
  split <;> rfl

theorem error_char_buffered (c : Char) (s : gfc_state) (sel : BufSel) (h : s.buffered_p = true)
    (hc : s.cur_error_buffer = some sel) :
    error_char c s = match buffer_char (s.buf sel) c with
      | none => .stop .undefined s
      | some b => .ok () (s.setBuf sel b) := by
  unfold error_char
  simp only [h, if_true, hc]

/-- All that a call of `error_char` that returns can change: the two error
buffers, the line under construction and the error stream. -/
theorem error_char_frame (c : Char) (s s1 : gfc_state) (h : error_char c s = .ok () s1) :
    s1 = { s with error_buffer := s1.error_buffer, warning_buffer := s1.warning_buffer,
                  line := s1.line, line_allocated := s1.line_allocated,
                  w := { s.w with stderr := s1.w.stderr } } := by
  unfold error_char at h
  split at h
  · split at h
    · cases h
    · split at h
      · cases h
      · rename_i sel _ _ b _
        cases h
        cases sel <;> rfl
  · split at h
    · cases h
      by_cases hn : c = '\n' <;> simp [line_char, hn]
    · cases h
      rfl

theorem emitted_frame (s s1 : gfc_state) (h : Emitted s s1) :
    s1 = { s with error_buffer := s1.error_buffer, warning_buffer := s1.warning_buffer,
                  line := s1.line, line_allocated := s1.line_allocated,
                  w := { s.w with stderr := s1.w.stderr } } := by
  obtain ⟨cs, h⟩ := h
  induction cs generalizing s with
  | nil =>
    cases h
    rfl
  | cons c cs ih =>
    simp only [emit, bind_apply] at h
    cases h1 : error_char c s with
    | stop r s2 => simp [h1] at h
    | ok u s2 =>
      rw [h1] at h
      have e1 := error_char_frame c s s2 h1
      have e2 := ih s2 h
      rw [e2, e1]

theorem emitted_sameDepth (s s1 : gfc_state) (h : Emitted s s1) : SameDepth s s1 := by
  have e := emitted_frame s s1 h
  unfold SameDepth
  rw [e]

/-! ## The suppression depth is changed by push and pop only -/

theorem depth_of_emitted {α : Type} {m : M α} (h : Keeps Emitted m) : Keeps SameDepth m :=
  h.mono emitted_sameDepth

theorem depth_liftW {α : Type} (f : world → Except (Stop × world) (α × world)) :
    Keeps SameDepth (liftW f) := by
  intro s
  unfold liftW
  split <;> rfl

theorem depth_modifyWorld (f : world → world) : Keeps SameDepth (modifyWorld f) :=
  fun _ => rfl

theorem depth_setBuf (s : gfc_state) (sel : BufSel) (b : gfc_error_buf) :
    SameDepth s (s.setBuf sel b) := by
  cases sel <;> rfl

theorem depth_error_print (X : Externals) (type format0 : List Char) (argp : List VaArg) :
    Keeps SameDepth (error_print X type format0 argp) :=
  depth_of_emitted (keeps_error_print X type format0 argp)

theorem depth_error_char (c : Char) : Keeps SameDepth (error_char c) :=
  depth_of_emitted (keeps_error_char c)

theorem depth_fatal_error {α : Type} (X : Externals) (gmsgid : List Char) (argp : List VaArg) :
    Keeps SameDepth (gfc_fatal_error X gmsgid argp : M α) :=
  keeps_bind (depth_liftW _) (fun _ => keeps_halt _)

theorem depth_increment_error_count (X : Externals) :
    Keeps SameDepth (gfc_increment_error_count X) := by
  unfold gfc_increment_error_count
  repeat' (first
    | with_reducible exact keeps_pure _
    | with_reducible exact keeps_getState
    | with_reducible exact depth_fatal_error _ _ _
    | (with_reducible refine keeps_modifyState _ ?_) <;> intro _ <;> rfl
    | with_reducible refine keeps_bind ?_ (fun _ => ?_)
    | with_reducible refine keeps_ite _ ?_ ?_)

theorem depth_clear_pp_buffer (b : output_buffer) : Keeps SameDepth (gfc_clear_pp_buffer b) :=
  keeps_bind (depth_modifyWorld _) (fun _ => keeps_pure _)

theorem depth_clear_pp_warning_buffer : Keeps SameDepth clear_pp_warning_buffer := by
  unfold clear_pp_warning_buffer
  repeat' (first
    | with_reducible exact keeps_getState
    | with_reducible exact depth_clear_pp_buffer _
    | with_reducible exact depth_modifyWorld _
    | with_reducible refine keeps_bind ?_ (fun _ => ?_))

theorem depth_clear_pp_error_buffer : Keeps SameDepth clear_pp_error_buffer := by
  unfold clear_pp_error_buffer
  repeat' (first
    | with_reducible exact keeps_getState
    | with_reducible exact depth_clear_pp_buffer _
    | with_reducible exact depth_modifyWorld _
    | with_reducible refine keeps_bind ?_ (fun _ => ?_))

theorem depth_start_buffer (sel : BufSel) : Keeps SameDepth (start_buffer sel) := by
  intro s
  cases sel <;> rfl

theorem depth_warning_1_body (X : Externals) (gmsgid : List Char) (argp : List VaArg) :
    Keeps SameDepth (warning_1_body X gmsgid argp) := by
  unfold warning_1_body
  repeat' (first
    | with_reducible exact keeps_pure _
    | with_reducible exact keeps_getState
    | with_reducible exact depth_start_buffer _
    | with_reducible exact depth_error_print _ _ _ _
    | with_reducible exact depth_error_char _
    | with_reducible exact depth_increment_error_count _
    | (with_reducible refine keeps_modifyState _ ?_) <;> intro _ <;> rfl
    | with_reducible refine keeps_bind ?_ (fun _ => ?_)
    | with_reducible refine keeps_ite _ ?_ ?_)

theorem depth_clear_warning : Keeps SameDepth gfc_clear_warning := by
  unfold gfc_clear_warning
  repeat' (first
    | with_reducible exact depth_clear_pp_warning_buffer
    | (with_reducible refine keeps_modifyState _ ?_) <;> intro _ <;> rfl
    | with_reducible refine keeps_bind ?_ (fun _ => ?_))

theorem depth_fputs_message (m : Mem) : Keeps SameDepth (fputs_message m) := by
  unfold fputs_message
  split
  · exact keeps_halt _
  · exact keeps_modifyState _ (fun _ => rfl)

theorem depth_pp_really_flush_warning : Keeps SameDepth pp_really_flush_warning :=
  depth_modifyWorld _

theorem depth_pp_really_flush_error : Keeps SameDepth pp_really_flush_error :=
  depth_modifyWorld _

theorem depth_warning_check (X : Externals) : Keeps SameDepth (gfc_warning_check X) := by
  unfold gfc_warning_check
  repeat' (first
    | with_reducible exact keeps_exit _
    | with_reducible exact depth_pp_really_flush_warning
    | with_reducible exact depth_pp_really_flush_error
    | with_reducible exact keeps_pure _
    | with_reducible exact keeps_getState
    | with_reducible exact depth_fputs_message _
    | with_reducible exact depth_clear_warning
    | with_reducible exact depth_modifyWorld _
    | with_reducible exact depth_liftW _
    | with_reducible exact keeps_gcc_assert _
    | (with_reducible refine keeps_modifyState _ ?_) <;> intro _ <;> rfl
    | with_reducible refine keeps_bind ?_ (fun _ => ?_)
    | with_reducible refine keeps_ite _ ?_ ?_
    | split)

theorem depth_error_1 (X : Externals) (gmsgid : List Char) (argp : List VaArg) :
    Keeps SameDepth (gfc_error_1 X gmsgid argp) := by
  unfold gfc_error_1
  repeat' (first
    | with_reducible exact keeps_pure _
    | with_reducible exact keeps_getState
    | with_reducible exact depth_start_buffer _
    | with_reducible exact depth_error_print _ _ _ _
    | with_reducible exact depth_error_char _
    | with_reducible exact depth_increment_error_count _
    | (with_reducible refine keeps_modifyState _ ?_) <;> intro _ <;> rfl
    | with_reducible refine keeps_bind ?_ (fun _ => ?_)
    | with_reducible refine keeps_ite _ ?_ ?_)

theorem depth_warning_now_1 (X : Externals) (gmsgid : List Char) (argp : List VaArg) :
    Keeps SameDepth (gfc_warning_now_1 X gmsgid argp) := by
  unfold gfc_warning_now_1
  repeat' (first
    | with_reducible exact keeps_pure _
    | with_reducible exact keeps_getState
    | with_reducible exact depth_error_print _ _ _ _
    | with_reducible exact depth_error_char _
    | with_reducible exact depth_increment_error_count _
    | (with_reducible refine keeps_modifyState _ ?_) <;> intro _ <;> rfl
    | with_reducible refine keeps_bind ?_ (fun _ => ?_)
    | with_reducible refine keeps_ite _ ?_ ?_)

theorem depth_error_now_1 (X : Externals) (gmsgid : List Char) (argp : List VaArg) :
    Keeps SameDepth (gfc_error_now_1 X gmsgid argp) := by
  unfold gfc_error_now_1
  repeat' (first
    | with_reducible exact keeps_exit _
    | with_reducible exact depth_pp_really_flush_warning
    | with_reducible exact depth_pp_really_flush_error
    | with_reducible exact keeps_pure _
    | with_reducible exact keeps_halt _
    | with_reducible exact keeps_getState
    | with_reducible exact depth_start_buffer _
    | with_reducible exact depth_error_print _ _ _ _
    | with_reducible exact depth_error_char _
    | with_reducible exact depth_increment_error_count _
    | (with_reducible refine keeps_modifyState _ ?_) <;> intro _ <;> rfl
    | with_reducible refine keeps_bind ?_ (fun _ => ?_)
    | with_reducible refine keeps_ite _ ?_ ?_)

theorem depth_clear_error : Keeps SameDepth gfc_clear_error := by
  unfold gfc_clear_error
  repeat' (first
    | with_reducible exact depth_clear_pp_error_buffer
    | (with_reducible refine keeps_modifyState _ ?_) <;> intro _ <;> rfl
    | with_reducible refine keeps_bind ?_ (fun _ => ?_))

theorem depth_error_check (X : Externals) : Keeps SameDepth (gfc_error_check X) := by
  unfold gfc_error_check
  repeat' (first
    | with_reducible exact keeps_exit _
    | with_reducible exact depth_pp_really_flush_warning
    | with_reducible exact depth_pp_really_flush_error
    | with_reducible exact keeps_pure _
    | with_reducible exact keeps_halt _
    | with_reducible exact keeps_getState
    | with_reducible exact depth_fputs_message _
    | with_reducible exact depth_clear_pp_error_buffer
    | with_reducible exact depth_increment_error_count _
    | with_reducible exact depth_modifyWorld _
    | with_reducible exact depth_liftW _
    | with_reducible exact keeps_gcc_assert _
    | (with_reducible refine keeps_modifyState _ ?_) <;> intro _ <;> rfl
    | with_reducible refine keeps_bind ?_ (fun _ => ?_)
    | with_reducible refine keeps_ite _ ?_ ?_
    | split)

theorem depth_move_output_buffer (from_buf to_buf : output_buffer) :
    Keeps SameDepth (gfc_move_output_buffer_from_to from_buf to_buf) := by
  unfold gfc_move_output_buffer_from_to
  repeat' (first
    | with_reducible exact keeps_pure _
    | with_reducible exact depth_clear_pp_buffer _
    | with_reducible refine keeps_bind ?_ (fun _ => ?_)
    | with_reducible refine keeps_ite _ ?_ ?_)

theorem depth_xstrdup (message : Option Mem) : Keeps SameDepth (xstrdup message) := by
  unfold xstrdup
  repeat' (first
    | with_reducible exact keeps_pure _
    | with_reducible exact keeps_halt _
    | split)

theorem depth_push_error (buffer_err : output_buffer) (err : gfc_error_buf) :
    Keeps SameDepth (gfc_push_error buffer_err err) := by
  unfold gfc_push_error
  repeat' (first
    | with_reducible exact keeps_pure _
    | with_reducible exact keeps_getState
    | with_reducible exact depth_xstrdup _
    | with_reducible exact depth_move_output_buffer _ _
    | with_reducible exact depth_modifyWorld _
    | (with_reducible refine keeps_modifyState _ ?_) <;> intro _ <;> rfl
    | with_reducible refine keeps_bind ?_ (fun _ => ?_)
    | with_reducible refine keeps_ite _ ?_ ?_)

theorem depth_pop_error (buffer_err : output_buffer) (err : gfc_error_buf) :
    Keeps SameDepth (gfc_pop_error buffer_err err) := by
  unfold gfc_pop_error
  repeat' (first
    | with_reducible exact keeps_pure _
    | with_reducible exact keeps_halt _
    | with_reducible exact keeps_getState
    | with_reducible exact depth_xstrdup _
    | with_reducible exact depth_move_output_buffer _ _
    | with_reducible exact depth_modifyWorld _
    | with_reducible exact keeps_gcc_assert _
    | (with_reducible refine keeps_modifyState _ ?_) <;> intro _ <;> rfl
    | with_reducible refine keeps_bind ?_ (fun _ => ?_)
    | with_reducible refine keeps_ite _ ?_ ?_
    | split)

theorem depth_free_error (buffer_err : output_buffer) (err : gfc_error_buf) :
    Keeps SameDepth (gfc_free_error buffer_err err) := by
  unfold gfc_free_error
  exact keeps_bind (depth_clear_pp_buffer _) (fun _ => keeps_pure _)

theorem depth_warning (X : Externals) (opt : Int) (gmsgid : List Char) (ap : List VaArg) :
    Keeps SameDepth (gfc_warning X opt gmsgid ap) := by
  unfold gfc_warning
  repeat' (first
    | with_reducible exact keeps_pure _
    | with_reducible exact keeps_getState
    | with_reducible exact depth_clear_pp_warning_buffer
    | with_reducible exact depth_modifyWorld _
    | with_reducible exact depth_liftW _
    | (with_reducible refine keeps_modifyState _ ?_) <;> intro _ <;> rfl
    | with_reducible refine keeps_bind ?_ (fun _ => ?_)
    | with_reducible refine keeps_ite _ ?_ ?_)

theorem depth_error (X : Externals) (gmsgid : List Char) (ap : List VaArg) :
    Keeps SameDepth (gfc_error X gmsgid ap) := by
  unfold gfc_error
  repeat' (first
    | with_reducible exact keeps_pure _
    | with_reducible exact keeps_getState
    | with_reducible exact depth_warning _ _ _ _
    | with_reducible exact depth_clear_pp_error_buffer
    | with_reducible exact depth_modifyWorld _
    | with_reducible exact depth_liftW _
    | with_reducible refine keeps_bind ?_ (fun _ => ?_)
    | with_reducible refine keeps_ite _ ?_ ?_)

theorem depth_std_text (X : Externals) (std : Nat) : Keeps SameDepth (std_text X std) := by
  unfold std_text
  repeat' (first
    | with_reducible exact keeps_pure _
    | with_reducible exact keeps_halt _
    | with_reducible refine keeps_ite _ ?_ ?_)

theorem depth_notify_std_1 (X : Externals) (std : Nat) (gmsgid : List Char)
    (argp : List VaArg) : Keeps SameDepth (gfc_notify_std_1 X std gmsgid argp) := by
  unfold gfc_notify_std_1
  repeat' (first
    | with_reducible exact keeps_pure _
    | with_reducible exact keeps_getState
    | with_reducible exact depth_std_text _ _
    | with_reducible exact depth_error_print _ _ _ _
    | with_reducible exact depth_error_char _
    | with_reducible exact depth_increment_error_count _
    | (with_reducible refine keeps_modifyState _ ?_) <;> intro _ <;> rfl
    | (with_reducible refine keeps_modifyState _ ?_) <;> intro _ <;> exact depth_setBuf _ _ _
    | with_reducible refine keeps_bind ?_ (fun _ => ?_)
    | with_reducible refine keeps_ite _ ?_ ?_)

theorem depth_notify_std (X : Externals) (std : Nat) (gmsgid : List Char)
    (argp : List VaArg) : Keeps SameDepth (gfc_notify_std X std gmsgid argp) := by
  unfold gfc_notify_std
  repeat' (first
    | with_reducible exact keeps_pure _
    | with_reducible exact keeps_getState
    | with_reducible exact depth_std_text _ _
    | with_reducible exact depth_warning _ _ _ _
    | with_reducible exact depth_error _ _ _
    | with_reducible refine keeps_bind ?_ (fun _ => ?_)
    | with_reducible refine keeps_ite _ ?_ ?_)

theorem depth_internal_error {α : Type} (X : Externals) (gmsgid : List Char)
    (argp : List VaArg) : Keeps SameDepth (gfc_internal_error X gmsgid argp : M α) := by
  unfold gfc_internal_error gfc_get_errors exit
  repeat' (first
    | with_reducible exact keeps_pure _
    | with_reducible exact keeps_halt _
    | with_reducible exact keeps_getState
    | with_reducible exact depth_liftW _
    | with_reducible refine keeps_bind ?_ (fun _ => ?_)
    | with_reducible refine keeps_ite _ ?_ ?_)

/-- Every operation other than the two that push and pop a suppression
level leaves the depth as it is. -/
theorem depth_op (X : Externals) (op : Op) (h1 : op ≠ .push_suppress_errors)
    (h2 : op ≠ .pop_suppress_errors) : Keeps SameDepth (op.run X) := by
  cases op with
  | push_suppress_errors => exact absurd rfl h1
  | pop_suppress_errors => exact absurd rfl h2
  | error_init_1 =>
    unfold Op.run gfc_error_init_1 gfc_buffer_error
    repeat' (first
      | (with_reducible refine keeps_modifyState _ ?_) <;> intro _ <;> rfl
      | with_reducible refine keeps_bind ?_ (fun _ => ?_))
  | buffer_error flag => exact keeps_modifyState _ (fun _ => rfl)
  | print_wide_char c => exact keeps_discard (fun _ => rfl)
  | warning_1 gmsgid argp => exact depth_warning_1_body X gmsgid argp
  | warning opt gmsgid argp => exact keeps_discard (depth_warning X opt gmsgid argp)
  | notification_std std =>
    unfold Op.run gfc_notification_std
    repeat' (first
      | with_reducible exact keeps_pure _
      | with_reducible exact keeps_getState
      | with_reducible refine keeps_discard ?_
      | with_reducible refine keeps_bind ?_ (fun _ => ?_)
      | with_reducible refine keeps_ite _ ?_ ?_)
  | notify_std_1 std gmsgid argp => exact keeps_discard (depth_notify_std_1 X std gmsgid argp)
  | notify_std std gmsgid argp => exact keeps_discard (depth_notify_std X std gmsgid argp)
  | warning_now_1 gmsgid argp => exact depth_warning_now_1 X gmsgid argp
  | warning_now opt gmsgid argp =>
    exact keeps_discard (keeps_bind (depth_liftW _) (fun _ => keeps_pure _))
  | error_now gmsgid argp => exact keeps_bind (depth_liftW _) (fun _ => keeps_pure _)
  | fatal_error gmsgid argp => exact depth_fatal_error X gmsgid argp
  | clear_warning => exact depth_clear_warning
  | warning_check => exact depth_warning_check X
  | error_1 gmsgid argp => exact depth_error_1 X gmsgid argp
  | error gmsgid argp => exact depth_error X gmsgid argp
  | error_now_1 gmsgid argp => exact depth_error_now_1 X gmsgid argp
  | internal_error gmsgid argp => exact depth_internal_error X gmsgid argp
  | clear_error => exact depth_clear_error
  | error_flag_test =>
    exact keeps_discard (keeps_bind keeps_getState (fun _ => keeps_pure _))
  | error_check => exact keeps_discard (depth_error_check X)
  | push_error buffer_err err => exact keeps_discard (depth_push_error buffer_err err)
  | pop_error buffer_err err => exact keeps_discard (depth_pop_error buffer_err err)
  | free_error buffer_err err => exact keeps_discard (depth_free_error buffer_err err)
  | get_errors => exact keeps_discard (keeps_bind keeps_getState (fun _ => keeps_pure _))
  | errors_to_warnings f => exact keeps_modifyState _ (fun _ => rfl)
  | diagnostics_init =>
    unfold Op.run gfc_diagnostics_init
    exact depth_modifyWorld _
  | diagnostics_finish =>
    unfold Op.run gfc_diagnostics_finish
    exact keeps_bind (depth_modifyWorld _) (fun _ => depth_modifyWorld _)

theorem push_suppress_state (s : gfc_state) (h : 0 ≤ s.suppress_errors) :
    0 ≤ (gfc_push_suppress_errors s).state.suppress_errors := by
  rw [push_suppress_apply s h]
  show (0 : Int) ≤ s.suppress_errors + 1
  omega

theorem pop_suppress_state (s : gfc_state) (h : 0 ≤ s.suppress_errors) :
    0 ≤ (gfc_pop_suppress_errors s).state.suppress_errors := by
  by_cases h0 : 0 < s.suppress_errors
  · rw [pop_suppress_apply s h0]
    show (0 : Int) ≤ s.suppress_errors - 1
    omega
  · rw [pop_suppress_stop s (by omega)]
    exact h

/-- The suppression depth is never negative in a state the module can be
in. -/
theorem reachable_depth_nonneg (X : Externals) (s : gfc_state) (h : Reachable X s) :
    0 ≤ s.suppress_errors := by
  induction h with
  | initial w => exact le_refl _
  | step op s _ ih =>
    by_cases h1 : op = .push_suppress_errors
    · subst h1
      exact push_suppress_state s ih
    · by_cases h2 : op = .pop_suppress_errors
      · subst h2
        exact pop_suppress_state s ih
      · have e : (op.run X s).state.suppress_errors = s.suppress_errors := depth_op X op h1 h2 s
        rw [e]
        exact ih

/-- C6: in every state reachable from an initial state by any sequence of
operations of the module the suppression depth is at least 0;
`gfc_pop_suppress_errors` fails its assertion there exactly when the depth
is 0, and then leaves the state, the depth included, as it was; in every
other reachable state it returns with the depth one less, which is still at
least 0. -/
theorem suppress_depth_never_negative (X : Externals) (s : gfc_state) (h : Reachable X s) :
    0 ≤ s.suppress_errors
    ∧ ((∃ s1, gfc_pop_suppress_errors s = .stop .assertion s1) ↔ s.suppress_errors = 0)
    ∧ (s.suppress_errors = 0 → gfc_pop_suppress_errors s = .stop .assertion s)
    ∧ (s.suppress_errors ≠ 0 →
        gfc_pop_suppress_errors s = .ok () { s with suppress_errors := s.suppress_errors - 1 }
        ∧ 0 ≤ s.suppress_errors - 1) := by
  have h0 := reachable_depth_nonneg X s h
  refine ⟨h0, ⟨?_, ?_⟩, ?_, ?_⟩
  · rintro ⟨s1, e⟩
    by_contra hne
    rw [pop_suppress_apply s (by omega)] at e
    cases e
  · intro e
    exact ⟨s, pop_suppress_stop s (by omega)⟩
  · intro e
    exact pop_suppress_stop s (by omega)
  · intro hne
    exact ⟨pop_suppress_apply s (by omega), by omega⟩

/-- C6, witness: the state reached from the initial state by one push. -/
theorem suppress_depth_never_negative_witness :
    Reachable sample_externals (Op.push_suppress_errors.run sample_externals
      (gfc_state.initial sample_world)).state
    ∧ 0 ≤ (Op.push_suppress_errors.run sample_externals
      (gfc_state.initial sample_world)).state.suppress_errors :=
  ⟨Reachable.step _ _ (Reachable.initial _),
   (suppress_depth_never_negative sample_externals _
     (Reachable.step _ _ (Reachable.initial _))).1⟩

/-! ## Saving and restoring the error state -/

theorem take_length_cstr (l : List Char) : List.take (cstr l).length l = cstr l := by
  induction l with
  | nil => rfl
  | cons c l ih =>
    by_cases hc : c = NUL
    · simp [cstr, hc]
    · have e : cstr (c :: l) = c :: cstr l := by simp [cstr, List.takeWhile_cons, hc]
      rw [e]
      simp [ih]

theorem cstr_eq_self (t : List Char) (h : NUL ∉ t) : cstr t = t := by
  unfold cstr
  rw [List.takeWhile_eq_self_iff]
  intro c hc
  simp only [bne_iff_ne, ne_eq]
  rintro rfl
  exact h hc

theorem memStr_strBytes_append (t : List Char) (rest : Mem) :
    memStr (strBytes t ++ rest) = some (cstr t) := by
  induction t with
  | nil => simp [strBytes, memStr, cstr]
  | cons c t ih =>
    by_cases hc : c = NUL
    · simp [strBytes, memStr, cstr, hc]
    · have e : memStr (strBytes (c :: t) ++ rest)
          = (memStr (strBytes t ++ rest)).map (fun u => c :: u) := by
        simp [strBytes, memStr, hc]
      rw [e, ih]
      simp [cstr, List.takeWhile_cons, hc]

theorem memStr_eq_some (m : Mem) (t : List Char) (h : memStr m = some t) :
    NUL ∉ t ∧ ∃ rest, m = strBytes t ++ rest := by
  induction m generalizing t with
  | nil => simp [memStr] at h
  | cons x m ih =>
    cases x with
    | none => simp [memStr] at h
    | some c =>
      by_cases hc : c = NUL
      · simp only [memStr, hc, if_true, Option.some.injEq] at h
        subst h
        exact ⟨by simp, m, by simp [strBytes, hc]⟩
      · simp only [memStr, hc, if_false, Option.map_eq_some'] at h
        obtain ⟨t1, h1, rfl⟩ := h
        obtain ⟨hn, rest, hr⟩ := ih t1 h1
        refine ⟨?_, rest, ?_⟩
        · simp only [List.mem_cons, not_or]
          exact ⟨fun e => hc e.symm, hn⟩
        · simp [strBytes, hr]

theorem move_apply (from_buf to_buf : output_buffer) (s : gfc_state) :
    gfc_move_output_buffer_from_to from_buf to_buf s
      = .ok ({ from_buf with text := [] }, { text := cstr from_buf.text, flush_p := false })
          { s with w := { s.w with last_location := UNKNOWN_LOCATION } } := by
  unfold gfc_move_output_buffer_from_to gfc_clear_pp_buffer gfc_output_buffer_empty_p
    output_buffer_append_r pp_clear_output_area strlen
  cases h : from_buf.text with
  | nil =>
    simp only [h, cstr]
    simp
    cases from_buf
    simp_all
  | cons c t =>
    simp [h, take_length_cstr]

theorem xstrdup_apply (m : Mem) (t : List Char) (h : memStr m = some t) (s : gfc_state) :
    xstrdup (some m) s = .ok (strBytes t) s := by
  simp [xstrdup, h]

theorem push_apply (s : gfc_state) (buffer_err : output_buffer) (err : gfc_error_buf)
    (hmsg : s.error_buffer.flag ≠ 0 → ∃ m, s.error_buffer.message = some m ∧ (memStr m).isSome) :
    gfc_push_error buffer_err err s
      = .ok ({ text := cstr s.w.pp_error_buffer.text, flush_p := false },
             { err with flag := s.error_buffer.flag,
                        message := if s.error_buffer.flag ≠ 0
                          then (s.error_buffer.message.bind memStr).map strBytes else err.message })
          { s with error_buffer := { s.error_buffer with flag := 0 },
                   w := { s.w with last_location := UNKNOWN_LOCATION,
                                   pp_error_buffer := { s.w.pp_error_buffer with text := [] } } } := by
  unfold gfc_push_error
  by_cases hf : s.error_buffer.flag = 0
  · simp [hf, move_apply]
  · obtain ⟨m, hm, ht⟩ := hmsg hf
    obtain ⟨t, ht⟩ := Option.isSome_iff_exists.mp ht
    simp [hf, hm, move_apply, xstrdup_apply m t ht, ht]

theorem nul_not_mem_cstr (t : List Char) : NUL ∉ cstr t := by
  intro h
  have := List.mem_takeWhile_imp h
  simp at this

theorem cstr_cstr (t : List Char) : cstr (cstr t) = cstr t :=
  cstr_eq_self _ (nul_not_mem_cstr t)

theorem push_pop_general (s : gfc_state) (buffer_err : output_buffer) (err : gfc_error_buf)
    (hmsg : s.error_buffer.flag ≠ 0 → ∃ m, s.error_buffer.message = some m
      ∧ m.length ≤ s.error_buffer.allocated ∧ (memStr m).isSome) :
    (gfc_push_error buffer_err err >>= fun r => gfc_pop_error r.1 r.2) s
      = .ok ({ text := [], flush_p := false },
             { err with flag := s.error_buffer.flag,
                        message := if s.error_buffer.flag ≠ 0 then none else err.message })
          { s with w := { s.w with
                  last_location := UNKNOWN_LOCATION,
                  pp_error_buffer := { text := cstr s.w.pp_error_buffer.text,
                                       flush_p := false } } } := by
  have hp := push_apply s buffer_err err (fun hf => by
    obtain ⟨m, hm, _, ht⟩ := hmsg hf
    exact ⟨m, hm, ht⟩)
  simp only [bind_apply, hp]
  unfold gfc_pop_error
  have eta : s.error_buffer
      = ⟨s.error_buffer.flag, s.error_buffer.allocated, s.error_buffer.index,
         s.error_buffer.message⟩ := rfl
  by_cases hf : s.error_buffer.flag = 0
  · simp [hf, move_apply, cstr_cstr]
    rw [hf] at eta
    exact eta.symm
  · obtain ⟨m, hm, hlen, ht⟩ := hmsg hf
    obtain ⟨t, ht⟩ := Option.isSome_iff_exists.mp ht
    obtain ⟨hn, rest, hr⟩ := memStr_eq_some m t ht
    have hx : memStr (strBytes t) = some t := by
      have := memStr_strBytes_append t []
      simpa [cstr_eq_self t hn] using this
    have hl : (strBytes t).length ≤ s.error_buffer.allocated := by
      have : (strBytes t).length ≤ m.length := by rw [hr]; simp
      omega
    simp [hf, hm, ht, move_apply, xstrdup_apply _ t hx, hl, cstr_cstr]
    have hd : strBytes t ++ List.drop (strBytes t).length m = m := by
      rw [hr]
      simp
    rw [hd, ← hm]

/-- C3, as amended: for every error-buffer state (flag set with a message
that is NUL-terminated inside its block, or flag clear), `gfc_push_error`
immediately followed by `gfc_pop_error` on the snapshot pushed returns and
leaves the error buffer, its flag and the bytes of its message, as it was;
the text of the pretty-printer's error buffer is restored up to its first
NUL byte, which is all of it when it holds no NUL byte. -/
theorem push_pop_error_restores (s : gfc_state) (buffer_err : output_buffer)
    (err : gfc_error_buf)
    (hmsg : s.error_buffer.flag ≠ 0 → ∃ m, s.error_buffer.message = some m
      ∧ m.length ≤ s.error_buffer.allocated ∧ (memStr m).isSome) :
    ∃ r s1, (gfc_push_error buffer_err err >>= fun r => gfc_pop_error r.1 r.2) s = .ok r s1
      ∧ s1.error_buffer = s.error_buffer
      ∧ s1.w.pp_error_buffer.text = cstr s.w.pp_error_buffer.text
      ∧ (NUL ∉ s.w.pp_error_buffer.text →
          s1.w.pp_error_buffer.text = s.w.pp_error_buffer.text) :=
  ⟨_, _, push_pop_general s buffer_err err hmsg, rfl, rfl, fun h => cstr_eq_self _ h⟩

/-- C3, witness: an error is pending with the message "x" and the
pretty-printer's error buffer holds "note". -/
theorem push_pop_error_restores_witness :
    (pending_state.error_buffer.flag ≠ 0 → ∃ m, pending_state.error_buffer.message = some m
      ∧ m.length ≤ pending_state.error_buffer.allocated ∧ (memStr m).isSome)
    ∧ ∃ r s1, (gfc_push_error sample_output_buffer pending_state.error_buffer >>=
          fun r => gfc_pop_error r.1 r.2) pending_state = .ok r s1
      ∧ s1.error_buffer = pending_state.error_buffer
      ∧ s1.w.pp_error_buffer.text = cstr pending_state.w.pp_error_buffer.text
      ∧ (NUL ∉ pending_state.w.pp_error_buffer.text →
          s1.w.pp_error_buffer.text = pending_state.w.pp_error_buffer.text) :=
  ⟨fun _ => ⟨strBytes ['x'], rfl, by decide, by decide⟩,
   push_pop_error_restores pending_state sample_output_buffer pending_state.error_buffer
     (fun _ => ⟨strBytes ['x'], rfl, by decide, by decide⟩)⟩

/-- C3, counterexample: with the bytes 'a', NUL, 'b' in the pretty-printer's
error buffer and no error pending, push followed by pop returns and leaves
only "a" in that buffer, not the text it held before the push. -/
theorem push_pop_error_counterexample :
    nul_text_state.error_buffer.flag = 0
    ∧ ∃ r s1, (gfc_push_error sample_output_buffer nul_text_state.error_buffer >>=
          fun r => gfc_pop_error r.1 r.2) nul_text_state = .ok r s1
        ∧ s1.w.pp_error_buffer.text = ['a']
        ∧ s1.w.pp_error_buffer.text ≠ nul_text_state.w.pp_error_buffer.text :=
  ⟨rfl, _, _, push_pop_general nul_text_state _ _ (fun h => absurd rfl h), by decide, by decide⟩

/-! ## The error count and its limit -/

theorem increment_apply (X : Externals) (s : gfc_state) :
    gfc_increment_error_count X s
      = if s.w.max_errors ≠ 0 ∧ s.errors + 1 ≥ s.w.max_errors then
          gfc_fatal_error X "Error count reached limit of %d.".toList [.int s.w.max_errors]
            { s with errors := s.errors + 1 }
        else .ok () { s with errors := s.errors + 1 } := by
  unfold gfc_increment_error_count
  simp only [bind_apply, modifyState_apply, getState_apply]
  split <;> rfl

theorem fatal_error_stops {α : Type} (X : Externals) (gmsgid : List Char) (argp : List VaArg)
    (s : gfc_state) : ∃ r s1, (gfc_fatal_error X gmsgid argp : M α) s = .stop r s1 := by
  unfold gfc_fatal_error
  simp only [bind_apply]
  cases liftW (X.report_diagnostic .DK_FATAL gmsgid argp 0) s with
  | ok a s1 => exact ⟨_, _, rfl⟩
  | stop r s1 => exact ⟨_, _, rfl⟩

theorem start_buffer_apply (sel : BufSel) (s : gfc_state) :
    start_buffer sel s = .ok () (started sel s) := rfl

@[simp] theorem started_buffered_p (sel : BufSel) (s : gfc_state) :
    (started sel s).buffered_p = s.buffered_p := by cases sel <;> rfl

theorem Keeps.ok {α : Type} {R : gfc_state → gfc_state → Prop} {m : M α} (h : Keeps R m)
    {s s1 : gfc_state} {a : α} (e : m s = .ok a s1) : R s s1 := by
  have := h s
  rw [e] at this
  exact this

theorem error_1_immediate (X : Externals) (gmsgid : List Char) (argp : List VaArg)
    (s s1 : gfc_state) (himm : s.buffered_p = false) (hsup : s.suppress_errors = 0)
    (hwne : s.warnings_not_errors = false)
    (hp : error_print X "Error:".toList gmsgid argp (started .error_buffer s) = .ok () s1) :
    gfc_error_1 X gmsgid argp s = gfc_increment_error_count X s1 := by
  have hf := emitted_frame _ _ ((keeps_error_print X "Error:".toList gmsgid argp).ok hp)
  have hb : s1.buffered_p = false := by rw [hf]; simpa using himm
  unfold gfc_error_1
  generalize "Error:".toList = ty at hp ⊢
  simp [hwne, hsup, start_buffer_apply, hp, error_char_immediate NUL s1 hb, hb]

theorem error_1_frame (X : Externals) (gmsgid : List Char) (argp : List VaArg)
    (s s1 : gfc_state)
    (hp : error_print X "Error:".toList gmsgid argp (started .error_buffer s) = .ok () s1) :
    s1.errors = s.errors ∧ s1.buffered_p = s.buffered_p ∧ s1.suppress_errors = s.suppress_errors
    ∧ s1.warnings_not_errors = s.warnings_not_errors ∧ s1.terminal_width = s.terminal_width
    ∧ s1.w.max_errors = s.w.max_errors ∧ s1.w.gfc_current_locus = s.w.gfc_current_locus := by
  have hf := emitted_frame _ _ ((keeps_error_print X "Error:".toList gmsgid argp).ok hp)
  rw [hf]
  refine ⟨?_, ?_, ?_, ?_, ?_, ?_, ?_⟩ <;> rfl

/-- The conditions under which `gfc_error_1` reports at once, and what
printing depends on, relative to a state `s0`. -/
theorem error_1_step (X : Externals) (s0 s : gfc_state) (r : Report)
    (himm : s.buffered_p = false) (hsup : s.suppress_errors = 0)
    (hwne : s.warnings_not_errors = false)
    (htw : s.terminal_width = s0.terminal_width)
    (hloc : s.w.gfc_current_locus = s0.w.gfc_current_locus)
    (hr : PrintsIn X s0 r) :
    ∃ s1, gfc_error_1 X r.1 r.2 s = gfc_increment_error_count X s1
      ∧ s1.errors = s.errors ∧ s1.buffered_p = false ∧ s1.suppress_errors = 0
      ∧ s1.warnings_not_errors = false ∧ s1.terminal_width = s0.terminal_width
      ∧ s1.w.max_errors = s.w.max_errors
      ∧ s1.w.gfc_current_locus = s0.w.gfc_current_locus := by
  obtain ⟨s1, hp⟩ := hr (started .error_buffer s) (by simpa using himm)
    (by rw [← htw]; rfl) (by rw [← hloc]; rfl)
  obtain ⟨e1, e2, e3, e4, e5, e6, e7⟩ := error_1_frame X r.1 r.2 s s1 hp
  exact ⟨s1, error_1_immediate X r.1 r.2 s s1 himm hsup hwne hp, e1, e2.trans himm,
    e3.trans hsup, e4.trans hwne, e5.trans htw, e6, e7.trans hloc⟩

theorem report_errors_append (X : Externals) (rs : List Report) (r : Report) (s : gfc_state) :
    report_errors X (rs ++ [r]) s
      = (report_errors X rs >>= fun _ => gfc_error_1 X r.1 r.2) s := by
  induction rs generalizing s with
  | nil =>
    simp only [List.nil_append, report_errors, bind_apply, pure_apply]
    cases gfc_error_1 X r.1 r.2 s <;> rfl
  | cons r1 rs ih =>
    simp only [List.cons_append, report_errors, bind_apply]
    cases h : gfc_error_1 X r1.1 r1.2 s with
    | ok u s1 => simpa using ih s1
    | stop x s1 => rfl

/-- Reports below the limit, or without a limit, all return, and each one
counts as one error. -/
theorem report_errors_below (X : Externals) (s0 : gfc_state) (rs : List Report)
    (hrs : ∀ r ∈ rs, PrintsIn X s0 r) (s : gfc_state)
    (himm : s.buffered_p = false) (hsup : s.suppress_errors = 0)
    (hwne : s.warnings_not_errors = false)
    (htw : s.terminal_width = s0.terminal_width)
    (hloc : s.w.gfc_current_locus = s0.w.gfc_current_locus)
    (hlim : s.w.max_errors = 0 ∨ s.errors + rs.length < s.w.max_errors) :
    ∃ s1, report_errors X rs s = .ok () s1 ∧ s1.errors = s.errors + rs.length
      ∧ s1.buffered_p = false ∧ s1.suppress_errors = 0 ∧ s1.warnings_not_errors = false
      ∧ s1.terminal_width = s0.terminal_width ∧ s1.w.max_errors = s.w.max_errors
      ∧ s1.w.gfc_current_locus = s0.w.gfc_current_locus := by
  induction rs generalizing s with
  | nil => exact ⟨s, rfl, by simp, himm, hsup, hwne, htw, rfl, hloc⟩
  | cons r rs ih =>
    obtain ⟨s1, e, e1, e2, e3, e4, e5, e6, e7⟩ :=
      error_1_step X s0 s r himm hsup hwne htw hloc (hrs r (List.mem_cons_self _ _))
    have hno : ¬ (s1.w.max_errors ≠ 0 ∧ s1.errors + 1 ≥ s1.w.max_errors) := by
      rw [e6, e1]
      simp only [List.length_cons, Nat.cast_add, Nat.cast_one] at hlim
      rintro ⟨h1, h2⟩
      omega
    have hinc := increment_apply X s1
    rw [if_neg hno] at hinc
    obtain ⟨s2, f, f1, f2, f3, f4, f5, f6, f7⟩ :=
      ih (fun r1 h1 => hrs r1 (List.mem_cons_of_mem _ h1)) { s1 with errors := s1.errors + 1 }
        e2 e3 e4 e5 e7 (by
          show s1.w.max_errors = 0 ∨ s1.errors + 1 + (rs.length : Int) < s1.w.max_errors
          rw [e6, e1]
          simp only [List.length_cons, Nat.cast_add, Nat.cast_one] at hlim
          omega)
    refine ⟨s2, ?_, ?_, f2, f3, f4, f5, ?_, f7⟩
    · simp only [report_errors, bind_apply, e, hinc]
      exact f
    · rw [f1]
      show s1.errors + 1 + (rs.length : Int) = s.errors + ((r :: rs).length : Int)
      rw [e1]
      simp only [List.length_cons, Nat.cast_add, Nat.cast_one]
      omega
    · rw [f6]
      exact e6

/-- C4: with the ceiling `m > 0`, from an error count of 0 in immediate mode
(no suppression, errors not turned into warnings), reports that print all
return while fewer than `m` have been made, each counting as one error; the
`m`-th does not return: it calls `gfc_fatal_error` with the message
"Error count reached limit of %d." and the argument `m`, with the error
count at `m`, and that call ends the process. With `m = 0` any number of
reports return. -/
theorem error_limit (X : Externals) (m : Nat) (s0 : gfc_state) (rs : List Report)
    (hrs : ∀ r ∈ rs, PrintsIn X s0 r)
    (himm : s0.buffered_p = false) (hsup : s0.suppress_errors = 0)
    (hwne : s0.warnings_not_errors = false) (herr : s0.errors = 0)
    (hmax : s0.w.max_errors = m) :
    ((m = 0 ∨ rs.length < m) →
      ∃ s, report_errors X rs s0 = .ok () s ∧ s.errors = (rs.length : Int))
    ∧ (0 < m → rs.length = m →
      ∃ s1 s, report_errors X rs.dropLast s0 = .ok () s1 ∧ s1.errors = (m : Int) - 1
        ∧ s.errors = (m : Int)
        ∧ report_errors X rs s0
          = gfc_fatal_error X "Error count reached limit of %d.".toList [.int m] s
        ∧ ∃ r s2, report_errors X rs s0 = .stop r s2) := by
  constructor
  · intro h
    obtain ⟨s, e, e1, _⟩ := report_errors_below X s0 rs hrs s0 himm hsup hwne rfl rfl (by
      rw [hmax, herr]
      rcases h with h | h
      · left
        exact_mod_cast h
      · right
        omega)
    exact ⟨s, e, by rw [e1, herr]; simp⟩
  · intro hm hlen
    have hne : rs ≠ [] := by
      intro h
      rw [h] at hlen
      simp at hlen
      omega
    obtain ⟨s1, e, e1, e2, e3, e4, e5, e6, e7⟩ :=
      report_errors_below X s0 rs.dropLast (fun r h => hrs r (List.mem_of_mem_dropLast h)) s0
        himm hsup hwne rfl rfl (by
          right
          rw [hmax, herr, List.length_dropLast, hlen]
          omega)
    obtain ⟨s2, g, g1, g2, g3, g4, g5, g6, g7⟩ :=
      error_1_step X s0 s1 (rs.getLast hne) e2 e3 e4 e5 e7 (hrs _ (List.getLast_mem hne))
    have e1m : s1.errors = (m : Int) - 1 := by
      rw [e1, herr, List.length_dropLast, hlen]
      omega
    have hyes : s2.w.max_errors ≠ 0 ∧ s2.errors + 1 ≥ s2.w.max_errors := by
      rw [g6, e6, hmax, g1, e1m]
      constructor
      · exact_mod_cast (by omega : m ≠ 0)
      · omega
    have hinc := increment_apply X s2
    rw [if_pos hyes, g6, e6, hmax] at hinc
    have hrun : report_errors X rs s0
        = gfc_fatal_error X "Error count reached limit of %d.".toList [.int m]
            { s2 with errors := s2.errors + 1 } := by
      conv_lhs => rw [← List.dropLast_append_getLast hne]
      rw [report_errors_append, bind_ok e, g, hinc]
    refine ⟨s1, _, e, e1m, ?_, hrun, ?_⟩
    · show s2.errors + 1 = (m : Int)
      rw [g1, e1m]
      omega
    · rw [hrun]
      exact fatal_error_stops X _ _ _

/-! ## Printing in immediate mode returns -/

theorem returns_pure {α : Type} (a : α) : ReturnsImmediate (pure a : M α) :=
  fun s h => ⟨a, s, rfl, h⟩

theorem returns_bind {α β : Type} {m : M α} {f : α → M β} (hm : ReturnsImmediate m)
    (hf : ∀ a, ReturnsImmediate (f a)) : ReturnsImmediate (m >>= f) := by
  intro s h
  obtain ⟨a, s1, e, h1⟩ := hm s h
  obtain ⟨b, s2, e2, h2⟩ := hf a s1 h1
  exact ⟨b, s2, by rw [bind_ok e, e2], h2⟩

@[simp] theorem line_char_buffered_p (c : Char) (s : gfc_state) :
    (line_char c s).buffered_p = s.buffered_p := by
  by_cases h : c = '\n' <;> simp [line_char, h]

theorem returns_error_char (c : Char) : ReturnsImmediate (error_char c) := by
  intro s h
  refine ⟨(), _, error_char_immediate c s h, ?_⟩
  split
  · simpa using h
  · exact h

theorem returns_error_string (p : List Char) : ReturnsImmediate (error_string p) := by
  induction p with
  | nil => exact returns_pure _
  | cons c p ih =>
    unfold error_string
    split
    · exact returns_pure _
    · exact returns_bind (returns_error_char c) (fun _ => ih)

theorem scan_plain (format : List Char) (fuel : Nat) (st : Scan) (h : '%' ∉ format)
    (hfuel : format.length < fuel) : scan fuel format st = .ok st := by
  induction format generalizing fuel with
  | nil =>
    cases fuel with
    | zero => simp at hfuel
    | succ fuel => rfl
  | cons c format ih =>
    cases fuel with
    | zero => simp at hfuel
    | succ fuel =>
      simp only [List.mem_cons, not_or] at h
      have hc : c ≠ '%' := fun e => h.1 e.symm
      simp only [scan, hc, ne_eq, not_false_eq_true, if_true]
      exact ih fuel h.2 (by simpa using hfuel)

theorem returns_print_loop_plain (format : List Char) (fuel : Nat) (n : Nat)
    (spec_u : List UVal) (h : '%' ∉ format) (hfuel : format.length < fuel) :
    ReturnsImmediate (print_loop fuel format n spec_u) := by
  induction format generalizing fuel with
  | nil =>
    cases fuel with
    | zero => simp at hfuel
    | succ fuel => exact returns_pure _
  | cons c format ih =>
    cases fuel with
    | zero => simp at hfuel
    | succ fuel =>
      simp only [List.mem_cons, not_or] at h
      have hc : c ≠ '%' := fun e => h.1 e.symm
      simp only [print_loop, hc, ne_eq, not_false_eq_true, if_true]
      exact returns_bind (returns_error_char c) (fun _ => ih fuel h.2 (by simpa using hfuel))

/-- A template without a conversion specifier prints, with any severity
text, whatever the arguments. -/
theorem returns_ite {α : Type} (c : Prop) [Decidable c] {m1 m2 : M α}
    (h1 : ReturnsImmediate m1) (h2 : ReturnsImmediate m2) :
    ReturnsImmediate (if c then m1 else m2) := by
  split
  · exact h1
  · exact h2

theorem returns_error_print_plain (X : Externals) (type format0 : List Char)
    (argp : List VaArg) (h : '%' ∉ cstr format0) :
    ReturnsImmediate (error_print X type format0 argp) := by
  intro s hs
  have e1 : conv_loop s.w.gfc_current_locus Scan.init.arg_type (Scan.init.maxpos + 1).toNat 0
      { arg_u := List.replicate MAX_ARGS UVal.unset, have_l1 := false, l1 := none, l2 := none,
        argp := argp }
      = .ok { arg_u := List.replicate MAX_ARGS UVal.unset, have_l1 := false, l1 := none,
              l2 := none, argp := argp } := rfl
  have e2 : copy_loop Scan.init.spec_pos (List.replicate MAX_ARGS UVal.unset) (MAX_ARGS + 1) 0
      (List.replicate MAX_ARGS UVal.unset) = .ok (List.replicate MAX_ARGS UVal.unset) := rfl
  unfold error_print error_print_with
  simp only [scan_plain (cstr format0) _ Scan.init h (Nat.lt_succ_self _), liftE, bind_apply,
    pure_apply, getState_apply, e1, e2]
  simp only [Bool.false_eq_true, if_false]
  refine (?_ : ReturnsImmediate _) s hs
  have hl := returns_print_loop_plain (cstr format0) ((cstr format0).length + 1) 0
    (List.replicate MAX_ARGS UVal.unset) h (Nat.lt_succ_self _)
  refine returns_ite _ ?_ ?_
  · exact returns_bind (returns_error_string _) (fun _ =>
      returns_bind (returns_error_char _) (fun _ =>
        returns_bind hl (fun _ => returns_error_char _)))
  · exact returns_bind (returns_pure _) (fun _ =>
      returns_bind hl (fun _ => returns_error_char _))

/-- A report whose template holds no conversion specifier prints. -/
theorem printsIn_plain (X : Externals) (s0 : gfc_state) (r : Report) (h : '%' ∉ cstr r.1) :
    PrintsIn X s0 r := by
  intro s hs _ _
  obtain ⟨a, s1, e, _⟩ := returns_error_print_plain X "Error:".toList r.1 r.2 h s hs
  exact ⟨s1, e⟩

/-- C4, witness: the ceiling 5 and five reports of a plain message; the
first four return, the fifth ends in `gfc_fatal_error`. -/
theorem error_limit_witness :
    ∃ s1 s, report_errors sample_externals five_reports.dropLast limit_state = .ok () s1
      ∧ s1.errors = ((5 : Nat) : Int) - 1
      ∧ s.errors = ((5 : Nat) : Int)
      ∧ report_errors sample_externals five_reports limit_state
        = gfc_fatal_error sample_externals "Error count reached limit of %d.".toList
            [.int (5 : Nat)] s
      ∧ ∃ r s2, report_errors sample_externals five_reports limit_state = .stop r s2 :=
  (error_limit sample_externals 5 limit_state five_reports
    (fun r hr => printsIn_plain _ _ r (by
      rw [List.eq_of_mem_replicate hr]
      decide))
    rfl rfl rfl rfl rfl).2 (by decide) rfl

/-! ## Buffered mode -/

theorem memWrite_at_end (pre : List Char) (rest : Mem) (c : Char) :
    memWrite (pre.map some ++ rest) pre.length c = (pre ++ [c]).map some ++ rest.drop 1 := by
  unfold memWrite
  cases rest with
  | nil => simp
  | cons x rest =>
    have h : pre.length < (pre.map some ++ x :: rest).length := by simp
    rw [if_pos h]
    have e : pre.length = (pre.map some).length := by simp
    conv_lhs => rw [e, List.set_append_right _ _ (le_refl _)]
    simp

theorem buffer_char_at_end (b : gfc_error_buf) (c : Char) (pre : List Char) (rest : Mem)
    (hidx : b.index = pre.length) (hmem : b.message.getD [] = pre.map some ++ rest)
    (b1 : gfc_error_buf) (h : buffer_char b c = some b1) :
    b1.index = (pre ++ [c]).length
    ∧ b1.message = some ((pre ++ [c]).map some ++ rest.drop 1)
    ∧ b1.flag = b.flag := by
  unfold buffer_char at h
  have hg : (grow b).message.getD [] = pre.map some ++ rest ∧ (grow b).index = pre.length
      ∧ (grow b).flag = b.flag := by
    unfold grow
    split
    · exact ⟨by simpa using hmem, hidx, rfl⟩
    · exact ⟨hmem, hidx, rfl⟩
  obtain ⟨g1, g2, g3⟩ := hg
  cases hm : (grow b).message with
  | none => simp [hm] at h
  | some m =>
    rw [hm] at g1
    simp only [Option.getD_some] at g1
    simp only [hm] at h
    split at h
    · cases h
      refine ⟨by simp [g2], ?_, g3⟩
      simp only [g1, g2, memWrite_at_end]
    · cases h

@[simp] theorem setBuf_buf (s : gfc_state) (sel : BufSel) (b : gfc_error_buf) :
    (s.setBuf sel b).buf sel = b := by cases sel <;> rfl

@[simp] theorem setBuf_setBuf (s : gfc_state) (sel : BufSel) (b b1 : gfc_error_buf) :
    (s.setBuf sel b).setBuf sel b1 = s.setBuf sel b1 := by cases sel <;> rfl

@[simp] theorem setBuf_buffered_p (s : gfc_state) (sel : BufSel) (b : gfc_error_buf) :
    (s.setBuf sel b).buffered_p = s.buffered_p := by cases sel <;> rfl

@[simp] theorem setBuf_cur (s : gfc_state) (sel : BufSel) (b : gfc_error_buf) :
    (s.setBuf sel b).cur_error_buffer = s.cur_error_buffer := by cases sel <;> rfl

theorem setBuf_self (s : gfc_state) (sel : BufSel) : s.setBuf sel (s.buf sel) = s := by
  cases sel <;> rfl

/-- In buffered mode, calls of `error_char` that return have stored their
characters in the current buffer, one after the other from `index` on, and
have changed nothing else. -/
theorem emit_buffered (cs : List Char) (s s1 : gfc_state) (sel : BufSel) (pre : List Char)
    (rest : Mem) (hb : s.buffered_p = true) (hc : s.cur_error_buffer = some sel)
    (hidx : (s.buf sel).index = pre.length)
    (hmem : (s.buf sel).message.getD [] = pre.map some ++ rest)
    (h : emit cs s = .ok () s1) :
    ∃ b1, s1 = s.setBuf sel b1 ∧ b1.index = (pre ++ cs).length
      ∧ b1.message.getD [] = (pre ++ cs).map some ++ rest.drop cs.length
      ∧ b1.flag = (s.buf sel).flag ∧ (cs ≠ [] → b1.message ≠ none) := by
  induction cs generalizing s pre rest with
  | nil =>
    simp only [emit, pure_apply, Res.ok.injEq, true_and] at h
    subst h
    exact ⟨s.buf sel, (setBuf_self s sel).symm, by simpa using hidx, by simpa using hmem, rfl,
      fun h => absurd rfl h⟩
  | cons c cs ih =>
    simp only [emit, bind_apply, error_char_buffered c s sel hb hc] at h
    cases hbc : buffer_char (s.buf sel) c with
    | none => simp [hbc] at h
    | some b =>
      simp only [hbc] at h
      obtain ⟨i1, i2, i3⟩ := buffer_char_at_end (s.buf sel) c pre rest hidx hmem b hbc
      obtain ⟨b1, e, j1, j2, j3, j4⟩ := ih (s.setBuf sel b) (pre ++ [c]) (rest.drop 1)
        (by simpa using hb) (by simpa using hc) (by simpa using i1) (by simp [i2]) h
      refine ⟨b1, by simpa using e, by simpa using j1, ?_, ?_, ?_⟩
      · rw [j2]
        simp [List.drop_drop, Nat.add_comm]
      · rw [j3]
        simpa using i3
      · intro _
        cases cs with
        | nil =>
          simp only [emit, pure_apply, Res.ok.injEq, true_and] at h
          subst h
          simp at e
          have : b1 = b := by
            have := congrArg (fun t => t.buf sel) e
            simpa using this.symm
          rw [this, i2]
          simp
        | cons c1 cs => exact j4 (by simp)

@[simp] theorem started_buf (sel : BufSel) (s : gfc_state) :
    (started sel s).buf sel = { s.buf sel with flag := 1, index := 0 } := by cases sel <;> rfl

@[simp] theorem started_cur (sel : BufSel) (s : gfc_state) :
    (started sel s).cur_error_buffer = some sel := by cases sel <;> rfl

/-- What `gfc_warning_check` does when a warning is pending with a
NUL-terminated message. -/
theorem warning_check_pending (X : Externals) (s1 : gfc_state) (text : List Char) (rest : Mem)
    (hflag : s1.warning_buffer.flag ≠ 0)
    (hmsg : s1.warning_buffer.message = some (strBytes text ++ rest)) :
    gfc_warning_check X s1 = .ok ()
      { s1 with warnings := s1.warnings + 1
                warning_buffer := { s1.warning_buffer with flag := 0 }
                warningcount_buffered := 0
                werrorcount_buffered := 0
                w := { s1.w with stderr := s1.w.stderr ++ cstr text
                                 last_location := UNKNOWN_LOCATION
                                 pp_warning_buffer := pp_clear_output_area s1.w.pp_warning_buffer } } := by
  unfold gfc_warning_check
  simp only [bind_apply, getState_apply, hflag, ne_eq, not_false_eq_true, if_true,
    modifyState_apply, hmsg, fputs_message, memStr_strBytes_append]
  unfold gfc_clear_warning clear_pp_warning_buffer gfc_clear_pp_buffer
  simp only [bind_apply, getState_apply, modifyState_apply, modifyWorld_apply, pure_apply]
  simp [fputs_stderr]
  exact hmsg


theorem emit_append_eq (a b : List Char) : emit (a ++ b) = (emit a >>= fun _ => emit b) :=
  funext (emit_append a b)

theorem emit_nil : emit [] = pure () := rfl

theorem error_char_eq_emit (c : Char) : error_char c = emit [c] := by
  funext s
  simp only [emit, bind_apply]
  cases error_char c s <;> rfl

theorem error_string_eq_emit (p : List Char) : error_string p = emit (cstr p) := by
  induction p with
  | nil => rfl
  | cons c p ih =>
    unfold error_string
    by_cases hc : c = NUL
    · simp [hc, cstr, emit]
    · have e : cstr (c :: p) = c :: cstr p := by simp [cstr, List.takeWhile_cons, hc]
      rw [if_neg hc, e, ih]
      rfl

theorem error_spaces_eq_emit (k : Nat) : error_spaces k = emit (List.replicate k ' ') := by
  induction k with
  | zero => rfl
  | succ k ih =>
    unfold error_spaces
    rw [ih]
    rfl

theorem emit_bind_emit (a b : List Char) : (emit a >>= fun _ => emit b) = emit (a ++ b) :=
  (emit_append_eq a b).symm

theorem bind_assoc_M {α β γ : Type} (m : M α) (f : α → M β) (g : β → M γ) :
    (m >>= f >>= g) = (m >>= fun a => f a >>= g) := by
  funext s
  simp only [bind_apply]
  cases m s <;> rfl

theorem pure_bind_M {α β : Type} (a : α) (f : α → M β) : (pure a >>= f) = f a := rfl

theorem emit_bind_emit_bind {β : Type} (a b : List Char) (f : Unit → M β) :
    (emit a >>= fun _ => emit b >>= f) = (emit (a ++ b) >>= f) := by
  rw [← bind_assoc_M, emit_bind_emit]


theorem getD_of_le (line : List Nat) (p : Nat) (h : p ≤ line.length) :
    (line ++ [0]).get? p = some ((line ++ [0]).getD p 0) := by
  have hlt : p < (line ++ [0]).length := by simp; omega
  simp [List.getD_eq_getElem?_getD, List.getElem?_eq_getElem hlt]

theorem line_at_of_le (line : List Nat) (p : Nat) (h : p ≤ line.length) :
    line_at line p = pure ((line ++ [0]).getD p 0) := by
  unfold line_at
  rw [getD_of_le line p h]

theorem span_width_succ (X : Externals) (line : List Nat) (p k : Nat) (h : p ≤ line.length) :
    span_width X line p (k + 1)
      = gfc_widechar_display_length X ((line ++ [0]).getD p 0) + span_width X line (p + 1) k := by
  unfold span_width
  have hlt : p < (line ++ [0]).length := by simp; omega
  rw [List.drop_eq_getElem_cons hlt]
  simp only [List.take_succ_cons, List.map_cons, List.sum_cons]
  simp [List.getD_eq_getElem?_getD, List.getElem?_eq_getElem hlt]

theorem span_width_zero (X : Externals) (line : List Nat) (p : Nat) :
    span_width X line p 0 = 0 := by
  simp [span_width]

theorem marker_loop_succ (X : Externals) (line : List Nat) (c1 c2 : Int) (k : Nat) (i : Int)
    (p : Nat) :
    marker_loop X line c1 c2 (k + 1) i p = (do
      let c ← line_at line p
      let spaces : Int := gfc_widechar_display_length X c
      if i = c1 then do
        error_char '1'
        error_spaces (spaces - 1).toNat
      else if i = c2 then do
        error_char '2'
        error_spaces (spaces - 1).toNat
      else
        error_spaces spaces.toNat
      marker_loop X line c1 c2 k (i + 1) (p + 1)) := rfl

/-- The marker loop over characters that carry no marker prints spaces
only, as many as the display widths of these characters sum to. -/
theorem marker_loop_spaces (X : Externals) (line : List Nat) (c1 c2 : Int) (k : Nat) (i : Int)
    (p : Nat) (hb : p + k ≤ line.length + 1)
    (h1 : ∀ j : Nat, j < k → i + j ≠ c1) (h2 : ∀ j : Nat, j < k → i + j ≠ c2) :
    marker_loop X line c1 c2 k i p = emit (List.replicate (span_width X line p k) ' ') := by
  induction k generalizing i p with
  | zero => simp [marker_loop, span_width_zero, emit]
  | succ k ih =>
    have hp : p ≤ line.length := by omega
    have e1 : i ≠ c1 := by simpa using h1 0 (Nat.succ_pos _)
    have e2 : i ≠ c2 := by simpa using h2 0 (Nat.succ_pos _)
    rw [marker_loop_succ, line_at_of_le line p hp, pure_bind_M]
    simp only [e1, e2, if_false, Int.toNat_ofNat]
    rw [ih (i + 1) (p + 1) (by omega)
      (fun j hj => by have := h1 (j + 1) (by omega); push_cast at this; omega)
      (fun j hj => by have := h2 (j + 1) (by omega); push_cast at this; omega)]
    rw [error_spaces_eq_emit, emit_bind_emit, span_width_succ X line p k hp,
      ← List.replicate_add]

theorem marker_loop_add (X : Externals) (line : List Nat) (c1 c2 : Int) (k1 k2 : Nat) (i : Int)
    (p : Nat) :
    marker_loop X line c1 c2 (k1 + k2) i p
      = (marker_loop X line c1 c2 k1 i p >>= fun _ => marker_loop X line c1 c2 k2 (i + k1) (p + k1)) := by
  induction k1 generalizing i p with
  | zero => simp [marker_loop, pure_bind_M]
  | succ k1 ih =>
    have e : k1 + 1 + k2 = (k1 + k2) + 1 := by omega
    rw [e, marker_loop_succ, marker_loop_succ]
    simp only [bind_assoc_M]
    congr 1
    funext c
    have e3 : i + ((k1 + 1 : Nat) : Int) = i + 1 + k1 := by push_cast; omega
    have e4 : p + (k1 + 1) = p + 1 + k1 := by omega
    rw [e3, e4, ih]
    by_cases h1 : i = c1
    · rw [if_pos h1, if_pos h1]
      simp only [bind_assoc_M]
    · by_cases h2 : i = c2
      · rw [if_neg h1, if_neg h1, if_pos h2, if_pos h2]
        simp only [bind_assoc_M]
      · rw [if_neg h1, if_neg h1, if_neg h2, if_neg h2]
        simp only [bind_assoc_M]


theorem render_ne_nul (X : Externals) (c : Nat) : NUL ∉ render X c := nul_not_mem_cstr _

theorem display_length_pos (X : Externals) (c : Nat) : 0 < gfc_widechar_display_length X c := by
  unfold gfc_widechar_display_length
  split
  · decide
  · split
    · decide
    · split <;> decide

theorem print_wide_char_fst (X : Externals) (c : Nat) :
    (print_wide_char_into_buffer X c).1 = gfc_widechar_display_length X c := by
  unfold print_wide_char_into_buffer gfc_widechar_display_length
  split
  · rfl
  · split
    · rfl
    · split <;> rfl

theorem wcs_of_display_length_le_zero (X : Externals) (str : List Nat)
    (h : gfc_wide_display_length X str = 0) : wcs str = [] := by
  cases str with
  | nil => rfl
  | cons c str =>
    by_cases hc : c = 0
    · simp [wcs, hc]
    · have := display_length_pos X c
      simp only [gfc_wide_display_length, hc, if_false] at h
      omega

theorem line_at_of_drop (line : List Nat) (p : Nat) (c : Nat) (rest : List Nat)
    (h : line.drop p = c :: rest) : line_at line p = pure c ∧ line.drop (p + 1) = rest := by
  have hlt : p < line.length := by
    by_contra hge
    rw [List.drop_eq_nil_of_le (by omega)] at h
    cases h
  have e := List.drop_eq_getElem_cons hlt
  rw [e] at h
  simp only [List.cons.injEq] at h
  constructor
  · unfold line_at
    have : (line ++ [0]).get? p = some c := by
      simp [List.getElem?_append_left hlt, List.getElem?_eq_getElem hlt, h.1]
    rw [this]
  · exact h.2

/-- The loop that prints the source line, started within the display
length of what is left of the line, prints the rendering of a run of
characters of the line that starts at `line[p]`, none of them the
terminator; started with exactly that display length, it prints all the
characters left. -/
theorem show_line_loop_run (X : Externals) (line : List Nat) (fuel : Nat) (i : Int) (p : Nat)
    (hi : i ≤ gfc_wide_display_length X (line.drop p)) (hf : i ≤ fuel) :
    ∃ n, show_line_loop X line fuel i p
        = emit ((((line.drop p).take n).map (render X)).flatten)
      ∧ (∀ c ∈ (line.drop p).take n, c ≠ 0)
      ∧ (i = gfc_wide_display_length X (line.drop p) → (line.drop p).take n = wcs (line.drop p)) := by
  induction fuel generalizing i p with
  | zero =>
    refine ⟨0, by simp [show_line_loop, emit], by simp, ?_⟩
    intro e
    have h0 : gfc_wide_display_length X (line.drop p) = 0 := by
      have : (0 : Int) ≤ gfc_wide_display_length X (line.drop p) := Int.ofNat_nonneg _
      simp only [Nat.cast_zero] at hf
      omega
    simp [wcs_of_display_length_le_zero X _ h0]
  | succ fuel ih =>
    by_cases hpos : i > 0
    · cases hd : line.drop p with
      | nil =>
        rw [hd] at hi
        simp only [gfc_wide_display_length, Nat.cast_zero] at hi
        omega
      | cons c rest =>
        rw [hd] at hi
        by_cases hc : c = 0
        · simp only [gfc_wide_display_length, hc, if_true, Nat.cast_zero] at hi
          omega
        · obtain ⟨hl, hr⟩ := line_at_of_drop line p c rest hd
          simp only [gfc_wide_display_length, hc, if_false, Nat.cast_add] at hi
          have hw := display_length_pos X c
          obtain ⟨n, e1, e2, e3⟩ := ih (i - gfc_widechar_display_length X c) (p + 1)
            (by rw [hr]; omega) (by push_cast at hf; omega)
          rw [hr] at e1 e2 e3
          refine ⟨n + 1, ?_, ?_, ?_⟩
          · simp only [show_line_loop, hpos, if_true, hl, pure_bind_M, print_wide_char_fst]
            rw [e1, error_string_eq_emit, emit_bind_emit]
            simp [render]
          · intro d hdm
            simp only [List.take_succ_cons, List.mem_cons] at hdm
            rcases hdm with rfl | hdm
            · exact hc
            · exact e2 d hdm
          · intro e
            simp only [gfc_wide_display_length, hc, if_false, Nat.cast_add] at e
            rw [List.take_succ_cons, e3 (by omega)]
            simp [wcs, List.takeWhile_cons, hc]
    · refine ⟨0, by simp [show_line_loop, hpos, emit], by simp, ?_⟩
      intro e
      have h0 : gfc_wide_display_length X (line.drop p) = 0 := by
        have : (0 : Int) ≤ gfc_wide_display_length X (line.drop p) := Int.ofNat_nonneg _
        omega
      simp [wcs_of_display_length_le_zero X _ h0]



/-! ## What `show_locus` prints -/

theorem emitted_terminal_width (s s1 : gfc_state) (h : Emitted s s1) :
    s1.terminal_width = s.terminal_width := by
  rw [emitted_frame s s1 h]

theorem bind_congr_width {α β : Type} {m : M α} {f g : α → M β} (hm : Keeps Emitted m)
    (s : gfc_state)
    (h : ∀ a s1, s1.terminal_width = s.terminal_width → f a s1 = g a s1) :
    (m >>= f) s = (m >>= g) s := by
  simp only [bind_apply]
  cases e : m s with
  | ok a s1 => exact h a s1 (emitted_terminal_width s s1 (hm.ok e))
  | stop r s1 => rfl

theorem display_length_append_zero (X : Externals) (str : List Nat) :
    gfc_wide_display_length X (str ++ [0]) = gfc_wide_display_length X str := by
  induction str with
  | nil => simp [gfc_wide_display_length]
  | cons c str ih =>
    simp only [List.cons_append, gfc_wide_display_length]
    rw [← ih]
    rfl

/-- The part of `show_locus` that shows the line prints the rendering of a
run of characters of the line that starts at index `offset`, none of them
the terminator, and a newline; the run depends on the state through the
terminal width only, and is all that is left of the line when its display
length does not exceed the terminal width. -/
theorem show_locus_line_run (X : Externals) (lb : gfc_linebuf) (offset : Int) (w : Int)
    (hn : offset.toNat ≤ lb.line.length) :
    ∃ n, (∀ s : gfc_state, s.terminal_width = w → show_locus_line X lb offset s
          = emit ((((lb.line.drop offset.toNat).take n).map (render X)).flatten ++ ['\n']) s)
      ∧ (∀ c ∈ (lb.line.drop offset.toNat).take n, c ≠ 0)
      ∧ ((gfc_wide_display_length X (lb.line.drop offset.toNat) : Int) ≤ w →
          (lb.line.drop offset.toNat).take n = wcs (lb.line.drop offset.toNat)) := by
  have hd : (lb.line ++ [0]).drop offset.toNat = lb.line.drop offset.toNat ++ [0] :=
    List.drop_append_of_le_length hn
  have hne : lb.line.drop offset.toNat ++ [0] ≠ [] := by simp
  let i0 : Int := gfc_wide_display_length X (lb.line.drop offset.toNat)
  let i : Int := if i0 > w then w - 1 else i0
  have hi : i ≤ gfc_wide_display_length X (lb.line.drop offset.toNat) := by
    show (if i0 > w then w - 1 else i0) ≤ i0
    split <;> omega
  obtain ⟨n, e1, e2, e3⟩ := show_line_loop_run X lb.line i.toNat i offset.toNat hi
    (Int.self_le_toNat i)
  refine ⟨n, ?_, e2, ?_⟩
  · intro s hs
    unfold show_locus_line
    simp only [bind_apply, getState_apply, hd, hne, if_false, display_length_append_zero, hs]
    rw [emit_append, ← e1]
    simp only [bind_apply, error_char_eq_emit]
  · intro hle
    apply e3
    show (if i0 > w then w - 1 else i0) = i0
    rw [if_neg (by omega)]

/-- The marker row for one marker, '1', at the (reduced) column `k`: spaces
for the characters before it, by their display widths, then the marker. -/
theorem show_locus_markers_single (X : Externals) (lb : gfc_linebuf) (offset : Int) (k : Nat)
    (c2 : Int) (hk : offset.toNat + k ≤ lb.line.length + 1) (hc2 : c2 < 0) :
    show_locus_markers X lb offset k c2 k
      = emit (List.replicate (span_width X lb.line offset.toNat k) ' ' ++ ['1', '\n']) := by
  unfold show_locus_markers
  rw [Int.toNat_ofNat, marker_loop_spaces X lb.line k c2 k 0 offset.toNat hk
    (fun j hj => by omega) (fun j hj => by omega)]
  simp only [if_true, error_char_eq_emit, emit_bind_emit]
  simp

/-- The marker row for the markers '1' at the (reduced) column `a` and '2'
at the column `a + 1`: spaces for the characters before column `a`, the
marker '1', spaces for the rest of the width of the character at column `a`,
and the marker '2'. -/
theorem show_locus_markers_pair (X : Externals) (lb : gfc_linebuf) (offset : Int) (a : Nat)
    (hk : offset.toNat + a ≤ lb.line.length) :
    show_locus_markers X lb offset a (a + 1) (a + 1)
      = emit (List.replicate (span_width X lb.line offset.toNat a) ' ' ++ '1' ::
          List.replicate
            (gfc_widechar_display_length X ((lb.line ++ [0]).getD (offset.toNat + a) 0) - 1) ' '
          ++ ['2', '\n']) := by
  unfold show_locus_markers
  have e : ((a : Int) + 1).toNat = a + 1 := by omega
  rw [e, marker_loop_add, marker_loop_spaces X lb.line a (a + 1) a 0 offset.toNat (by omega)
    (fun j hj => by omega) (fun j hj => by omega)]
  rw [marker_loop_succ, line_at_of_le lb.line (offset.toNat + a) hk]
  have e1 : (0 : Int) + a = a := by omega
  have e2 : ((a + 1 : Nat) : Int) ≠ a := by push_cast; omega
  have e3 : ((a + 1 : Nat) : Int) = a + 1 := by push_cast; rfl
  have hw := display_length_pos X ((lb.line ++ [0]).getD (offset.toNat + a) 0)
  have e4 : ((gfc_widechar_display_length X ((lb.line ++ [0]).getD (offset.toNat + a) 0) : Int)
      - 1).toNat = gfc_widechar_display_length X ((lb.line ++ [0]).getD (offset.toNat + a) 0) - 1 := by
    omega
  simp only [pure_bind_M, e1, if_true, e2, e3, if_false, marker_loop, e4, error_char_eq_emit,
    error_spaces_eq_emit, emit_bind_emit, bind_assoc_M]
  simp [emit_nil, emit_bind_emit]


/-- The function `show_locus`, with the offset computed from the terminal
width of the state it is called in: printing changes no terminal width. -/
theorem show_locus_eq (X : Externals) (loc : locus) (lb : gfc_linebuf) (c1 c2 : Int)
    (s : gfc_state) (hlb : loc.lb = some lb) :
    show_locus X loc c1 c2 s = (do
      show_locus_header X lb c1 c2
      show_includes lb.file
      error_char '\n'
      show_locus_line X lb
        (locus_offset s.terminal_width
          (if c1 < (if c1 = c2 then c2 + 1 else c2) then (if c1 = c2 then c2 + 1 else c2) else c1))
      show_locus_markers X lb
        (locus_offset s.terminal_width
          (if c1 < (if c1 = c2 then c2 + 1 else c2) then (if c1 = c2 then c2 + 1 else c2) else c1))
        (c1 - locus_offset s.terminal_width
          (if c1 < (if c1 = c2 then c2 + 1 else c2) then (if c1 = c2 then c2 + 1 else c2) else c1))
        ((if c1 = c2 then c2 + 1 else c2) - locus_offset s.terminal_width
          (if c1 < (if c1 = c2 then c2 + 1 else c2) then (if c1 = c2 then c2 + 1 else c2) else c1))
        ((if c1 < (if c1 = c2 then c2 + 1 else c2) then (if c1 = c2 then c2 + 1 else c2) else c1)
          - locus_offset s.terminal_width
            (if c1 < (if c1 = c2 then c2 + 1 else c2) then (if c1 = c2 then c2 + 1 else c2)
             else c1))) s := by
  unfold show_locus
  simp only [hlb]
  refine bind_congr_width (keeps_show_locus_header X lb c1 c2) s (fun _ s1 h1 => ?_)
  refine bind_congr_width (keeps_show_includes lb.file) s1 (fun _ s2 h2 => ?_)
  refine bind_congr_width (keeps_error_char '\n') s2 (fun _ s3 h3 => ?_)
  simp only [bind_apply, getState_apply, h3, h2, h1]


theorem span_width_ones (X : Externals) (line : List Nat) (p k : Nat)
    (hb : p + k ≤ line.length + 1)
    (h : ∀ j, j < k → gfc_widechar_display_length X ((line ++ [0]).getD (p + j) 0) = 1) :
    span_width X line p k = k := by
  induction k generalizing p with
  | zero => exact span_width_zero X line p
  | succ k ih =>
    rw [span_width_succ X line p k (by omega), ih (p + 1) (by omega)
      (fun j hj => by
        have := h (j + 1) (by omega)
        rwa [show p + (j + 1) = p + 1 + j by omega] at this)]
    have := h 0 (Nat.succ_pos _)
    simp only [Nat.add_zero] at this
    omega

/-- C9, as amended: for a terminal width `w >= 5` and a single locus whose
column `c`, inside its line, exceeds `w - 5`, `show_locus` uses the offset
`c - w + 5`, which is positive and at most `c`; after the header it prints
the rendering of a run of characters of the line that starts at the
character of index `offset`, and then the marker row: as many spaces as the
display widths of the `w - 5` characters from `offset` up to `c` sum to,
followed by '1'. When these characters are displayed in one column each,
the marker is at position `w - 5 = c - offset` of its row, the first of the
last 5 columns of a `w`-column output. When no column exceeds `w - 5` the
offset is 0. -/
theorem scrolled_single_locus (X : Externals) (loc : locus) (lb : gfc_linebuf) (c : Int)
    (s : gfc_state) (hlb : loc.lb = some lb) (hc : c ≤ lb.line.length)
    (hw : 5 ≤ s.terminal_width) (hex : c > s.terminal_width - 5) :
    locus_offset s.terminal_width c = c - s.terminal_width + 5
    ∧ 0 < c - s.terminal_width + 5 ∧ c - s.terminal_width + 5 ≤ c
    ∧ c - (c - s.terminal_width + 5) = s.terminal_width - 5
    ∧ (∃ n, show_locus X loc c (-1) s = (do
          show_locus_header X lb c (-1)
          show_includes lb.file
          error_char '\n'
          emit ((((lb.line.drop (c - s.terminal_width + 5).toNat).take n).map (render X)).flatten
            ++ ['\n'])
          emit (List.replicate (span_width X lb.line (c - s.terminal_width + 5).toNat
            (s.terminal_width - 5).toNat) ' ' ++ ['1', '\n'])) s
        ∧ (∀ ch ∈ (lb.line.drop (c - s.terminal_width + 5).toNat).take n, ch ≠ 0))
    ∧ ((∀ j, j < (s.terminal_width - 5).toNat → gfc_widechar_display_length X
          ((lb.line ++ [0]).getD ((c - s.terminal_width + 5).toNat + j) 0) = 1) →
        span_width X lb.line (c - s.terminal_width + 5).toNat (s.terminal_width - 5).toNat
          = (s.terminal_width - 5).toNat)
    ∧ (∀ w cmax : Int, cmax ≤ w - 5 → locus_offset w cmax = 0) := by
  have hoff : locus_offset s.terminal_width c = c - s.terminal_width + 5 := by
    unfold locus_offset
    rw [if_pos hex]
  have hb : (c - s.terminal_width + 5).toNat + (s.terminal_width - 5).toNat ≤ lb.line.length := by
    omega
  refine ⟨hoff, by omega, by omega, by omega, ?_, ?_, ?_⟩
  · obtain ⟨n, e1, e2, _⟩ := show_locus_line_run X lb (c - s.terminal_width + 5)
      s.terminal_width (by omega)
    refine ⟨n, ?_, e2⟩
    rw [show_locus_eq X loc lb c (-1) s hlb]
    have hne : c ≠ -1 := by omega
    have hlt : ¬ c < -1 := by omega
    simp only [hne, if_false, hlt, hoff]
    refine bind_congr_width (keeps_show_locus_header X lb c (-1)) s (fun _ s1 h1 => ?_)
    refine bind_congr_width (keeps_show_includes lb.file) s1 (fun _ s2 h2 => ?_)
    refine bind_congr_width (keeps_error_char '\n') s2 (fun _ s3 h3 => ?_)
    have hk : c - (c - s.terminal_width + 5) = ((s.terminal_width - 5).toNat : Int) := by omega
    rw [hk, show_locus_markers_single X lb _ _ _ (by omega) (by omega)]
    simp only [bind_apply, e1 s3 (by rw [h3, h2, h1])]
  · intro h
    exact span_width_ones X lb.line _ _ (by omega) h
  · intro w cmax h
    unfold locus_offset
    rw [if_neg (by omega)]


/-- C9, witness: column 8 of the line "abcdefghijklmnop" on a terminal of
width 10. -/
theorem scrolled_single_locus_witness :
    ((8 : Int) ≤ long_line.line.length ∧ 5 ≤ (width_state 10).terminal_width
      ∧ (8 : Int) > (width_state 10).terminal_width - 5)
    ∧ locus_offset (width_state 10).terminal_width 8 = 8 - (width_state 10).terminal_width + 5
    ∧ (∃ n, show_locus sample_externals { nextc := 8, lb := some long_line } 8 (-1)
          (width_state 10) = (do
          show_locus_header sample_externals long_line 8 (-1)
          show_includes long_line.file
          error_char '\n'
          emit ((((long_line.line.drop (8 - (width_state 10).terminal_width + 5).toNat).take n).map
            (render sample_externals)).flatten ++ ['\n'])
          emit (List.replicate (span_width sample_externals long_line.line
            (8 - (width_state 10).terminal_width + 5).toNat
            ((width_state 10).terminal_width - 5).toNat) ' ' ++ ['1', '\n'])) (width_state 10)
        ∧ (∀ ch ∈ (long_line.line.drop (8 - (width_state 10).terminal_width + 5).toNat).take n,
            ch ≠ 0)) :=
  ⟨⟨by decide, by decide, by decide⟩,
   (scrolled_single_locus sample_externals { nextc := 8, lb := some long_line } long_line 8
      (width_state 10) rfl (by decide) (by decide) (by decide)).1,
   (scrolled_single_locus sample_externals { nextc := 8, lb := some long_line } long_line 8
      (width_state 10) rfl (by decide) (by decide) (by decide)).2.2.2.2.1⟩

/-- C9, counterexample. On a terminal of width 10, for the locus at column
8 of the line 'a', 'b', 'c', 1, 1, 'd', ..., the offset is 3 and
`c - offset = 5`, but the two characters printed as "\x01" take four
columns each: the marker row is 11 spaces and then '1', so that the marker
is neither at position 5 nor within a 10-column output. On a terminal of
width 4, for the locus at column 0 of the line "ab", the offset is 1: the
excerpt starts at 'b' and the marker row is empty. -/
theorem scrolled_single_locus_counterexample :
    (show_locus sample_externals { nextc := 8, lb := some escaped_line } 8 (-1)
        (width_state 10)).state.w.stderr
      = "file.f:10.8:\n\n\\x01\\x01d\n".toList ++ List.replicate 11 ' ' ++ "1\n".toList
    ∧ (show_locus sample_externals { nextc := 0, lb := some (sample_linebuf [97, 98]) } 0 (-1)
        (width_state 4)).state.w.stderr
      = "file.f:10:\n\nb\n\n".toList := by
  constructor <;> decide!

/-! ## An error report with one locus -/

theorem error_integer_10 : error_integer 10 = emit "10".toList := by
  rw [show error_integer 10 = error_string ['1', '0', NUL] from rfl, error_string_eq_emit]
  rfl

theorem error_integer_3 : error_integer 3 = emit "3".toList := by
  rw [show error_integer 3 = error_string ['3', NUL] from rfl, error_string_eq_emit]
  rfl

theorem emit_bind_pure (cs : List Char) : (emit cs >>= fun _ => (pure () : M Unit)) = emit cs := by
  funext s
  simp only [bind_apply]
  cases emit cs s <;> rfl

theorem print_loop_template (spec_u : List UVal) (h : spec_u[0]? = some (.stringval "(1)".toList)) :
    print_loop ("missing semicolon at %L".toList.length + 1) "missing semicolon at %L".toList 0 spec_u
      = emit "missing semicolon at (1)".toList := by
  simp [print_loop, print_skip_pos, print_spec, peek, ISDIGIT, spec_at, h, pure_bind_M,
    error_char_eq_emit, error_string_eq_emit, emit_bind_emit, emit_bind_emit_bind, bind_assoc_M,
    cstr, NUL, emit_bind_pure]

theorem scan_template :
    scan ("missing semicolon at %L".toList.length + 1) "missing semicolon at %L".toList Scan.init
      = .ok { pos := 0, maxpos := 0, n := 1, arg_type := Scan.init.arg_type.set 0 ArgType.TYPE_LOCUS,
               spec_pos := Scan.init.spec_pos.set 0 0 } := by
  rfl

theorem conv_template (cur : locus) (l : Option locus) :
    conv_loop cur (Scan.init.arg_type.set 0 ArgType.TYPE_LOCUS) ((0 : Int) + 1).toNat 0
        { arg_u := List.replicate MAX_ARGS .unset, have_l1 := false, l1 := none, l2 := none,
          argp := [.loc l] }
      = .ok { arg_u := (List.replicate MAX_ARGS UVal.unset).set 0 (.stringval "(1)".toList),
              have_l1 := true, l1 := l, l2 := none, argp := [] } := rfl

theorem copy_template :
    copy_loop (Scan.init.spec_pos.set 0 0)
        ((List.replicate MAX_ARGS UVal.unset).set 0 (.stringval "(1)".toList)) (MAX_ARGS + 1) 0
        (List.replicate MAX_ARGS .unset)
      = .ok ((List.replicate MAX_ARGS UVal.unset).set 0 (.stringval "(1)".toList)) := rfl

theorem error_print_template (X : Externals) (ty : List Char) (l : Option locus) :
    error_print X ty "missing semicolon at %L".toList [.loc l]
      = (do
          show_loci X l none
          if peek ty ≠ NUL then do
            error_string ty
            error_char ' '
          emit "missing semicolon at (1)".toList
          error_char '\n') := by
  unfold error_print error_print_with
  rw [show cstr "missing semicolon at %L".toList = "missing semicolon at %L".toList from rfl]
  dsimp only
  rw [scan_template]
  funext s
  simp only [liftE, pure_bind_M, bind_apply, getState_apply, conv_template, copy_template,
    pure_apply, if_true,
    print_loop_template ((List.replicate MAX_ARGS UVal.unset).set 0 (.stringval "(1)".toList)) rfl]

theorem header_text (X : Externals) (lb : gfc_linebuf) (incl : Int)
    (hfile : lb.file = .top "file.f".toList incl) (hline : X.LOCATION_LINE lb.location = 10) :
    show_locus_header X lb 3 (-1) = emit "file.f:10.3:\n".toList := by
  unfold show_locus_header
  simp [hfile, hline, gfc_file.filename, error_integer_10, error_integer_3, error_string_eq_emit,
    error_char_eq_emit, emit_bind_emit, emit_bind_emit_bind, bind_assoc_M, pure_bind_M, cstr, NUL]

/-- In immediate mode the characters given to `error_char`, none of them
NUL, reach the error stream as soon as a newline completes their line. -/
theorem emit_immediate (cs : List Char) (s : gfc_state) (h : s.buffered_p = false)
    (hn : NUL ∉ cs) :
    ∃ s1, emit cs s = .ok () s1 ∧ s1.w.stderr ++ s1.line = s.w.stderr ++ s.line ++ cs
      ∧ (∀ t, cs = t ++ ['\n'] → s1.line = []) := by
  induction cs generalizing s with
  | nil => exact ⟨s, rfl, by simp, by simp⟩
  | cons c cs ih =>
    have hc : c ≠ NUL := fun e => hn (by simp [e])
    have hb : (line_char c s).buffered_p = false := by
      rw [line_char_buffered_p]
      exact h
    obtain ⟨s1, e1, e2, e3⟩ := ih (line_char c s) hb (fun e => hn (by simp [e]))
    refine ⟨s1, ?_, ?_, ?_⟩
    · simp only [emit, bind_apply, error_char_immediate c s h, bne_iff_ne, ne_eq, hc,
        not_false_eq_true, if_true, e1]
    · rw [e2]
      by_cases hnl : c = '\n' <;> simp [line_char, hnl]
    · intro t ht
      cases cs with
      | nil =>
        have : c = '\n' := by
          cases t with
          | nil => simpa using ht
          | cons a t => simp at ht
        cases e1
        simp [line_char, this]
      | cons d cs =>
        cases t with
        | nil => simp at ht
        | cons a t =>
          simp only [List.cons_append, List.cons.injEq] at ht
          exact e3 t ht.2

theorem ofNat_ne_nul (c : Nat) (h0 : 0 < c) (h : c < 256) : Char.ofNat c ≠ NUL := by
  intro e
  have hv : c.isValidChar := by unfold Nat.isValidChar; omega
  have := congrArg Char.toNat e
  simp [Char.ofNat, hv, Char.ofNatAux, Char.toNat, NUL, UInt32.toNat] at this
  omega

theorem width_printable (X : Externals) (c : Nat) (h : X.gfc_wide_is_printable c = true) :
    gfc_widechar_display_length X c = 1 := by
  simp [gfc_widechar_display_length, h]

theorem render_printable (X : Externals) (c : Nat) (h : X.gfc_wide_is_printable c = true)
    (h0 : 0 < c) (h256 : c < 256) (h9 : c ≠ 9) : render X c = [Char.ofNat c] := by
  have hm : c % 256 = c := Nat.mod_eq_of_lt h256
  have hne := ofNat_ne_nul c h0 h256
  simp [render, print_wide_char_into_buffer, h, h9, hm, cstr, hne]

theorem display_length_printable (X : Externals) (line : List Nat)
    (h : ∀ c ∈ line, X.gfc_wide_is_printable c = true ∧ 0 < c) :
    gfc_wide_display_length X line = line.length := by
  induction line with
  | nil => rfl
  | cons c line ih =>
    have hc := h c (List.mem_cons_self _ _)
    have h0 : c ≠ 0 := by omega
    simp only [gfc_wide_display_length, h0, if_false, width_printable X c hc.1, List.length_cons]
    rw [ih (fun d hd => h d (List.mem_cons_of_mem _ hd))]
    omega

theorem wcs_self (line : List Nat) (h : ∀ c ∈ line, c ≠ 0) : wcs line = line := by
  unfold wcs
  rw [List.takeWhile_eq_self_iff]
  intro c hc
  simpa using h c hc

theorem render_line_printable (X : Externals) (line : List Nat)
    (h : ∀ c ∈ line, X.gfc_wide_is_printable c = true ∧ 0 < c ∧ c < 256 ∧ c ≠ 9) :
    (line.map (render X)).flatten = line.map Char.ofNat := by
  induction line with
  | nil => rfl
  | cons c line ih =>
    obtain ⟨h1, h2, h3, h4⟩ := h c (List.mem_cons_self _ _)
    simp only [List.map_cons, List.flatten_cons, render_printable X c h1 h2 h3 h4,
      ih (fun d hd => h d (List.mem_cons_of_mem _ hd))]
    rfl

theorem show_locus_plain (X : Externals) (loc : locus) (lb : gfc_linebuf) (incl : Int)
    (s : gfc_state) (hlb : loc.lb = some lb) (hw : s.terminal_width = 80)
    (hfile : lb.file = .top "file.f".toList incl) (hline : X.LOCATION_LINE lb.location = 10)
    (hlen : lb.line.length = 10)
    (hpr : ∀ c ∈ lb.line, X.gfc_wide_is_printable c = true ∧ 0 < c ∧ c < 256 ∧ c ≠ 9) :
    show_locus X loc 3 (-1) s
      = emit ("file.f:10.3:\n\n".toList ++ lb.line.map Char.ofNat ++ "\n   1\n".toList) s := by
  obtain ⟨n, e1, _, e3⟩ := show_locus_line_run X lb 0 80 (Nat.zero_le _)
  have hdl : gfc_wide_display_length X lb.line = 10 := by
    rw [display_length_printable X lb.line (fun c hc => ⟨(hpr c hc).1, (hpr c hc).2.1⟩), hlen]
  have hrun : (lb.line.drop (0 : Int).toNat).take n = lb.line := by
    rw [e3 (by rw [Int.toNat_zero, List.drop_zero, hdl]; decide), Int.toNat_zero, List.drop_zero]
    exact wcs_self lb.line (fun c hc => by have := (hpr c hc).2.1; omega)
  have hsp : span_width X lb.line (0 : Int).toNat 3 = 3 :=
    span_width_ones X lb.line _ 3 (by rw [Int.toNat_zero]; omega) (fun j hj => by
      rw [Int.toNat_zero, Nat.zero_add]
      have hjl : j < lb.line.length := by omega
      have hg : (lb.line ++ [0]).getD j 0 = lb.line[j] := by
        simp [List.getD_eq_getElem?_getD, List.getElem?_append_left hjl, hjl]
      rw [hg]
      exact width_printable X _ (hpr _ (List.getElem_mem hjl)).1)
  rw [show_locus_eq X loc lb 3 (-1) s hlb, hw]
  simp only [show locus_offset 80 3 = 0 from rfl, show ((3 : Int) = -1) = False from by decide,
    show ((3 : Int) < -1) = False from by decide, if_false, sub_zero,
    header_text X lb incl hfile hline, hfile, show_includes, pure_bind_M]
  have hm := show_locus_markers_single X lb 0 3 (-1) (by rw [Int.toNat_zero]; omega) (by decide)
  rw [hsp] at hm
  rw [show ((3 : Nat) : Int) = 3 from rfl] at hm
  rw [hm]
  have htxt : emit ("file.f:10.3:\n\n".toList ++ lb.line.map Char.ofNat ++ "\n   1\n".toList)
      = (emit "file.f:10.3:\n".toList >>= fun _ => error_char '\n' >>= fun _ =>
          emit (lb.line.map Char.ofNat ++ ['\n']) >>= fun _ =>
          emit (List.replicate 3 ' ' ++ ['1', '\n'])) := by
    rw [error_char_eq_emit, emit_bind_emit_bind, emit_bind_emit_bind, emit_bind_emit]
    refine congrArg emit ?_
    simp [List.replicate]
  rw [htxt]
  refine bind_congr_width (keeps_emit _) s (fun _ s1 h1 => ?_)
  refine bind_congr_width (keeps_error_char '\n') s1 (fun _ s2 h2 => ?_)
  simp only [bind_apply, e1 s2 (by rw [h2, h1, hw]), hrun, render_line_printable X lb.line hpr]

theorem show_loci_single (X : Externals) (loc : locus) (lb : gfc_linebuf)
    (hlb : loc.lb = some lb) : show_loci X (some loc) none = show_locus X loc loc.nextc (-1) := by
  unfold show_loci
  simp only [hlb]

theorem error_label_text :
    (do
      if peek "Error:".toList ≠ NUL then do
        error_string "Error:".toList
        error_char ' '
      emit "missing semicolon at (1)".toList
      error_char '\n')
    = emit "Error: missing semicolon at (1)\n".toList := by
  rw [if_pos (by decide), error_string_eq_emit, error_char_eq_emit, error_char_eq_emit,
    show cstr "Error:".toList = "Error:".toList from rfl]
  simp only [bind_assoc_M, emit_bind_emit_bind, emit_bind_emit]
  rfl

/-- C7, as amended: with terminal width 80, the file "file.f" with no
includer, source line number 10 holding 10 printable characters, a single
locus at column 3, given as the argument of the template
"missing semicolon at %L", an immediate error report returns and writes
exactly "file.f:10.3:\n\n", the 10 characters and
"\n   1\nError: missing semicolon at (1)\n" to the error stream: the marker
row is three spaces followed by '1', and the message names the locus as
"(1)". The error count is one more than before. -/
theorem single_locus_report (X : Externals) (loc : locus) (lb : gfc_linebuf) (incl : Int)
    (s : gfc_state) (hlb : loc.lb = some lb) (hcol : loc.nextc = 3)
    (hw : s.terminal_width = 80)
    (hfile : lb.file = .top "file.f".toList incl) (hline : X.LOCATION_LINE lb.location = 10)
    (hlen : lb.line.length = 10)
    (hpr : ∀ c ∈ lb.line, X.gfc_wide_is_printable c = true ∧ 0 < c ∧ c < 256 ∧ c ≠ 9)
    (himm : s.buffered_p = false) (hsup : s.suppress_errors = 0)
    (hwne : s.warnings_not_errors = false) (hl : s.line = [])
    (hmax : s.w.max_errors = 0 ∨ s.errors + 1 < s.w.max_errors) :
    ∃ s1, gfc_error_1 X "missing semicolon at %L".toList [.loc (some loc)] s = .ok () s1
      ∧ s1.w.stderr = s.w.stderr ++ ("file.f:10.3:\n\n".toList ++ lb.line.map Char.ofNat
          ++ "\n   1\nError: missing semicolon at (1)\n".toList)
      ∧ s1.line = [] ∧ s1.errors = s.errors + 1 := by
  have hw1 : (started .error_buffer s).terminal_width = 80 := hw
  have hb1 : (started .error_buffer s).buffered_p = false := himm
  have hp : error_print X "Error:".toList "missing semicolon at %L".toList [.loc (some loc)]
      (started .error_buffer s)
      = emit (("file.f:10.3:\n\n".toList ++ lb.line.map Char.ofNat ++ "\n   1\n".toList)
          ++ "Error: missing semicolon at (1)\n".toList) (started .error_buffer s) := by
    rw [error_print_template, show_loci_single X loc lb hlb, hcol, emit_append, ← error_label_text]
    simp only [bind_apply, show_locus_plain X loc lb incl _ hlb hw1 hfile hline hlen hpr]
  have hnul : NUL ∉ ("file.f:10.3:\n\n".toList ++ lb.line.map Char.ofNat ++ "\n   1\n".toList)
      ++ "Error: missing semicolon at (1)\n".toList := by
    intro hm
    rw [List.mem_append, List.mem_append, List.mem_append, List.mem_map] at hm
    rcases hm with ((hm | ⟨c, hc, e⟩) | hm) | hm
    · revert hm
      decide
    · exact ofNat_ne_nul c (hpr c hc).2.1 (hpr c hc).2.2.1 e
    · revert hm
      decide
    · revert hm
      decide
  obtain ⟨s1, e1, e2, e3⟩ := emit_immediate _ (started .error_buffer s) hb1 hnul
  rw [← hp] at e1
  have hfr := error_1_frame X _ _ s s1 e1
  have hinc : gfc_increment_error_count X s1 = .ok () { s1 with errors := s1.errors + 1 } := by
    rw [increment_apply, if_neg]
    rw [hfr.1, hfr.2.2.2.2.2.1]
    omega
  have hline1 : s1.line = [] := e3 _ (by
    rw [show "Error: missing semicolon at (1)\n".toList
      = "Error: missing semicolon at (1)".toList ++ ['\n'] from rfl, ← List.append_assoc])
  refine ⟨_, (error_1_immediate X _ _ s s1 himm hsup hwne e1).trans hinc, ?_, hline1, ?_⟩
  · have hl1 : (started .error_buffer s).line = [] := hl
    have hst : (started .error_buffer s).w.stderr = s.w.stderr := rfl
    rw [hline1, hl1, hst, List.append_nil, List.append_nil] at e2
    show s1.w.stderr = _
    rw [e2, show "\n   1\nError: missing semicolon at (1)\n".toList
      = "\n   1\n".toList ++ "Error: missing semicolon at (1)\n".toList from rfl,
      ← List.append_assoc ("file.f:10.3:\n\n".toList ++ lb.line.map Char.ofNat)]
  · show s1.errors + 1 = s.errors + 1
    rw [hfr.1]


/-- C7, witness: the line "abcdefghij" in the sample state. -/
theorem single_locus_report_witness :
    (sample_state.terminal_width = 80 ∧ plain_line.line.length = 10
      ∧ (∀ c ∈ plain_line.line,
          sample_externals.gfc_wide_is_printable c = true ∧ 0 < c ∧ c < 256 ∧ c ≠ 9)
      ∧ sample_state.buffered_p = false ∧ sample_state.suppress_errors = 0)
    ∧ ∃ s1, gfc_error_1 sample_externals "missing semicolon at %L".toList
          [.loc (some { nextc := 3, lb := some plain_line })] sample_state = .ok () s1
      ∧ s1.w.stderr = sample_state.w.stderr ++ ("file.f:10.3:\n\n".toList
          ++ plain_line.line.map Char.ofNat
          ++ "\n   1\nError: missing semicolon at (1)\n".toList)
      ∧ s1.line = [] ∧ s1.errors = sample_state.errors + 1 :=
  ⟨⟨rfl, rfl, by decide, rfl, rfl⟩,
   single_locus_report sample_externals { nextc := 3, lb := some plain_line } plain_line 0
     sample_state rfl rfl rfl rfl rfl rfl (by decide) rfl rfl rfl rfl (Or.inl rfl)⟩

/-- C7, counterexample. In the sample state, on a terminal of width 80,
the error report with the message "missing semicolon" alone shows no locus:
it writes "Error: missing semicolon\n" and nothing else. With the locus at
column 3 of line 10, "abcdefghij", of "file.f" as the argument of "%L", the
marker row is three spaces and '1', and the message holds "(1)". Neither
output is "file.f:10.3:\n\nabcdefghij\n  1\nError: missing semicolon\n". -/
theorem single_locus_report_counterexample :
    (gfc_error_1 sample_externals "missing semicolon".toList [] sample_state).state.w.stderr
      = "Error: missing semicolon\n".toList
    ∧ (gfc_error_1 sample_externals "missing semicolon at %L".toList
        [.loc (some { nextc := 3, lb := some plain_line })] sample_state).state.w.stderr
      = "file.f:10.3:\n\nabcdefghij\n   1\nError: missing semicolon at (1)\n".toList
    ∧ (gfc_error_1 sample_externals "missing semicolon".toList [] sample_state).state.w.stderr
      ≠ "file.f:10.3:\n\nabcdefghij\n  1\nError: missing semicolon\n".toList
    ∧ (gfc_error_1 sample_externals "missing semicolon at %L".toList
        [.loc (some { nextc := 3, lb := some plain_line })] sample_state).state.w.stderr
      ≠ "file.f:10.3:\n\nabcdefghij\n  1\nError: missing semicolon\n".toList := by
  refine ⟨?_, ?_, ?_, ?_⟩ <;> decide!



/-! ## A template with ten specifiers -/

/-- C1, at the failing input. For the template "%d%d%d%d%d%d%d%d%d%d" and
the ten arguments 1, ..., 10 of type `int`, in every state and with every
label: the first two passes fill the ten slots, and the loop
`for (n = 0; spec[n].pos >= 0; n++)` then reads `spec[10].pos`, one element
beyond the array `spec[MAX_ARGS]`; `error_print` stops there and nothing is
printed. With nine specifiers the loop ends at `spec[9]` and the text is
printed as the claim has it. -/
theorem ten_specifiers_read_beyond_spec (X : Externals) (type : List Char) (s : gfc_state) :
    error_print X type "%d%d%d%d%d%d%d%d%d%d".toList
        [.int 1, .int 2, .int 3, .int 4, .int 5, .int 6, .int 7, .int 8, .int 9, .int 10] s
      = .stop .undefined s
    ∧ (error_print sample_externals [] "%d%d%d%d%d%d%d%d%d".toList
        [.int 1, .int 2, .int 3, .int 4, .int 5, .int 6, .int 7, .int 8, .int 9]
        sample_state).state.w.stderr = "123456789\n".toList := by
  constructor
  · unfold error_print error_print_with
    rw [show cstr "%d%d%d%d%d%d%d%d%d%d".toList = "%d%d%d%d%d%d%d%d%d%d".toList from rfl]
    dsimp only
    rw [show scan ("%d%d%d%d%d%d%d%d%d%d".toList.length + 1) "%d%d%d%d%d%d%d%d%d%d".toList Scan.init
        = .ok { pos := 9, maxpos := 9, n := 10,
                arg_type := List.replicate MAX_ARGS ArgType.TYPE_INTEGER,
                spec_pos := [0, 1, 2, 3, 4, 5, 6, 7, 8, 9] } from rfl]
    simp only [liftE, pure_bind_M, bind_apply, getState_apply]
    rfl
  · decide!



/-! ## Decimal numbers -/

theorem digitChar_eq (n : Nat) (h : n < 10) : Nat.digitChar n = Char.ofNat (n + 48) := by
  interval_cases n <;> rfl

theorem digitChar_value (n : Nat) (h : n < 10) : (Nat.digitChar n).toNat - 48 = n := by
  interval_cases n <;> rfl

theorem digitChar_range (n : Nat) (h : n < 10) : '0' ≤ Nat.digitChar n ∧ Nat.digitChar n ≤ '9' := by
  interval_cases n <;> decide

theorem digitChar_ne_zero (n : Nat) (h : n < 10) (h0 : 0 < n) : Nat.digitChar n ≠ '0' := by
  interval_cases n <;> decide

/-- The digit loop of `error_uinteger` computes the digits that
`Nat.toDigits` gives, when the value is not zero and the room suffices. -/
theorem uinteger_digits_eq (fuel : Nat) : ∀ (room i : Nat) (acc : List Char), 0 < i → i < fuel →
    i < 10 ^ room → uinteger_digits room i acc = some (Nat.toDigitsCore 10 fuel i acc) := by
  induction fuel with
  | zero => intro room i acc h0 h; omega
  | succ fuel ih =>
    intro room i acc h0 h hr
    cases room with
    | zero => simp at hr; omega
    | succ room =>
      have hd : Char.ofNat (i % 10 + 48) = Nat.digitChar (i % 10) :=
        (digitChar_eq _ (Nat.mod_lt _ (by decide))).symm
      simp only [uinteger_digits, h0, if_true, Nat.toDigitsCore, hd]
      by_cases hz : i / 10 = 0
      · rw [if_pos hz, hz]
        cases room <;> simp [uinteger_digits]
      · rw [if_neg hz]
        refine ih room (i / 10) _ (Nat.pos_of_ne_zero hz) (by omega) ?_
        rw [pow_succ] at hr
        omega

theorem toDigitsCore_value (fuel : Nat) : ∀ (i : Nat) (acc : List Char), i < fuel →
    ∃ k, ∀ v, (Nat.toDigitsCore 10 fuel i acc).foldl (fun v d => 10 * v + (d.toNat - 48)) v
      = acc.foldl (fun v d => 10 * v + (d.toNat - 48)) (10 ^ k * v + i) := by
  induction fuel with
  | zero => intro i acc h; omega
  | succ fuel ih =>
    intro i acc h
    have hm : i % 10 < 10 := Nat.mod_lt _ (by decide)
    simp only [Nat.toDigitsCore]
    by_cases hz : i / 10 = 0
    · rw [if_pos hz]
      refine ⟨1, fun v => ?_⟩
      simp only [List.foldl_cons, digitChar_value _ hm, pow_one]
      have : i % 10 = i := by omega
      rw [this]
    · rw [if_neg hz]
      obtain ⟨k, hk⟩ := ih (i / 10) (Nat.digitChar (i % 10) :: acc) (by omega)
      refine ⟨k + 1, fun v => ?_⟩
      rw [hk v]
      simp only [List.foldl_cons, digitChar_value _ hm]
      congr 1
      have := Nat.div_add_mod i 10
      rw [pow_succ]
      nlinarith

theorem toDigitsCore_head (fuel : Nat) : ∀ (i : Nat) (acc : List Char), 0 < i → i < fuel →
    ∃ d rest, Nat.toDigitsCore 10 fuel i acc = d :: rest ∧ d ≠ '0' := by
  induction fuel with
  | zero => intro i acc h0 h; omega
  | succ fuel ih =>
    intro i acc h0 h
    simp only [Nat.toDigitsCore]
    by_cases hz : i / 10 = 0
    · rw [if_pos hz]
      exact ⟨_, _, rfl, digitChar_ne_zero _ (Nat.mod_lt _ (by decide)) (by omega)⟩
    · rw [if_neg hz]
      exact ih (i / 10) _ (Nat.pos_of_ne_zero hz) (by omega)

theorem toDigitsCore_range (fuel : Nat) : ∀ (i : Nat) (acc : List Char),
    (∀ d ∈ acc, '0' ≤ d ∧ d ≤ '9') →
    ∀ d ∈ Nat.toDigitsCore 10 fuel i acc, '0' ≤ d ∧ d ≤ '9' := by
  induction fuel with
  | zero => intro i acc h; exact h
  | succ fuel ih =>
    intro i acc hacc
    have hc : ∀ d ∈ Nat.digitChar (i % 10) :: acc, '0' ≤ d ∧ d ≤ '9' := by
      intro d hd
      rcases List.mem_cons.mp hd with e | e
      · rw [e]
        exact digitChar_range _ (Nat.mod_lt _ (by decide))
      · exact hacc d e
    simp only [Nat.toDigitsCore]
    by_cases hz : i / 10 = 0
    · rw [if_pos hz]
      exact hc
    · rw [if_neg hz]
      exact ih (i / 10) _ hc

theorem toDigits_range (i : Nat) : ∀ d ∈ Nat.toDigits 10 i, '0' ≤ d ∧ d ≤ '9' :=
  toDigitsCore_range (i + 1) i [] (fun _ h => absurd h (List.not_mem_nil _))

theorem toDigits_value (i : Nat) : decimal_value (Nat.toDigits 10 i) = i := by
  obtain ⟨k, hk⟩ := toDigitsCore_value (i + 1) i [] (Nat.lt_succ_self i)
  unfold decimal_value Nat.toDigits
  rw [hk 0]
  simp

theorem toDigits_nul (i : Nat) : NUL ∉ Nat.toDigits 10 i := by
  intro h
  have := (toDigits_range i NUL h).1
  revert this
  decide

theorem cstr_append_nul (t r : List Char) (h : NUL ∉ t) : cstr (t ++ NUL :: r) = t := by
  induction t with
  | nil => simp [cstr]
  | cons c t ih =>
    have hc : c ≠ NUL := fun e => h (by simp [e])
    have ht : NUL ∉ t := fun e => h (by simp [e])
    have := ih ht
    unfold cstr at this ⊢
    simp [hc, this]

/-- What `error_uinteger` prints, for a value of at most 59 digits. -/
theorem error_uinteger_eq_emit (i : Nat) (h : i < 10 ^ 59) :
    error_uinteger i = emit (Nat.toDigits 10 i) := by
  by_cases h0 : i = 0
  · subst h0
    rw [show error_uinteger 0 = error_string (['0'] ++ [NUL]) from rfl, error_string_eq_emit]
    rfl
  · unfold error_uinteger
    simp only [h0, if_false]
    rw [uinteger_digits_eq (i + 1) (IBUF_LEN - 1) i [] (Nat.pos_of_ne_zero h0) (Nat.lt_succ_self i) h]
    simp only []
    rw [error_string_eq_emit]
    exact congrArg emit (cstr_append_nul (Nat.toDigits 10 i) [] (toDigits_nul i))

/-- C20: for every value `i` of the type `unsigned long`, `error_uinteger`
emits the decimal representation of `i` (the digits that `Nat.toDigits`,
and so `Nat.repr`, gives): the single digit "0" when `i = 0`, otherwise
decimal digits, most significant first, the first of which is not '0'; read
as a decimal number the digits emitted give back `i`. -/
theorem error_uinteger_decimal (i : Nat) (h : i < 2 ^ 64) :
    error_uinteger i = emit (Nat.toDigits 10 i)
    ∧ (i = 0 → Nat.toDigits 10 i = ['0'])
    ∧ (0 < i → ∃ d rest, Nat.toDigits 10 i = d :: rest ∧ d ≠ '0')
    ∧ (∀ d ∈ Nat.toDigits 10 i, '0' ≤ d ∧ d ≤ '9')
    ∧ decimal_value (Nat.toDigits 10 i) = i := by
  refine ⟨error_uinteger_eq_emit i (lt_trans h (by norm_num)), ?_, ?_, toDigits_range i,
    toDigits_value i⟩
  · intro h0
    subst h0
    rfl
  · intro h0
    exact toDigitsCore_head (i + 1) i [] h0 (Nat.lt_succ_self i)

/-- C20, witness: the value 1234. -/
theorem error_uinteger_decimal_witness :
    (1234 : Nat) < 2 ^ 64 ∧ error_uinteger 1234 = emit "1234".toList
      ∧ decimal_value (Nat.toDigits 10 1234) = 1234 :=
  ⟨by norm_num, (error_uinteger_decimal 1234 (by norm_num)).1,
    (error_uinteger_decimal 1234 (by norm_num)).2.2.2.2⟩


/-! ## The texts of `print_wide_char_into_buffer` -/

theorem xdigit_ne_nul (n : Nat) : xdigit n ≠ NUL := by
  by_cases h : n < 16
  · interval_cases n <;> decide
  · unfold xdigit
    rw [List.getD_eq_default _ _ (by simp; omega)]
    decide

theorem xdigit_upper_hex (n : Nat) : is_upper_hex (xdigit n) = true := by
  by_cases h : n < 16
  · interval_cases n <;> decide
  · unfold xdigit
    rw [List.getD_eq_default _ _ (by simp; omega)]
    decide

theorem xdigit_value (n : Nat) (h : n < 16) : hex_digit_value (xdigit n) = n := by
  interval_cases n <;> decide

theorem and_15 (n : Nat) : n &&& 15 = n % 16 := Nat.and_pow_two_sub_one_eq_mod n 4

theorem shr_eq_div (n k : Nat) : n >>> k = n / 2 ^ k := Nat.shiftRight_eq_div_pow n k

theorem cstr_cons (c : Char) (t : List Char) (h : c ≠ NUL) : cstr (c :: t) = c :: cstr t := by
  simp [cstr, h]

theorem cstr_nul (t : List Char) : cstr (NUL :: t) = [] := by
  simp [cstr]

/-- C11: for every wide character `c`, the value returned by
`print_wide_char_into_buffer` is `gfc_widechar_display_length (c)` and the
length of the string written to `buf`, whose terminating NUL is the last
byte written; the length is at most 10, so that at most 11 bytes are
written. The byte that a printable character is written as is taken not to
be NUL (the characters that `gfc_wide_is_printable` accepts are ASCII). -/
theorem print_wide_char_length (X : Externals) (c : Nat)
    (hX : X.gfc_wide_is_printable c = true → c % 256 ≠ 0) :
    (print_wide_char_into_buffer X c).1 = gfc_widechar_display_length X c
    ∧ (cstr (print_wide_char_into_buffer X c).2).length = (print_wide_char_into_buffer X c).1
    ∧ (print_wide_char_into_buffer X c).2 = cstr (print_wide_char_into_buffer X c).2 ++ [NUL]
    ∧ (print_wide_char_into_buffer X c).1 ≤ 10
    ∧ (print_wide_char_into_buffer X c).2.length ≤ 11 := by
  refine ⟨print_wide_char_fst X c, ?_⟩
  unfold print_wide_char_into_buffer
  by_cases hp : (X.gfc_wide_is_printable c || c == 9) = true
  · rw [if_pos hp]
    have hne : Char.ofNat ((if (c == 9) = true then 32 else c) % 256) ≠ NUL := by
      by_cases h9 : c = 9
      · subst h9
        decide
      · have hpr : X.gfc_wide_is_printable c = true := by simpa [h9] using hp
        have hb : (c == 9) = false := by simpa using h9
        rw [hb]
        exact ofNat_ne_nul _ (Nat.pos_of_ne_zero (hX hpr)) (Nat.mod_lt _ (by decide))
    simp only [cstr_cons _ _ hne, cstr_nul]
    simp
  · rw [if_neg hp]
    split
    · simp only [cstr_cons _ _ (xdigit_ne_nul _), cstr_cons _ _ (show '\\' ≠ NUL by decide),
        cstr_cons _ _ (show 'x' ≠ NUL by decide), cstr_nul]
      simp
    · split
      · simp only [cstr_cons _ _ (xdigit_ne_nul _), cstr_cons _ _ (show '\\' ≠ NUL by decide),
          cstr_cons _ _ (show 'u' ≠ NUL by decide), cstr_nul]
        simp
      · simp only [cstr_cons _ _ (xdigit_ne_nul _), cstr_cons _ _ (show '\\' ≠ NUL by decide),
          cstr_cons _ _ (show 'U' ≠ NUL by decide), cstr_nul]
        simp

/-- C11, witness: the character 'A'. -/
theorem print_wide_char_length_witness :
    (print_wide_char_into_buffer sample_externals 65).1
        = gfc_widechar_display_length sample_externals 65
    ∧ (cstr (print_wide_char_into_buffer sample_externals 65).2).length
        = (print_wide_char_into_buffer sample_externals 65).1
    ∧ (print_wide_char_into_buffer sample_externals 65).2
        = cstr (print_wide_char_into_buffer sample_externals 65).2 ++ [NUL]
    ∧ (print_wide_char_into_buffer sample_externals 65).1 ≤ 10
    ∧ (print_wide_char_into_buffer sample_externals 65).2.length ≤ 11 :=
  print_wide_char_length sample_externals 65 (by decide)

theorem hex2 (c : Nat) (h : c < 2 ^ 8) :
    hex_value [xdigit ((c >>> 4) &&& 15), xdigit (c &&& 15)] = c := by
  simp only [hex_value, List.foldl_cons, List.foldl_nil, and_15, shr_eq_div,
    xdigit_value _ (Nat.mod_lt _ (by decide : 0 < 16))]
  norm_num at h ⊢
  omega

theorem hex4 (c : Nat) (h : c < 2 ^ 16) :
    hex_value [xdigit ((c >>> 12) &&& 15), xdigit ((c >>> 8) &&& 15),
      xdigit ((c >>> 4) &&& 15), xdigit (c &&& 15)] = c := by
  simp only [hex_value, List.foldl_cons, List.foldl_nil, and_15, shr_eq_div,
    xdigit_value _ (Nat.mod_lt _ (by decide : 0 < 16))]
  norm_num at h ⊢
  omega

theorem hex8 (c : Nat) (h : c < 2 ^ 32) :
    hex_value [xdigit ((c >>> 28) &&& 15), xdigit ((c >>> 24) &&& 15),
      xdigit ((c >>> 20) &&& 15), xdigit ((c >>> 16) &&& 15),
      xdigit ((c >>> 12) &&& 15), xdigit ((c >>> 8) &&& 15),
      xdigit ((c >>> 4) &&& 15), xdigit (c &&& 15)] = c := by
  simp only [hex_value, List.foldl_cons, List.foldl_nil, and_15, shr_eq_div,
    xdigit_value _ (Nat.mod_lt _ (by decide : 0 < 16))]
  norm_num at h ⊢
  omega

/-- The character that is not printable is found again from its text. -/
theorem escape_value_render (X : Externals) (c : Nat) (hc : c < 2 ^ 32)
    (hp : X.gfc_wide_is_printable c = false) :
    escape_value (cstr (print_wide_char_into_buffer X c).2) = c := by
  unfold print_wide_char_into_buffer
  by_cases h9 : c = 9
  · subst h9
    simp [hp, cstr, NUL, escape_value]
  · have hb : (c == 9) = false := by simpa using h9
    simp only [hp, hb, Bool.or_false, Bool.false_eq_true, if_false]
    split
    · rename_i h
      simp only [cstr_cons _ _ (xdigit_ne_nul _), cstr_cons _ _ (show '\\' ≠ NUL by decide),
        cstr_cons _ _ (show 'x' ≠ NUL by decide), cstr_nul]
      rw [escape_value, if_neg (by simp)]
      exact hex2 c h
    · split
      · rename_i h
        simp only [cstr_cons _ _ (xdigit_ne_nul _), cstr_cons _ _ (show '\\' ≠ NUL by decide),
          cstr_cons _ _ (show 'u' ≠ NUL by decide), cstr_nul]
        rw [escape_value, if_neg (by simp)]
        exact hex4 c h
      · simp only [cstr_cons _ _ (xdigit_ne_nul _), cstr_cons _ _ (show '\\' ≠ NUL by decide),
          cstr_cons _ _ (show 'U' ≠ NUL by decide), cstr_nul]
        rw [escape_value, if_neg (by simp)]
        exact hex8 c hc

/-- C12: for every wide character `c` (a value of 32 bits),
`print_wide_char_into_buffer` writes, each time followed by a NUL: the
character itself if `c` is printable (the characters that
`gfc_wide_is_printable` accepts being bytes other than the tab); a single
space if `c` is a tab; otherwise a backslash, then 'x' and 2, 'u' and 4, or
'U' and 8 upper-case hexadecimal digits, for `c < 2^8`, `c < 2^16` and larger
`c`, most significant digit first, whose hexadecimal value is `c`. Two
characters that are not printable and are written as the same text are the
same character. -/
theorem print_wide_char_text (X : Externals) (c c2 : Nat) (hc : c < 2 ^ 32) (hc2 : c2 < 2 ^ 32)
    (hX : X.gfc_wide_is_printable c = true → c < 256 ∧ c ≠ 9) :
    (X.gfc_wide_is_printable c = true →
      (print_wide_char_into_buffer X c).2 = [Char.ofNat c, NUL])
    ∧ (c = 9 → (print_wide_char_into_buffer X c).2 = [' ', NUL])
    ∧ (X.gfc_wide_is_printable c = false → c ≠ 9 → c < 2 ^ 8 →
        ∃ ds, (print_wide_char_into_buffer X c).2 = '\\' :: 'x' :: ds ++ [NUL]
          ∧ ds.length = 2 ∧ (∀ d ∈ ds, is_upper_hex d = true) ∧ hex_value ds = c)
    ∧ (X.gfc_wide_is_printable c = false → c ≠ 9 → 2 ^ 8 ≤ c → c < 2 ^ 16 →
        ∃ ds, (print_wide_char_into_buffer X c).2 = '\\' :: 'u' :: ds ++ [NUL]
          ∧ ds.length = 4 ∧ (∀ d ∈ ds, is_upper_hex d = true) ∧ hex_value ds = c)
    ∧ (X.gfc_wide_is_printable c = false → c ≠ 9 → 2 ^ 16 ≤ c →
        ∃ ds, (print_wide_char_into_buffer X c).2 = '\\' :: 'U' :: ds ++ [NUL]
          ∧ ds.length = 8 ∧ (∀ d ∈ ds, is_upper_hex d = true) ∧ hex_value ds = c)
    ∧ (X.gfc_wide_is_printable c = false → X.gfc_wide_is_printable c2 = false →
        (print_wide_char_into_buffer X c).2 = (print_wide_char_into_buffer X c2).2 → c = c2) := by
  refine ⟨?_, ?_, ?_, ?_, ?_, ?_⟩
  · intro hp
    obtain ⟨h1, h2⟩ := hX hp
    have hb : (c == 9) = false := by simpa using h2
    simp [print_wide_char_into_buffer, hp, hb, Nat.mod_eq_of_lt h1]
  · intro h9
    subst h9
    simp [print_wide_char_into_buffer]
  · intro hp h9 h
    have hb : (c == 9) = false := by simpa using h9
    refine ⟨[xdigit ((c >>> 4) &&& 15), xdigit (c &&& 15)], ?_, rfl, ?_, hex2 c h⟩
    · simp only [print_wide_char_into_buffer, hp, hb, Bool.or_false, Bool.false_eq_true, if_false]
      rw [if_pos (show c < 1 <<< 8 from h)]
      rfl
    · intro d hd
      simp only [List.mem_cons, List.mem_singleton, List.not_mem_nil, or_false] at hd
      rcases hd with e | e <;> rw [e] <;> exact xdigit_upper_hex _
  · intro hp h9 h8 h
    have hb : (c == 9) = false := by simpa using h9
    refine ⟨[xdigit ((c >>> 12) &&& 15), xdigit ((c >>> 8) &&& 15),
      xdigit ((c >>> 4) &&& 15), xdigit (c &&& 15)], ?_, rfl, ?_, hex4 c h⟩
    · simp only [print_wide_char_into_buffer, hp, hb, Bool.or_false, Bool.false_eq_true, if_false]
      rw [if_neg (show ¬ c < 1 <<< 8 from not_lt.mpr h8), if_pos (show c < 1 <<< 16 from h)]
      rfl
    · intro d hd
      simp only [List.mem_cons, List.mem_singleton, List.not_mem_nil, or_false] at hd
      rcases hd with e | e | e | e <;> rw [e] <;> exact xdigit_upper_hex _
  · intro hp h9 h16
    have hb : (c == 9) = false := by simpa using h9
    refine ⟨[xdigit ((c >>> 28) &&& 15), xdigit ((c >>> 24) &&& 15),
      xdigit ((c >>> 20) &&& 15), xdigit ((c >>> 16) &&& 15),
      xdigit ((c >>> 12) &&& 15), xdigit ((c >>> 8) &&& 15),
      xdigit ((c >>> 4) &&& 15), xdigit (c &&& 15)], ?_, rfl, ?_, hex8 c hc⟩
    · simp only [print_wide_char_into_buffer, hp, hb, Bool.or_false, Bool.false_eq_true, if_false]
      have h8 : ¬ c < 1 <<< 8 :=
        not_lt.mpr (le_trans (show 1 <<< 8 ≤ 2 ^ 16 by decide) h16)
      rw [if_neg h8, if_neg (show ¬ c < 1 <<< 16 from not_lt.mpr h16)]
      rfl
    · intro d hd
      simp only [List.mem_cons, List.mem_singleton, List.not_mem_nil, or_false] at hd
      rcases hd with e | e | e | e | e | e | e | e <;> rw [e] <;> exact xdigit_upper_hex _
  · intro hp hp2 he
    rw [← escape_value_render X c hc hp, ← escape_value_render X c2 hc2 hp2, he]

/-- C12, witness: the characters 'A', printable, and 1. -/
theorem print_wide_char_text_witness :
    ((65 : Nat) < 2 ^ 32 ∧ (1 : Nat) < 2 ^ 32
      ∧ (sample_externals.gfc_wide_is_printable 65 = true → 65 < 256 ∧ 65 ≠ 9))
    ∧ (sample_externals.gfc_wide_is_printable 65 = true →
        (print_wide_char_into_buffer sample_externals 65).2 = [Char.ofNat 65, NUL]) :=
  ⟨⟨by norm_num, by norm_num, by decide⟩,
   (print_wide_char_text sample_externals 65 1 (by norm_num) (by norm_num) (by decide)).1⟩


/-! ## Reports that do nothing, and errors reported as warnings -/

/-- C13, as amended: in every state in which warnings are globally
inhibited, `gfc_warning_1` is a no-op: it returns in the state it was called
in, so that nothing is emitted and the warning buffer, the current-buffer
selection and all counters are unchanged. -/
theorem inhibited_warning_noop (X : Externals) (gmsgid : List Char) (argp : List VaArg)
    (s : gfc_state) (h : s.w.inhibit_warnings = true) :
    gfc_warning_1 X gmsgid argp s = .ok () s := by
  unfold gfc_warning_1 warning_1_body
  simp only [bind_apply, getState_apply, h, if_true, pure_apply]

/-- C13, witness: the sample state with all warnings inhibited. -/
theorem inhibited_warning_noop_witness :
    inhibited_state.w.inhibit_warnings = true
    ∧ gfc_warning_1 sample_externals "Unused variable".toList [] inhibited_state
      = .ok () inhibited_state :=
  ⟨rfl, inhibited_warning_noop sample_externals "Unused variable".toList [] inhibited_state rfl⟩

/-- C13, counterexample. Inside one level of error suppression, with
warnings not inhibited, `gfc_warning_1` reports: in immediate mode it writes
"Warning: Unused variable" and a newline to the error stream, counts one
warning, sets the flag of the warning buffer and selects that buffer; in
buffered mode it stores the text in the warning buffer. -/
theorem inhibited_warning_counterexample :
    0 < suppressed_state.suppress_errors
    ∧ (gfc_warning_1 sample_externals "Unused variable".toList [] suppressed_state).state.w.stderr
      = "Warning: Unused variable\n".toList
    ∧ (gfc_warning_1 sample_externals "Unused variable".toList [] suppressed_state).state.warnings
      = suppressed_state.warnings + 1
    ∧ (gfc_warning_1 sample_externals "Unused variable".toList []
        suppressed_state).state.warning_buffer.flag = 1
    ∧ (gfc_warning_1 sample_externals "Unused variable".toList []
        suppressed_state).state.cur_error_buffer = some .warning_buffer
    ∧ suppressed_state.cur_error_buffer = none
    ∧ 0 < suppressed_buffered_state.suppress_errors
    ∧ (gfc_warning_1 sample_externals "Unused variable".toList []
        suppressed_buffered_state).state.warning_buffer.message
      = some (("Warning: Unused variable\n".toList ++ [NUL]).map some)
    ∧ suppressed_buffered_state.warning_buffer.message = none := by
  refine ⟨?_, ?_, ?_, ?_, ?_, ?_, ?_, ?_, ?_⟩ <;> decide!

/-- C14: in every state in which errors are not turned into warnings and
the suppression depth is positive, `gfc_error_1` is a no-op: it returns in
the state it was called in, so that nothing is emitted and the error buffer,
the current-buffer selection and the counters are unchanged. -/
theorem suppressed_error_noop (X : Externals) (gmsgid : List Char) (argp : List VaArg)
    (s : gfc_state) (hw : s.warnings_not_errors = false) (hs : 0 < s.suppress_errors) :
    gfc_error_1 X gmsgid argp s = .ok () s := by
  have hne : s.suppress_errors ≠ 0 := by omega
  unfold gfc_error_1
  simp only [bind_apply, getState_apply, hw, Bool.false_eq_true, if_false, hne, ne_eq,
    not_false_eq_true, if_true, pure_apply]

/-- C14, witness: the sample state inside one level of suppression. -/
theorem suppressed_error_noop_witness :
    (suppressed_state.warnings_not_errors = false ∧ 0 < suppressed_state.suppress_errors)
    ∧ gfc_error_1 sample_externals "Syntax error".toList [] suppressed_state
      = .ok () suppressed_state :=
  ⟨⟨rfl, by decide⟩,
   suppressed_error_noop sample_externals "Syntax error".toList [] suppressed_state rfl (by decide)⟩

instance : Frame WarningSelected where
  refl := fun _ h => ⟨h, rfl⟩
  trans := fun h1 h2 h => by
    obtain ⟨a, b⟩ := h1 h
    obtain ⟨c, d⟩ := h2 a
    exact ⟨c, d.trans b⟩

theorem error_char_warningSelected (c : Char) : Keeps WarningSelected (error_char c) := by
  intro s h
  unfold error_char
  split
  · rw [h]
    simp only []
    split
    · exact ⟨h, rfl⟩
    · exact ⟨h, rfl⟩
  · split
    · by_cases hn : c = '\n' <;> simp [line_char, hn, h]
    · exact ⟨h, rfl⟩

theorem emitted_warningSelected (s s1 : gfc_state) (h : Emitted s s1) : WarningSelected s s1 := by
  obtain ⟨cs, h⟩ := h
  induction cs generalizing s with
  | nil =>
    simp only [emit, pure_apply, Res.ok.injEq, true_and] at h
    subst h
    exact Frame.refl s
  | cons c cs ih =>
    simp only [emit, bind_apply] at h
    have h0 := error_char_warningSelected c s
    cases h1 : error_char c s with
    | stop r s2 => simp [h1] at h
    | ok u s2 =>
      rw [h1] at h h0
      exact Frame.trans h0 (ih s2 h)

theorem fatal_error_warningSelected {α : Type} (X : Externals) (gmsgid : List Char)
    (argp : List VaArg) : Keeps WarningSelected (gfc_fatal_error X gmsgid argp : M α) := by
  refine keeps_bind ?_ (fun _ => keeps_halt _)
  intro s h
  unfold liftW
  split <;> exact ⟨h, rfl⟩

theorem increment_warningSelected (X : Externals) :
    Keeps WarningSelected (gfc_increment_error_count X) := by
  unfold gfc_increment_error_count
  repeat' (first
    | with_reducible exact keeps_pure _
    | with_reducible exact keeps_getState
    | with_reducible exact fatal_error_warningSelected _ _ _
    | (with_reducible refine keeps_modifyState _ ?_) <;> intro _ h <;> exact ⟨h, rfl⟩
    | with_reducible refine keeps_bind ?_ (fun _ => ?_)
    | with_reducible refine keeps_ite _ ?_ ?_)

/-- C15: in every state in which errors are turned into warnings, and for
every message and arguments, `gfc_error_1` does what `gfc_warning_1` does:
the same result in the same state, that is the same characters written or
stored in the warning buffer after the label "Warning:" and the same
counters; and the error buffer is as it was before the call. The mode is
the one that `gfc_errors_to_warnings (true)` sets, in any state. -/
theorem error_as_warning (X : Externals) (gmsgid : List Char) (argp : List VaArg)
    (s : gfc_state) (h : s.warnings_not_errors = true) :
    gfc_error_1 X gmsgid argp s = gfc_warning_1 X gmsgid argp s
    ∧ (gfc_error_1 X gmsgid argp s).state.error_buffer = s.error_buffer
    ∧ (∀ s0 : gfc_state,
        gfc_errors_to_warnings true s0 = .ok () { s0 with warnings_not_errors := true }) := by
  have e : gfc_error_1 X gmsgid argp s = gfc_warning_1 X gmsgid argp s := by
    unfold gfc_error_1 gfc_warning_1 warning_1_body
    simp only [bind_apply, getState_apply, h, if_true]
  refine ⟨e, ?_, fun _ => rfl⟩
  rw [e]
  unfold gfc_warning_1 warning_1_body
  simp only [bind_apply, getState_apply]
  split
  · rfl
  · have hk : Keeps WarningSelected (do
        error_print X "Warning:".toList gmsgid argp
        error_char NUL
        let s ← getState
        if ¬ s.buffered_p then do
          modifyState (fun s => { s with warnings := s.warnings + 1 })
          if s.w.warnings_are_errors then gfc_increment_error_count X) := by
      repeat' (first
        | with_reducible exact keeps_pure _
        | with_reducible exact keeps_getState
        | with_reducible exact (keeps_error_print _ _ _ _).mono emitted_warningSelected
        | with_reducible exact error_char_warningSelected _
        | with_reducible exact increment_warningSelected _
        | (with_reducible refine keeps_modifyState _ ?_) <;> intro _ h <;> exact ⟨h, rfl⟩
        | with_reducible refine keeps_bind ?_ (fun _ => ?_)
        | with_reducible refine keeps_ite _ ?_ ?_)
    exact (hk (started .warning_buffer s) rfl).2

/-- C15, witness: an error reported in the sample state with errors
turned into warnings; it is written as a warning and counted as one. -/
theorem error_as_warning_witness :
    redirected_state.warnings_not_errors = true
    ∧ gfc_error_1 sample_externals "Syntax error".toList [] redirected_state
      = gfc_warning_1 sample_externals "Syntax error".toList [] redirected_state
    ∧ (gfc_error_1 sample_externals "Syntax error".toList [] redirected_state).state.error_buffer
      = redirected_state.error_buffer
    ∧ (gfc_error_1 sample_externals "Syntax error".toList [] redirected_state).state.w.stderr
      = "Warning: Syntax error\n".toList
    ∧ (gfc_error_1 sample_externals "Syntax error".toList [] redirected_state).state.warnings
      = redirected_state.warnings + 1 :=
  ⟨rfl, (error_as_warning sample_externals "Syntax error".toList [] redirected_state rfl).1,
   (error_as_warning sample_externals "Syntax error".toList [] redirected_state rfl).2.1,
   by decide!, by decide!⟩

/-! ## The check for a pending error -/

theorem fputs_message_apply (m : Mem) (t : List Char) (h : memStr m = some t) (s : gfc_state) :
    fputs_message m s = .ok () (fputs_stderr t s) := by
  unfold fputs_message
  rw [h]
  rfl

theorem fatal_error_bind {α β : Type} (X : Externals) (gmsgid : List Char) (argp : List VaArg)
    (f : α → M β) (s : gfc_state) :
    ((gfc_fatal_error X gmsgid argp : M α) >>= f) s = (gfc_fatal_error X gmsgid argp : M β) s := by
  unfold gfc_fatal_error
  simp only [bind_apply]
  cases liftW (X.report_diagnostic .DK_FATAL gmsgid argp 0) s <;> rfl

/-- The statements of `gfc_error_check` that follow the call of `fputs`,
when the flag of the error buffer is set. -/
theorem error_check_tail (X : Externals) (s : gfc_state) (t : List Char) :
    (do
      modifyState (fun s => { s with error_buffer := { s.error_buffer with flag := 0 } })
      clear_pp_error_buffer
      gfc_increment_error_count X
      if s.w.flag_fatal_errors then exit .FATAL_EXIT_CODE
      pure true : M Bool) (fputs_stderr t s)
    = if s.w.max_errors ≠ 0 ∧ s.errors + 1 ≥ s.w.max_errors then
        gfc_fatal_error X "Error count reached limit of %d.".toList [.int s.w.max_errors]
          (error_flushed t s)
      else if s.w.flag_fatal_errors then .stop (.exit .FATAL_EXIT_CODE) (error_flushed t s)
      else .ok true (error_flushed t s) := by
  have hinc : gfc_increment_error_count X { error_flushed t s with errors := s.errors }
      = if s.w.max_errors ≠ 0 ∧ s.errors + 1 ≥ s.w.max_errors then
          gfc_fatal_error X "Error count reached limit of %d.".toList [.int s.w.max_errors]
            (error_flushed t s)
        else .ok () (error_flushed t s) :=
    increment_apply X { error_flushed t s with errors := s.errors }
  have hstart : (do
      modifyState (fun s => { s with error_buffer := { s.error_buffer with flag := 0 } })
      clear_pp_error_buffer
      gfc_increment_error_count X
      if s.w.flag_fatal_errors then exit .FATAL_EXIT_CODE
      pure true : M Bool) (fputs_stderr t s)
      = (do
          gfc_increment_error_count X
          if s.w.flag_fatal_errors then exit .FATAL_EXIT_CODE
          pure true : M Bool) { error_flushed t s with errors := s.errors } := rfl
  rw [hstart, bind_apply, hinc]
  by_cases hm : s.w.max_errors ≠ 0 ∧ s.errors + 1 ≥ s.w.max_errors
  · rw [if_pos hm, if_pos hm]
    exact fatal_error_bind (α := Unit) X _ _ _ _
  · rw [if_neg hm, if_neg hm]
    by_cases hff : s.w.flag_fatal_errors = true
    · rw [if_pos hff]
      simp only [hff, if_true]
      rfl
    · rw [if_neg hff]
      simp only [hff, Bool.false_eq_true, if_false]
      rfl

/-- The function `gfc_error_check` when the flag of the error buffer is
set and the buffer holds the text `t`. -/
theorem error_check_flagged (X : Externals) (s : gfc_state) (t : List Char)
    (hf : s.error_buffer.flag ≠ 0)
    (ht : (s.error_buffer.message = none ∧ t = [])
      ∨ ∃ m, s.error_buffer.message = some m ∧ memStr m = some t) :
    gfc_error_check X s
      = if s.w.max_errors ≠ 0 ∧ s.errors + 1 ≥ s.w.max_errors then
          gfc_fatal_error X "Error count reached limit of %d.".toList [.int s.w.max_errors]
            (error_flushed t s)
        else if s.w.flag_fatal_errors then .stop (.exit .FATAL_EXIT_CODE) (error_flushed t s)
        else .ok true (error_flushed t s) := by
  unfold gfc_error_check
  rw [bind_apply, getState_apply]
  simp only [hf, ne_eq, not_false_eq_true, decide_True, if_true]
  rcases ht with ⟨hm, ht⟩ | ⟨m, hm, ht⟩
  · subst ht
    rw [hm]
    have e : fputs_stderr [] s = s := by simp [fputs_stderr]
    have h := error_check_tail X s []
    rw [e] at h
    exact h
  · rw [hm]
    simp only []
    rw [bind_apply, fputs_message_apply m t ht]
    exact error_check_tail X s t

theorem yields_bind {α β : Type} (b : β) (m : M α) (f : α → M β) (h : ∀ a, Yields b (f a)) :
    Yields b (m >>= f) := by
  intro s b1 s1 e
  rw [bind_apply] at e
  cases hm : m s with
  | ok a s2 =>
    rw [hm] at e
    exact h a s2 b1 s1 e
  | stop r s2 =>
    rw [hm] at e
    cases e

theorem yields_pure {β : Type} (b : β) : Yields b (pure b : M β) := by
  intro s b1 s1 e
  cases e
  rfl

theorem yields_ite {β : Type} (b : β) (c : Prop) [Decidable c] {m1 m2 : M β}
    (h1 : Yields b m1) (h2 : Yields b m2) : Yields b (if c then m1 else m2) := by
  split
  · exact h1
  · exact h2

/-- The value that `gfc_error_check` returns, when it returns. -/
theorem error_check_value (X : Externals) (s : gfc_state) (b : Bool) (s1 : gfc_state)
    (h : gfc_error_check X s = .ok b s1) :
    b = (decide (s.error_buffer.flag ≠ 0) || !gfc_output_buffer_empty_p s.w.pp_error_buffer) := by
  unfold gfc_error_check at h
  rw [bind_apply, getState_apply] at h
  simp only [] at h
  by_cases hf : s.error_buffer.flag ≠ 0
  · simp only [hf, ne_eq, not_false_eq_true, decide_True, if_true, Bool.true_or] at h ⊢
    refine (?_ : Yields true _) s b s1 h
    repeat' (first
      | with_reducible exact yields_pure _
      | with_reducible refine yields_bind _ _ _ (fun _ => ?_)
      | with_reducible refine yields_ite _ _ ?_ ?_
      | split)
  · have hf0 : decide (s.error_buffer.flag ≠ 0) = false := by simpa using hf
    simp only [hf0, Bool.false_eq_true, if_false, Bool.false_or] at h ⊢
    by_cases hp : gfc_output_buffer_empty_p s.w.pp_error_buffer = true
    · simp only [hp, not_true_eq_false, if_false, Bool.not_true] at h ⊢
      cases h
      rfl
    · have hp1 : gfc_output_buffer_empty_p s.w.pp_error_buffer = false := by simpa using hp
      simp only [hp1, Bool.false_eq_true, not_false_eq_true, if_true] at h
      rw [hp1]
      refine (?_ : Yields true _) s b s1 h
      repeat' (first
        | with_reducible exact yields_pure _
        | with_reducible refine yields_bind _ _ _ (fun _ => ?_))

/-- C16, as amended: when `gfc_error_check` returns, it returns true if and
only if an error was pending (the flag of the error buffer set, or the
pretty-printer's error buffer not empty). When the flag was set it writes
the message of the buffer, if there is one, to the error stream, clears the
flag, counts exactly one more error and applies the ceiling check, which
ends the process by `gfc_fatal_error` when the ceiling is reached; then,
when `flag_fatal_errors` is set, it ends the process with `FATAL_EXIT_CODE`
instead of returning; otherwise it returns true. When nothing was pending
it returns false in the state it was called in. When only the
pretty-printer's buffer was pending and `diagnostic_action_after_output`
returns, it returns true. -/
theorem error_check_pending (X : Externals) (s : gfc_state) :
    (∀ b s1, gfc_error_check X s = .ok b s1 →
      (b = true ↔ (s.error_buffer.flag ≠ 0
        ∨ gfc_output_buffer_empty_p s.w.pp_error_buffer = false)))
    ∧ (∀ t, s.error_buffer.flag ≠ 0 →
        ((s.error_buffer.message = none ∧ t = [])
          ∨ ∃ m, s.error_buffer.message = some m ∧ memStr m = some t) →
        gfc_error_check X s
          = (if s.w.max_errors ≠ 0 ∧ s.errors + 1 ≥ s.w.max_errors then
              gfc_fatal_error X "Error count reached limit of %d.".toList [.int s.w.max_errors]
                (error_flushed t s)
            else if s.w.flag_fatal_errors then
              .stop (.exit .FATAL_EXIT_CODE) (error_flushed t s)
            else .ok true (error_flushed t s))
        ∧ (error_flushed t s).w.stderr = s.w.stderr ++ t
        ∧ (error_flushed t s).error_buffer.flag = 0
        ∧ (error_flushed t s).errors = s.errors + 1)
    ∧ (s.error_buffer.flag = 0 → gfc_output_buffer_empty_p s.w.pp_error_buffer = true →
        gfc_error_check X s = .ok false s)
    ∧ (s.error_buffer.flag = 0 → gfc_output_buffer_empty_p s.w.pp_error_buffer = false →
        ∀ w1, X.diagnostic_action_after_output .DK_ERROR
            { s.w with printer_buffer := .pp_error_buffer,
                       stderr := s.w.stderr ++ s.w.pp_error_buffer.text,
                       pp_error_buffer := pp_clear_output_area s.w.pp_error_buffer,
                       errorcount := s.w.errorcount + 1 } = .ok w1 →
        gfc_error_check X s
          = .ok true { s with w := { w1 with printer_buffer := s.w.printer_buffer } }) := by
  refine ⟨?_, ?_, ?_, ?_⟩
  · intro b s1 h
    rw [error_check_value X s b s1 h]
    by_cases hf : s.error_buffer.flag ≠ 0
    · simp [hf]
    · cases hp : gfc_output_buffer_empty_p s.w.pp_error_buffer <;> simp [hf, hp]
  · intro t hf ht
    exact ⟨error_check_flagged X s t hf ht, rfl, rfl, rfl⟩
  · intro hf hp
    unfold gfc_error_check
    simp only [bind_apply, getState_apply, hf, ne_eq, not_true_eq_false, decide_False,
      Bool.false_eq_true, if_false, hp, pure_apply]
  · intro hf hp w1 hw
    unfold gfc_error_check
    simp only [bind_apply, getState_apply, hf, ne_eq, not_true_eq_false, decide_False,
      Bool.false_eq_true, if_false, hp, not_false_eq_true, if_true, modifyWorld_apply,
      pp_really_flush_error, pure_apply]
    have ha : gfc_output_buffer_empty_p (pp_clear_output_area s.w.pp_error_buffer) = true := rfl
    simp only [ha, gcc_assert_true, liftW, hw, Except.map]

/-- C16, witness: in the state `pending_state`, whose error buffer holds
the message "x" with the flag set, `gfc_error_check` writes "x", counts one
error and returns true. -/
theorem error_check_pending_witness :
    gfc_error_check sample_externals pending_state
        = .ok true (error_flushed "x".toList pending_state)
    ∧ (error_flushed "x".toList pending_state).w.stderr = pending_state.w.stderr ++ "x".toList
    ∧ (error_flushed "x".toList pending_state).error_buffer.flag = 0
    ∧ (error_flushed "x".toList pending_state).errors = pending_state.errors + 1 :=
  (error_check_pending sample_externals pending_state).2.1 "x".toList (by decide)
    (Or.inr ⟨strBytes ['x'], rfl, by decide⟩)

/-- C16, counterexample. In the state `fatal_pending_state`, an error is
pending (the flag of the error buffer is set, the message is "x") and
`flag_fatal_errors` is set: `gfc_error_check` writes the message, clears
the flag and counts the error, and then calls `exit (FATAL_EXIT_CODE)`; it
does not return true. -/
theorem error_check_pending_counterexample :
    fatal_pending_state.error_buffer.flag = 1
    ∧ fatal_pending_state.w.flag_fatal_errors = true
    ∧ fatal_pending_state.w.max_errors = 0
    ∧ gfc_error_check sample_externals fatal_pending_state
      = .stop (.exit .FATAL_EXIT_CODE) (error_flushed "x".toList fatal_pending_state)
    ∧ (error_flushed "x".toList fatal_pending_state).w.stderr = "x".toList := by
  refine ⟨?_, ?_, ?_, ?_, ?_⟩ <;> decide!


/-! ## The header of an excerpt and the including files -/

/-- What `error_integer` prints, for a value of the type `long`. -/
theorem error_integer_eq_emit (i : Int) (h1 : -(2 : Int) ^ 63 ≤ i) (h2 : i < 2 ^ 63) :
    error_integer i = emit (int_text i) := by
  unfold error_integer int_text
  by_cases hi : i < 0
  · rw [if_pos hi, if_pos hi]
    have hu : ((-i) % 2 ^ 64).toNat = (-i).toNat := by
      rw [Int.emod_eq_of_lt (by omega) (by norm_num at h1 ⊢; omega)]
    simp only [hu]
    rw [error_uinteger_eq_emit _ (by
      have : (-i).toNat < 2 ^ 64 := by norm_num at h1 ⊢; omega
      exact lt_trans this (by norm_num)), error_char_eq_emit, emit_bind_emit]
    rfl
  · rw [if_neg hi, if_neg hi]
    have hu : (i % 2 ^ 64).toNat = i.toNat := by
      rw [Int.emod_eq_of_lt (by omega) (by norm_num at h2 ⊢; omega)]
    rw [hu, error_uinteger_eq_emit _ (by
      have : i.toNat < 2 ^ 64 := by norm_num at h2 ⊢; omega
      exact lt_trans this (by norm_num))]

/-- What the header of an excerpt is, for a line number and columns of the
type `long`. -/
theorem show_locus_header_eq (X : Externals) (lb : gfc_linebuf) (c1 c2 : Int)
    (hl : -(2 : Int) ^ 63 ≤ X.LOCATION_LINE lb.location ∧ X.LOCATION_LINE lb.location < 2 ^ 63)
    (h1 : c1 < 2 ^ 63) (h2 : c2 < 2 ^ 63) :
    show_locus_header X lb c1 c2
      = emit (cstr lb.file.filename ++ [':'] ++ int_text (X.LOCATION_LINE lb.location)
          ++ header_columns c1 c2 ++ [':', '\n']) := by
  unfold show_locus_header header_columns
  rw [error_integer_eq_emit _ hl.1 hl.2, error_string_eq_emit]
  by_cases g1 : c1 > 0 <;> by_cases g2 : c2 > 0
  · rw [error_integer_eq_emit c1 (by omega) h1, error_integer_eq_emit c2 (by omega) h2]
    simp only [g1, g2, or_self, and_self, if_true, error_char_eq_emit, emit_bind_emit,
      emit_bind_emit_bind, bind_assoc_M, pure_bind_M]
    refine congrArg emit ?_
    simp
  · rw [error_integer_eq_emit c1 (by omega) h1]
    simp only [g1, g2, or_false, and_false, if_true, if_false, error_char_eq_emit, emit_bind_emit,
      emit_bind_emit_bind, bind_assoc_M, pure_bind_M]
    refine congrArg emit ?_
    simp
  · rw [error_integer_eq_emit c2 (by omega) h2]
    simp only [g1, g2, false_or, false_and, if_true, if_false, error_char_eq_emit, emit_bind_emit,
      emit_bind_emit_bind, bind_assoc_M, pure_bind_M]
    refine congrArg emit ?_
    simp
  · simp only [g1, g2, or_self, and_self, if_false, error_char_eq_emit, emit_bind_emit,
      emit_bind_emit_bind, bind_assoc_M, pure_bind_M]
    refine congrArg emit ?_
    simp

theorem scan_included :
    scan ("    Included at %s:%d:".toList.length + 1) "    Included at %s:%d:".toList Scan.init
      = .ok { pos := 1, maxpos := 1, n := 2,
              arg_type := (Scan.init.arg_type.set 0 ArgType.TYPE_STRING).set 1 ArgType.TYPE_INTEGER,
              spec_pos := (Scan.init.spec_pos.set 0 0).set 1 1 } := by
  rfl

theorem conv_included (cur : locus) (name : List Char) (i : Int) :
    conv_loop cur ((Scan.init.arg_type.set 0 ArgType.TYPE_STRING).set 1 ArgType.TYPE_INTEGER)
        ((1 : Int) + 1).toNat 0
        { arg_u := List.replicate MAX_ARGS .unset, have_l1 := false, l1 := none, l2 := none,
          argp := [.str name, .int i] }
      = .ok { arg_u := ((List.replicate MAX_ARGS UVal.unset).set 0 (.stringval name)).set 1
                (.intval i),
              have_l1 := false, l1 := none, l2 := none, argp := [] } := rfl

theorem copy_included (name : List Char) (i : Int) :
    copy_loop ((Scan.init.spec_pos.set 0 0).set 1 1)
        (((List.replicate MAX_ARGS UVal.unset).set 0 (.stringval name)).set 1 (.intval i))
        (MAX_ARGS + 1) 0 (List.replicate MAX_ARGS .unset)
      = .ok (((List.replicate MAX_ARGS UVal.unset).set 0 (.stringval name)).set 1 (.intval i)) :=
  rfl

theorem print_loop_included (spec_u : List UVal) (name : List Char) (i : Int)
    (h0 : spec_u[0]? = some (.stringval name)) (h1 : spec_u[1]? = some (.intval i))
    (hi : -(2 : Int) ^ 63 ≤ i ∧ i < 2 ^ 63) :
    print_loop ("    Included at %s:%d:".toList.length + 1) "    Included at %s:%d:".toList 0 spec_u
      = emit (included_line (name, i)) := by
  simp [print_loop, print_skip_pos, print_spec, peek, ISDIGIT, spec_at, h0, h1, pure_bind_M,
    error_char_eq_emit, error_string_eq_emit, error_integer_eq_emit i hi.1 hi.2, emit_bind_emit,
    emit_bind_emit_bind, bind_assoc_M, NUL, emit_bind_pure, included_line]

theorem error_printf_included (name : List Char) (i : Int)
    (hi : -(2 : Int) ^ 63 ≤ i ∧ i < 2 ^ 63) :
    error_printf "    Included at %s:%d:".toList [.str name, .int i]
      = emit (included_line (name, i) ++ ['\n']) := by
  unfold error_printf error_print_with
  rw [show cstr "    Included at %s:%d:".toList = "    Included at %s:%d:".toList from rfl]
  dsimp only
  rw [scan_included]
  funext s
  simp only [liftE, pure_bind_M, bind_apply, getState_apply, conv_included, copy_included,
    pure_apply, Bool.false_eq_true, if_false,
    print_loop_included (((List.replicate MAX_ARGS UVal.unset).set 0 (.stringval name)).set 1
      (.intval i)) name i rfl rfl hi]
  rw [if_neg (by decide), error_char_eq_emit, emit_bind_emit]

theorem show_includes_eq (f : gfc_file)
    (hr : ∀ a ∈ ancestors f, -(2 : Int) ^ 63 ≤ a.2 ∧ a.2 < 2 ^ 63) :
    show_includes f = emit (((ancestors f).map (fun a => included_line a ++ ['\n'])).flatten) := by
  induction f with
  | top _ _ => rfl
  | sub name i up ih =>
    have h0 := hr (up.filename, i) (List.mem_cons_self _ _)
    rw [show_includes, error_printf_included up.filename i h0,
      ih (fun a ha => hr a (List.mem_cons_of_mem _ ha)), emit_bind_emit]
    rfl

theorem ancestors_length (f : gfc_file) : (ancestors f).length = include_depth f := by
  induction f with
  | top _ _ => rfl
  | sub name i up ih => simp [ancestors, include_depth, ih]

theorem show_locus_parts (X : Externals) (loc : locus) (lb : gfc_linebuf) (c1 c2 : Int)
    (hlb : loc.lb = some lb) :
    show_locus X loc c1 c2 = (do
      show_locus_header X lb c1 c2
      show_includes lb.file
      error_char '\n'
      show_locus_excerpt X lb c1 c2) := by
  unfold show_locus show_locus_excerpt
  simp only [hlb]

/-- C18, as amended: `show_locus` first prints the header, and for every
file name, line number and columns the header is the file name, ':', the
line number, then '.', `c1`, '-', `c2` when both columns are greater than 0,
'.' and the one column that is greater than 0 when only one is (as when only
one marker is shown and its column is not 0), and nothing when none is; then
':' and a newline. A column that is 0, the first character of the line, is
not printed. -/
theorem locus_header (X : Externals) (loc : locus) (lb : gfc_linebuf) (c1 c2 : Int)
    (hlb : loc.lb = some lb)
    (hl : -(2 : Int) ^ 63 ≤ X.LOCATION_LINE lb.location ∧ X.LOCATION_LINE lb.location < 2 ^ 63)
    (h1 : c1 < 2 ^ 63) (h2 : c2 < 2 ^ 63) :
    show_locus X loc c1 c2 = (do
        show_locus_header X lb c1 c2
        show_includes lb.file
        error_char '\n'
        show_locus_excerpt X lb c1 c2)
    ∧ (0 < c1 → 0 < c2 → show_locus_header X lb c1 c2
        = emit (cstr lb.file.filename ++ [':'] ++ int_text (X.LOCATION_LINE lb.location)
            ++ ['.'] ++ int_text c1 ++ ['-'] ++ int_text c2 ++ [':', '\n']))
    ∧ (0 < c1 → c2 ≤ 0 → show_locus_header X lb c1 c2
        = emit (cstr lb.file.filename ++ [':'] ++ int_text (X.LOCATION_LINE lb.location)
            ++ ['.'] ++ int_text c1 ++ [':', '\n']))
    ∧ (c1 ≤ 0 → 0 < c2 → show_locus_header X lb c1 c2
        = emit (cstr lb.file.filename ++ [':'] ++ int_text (X.LOCATION_LINE lb.location)
            ++ ['.'] ++ int_text c2 ++ [':', '\n']))
    ∧ (c1 ≤ 0 → c2 ≤ 0 → show_locus_header X lb c1 c2
        = emit (cstr lb.file.filename ++ [':'] ++ int_text (X.LOCATION_LINE lb.location)
            ++ [':', '\n'])) := by
  have h := show_locus_header_eq X lb c1 c2 hl h1 h2
  refine ⟨show_locus_parts X loc lb c1 c2 hlb, ?_, ?_, ?_, ?_⟩
  · intro g1 g2
    rw [h]
    refine congrArg emit ?_
    simp [header_columns, g1, g2]
  · intro g1 g2
    rw [h]
    refine congrArg emit ?_
    simp [header_columns, g1, not_lt.mpr g2]
  · intro g1 g2
    rw [h]
    refine congrArg emit ?_
    simp [header_columns, not_lt.mpr g1, g2]
  · intro g1 g2
    rw [h]
    refine congrArg emit ?_
    simp [header_columns, not_lt.mpr g1, not_lt.mpr g2]

/-- C18, witness: the columns 3 and 7 of line 10 of "file.f", and the
column 3 alone. -/
theorem locus_header_witness :
    show_locus_header sample_externals plain_line 3 7 = emit "file.f:10.3-7:\n".toList
    ∧ show_locus_header sample_externals plain_line 3 (-1) = emit "file.f:10.3:\n".toList :=
  ⟨(locus_header sample_externals { nextc := 3, lb := some plain_line } plain_line 3 7 rfl
      (by decide) (by decide) (by decide)).2.1 (by decide) (by decide),
   (locus_header sample_externals { nextc := 3, lb := some plain_line } plain_line 3 (-1) rfl
      (by decide) (by decide) (by decide)).2.2.1 (by decide) (by decide)⟩

/-- C18, counterexample. For one marker at column 0, the first character
of the line "abcdefghij", line 10 of "file.f", the first line printed is
"file.f:10:", not "file.f:10.0:"; for the two markers at the columns 0 and
5 it is "file.f:10.5:", not "file.f:10.0-5:". -/
theorem locus_header_counterexample :
    (show_locus sample_externals { nextc := 0, lb := some plain_line } 0 (-1)
        (width_state 80)).state.w.stderr
      = "file.f:10:\n\nabcdefghij\n1\n".toList
    ∧ (show_locus sample_externals { nextc := 0, lb := some plain_line } 0 5
        (width_state 80)).state.w.stderr
      = "file.f:10.5:\n\nabcdefghij\n1    2\n".toList := by
  constructor <;> decide!

/-- C19: for every file, with its include chain of `k` ancestors,
`show_locus` prints after the header exactly the `k` lines
"    Included at <ancestor filename>:<line>:", one for each ancestor from
the direct includer outward to the root, where <line> is the inclusion line
recorded on the included file, and then exactly one empty line before the
excerpt. -/
theorem included_files (X : Externals) (loc : locus) (lb : gfc_linebuf) (c1 c2 : Int)
    (hlb : loc.lb = some lb)
    (hr : ∀ a ∈ ancestors lb.file, -(2 : Int) ^ 63 ≤ a.2 ∧ a.2 < 2 ^ 63) :
    show_locus X loc c1 c2 = (do
        show_locus_header X lb c1 c2
        emit (((ancestors lb.file).map (fun a => included_line a ++ ['\n'])).flatten)
        emit ['\n']
        show_locus_excerpt X lb c1 c2)
    ∧ (ancestors lb.file).length = include_depth lb.file
    ∧ (∀ name i up, lb.file = .sub name i up →
        ancestors lb.file = (up.filename, i) :: ancestors up)
    ∧ (∀ name i, lb.file = .top name i → ancestors lb.file = []) := by
  refine ⟨?_, ancestors_length lb.file, ?_, ?_⟩
  · rw [show_locus_parts X loc lb c1 c2 hlb, show_includes_eq lb.file hr, error_char_eq_emit]
  · intro name i up h
    rw [h]
    rfl
  · intro name i h
    rw [h]
    rfl

/-- C19, witness: the file "a.inc", included at line 7 of "b.f", which is
included at line 3 of "c.f"; what is printed for the column 3 of its line
10. -/
theorem included_files_witness :
    show_locus sample_externals { nextc := 3, lb := some nested_line } 3 (-1) = (do
        show_locus_header sample_externals nested_line 3 (-1)
        emit "    Included at b.f:7:\n    Included at c.f:3:\n".toList
        emit ['\n']
        show_locus_excerpt sample_externals nested_line 3 (-1))
    ∧ (ancestors nested_line.file).length = 2
    ∧ (show_locus sample_externals { nextc := 3, lb := some nested_line } 3 (-1)
        (width_state 80)).state.w.stderr
      = "a.inc:10.3:\n    Included at b.f:7:\n    Included at c.f:3:\n\nabcdefghij\n   1\n".toList :=
  ⟨(included_files sample_externals { nextc := 3, lb := some nested_line } nested_line 3 (-1) rfl
      (by decide)).1,
   rfl, by decide!⟩


/-! ## The layout that `show_loci` chooses -/

/-- The marker loop from a character that carries a marker, over
characters that carry none after it. -/
theorem marker_loop_hit (X : Externals) (line : List Nat) (c1 c2 : Int) (k : Nat) (i : Int)
    (p : Nat) (m : Char) (hm : (i = c1 ∧ m = '1') ∨ (i ≠ c1 ∧ i = c2 ∧ m = '2'))
    (hb : p + (k + 1) ≤ line.length + 1)
    (h1 : ∀ j : Nat, j < k → i + 1 + j ≠ c1) (h2 : ∀ j : Nat, j < k → i + 1 + j ≠ c2) :
    marker_loop X line c1 c2 (k + 1) i p
      = emit (m :: List.replicate
          (gfc_widechar_display_length X ((line ++ [0]).getD p 0) - 1 + span_width X line (p + 1) k)
          ' ') := by
  have hp : p ≤ line.length := by omega
  have hw := display_length_pos X ((line ++ [0]).getD p 0)
  have e4 : ((gfc_widechar_display_length X ((line ++ [0]).getD p 0) : Int) - 1).toNat
      = gfc_widechar_display_length X ((line ++ [0]).getD p 0) - 1 := by omega
  rw [marker_loop_succ, line_at_of_le line p hp, pure_bind_M,
    marker_loop_spaces X line c1 c2 k (i + 1) (p + 1) (by omega) h1 h2]
  rcases hm with ⟨e, em⟩ | ⟨e1, e2, em⟩
  · subst em
    rw [if_pos e, e4, error_char_eq_emit, error_spaces_eq_emit]
    dsimp only
    rw [emit_bind_emit, emit_bind_emit]
    refine congrArg emit ?_
    rw [List.replicate_add]
    rfl
  · subst em
    rw [if_neg e1, if_pos e2, e4, error_char_eq_emit, error_spaces_eq_emit]
    dsimp only
    rw [emit_bind_emit, emit_bind_emit]
    refine congrArg emit ?_
    rw [List.replicate_add]
    rfl

/-- The marker row for two markers at different (reduced) columns `a < b`:
spaces for the characters before column `a`, the marker at `a`, spaces for
the rest of the width of the character at `a` and for the characters
between the two columns, and the marker at `b`. -/
theorem show_locus_markers_two (X : Externals) (lb : gfc_linebuf) (offset : Int) (c1 c2 : Int)
    (a b : Nat) (m1 m2 : Char) (hab : a < b)
    (h : (c1 = a ∧ c2 = b ∧ m1 = '1' ∧ m2 = '2') ∨ (c1 = b ∧ c2 = a ∧ m1 = '2' ∧ m2 = '1'))
    (hb : offset.toNat + b ≤ lb.line.length + 1) :
    show_locus_markers X lb offset c1 c2 b
      = emit (List.replicate (span_width X lb.line offset.toNat a) ' ' ++ m1 ::
          List.replicate
            (gfc_widechar_display_length X ((lb.line ++ [0]).getD (offset.toNat + a) 0) - 1
              + span_width X lb.line (offset.toNat + a + 1) (b - a - 1)) ' '
          ++ [m2, '\n']) := by
  unfold show_locus_markers
  have hsplit : b = a + ((b - a - 1) + 1) := by omega
  have hne1 : ∀ j : Nat, j < a → (0 : Int) + j ≠ c1 := by
    intro j hj
    rcases h with ⟨e, _⟩ | ⟨e, _⟩ <;> rw [e] <;> omega
  have hne2 : ∀ j : Nat, j < a → (0 : Int) + j ≠ c2 := by
    intro j hj
    rcases h with ⟨_, e, _⟩ | ⟨_, e, _⟩ <;> rw [e] <;> omega
  have hn1 : ∀ j : Nat, j < b - a - 1 → (0 : Int) + a + 1 + j ≠ c1 := by
    intro j hj
    rcases h with ⟨e, _⟩ | ⟨e, _⟩ <;> rw [e] <;> omega
  have hn2 : ∀ j : Nat, j < b - a - 1 → (0 : Int) + a + 1 + j ≠ c2 := by
    intro j hj
    rcases h with ⟨_, e, _⟩ | ⟨_, e, _⟩ <;> rw [e] <;> omega
  have hhit : ((0 : Int) + a = c1 ∧ m1 = '1') ∨ ((0 : Int) + a ≠ c1 ∧ (0 : Int) + a = c2 ∧ m1 = '2') := by
    rcases h with ⟨e1, e2, e3, _⟩ | ⟨e1, e2, e3, _⟩
    · left
      exact ⟨by rw [e1]; omega, e3⟩
    · right
      exact ⟨by rw [e1]; omega, by rw [e2]; omega, e3⟩
  rw [Int.toNat_ofNat]
  conv_lhs => rw [hsplit]
  rw [marker_loop_add, marker_loop_spaces X lb.line c1 c2 a 0 offset.toNat (by omega) hne1 hne2,
    marker_loop_hit X lb.line c1 c2 (b - a - 1) (0 + a) (offset.toNat + a) m1 hhit (by omega)
      hn1 hn2]
  rw [← hsplit]
  rcases h with ⟨e1, e2, _, e4⟩ | ⟨e1, e2, _, e4⟩
  · have g1 : ¬ ((b : Int) = c1) := by rw [e1]; omega
    have g2 : (b : Int) = c2 := by rw [e2]
    rw [if_neg g1, if_pos g2, e4]
    simp only [error_char_eq_emit, emit_bind_emit, bind_assoc_M]
    refine congrArg emit ?_
    simp
  · have g1 : (b : Int) = c1 := by rw [e1]
    rw [if_pos g1, e4]
    simp only [error_char_eq_emit, emit_bind_emit, bind_assoc_M]
    refine congrArg emit ?_
    simp

/-- The marker row for the marker '2' alone, at the (reduced) column `k`. -/
theorem show_locus_markers_second (X : Externals) (lb : gfc_linebuf) (offset : Int) (k : Nat)
    (c1 : Int) (hk : offset.toNat + k ≤ lb.line.length + 1) (hc1 : c1 < 0) :
    show_locus_markers X lb offset c1 k k
      = emit (List.replicate (span_width X lb.line offset.toNat k) ' ' ++ ['2', '\n']) := by
  unfold show_locus_markers
  rw [Int.toNat_ofNat, marker_loop_spaces X lb.line c1 k k 0 offset.toNat hk
    (fun j hj => by omega) (fun j hj => by omega)]
  have g1 : ¬ ((k : Int) = c1) := by omega
  rw [if_neg g1, if_pos rfl]
  simp only [error_char_eq_emit, emit_bind_emit]
  refine congrArg emit ?_
  simp

/-- The excerpt, given the marker row: the rendering of a run of
characters of the line from the offset, a newline and the marker row. -/
theorem show_locus_excerpt_run (X : Externals) (lb : gfc_linebuf) (c1 c2 : Int) (s : gfc_state)
    (c2b cmax offset : Int) (row : List Char)
    (h2 : c2b = if c1 = c2 then c2 + 1 else c2)
    (hm : cmax = if c1 < c2b then c2b else c1)
    (ho : offset = locus_offset s.terminal_width cmax)
    (hn : offset.toNat ≤ lb.line.length)
    (hrow : show_locus_markers X lb offset (c1 - offset) (c2b - offset) (cmax - offset)
      = emit row) :
    ∃ n, show_locus_excerpt X lb c1 c2 s
      = emit ((((lb.line.drop offset.toNat).take n).map (render X)).flatten ++ ['\n'] ++ row) s := by
  obtain ⟨n, e1, _, _⟩ := show_locus_line_run X lb offset s.terminal_width hn
  refine ⟨n, ?_⟩
  unfold show_locus_excerpt
  simp only [bind_apply, getState_apply, ← h2, ← hm, ← ho, e1 s rfl, hrow]
  rw [emit_append (_ ++ ['\n']) row s]
  rfl

theorem excerpt_first_alone (X : Externals) (lb : gfc_linebuf) (c : Int) (s : gfc_state)
    (hw : 5 ≤ s.terminal_width) (h0 : 0 ≤ c) (hc : c ≤ lb.line.length) :
    ∃ n x : Nat, show_locus_excerpt X lb c (-1) s
      = emit ((((lb.line.drop (locus_offset s.terminal_width c).toNat).take n).map
          (render X)).flatten ++ ['\n'] ++ (List.replicate x ' ' ++ ['1', '\n'])) s := by
  have hoff : 0 ≤ locus_offset s.terminal_width c ∧ locus_offset s.terminal_width c ≤ c := by
    unfold locus_offset
    split <;> constructor <;> omega
  obtain ⟨k, hk⟩ : ∃ k : Nat, (k : Int) = c - locus_offset s.terminal_width c :=
    ⟨(c - locus_offset s.terminal_width c).toNat, by omega⟩
  have hrow := show_locus_markers_single X lb (locus_offset s.terminal_width c) k
    (-1 - locus_offset s.terminal_width c) (by omega) (by omega)
  rw [hk] at hrow
  obtain ⟨n, e⟩ := show_locus_excerpt_run X lb c (-1) s (-1) c (locus_offset s.terminal_width c) _
    (by rw [if_neg (by omega)]) (by rw [if_neg (by omega)]) rfl (by omega) hrow
  exact ⟨n, _, e⟩

theorem excerpt_second_alone (X : Externals) (lb : gfc_linebuf) (c : Int) (s : gfc_state)
    (hw : 5 ≤ s.terminal_width) (h0 : 0 ≤ c) (hc : c ≤ lb.line.length) :
    ∃ n x : Nat, show_locus_excerpt X lb (-1) c s
      = emit ((((lb.line.drop (locus_offset s.terminal_width c).toNat).take n).map
          (render X)).flatten ++ ['\n'] ++ (List.replicate x ' ' ++ ['2', '\n'])) s := by
  have hoff : 0 ≤ locus_offset s.terminal_width c ∧ locus_offset s.terminal_width c ≤ c := by
    unfold locus_offset
    split <;> constructor <;> omega
  obtain ⟨k, hk⟩ : ∃ k : Nat, (k : Int) = c - locus_offset s.terminal_width c :=
    ⟨(c - locus_offset s.terminal_width c).toNat, by omega⟩
  have hrow := show_locus_markers_second X lb (locus_offset s.terminal_width c) k
    (-1 - locus_offset s.terminal_width c) (by omega) (by omega)
  rw [hk] at hrow
  obtain ⟨n, e⟩ := show_locus_excerpt_run X lb (-1) c s c c (locus_offset s.terminal_width c) _
    (by rw [if_neg (by omega)]) (by rw [if_pos (by omega)]) rfl (by omega) hrow
  exact ⟨n, _, e⟩

theorem excerpt_both (X : Externals) (lb : gfc_linebuf) (c1 c2 : Int) (s : gfc_state)
    (h1 : 0 ≤ c1) (h1b : c1 ≤ lb.line.length) (h2 : 0 ≤ c2) (h2b : c2 ≤ lb.line.length)
    (hm : |c1 - c2| ≤ s.terminal_width - 10) :
    ∃ off n x y : Nat, (off : Int) ≤ c1 ∧ (off : Int) ≤ c2 ∧ show_locus_excerpt X lb c1 c2 s
      = emit ((((lb.line.drop off).take n).map (render X)).flatten ++ ['\n']
          ++ (List.replicate x ' ' ++ (if c1 ≤ c2 then '1' else '2') :: List.replicate y ' '
            ++ [if c1 ≤ c2 then '2' else '1', '\n'])) s := by
  have hm1 := (abs_le.mp hm).1
  have hm2 := (abs_le.mp hm).2
  rcases lt_trichotomy c1 c2 with hlt | heq | hgt
  · -- the first marker is on the left
    have hoff : 0 ≤ locus_offset s.terminal_width c2
        ∧ locus_offset s.terminal_width c2 ≤ c1 := by
      unfold locus_offset
      split <;> constructor <;> omega
    obtain ⟨a, ha⟩ : ∃ a : Nat, (a : Int) = c1 - locus_offset s.terminal_width c2 :=
      ⟨(c1 - locus_offset s.terminal_width c2).toNat, by omega⟩
    obtain ⟨b, hb⟩ : ∃ b : Nat, (b : Int) = c2 - locus_offset s.terminal_width c2 :=
      ⟨(c2 - locus_offset s.terminal_width c2).toNat, by omega⟩
    obtain ⟨x, y, hrow⟩ : ∃ x y : Nat, _ = emit (List.replicate x ' ' ++ _ :: List.replicate y ' ' ++ [_, '\n']) := ⟨_, _, show_locus_markers_two X lb (locus_offset s.terminal_width c2)
      (c1 - locus_offset s.terminal_width c2) (c2 - locus_offset s.terminal_width c2) a b '1' '2'
      (by omega) (Or.inl ⟨ha.symm, hb.symm, rfl, rfl⟩) (by omega)⟩
    rw [hb] at hrow
    obtain ⟨n, e⟩ := show_locus_excerpt_run X lb c1 c2 s c2 c2 (locus_offset s.terminal_width c2) _
      (by rw [if_neg (by omega)]) (by rw [if_pos hlt]) rfl (by omega) hrow
    refine ⟨(locus_offset s.terminal_width c2).toNat, n, x, y, by omega, by omega, ?_⟩
    rw [e, if_pos (le_of_lt hlt), if_pos (le_of_lt hlt)]
  · -- both markers at the same column
    subst heq
    have hoff : 0 ≤ locus_offset s.terminal_width (c1 + 1)
        ∧ locus_offset s.terminal_width (c1 + 1) ≤ c1 := by
      unfold locus_offset
      split <;> constructor <;> omega
    obtain ⟨a, ha⟩ : ∃ a : Nat, (a : Int) = c1 - locus_offset s.terminal_width (c1 + 1) :=
      ⟨(c1 - locus_offset s.terminal_width (c1 + 1)).toNat, by omega⟩
    obtain ⟨x, y, hrow⟩ : ∃ x y : Nat, _ = emit (List.replicate x ' ' ++ _ :: List.replicate y ' ' ++ [_, '\n']) := ⟨_, _, show_locus_markers_two X lb (locus_offset s.terminal_width (c1 + 1))
      (c1 - locus_offset s.terminal_width (c1 + 1))
      (c1 + 1 - locus_offset s.terminal_width (c1 + 1)) a (a + 1) '1' '2'
      (by omega) (Or.inl ⟨ha.symm, by push_cast; omega, rfl, rfl⟩) (by omega)⟩
    have hb : ((a + 1 : Nat) : Int) = c1 + 1 - locus_offset s.terminal_width (c1 + 1) := by
      push_cast
      omega
    rw [hb] at hrow
    obtain ⟨n, e⟩ := show_locus_excerpt_run X lb c1 c1 s (c1 + 1) (c1 + 1)
      (locus_offset s.terminal_width (c1 + 1)) _
      (by rw [if_pos rfl]) (by rw [if_pos (by omega)]) rfl (by omega) hrow
    refine ⟨(locus_offset s.terminal_width (c1 + 1)).toNat, n, x, y, by omega, by omega, ?_⟩
    rw [e, if_pos (le_refl _), if_pos (le_refl _)]
  · -- the second marker is on the left
    have hoff : 0 ≤ locus_offset s.terminal_width c1
        ∧ locus_offset s.terminal_width c1 ≤ c2 := by
      unfold locus_offset
      split <;> constructor <;> omega
    obtain ⟨a, ha⟩ : ∃ a : Nat, (a : Int) = c2 - locus_offset s.terminal_width c1 :=
      ⟨(c2 - locus_offset s.terminal_width c1).toNat, by omega⟩
    obtain ⟨b, hb⟩ : ∃ b : Nat, (b : Int) = c1 - locus_offset s.terminal_width c1 :=
      ⟨(c1 - locus_offset s.terminal_width c1).toNat, by omega⟩
    obtain ⟨x, y, hrow⟩ : ∃ x y : Nat, _ = emit (List.replicate x ' ' ++ _ :: List.replicate y ' ' ++ [_, '\n']) := ⟨_, _, show_locus_markers_two X lb (locus_offset s.terminal_width c1)
      (c1 - locus_offset s.terminal_width c1) (c2 - locus_offset s.terminal_width c1) a b '2' '1'
      (by omega) (Or.inr ⟨hb.symm, ha.symm, rfl, rfl⟩) (by omega)⟩
    rw [hb] at hrow
    obtain ⟨n, e⟩ := show_locus_excerpt_run X lb c1 c2 s c2 c1 (locus_offset s.terminal_width c1) _
      (by rw [if_neg (by omega)]) (by rw [if_neg (by omega)]) rfl (by omega) hrow
    refine ⟨(locus_offset s.terminal_width c1).toNat, n, x, y, by omega, by omega, ?_⟩
    rw [e, if_neg (by omega), if_neg (by omega)]

theorem conv_none (cur : locus) :
    conv_loop cur Scan.init.arg_type (Scan.init.maxpos + 1).toNat 0
        { arg_u := List.replicate MAX_ARGS .unset, have_l1 := false, l1 := none, l2 := none,
          argp := [] }
      = .ok { arg_u := List.replicate MAX_ARGS .unset, have_l1 := false, l1 := none, l2 := none,
              argp := [] } := rfl

theorem copy_none :
    copy_loop Scan.init.spec_pos (List.replicate MAX_ARGS UVal.unset) (MAX_ARGS + 1) 0
        (List.replicate MAX_ARGS .unset)
      = .ok (List.replicate MAX_ARGS .unset) := rfl

theorem error_printf_placeholder :
    error_printf "<During initialization>\n".toList [] = emit "<During initialization>\n\n".toList := by
  unfold error_printf error_print_with
  rw [show cstr "<During initialization>\n".toList = "<During initialization>\n".toList from rfl]
  dsimp only
  rw [show scan ("<During initialization>\n".toList.length + 1) "<During initialization>\n".toList
      Scan.init = .ok Scan.init from rfl]
  have hp : print_loop ("<During initialization>\n".toList.length + 1)
      "<During initialization>\n".toList 0 (List.replicate MAX_ARGS .unset)
      = emit "<During initialization>\n".toList := by
    simp [print_loop, error_char_eq_emit, emit_bind_emit, emit_bind_emit_bind, bind_assoc_M,
      emit_bind_pure]
  funext s
  simp only [liftE, pure_bind_M, bind_apply, getState_apply, pure_apply, conv_none, copy_none,
    Bool.false_eq_true, if_false, hp]
  rw [if_neg (by decide), error_char_eq_emit, emit_bind_emit]
  rfl

theorem show_loci_placeholder (X : Externals) (l1 l2 : Option locus)
    (h : l1 = none ∨ ∃ loc1, l1 = some loc1 ∧ loc1.lb = none) :
    show_loci X l1 l2 = emit "<During initialization>\n\n".toList := by
  unfold show_loci
  rcases h with h | ⟨loc1, h, hlb⟩
  · subst h
    exact error_printf_placeholder
  · subst h
    simp only [hlb]
    exact error_printf_placeholder

/-! ## The decimal text of `error_integer` -/

/-- C21: for every value `i` of the type `long`, `error_integer` emits the
decimal representation of `i`: for `i < 0` a single '-' followed by the
decimal digits of the magnitude of `i`, for `0 ≤ i` the digits of `i` with
no sign; the digits lie between '0' and '9' and, read as a decimal number,
give the magnitude back. For the most negative value, whose negation is
reduced modulo `2^64`, the text is "-9223372036854775808". -/
theorem error_integer_decimal (i : Int) (h1 : -(2 : Int) ^ 63 ≤ i) (h2 : i < 2 ^ 63) :
    (i < 0 → error_integer i = emit ('-' :: Nat.toDigits 10 i.natAbs))
    ∧ (0 ≤ i → error_integer i = emit (Nat.toDigits 10 i.natAbs))
    ∧ (∀ d ∈ Nat.toDigits 10 i.natAbs, '0' ≤ d ∧ d ≤ '9')
    ∧ decimal_value (Nat.toDigits 10 i.natAbs) = i.natAbs
    ∧ error_integer (-(2 : Int) ^ 63) = emit "-9223372036854775808".toList := by
  refine ⟨?_, ?_, toDigits_range _, toDigits_value _, ?_⟩
  · intro hi
    rw [error_integer_eq_emit i h1 h2, int_text, if_pos hi]
    have : (-i).toNat = i.natAbs := by omega
    rw [this]
  · intro hi
    rw [error_integer_eq_emit i h1 h2, int_text, if_neg (not_lt.mpr hi)]
    have : i.toNat = i.natAbs := by omega
    rw [this]
  · rw [error_integer_eq_emit _ (le_refl _) (by norm_num)]
    exact congrArg emit (by decide)

/-- C21, witness: the most negative value of the type `long`. -/
theorem error_integer_decimal_witness :
    -(2 : Int) ^ 63 ≤ -(2 : Int) ^ 63 ∧ -(2 : Int) ^ 63 < 2 ^ 63
      ∧ error_integer (-(2 : Int) ^ 63) = emit ('-' :: Nat.toDigits 10 (2 ^ 63)) :=
  ⟨le_refl _, by norm_num,
    (error_integer_decimal (-(2 : Int) ^ 63) (le_refl _) (by norm_num)).1 (by norm_num)⟩


/-! ## Internal errors -/

/-- What `gfc_internal_error` does, by the total of errors and by what the
diagnostics machinery does with an internal compiler error. -/
theorem internal_error_apply {α : Type} (X : Externals) (gmsgid : List Char)
    (argp : List VaArg) (s : gfc_state) :
    (gfc_internal_error X gmsgid argp : M α) s
      = if 0 < s.errors + s.w.errorcount + s.w.sorrycount + s.w.werrorcount
        then .stop (.exit .EXIT_FAILURE) s
        else match X.report_diagnostic .DK_ICE gmsgid argp 0 s.w with
          | .ok (_, w1) => .stop .unreachable { s with w := w1 }
          | .error (r, w1) => .stop r { s with w := w1 } := by
  unfold gfc_internal_error
  have hg : gfc_get_errors s
        = .ok (s.warnings + s.w.warningcount + s.w.werrorcount,
               s.errors + s.w.errorcount + s.w.sorrycount + s.w.werrorcount) s := rfl
  simp only [bind_apply, hg]
  by_cases he : 0 < s.errors + s.w.errorcount + s.w.sorrycount + s.w.werrorcount
  · rw [if_pos he, if_pos he]
    rfl
  · rw [if_neg he, if_neg he]
    simp only [pure_apply, bind_apply, liftW]
    cases h : X.report_diagnostic .DK_ICE gmsgid argp 0 s.w with
    | ok a => rfl
    | error e => rfl

/-- C26: `gfc_internal_error` never returns to its caller, in any state. If
the total of errors that `gfc_get_errors` reports is greater than 0 it ends
the process with `EXIT_FAILURE` and the state is as it was: nothing is
emitted. Otherwise it hands the message to the diagnostics machinery as an
internal compiler error and stops: with `gcc_unreachable` when the machinery
comes back, and as the machinery stops when it does not. -/
theorem internal_error_never_returns {α : Type} (X : Externals) (gmsgid : List Char)
    (argp : List VaArg) (s : gfc_state) :
    (∃ r s1, (gfc_internal_error X gmsgid argp : M α) s = .stop r s1)
    ∧ (∀ we, gfc_get_errors s = .ok we s → 0 < we.2 →
        (gfc_internal_error X gmsgid argp : M α) s = .stop (.exit .EXIT_FAILURE) s)
    ∧ (∀ we, gfc_get_errors s = .ok we s → ¬ 0 < we.2 →
        (∀ d w1, X.report_diagnostic .DK_ICE gmsgid argp 0 s.w = .ok (d, w1) →
          (gfc_internal_error X gmsgid argp : M α) s = .stop .unreachable { s with w := w1 })
        ∧ (∀ r w1, X.report_diagnostic .DK_ICE gmsgid argp 0 s.w = .error (r, w1) →
          (gfc_internal_error X gmsgid argp : M α) s = .stop r { s with w := w1 }))
    ∧ gfc_get_errors s
        = .ok (s.warnings + s.w.warningcount + s.w.werrorcount,
               s.errors + s.w.errorcount + s.w.sorrycount + s.w.werrorcount) s := by
  have hg : gfc_get_errors s
        = .ok (s.warnings + s.w.warningcount + s.w.werrorcount,
               s.errors + s.w.errorcount + s.w.sorrycount + s.w.werrorcount) s := rfl
  refine ⟨?_, ?_, ?_, hg⟩
  · rw [internal_error_apply]
    split
    · exact ⟨_, _, rfl⟩
    · split <;> exact ⟨_, _, rfl⟩
  · intro we hw he
    rw [hg] at hw
    cases hw
    rw [internal_error_apply, if_pos he]
  · intro we hw he
    rw [hg] at hw
    cases hw
    constructor
    · intro d w1 h
      rw [internal_error_apply, if_neg he, h]
    · intro r w1 h
      rw [internal_error_apply, if_neg he, h]


/-! ## Counting a warning reported at once -/

/-- What `gfc_warning_1` does in immediate mode once its text is printed. -/
theorem warning_1_immediate (X : Externals) (gmsgid : List Char) (argp : List VaArg)
    (s sp : gfc_state) (himm : s.buffered_p = false) (hinh : s.w.inhibit_warnings = false)
    (hp : error_print X "Warning:".toList gmsgid argp (started .warning_buffer s) = .ok () sp) :
    gfc_warning_1 X gmsgid argp s
      = if s.w.warnings_are_errors
        then gfc_increment_error_count X { sp with warnings := s.warnings + 1 }
        else .ok () { sp with warnings := s.warnings + 1 } := by
  have hf := emitted_frame _ _ ((keeps_error_print X "Warning:".toList gmsgid argp).ok hp)
  have hb : sp.buffered_p = false := by rw [hf]; simpa using himm
  have hw : sp.warnings = s.warnings := by rw [hf]; rfl
  have hwe : sp.w.warnings_are_errors = s.w.warnings_are_errors := by rw [hf]; rfl
  unfold gfc_warning_1 warning_1_body
  generalize "Warning:".toList = ty at hp ⊢
  simp only [bind_apply, getState_apply, hinh, Bool.false_eq_true, if_false,
    start_buffer_apply, hp, error_char_immediate NUL sp hb, bne_self_eq_false, hb,
    not_false_eq_true, if_true, modifyState_apply, hw, hwe]
  split
  · rfl
  · rfl

/-- C30: a warning that `gfc_warning_1` reports in immediate mode, warnings
not being inhibited and the text being printed, raises the warning counter
by exactly 1. When warnings are not treated as errors the call returns with
the error counter as it was. When they are, the error counter is raised by
exactly 1 and the ceiling is checked: the call returns when the ceiling is 0
or above the new count, and otherwise ends in `gfc_fatal_error` with the
message "Error count reached limit of %d.". The text of every message
without a conversion specifier is printed. -/
theorem immediate_warning_counts (X : Externals) (gmsgid : List Char) (argp : List VaArg)
    (s : gfc_state) (himm : s.buffered_p = false) (hinh : s.w.inhibit_warnings = false) :
    (∀ sp,
      error_print X "Warning:".toList gmsgid argp (started .warning_buffer s) = .ok () sp →
      sp.warnings = s.warnings ∧ sp.errors = s.errors
      ∧ (s.w.warnings_are_errors = false →
          gfc_warning_1 X gmsgid argp s = .ok () { sp with warnings := s.warnings + 1 })
      ∧ (s.w.warnings_are_errors = true →
          gfc_warning_1 X gmsgid argp s
            = gfc_increment_error_count X { sp with warnings := s.warnings + 1 })
      ∧ (s.w.warnings_are_errors = true →
          ¬ (s.w.max_errors ≠ 0 ∧ s.errors + 1 ≥ s.w.max_errors) →
          gfc_warning_1 X gmsgid argp s
            = .ok () { sp with warnings := s.warnings + 1, errors := s.errors + 1 })
      ∧ (s.w.warnings_are_errors = true →
          s.w.max_errors ≠ 0 ∧ s.errors + 1 ≥ s.w.max_errors →
          gfc_warning_1 X gmsgid argp s
            = gfc_fatal_error X "Error count reached limit of %d.".toList [.int s.w.max_errors]
                { sp with warnings := s.warnings + 1, errors := s.errors + 1 }))
    ∧ ('%' ∉ cstr gmsgid →
        ∃ sp, error_print X "Warning:".toList gmsgid argp (started .warning_buffer s)
          = .ok () sp) := by
  refine ⟨?_, fun hplain => ?_⟩
  rotate_left
  · obtain ⟨_, sp, e, _⟩ := returns_error_print_plain X "Warning:".toList gmsgid argp hplain
      (started .warning_buffer s) himm
    exact ⟨sp, e⟩
  intro sp hp
  have hf := emitted_frame _ _ ((keeps_error_print X "Warning:".toList gmsgid argp).ok hp)
  have hw : sp.warnings = s.warnings := by rw [hf]; rfl
  have he : sp.errors = s.errors := by rw [hf]; rfl
  have hm : sp.w.max_errors = s.w.max_errors := by rw [hf]; rfl
  have h := warning_1_immediate X gmsgid argp s sp himm hinh hp
  refine ⟨hw, he, ?_, ?_, ?_, ?_⟩
  · intro hwe
    rw [h, hwe]
    rfl
  · intro hwe
    rw [h, hwe]
    rfl
  · intro hwe hc
    rw [h, hwe, increment_apply]
    simp only [if_true]
    rw [if_neg (by simpa only [hm, he] using hc)]
    simp only [he]
  · intro hwe hc
    rw [h, hwe, increment_apply]
    simp only [if_true]
    rw [if_pos (by simpa only [hm, he] using hc)]
    simp only [he, hm]

/-- C30, witness: the warning "unused variable" reported in the sample state
with warnings treated as errors and no ceiling; both counters go from 0 to
1. -/
theorem immediate_warning_counts_witness :
    (gfc_warning_1 sample_externals "unused variable".toList [] werror_state).state.warnings = 1
    ∧ (gfc_warning_1 sample_externals "unused variable".toList [] werror_state).state.errors = 1
    ∧ (gfc_warning_1 sample_externals "unused variable".toList [] werror_state).state.w.stderr
        = "Warning: unused variable\n".toList :=
  have h := ((immediate_warning_counts sample_externals "unused variable".toList []
    werror_state rfl rfl).1 (error_print sample_externals "Warning:".toList "unused variable".toList []
      (started .warning_buffer werror_state)).state (by decide!)).2.2.2.2.1 rfl
      (by decide)
  ⟨by rw [h]; rfl, by rw [h]; rfl, by rw [h]; decide!⟩


/-! ## An error reported in buffered mode -/

/-- What printing a report and its final NUL leaves in buffered mode: the
text printed and a NUL at the start of the buffer selected, the flag set,
and nothing else changed. -/
theorem print_buffered (X : Externals) (ty gmsgid : List Char) (argp : List VaArg)
    (sel : BufSel) (s sb sc : gfc_state) (hbuf : s.buffered_p = true)
    (hp : error_print X ty gmsgid argp (started sel s) = .ok () sb)
    (hn : error_char NUL sb = .ok () sc) :
    ∃ text rest b1, emit text (started sel s) = .ok () sb
      ∧ sc = (started sel s).setBuf sel b1
      ∧ b1.message = some (strBytes text ++ rest) ∧ b1.index = text.length + 1
      ∧ b1.flag = 1 := by
  obtain ⟨cs, hcs⟩ := (keeps_error_print X ty gmsgid argp).ok hp
  have hall : emit (cs ++ [NUL]) (started sel s) = .ok () sc := by
    rw [emit_append, bind_ok hcs]
    simp [emit, hn]
  obtain ⟨b1, e, j1, j2, j3, j4⟩ := emit_buffered (cs ++ [NUL]) _ _ sel []
    ((s.buf sel).message.getD []) (by simpa using hbuf) (by simp [started])
    (by cases sel <;> simp [started, gfc_state.buf, gfc_state.setBuf])
    (by cases sel <;> simp [started, gfc_state.buf, gfc_state.setBuf]) hall
  have hm : b1.message = some (strBytes cs ++ List.drop (cs.length + 1)
      ((s.buf sel).message.getD [])) := by
    cases hb1 : b1.message with
    | none => exact absurd hb1 (j4 (by simp))
    | some m =>
      rw [hb1] at j2
      simp only [Option.getD_some] at j2
      rw [j2]
      simp [strBytes]
  refine ⟨cs, _, b1, hcs, e, hm, by simpa using j1, ?_⟩
  rw [j3]
  cases sel <;> rfl

/-! ## Features of a standard -/

/-- What `gfc_notify_std_1` does once the feature is found not to be
silently accepted, with suppression depth 0: the statements from the choice
of the buffer on, `warning` being the value of its local variable. -/
theorem notify_std_report (X : Externals) (std : Nat) (gmsgid : List Char)
    (argp : List VaArg) (s : gfc_state) (warning : Bool)
    (hw : (decide ((s.w.warn_std &&& std) ≠ 0) && ! s.w.inhibit_warnings) = warning)
    (hA : ¬ ((s.w.allow_std &&& std) ≠ 0 ∧ ¬ (warning = true)))
    (hsup : s.suppress_errors = 0) :
    gfc_notify_std_1 X std gmsgid argp s = (do
      let msg1 : List Char := if warning then "Warning:".toList else "Error:".toList
      let msg2 ← std_text X std
      let buffer := cstr msg1 ++ " ".toList ++ cstr msg2
      error_print X buffer gmsgid argp
      error_char NUL
      let s1 ← getState
      if ¬ s1.buffered_p then do
        if warning ∧ ¬ s.w.warnings_are_errors then
          modifyState (fun s => { s with warnings := s.warnings + 1 })
        else
          gfc_increment_error_count X
        modifyState (fun s => s.setBuf (if warning then .warning_buffer else .error_buffer)
          { s.buf (if warning then .warning_buffer else .error_buffer) with flag := 0 })
      pure (warning && ! s.w.warnings_are_errors))
      (started (if warning then .warning_buffer else .error_buffer) s) := by
  unfold gfc_notify_std_1
  simp only [bind_apply, getState_apply]
  rw [hw, if_neg hA, if_neg (show ¬ s.suppress_errors ≠ 0 by simp [hsup])]
  cases warning <;> rfl

/-- C25: with suppression depth 0, for every pair of bitmasks of the allowed
and the warned standards, every setting of `inhibit_warnings` and every flag
`std`, `gfc_notify_std_1` routes as `gfc_notification_std (std)` says, which
always returns one of the three results and changes nothing. When the result
is SILENT the call returns true and the state is as it was. When it is
WARNING the call starts a report in the warning buffer and prints with the
label "Warning:" before the text that names the standard; in immediate mode
it counts a warning, or an error when warnings are treated as errors. When
it is ERROR the call starts a report in the error buffer and prints with the
label "Error:"; in immediate mode it counts an error and returns false. -/
theorem notify_std_routes (X : Externals) (std : Nat) (gmsgid : List Char)
    (argp : List VaArg) (s : gfc_state) (hsup : s.suppress_errors = 0) :
    ∃ n, gfc_notification_std std s = .ok n s
      ∧ (n = .SILENT → gfc_notify_std_1 X std gmsgid argp s = .ok true s)
      ∧ (n = .WARNING → gfc_notify_std_1 X std gmsgid argp s = (do
          let msg2 ← std_text X std
          error_print X ("Warning: ".toList ++ cstr msg2) gmsgid argp
          error_char NUL
          let s1 ← getState
          if ¬ s1.buffered_p then do
            if s.w.warnings_are_errors then gfc_increment_error_count X
            else modifyState (fun s => { s with warnings := s.warnings + 1 })
            modifyState (fun s => { s with warning_buffer := { s.warning_buffer with flag := 0 } })
          pure (! s.w.warnings_are_errors)) (started .warning_buffer s))
      ∧ (n = .ERROR → gfc_notify_std_1 X std gmsgid argp s = (do
          let msg2 ← std_text X std
          error_print X ("Error: ".toList ++ cstr msg2) gmsgid argp
          error_char NUL
          let s1 ← getState
          if ¬ s1.buffered_p then do
            gfc_increment_error_count X
            modifyState (fun s => { s with error_buffer := { s.error_buffer with flag := 0 } })
          pure false) (started .error_buffer s)) := by
  unfold gfc_notification_std
  simp only [bind_apply, getState_apply]
  by_cases hA : (s.w.allow_std &&& std) ≠ 0
      ∧ ¬ ((decide ((s.w.warn_std &&& std) ≠ 0) && ! s.w.inhibit_warnings) = true)
  · rw [if_pos hA]
    refine ⟨.SILENT, rfl, fun _ => ?_, (fun h => nomatch h), (fun h => nomatch h)⟩
    unfold gfc_notify_std_1
    simp only [bind_apply, getState_apply]
    rw [if_pos hA]
    rfl
  · rw [if_neg hA]
    cases hw : (decide ((s.w.warn_std &&& std) ≠ 0) && ! s.w.inhibit_warnings)
    · refine ⟨.ERROR, rfl, (fun h => nomatch h), (fun h => nomatch h), fun _ => ?_⟩
      rw [notify_std_report X std gmsgid argp s false hw (by rw [hw] at hA; exact hA) hsup]
      rfl
    · refine ⟨.WARNING, rfl, (fun h => nomatch h), fun _ => ?_, (fun h => nomatch h)⟩
      rw [notify_std_report X std gmsgid argp s true hw (by rw [hw] at hA; exact hA) hsup]
      cases hwe : s.w.warnings_are_errors <;> rfl

/-- C25, witness: the sample state with Fortran 2003 features allowed and
warned about; a feature of Fortran 2003 is reported as a warning, at once,
and the call returns true. -/
theorem notify_std_routes_witness :
    gfc_notification_std 16 std_warn_state = .ok .WARNING std_warn_state
    ∧ (gfc_notify_std_1 sample_externals 16 "ASSOCIATE construct".toList []
        std_warn_state).state.w.stderr
      = "Warning: Fortran 2003: ASSOCIATE construct\n".toList
    ∧ (gfc_notify_std_1 sample_externals 16 "ASSOCIATE construct".toList []
        std_warn_state).state.warnings = 1
    ∧ (∃ n, gfc_notification_std 16 std_warn_state = .ok n std_warn_state
      ∧ (n = .SILENT → gfc_notify_std_1 sample_externals 16 "ASSOCIATE construct".toList []
          std_warn_state = .ok true std_warn_state)) :=
  ⟨by decide!, by decide!, by decide!,
    (notify_std_routes sample_externals 16 "ASSOCIATE construct".toList [] std_warn_state
      rfl).imp (fun _ h => ⟨h.1, h.2.1⟩)⟩


/-! ## The two counters never decrease -/

instance : Frame CountersGrow where
  refl := fun _ => ⟨le_refl _, le_refl _⟩
  trans := fun h1 h2 => ⟨le_trans h1.1 h2.1, le_trans h1.2 h2.2⟩

instance : Frame CountersKept where
  refl := fun _ => ⟨rfl, rfl⟩
  trans := fun h1 h2 => ⟨h2.1.trans h1.1, h2.2.trans h1.2⟩

theorem grow_of_eq (s s1 : gfc_state) (h1 : s1.errors = s.errors)
    (h2 : s1.warnings = s.warnings) : CountersGrow s s1 :=
  ⟨le_of_eq h1.symm, le_of_eq h2.symm⟩

theorem grow_of_kept (s s1 : gfc_state) (h : CountersKept s s1) : CountersGrow s s1 :=
  grow_of_eq s s1 h.1 h.2

theorem grow_errors_succ (s : gfc_state) :
    CountersGrow s { s with errors := s.errors + 1 } :=
  ⟨by show s.errors ≤ s.errors + 1; omega, le_refl _⟩

theorem grow_warnings_succ (s : gfc_state) :
    CountersGrow s { s with warnings := s.warnings + 1 } :=
  ⟨le_refl _, by show s.warnings ≤ s.warnings + 1; omega⟩

theorem emitted_countersGrow (s s1 : gfc_state) (h : Emitted s s1) : CountersGrow s s1 := by
  have e := emitted_frame s s1 h
  rw [e]
  exact grow_of_eq _ _ rfl rfl

theorem grow_of_emitted {α : Type} {m : M α} (h : Keeps Emitted m) : Keeps CountersGrow m :=
  h.mono emitted_countersGrow

theorem grow_liftW {α : Type} (f : world → Except (Stop × world) (α × world)) :
    Keeps CountersGrow (liftW f) := by
  intro s
  unfold liftW
  split <;> exact grow_of_eq _ _ rfl rfl

theorem grow_modifyWorld (f : world → world) : Keeps CountersGrow (modifyWorld f) :=
  fun _ => grow_of_eq _ _ rfl rfl

theorem grow_setBuf (s : gfc_state) (sel : BufSel) (b : gfc_error_buf) :
    CountersGrow s (s.setBuf sel b) := by
  cases sel <;> exact grow_of_eq _ _ rfl rfl

theorem grow_error_print (X : Externals) (type format0 : List Char) (argp : List VaArg) :
    Keeps CountersGrow (error_print X type format0 argp) :=
  grow_of_emitted (keeps_error_print X type format0 argp)

theorem grow_error_char (c : Char) : Keeps CountersGrow (error_char c) :=
  grow_of_emitted (keeps_error_char c)

theorem grow_fatal_error {α : Type} (X : Externals) (gmsgid : List Char) (argp : List VaArg) :
    Keeps CountersGrow (gfc_fatal_error X gmsgid argp : M α) :=
  keeps_bind (grow_liftW _) (fun _ => keeps_halt _)

theorem grow_increment_error_count (X : Externals) :
    Keeps CountersGrow (gfc_increment_error_count X) := by
  unfold gfc_increment_error_count
  repeat' (first
    | with_reducible exact keeps_pure _
    | with_reducible exact keeps_getState
    | with_reducible exact grow_fatal_error _ _ _
    | (with_reducible refine keeps_modifyState _ ?_) <;> intro _ <;>
      (first | exact grow_of_eq _ _ rfl rfl | exact grow_errors_succ _)
    | with_reducible refine keeps_bind ?_ (fun _ => ?_)
    | with_reducible refine keeps_ite _ ?_ ?_)

theorem grow_clear_pp_buffer (b : output_buffer) : Keeps CountersGrow (gfc_clear_pp_buffer b) :=
  keeps_bind (grow_modifyWorld _) (fun _ => keeps_pure _)

theorem grow_clear_pp_warning_buffer : Keeps CountersGrow clear_pp_warning_buffer := by
  unfold clear_pp_warning_buffer
  repeat' (first
    | with_reducible exact keeps_getState
    | with_reducible exact grow_clear_pp_buffer _
    | with_reducible exact grow_modifyWorld _
    | with_reducible refine keeps_bind ?_ (fun _ => ?_))

theorem grow_clear_pp_error_buffer : Keeps CountersGrow clear_pp_error_buffer := by
  unfold clear_pp_error_buffer
  repeat' (first
    | with_reducible exact keeps_getState
    | with_reducible exact grow_clear_pp_buffer _
    | with_reducible exact grow_modifyWorld _
    | with_reducible refine keeps_bind ?_ (fun _ => ?_))

theorem grow_start_buffer (sel : BufSel) : Keeps CountersGrow (start_buffer sel) := by
  intro s
  cases sel <;> exact grow_of_eq _ _ rfl rfl

theorem grow_warning_1_body (X : Externals) (gmsgid : List Char) (argp : List VaArg) :
    Keeps CountersGrow (warning_1_body X gmsgid argp) := by
  unfold warning_1_body
  repeat' (first
    | with_reducible exact keeps_pure _
    | with_reducible exact keeps_getState
    | with_reducible exact grow_start_buffer _
    | with_reducible exact grow_error_print _ _ _ _
    | with_reducible exact grow_error_char _
    | with_reducible exact grow_increment_error_count _
    | (with_reducible refine keeps_modifyState _ ?_) <;> intro _ <;>
      (first | exact grow_of_eq _ _ rfl rfl | exact grow_errors_succ _ | exact grow_warnings_succ _)
    | with_reducible refine keeps_bind ?_ (fun _ => ?_)
    | with_reducible refine keeps_ite _ ?_ ?_)

theorem grow_clear_warning : Keeps CountersGrow gfc_clear_warning := by
  unfold gfc_clear_warning
  repeat' (first
    | with_reducible exact grow_clear_pp_warning_buffer
    | (with_reducible refine keeps_modifyState _ ?_) <;> intro _ <;>
      exact grow_of_eq _ _ rfl rfl
    | with_reducible refine keeps_bind ?_ (fun _ => ?_))

theorem grow_fputs_message (m : Mem) : Keeps CountersGrow (fputs_message m) := by
  unfold fputs_message
  split
  · exact keeps_halt _
  · exact keeps_modifyState _ (fun _ => grow_of_eq _ _ rfl rfl)

theorem grow_pp_really_flush_warning : Keeps CountersGrow pp_really_flush_warning :=
  grow_modifyWorld _

theorem grow_pp_really_flush_error : Keeps CountersGrow pp_really_flush_error :=
  grow_modifyWorld _

theorem grow_warning_check (X : Externals) : Keeps CountersGrow (gfc_warning_check X) := by
  unfold gfc_warning_check
  repeat' (first
    | with_reducible exact keeps_exit _
    | with_reducible exact grow_pp_really_flush_warning
    | with_reducible exact grow_pp_really_flush_error
    | with_reducible exact keeps_pure _
    | with_reducible exact keeps_getState
    | with_reducible exact grow_fputs_message _
    | with_reducible exact grow_clear_warning
    | with_reducible exact grow_modifyWorld _
    | with_reducible exact grow_liftW _
    | with_reducible exact keeps_gcc_assert _
    | (with_reducible refine keeps_modifyState _ ?_) <;> intro _ <;>
      (first | exact grow_of_eq _ _ rfl rfl | exact grow_errors_succ _ | exact grow_warnings_succ _)
    | with_reducible refine keeps_bind ?_ (fun _ => ?_)
    | with_reducible refine keeps_ite _ ?_ ?_
    | split)

theorem grow_error_1 (X : Externals) (gmsgid : List Char) (argp : List VaArg) :
    Keeps CountersGrow (gfc_error_1 X gmsgid argp) := by
  unfold gfc_error_1
  repeat' (first
    | with_reducible exact keeps_pure _
    | with_reducible exact keeps_getState
    | with_reducible exact grow_start_buffer _
    | with_reducible exact grow_error_print _ _ _ _
    | with_reducible exact grow_error_char _
    | with_reducible exact grow_increment_error_count _
    | (with_reducible refine keeps_modifyState _ ?_) <;> intro _ <;>
      (first | exact grow_of_eq _ _ rfl rfl | exact grow_errors_succ _ | exact grow_warnings_succ _)
    | with_reducible refine keeps_bind ?_ (fun _ => ?_)
    | with_reducible refine keeps_ite _ ?_ ?_)

theorem grow_warning_now_1 (X : Externals) (gmsgid : List Char) (argp : List VaArg) :
    Keeps CountersGrow (gfc_warning_now_1 X gmsgid argp) := by
  unfold gfc_warning_now_1
  repeat' (first
    | with_reducible exact keeps_pure _
    | with_reducible exact keeps_getState
    | with_reducible exact grow_error_print _ _ _ _
    | with_reducible exact grow_error_char _
    | with_reducible exact grow_increment_error_count _
    | (with_reducible refine keeps_modifyState _ ?_) <;> intro _ <;>
      (first | exact grow_of_eq _ _ rfl rfl | exact grow_errors_succ _ | exact grow_warnings_succ _)
    | with_reducible refine keeps_bind ?_ (fun _ => ?_)
    | with_reducible refine keeps_ite _ ?_ ?_)

theorem grow_error_now_1 (X : Externals) (gmsgid : List Char) (argp : List VaArg) :
    Keeps CountersGrow (gfc_error_now_1 X gmsgid argp) := by
  unfold gfc_error_now_1
  repeat' (first
    | with_reducible exact keeps_exit _
    | with_reducible exact grow_pp_really_flush_warning
    | with_reducible exact grow_pp_really_flush_error
    | with_reducible exact keeps_pure _
    | with_reducible exact keeps_halt _
    | with_reducible exact keeps_getState
    | with_reducible exact grow_start_buffer _
    | with_reducible exact grow_error_print _ _ _ _
    | with_reducible exact grow_error_char _
    | with_reducible exact grow_increment_error_count _
    | (with_reducible refine keeps_modifyState _ ?_) <;> intro _ <;>
      exact grow_of_eq _ _ rfl rfl
    | with_reducible refine keeps_bind ?_ (fun _ => ?_)
    | with_reducible refine keeps_ite _ ?_ ?_)

theorem grow_clear_error : Keeps CountersGrow gfc_clear_error := by
  unfold gfc_clear_error
  repeat' (first
    | with_reducible exact grow_clear_pp_error_buffer
    | (with_reducible refine keeps_modifyState _ ?_) <;> intro _ <;>
      exact grow_of_eq _ _ rfl rfl
    | with_reducible refine keeps_bind ?_ (fun _ => ?_))

theorem grow_error_check (X : Externals) : Keeps CountersGrow (gfc_error_check X) := by
  unfold gfc_error_check
  repeat' (first
    | with_reducible exact keeps_exit _
    | with_reducible exact grow_pp_really_flush_warning
    | with_reducible exact grow_pp_really_flush_error
    | with_reducible exact keeps_pure _
    | with_reducible exact keeps_halt _
    | with_reducible exact keeps_getState
    | with_reducible exact grow_fputs_message _
    | with_reducible exact grow_clear_pp_error_buffer
    | with_reducible exact grow_increment_error_count _
    | with_reducible exact grow_modifyWorld _
    | with_reducible exact grow_liftW _
    | with_reducible exact keeps_gcc_assert _
    | (with_reducible refine keeps_modifyState _ ?_) <;> intro _ <;>
      exact grow_of_eq _ _ rfl rfl
    | with_reducible refine keeps_bind ?_ (fun _ => ?_)
    | with_reducible refine keeps_ite _ ?_ ?_
    | split)

theorem grow_move_output_buffer (from_buf to_buf : output_buffer) :
    Keeps CountersGrow (gfc_move_output_buffer_from_to from_buf to_buf) := by
  unfold gfc_move_output_buffer_from_to
  repeat' (first
    | with_reducible exact keeps_pure _
    | with_reducible exact grow_clear_pp_buffer _
    | with_reducible refine keeps_bind ?_ (fun _ => ?_)
    | with_reducible refine keeps_ite _ ?_ ?_)

theorem grow_xstrdup (message : Option Mem) : Keeps CountersGrow (xstrdup message) := by
  unfold xstrdup
  repeat' (first
    | with_reducible exact keeps_pure _
    | with_reducible exact keeps_halt _
    | split)

theorem grow_push_error (buffer_err : output_buffer) (err : gfc_error_buf) :
    Keeps CountersGrow (gfc_push_error buffer_err err) := by
  unfold gfc_push_error
  repeat' (first
    | with_reducible exact keeps_pure _
    | with_reducible exact keeps_getState
    | with_reducible exact grow_xstrdup _
    | with_reducible exact grow_move_output_buffer _ _
    | with_reducible exact grow_modifyWorld _
    | (with_reducible refine keeps_modifyState _ ?_) <;> intro _ <;>
      exact grow_of_eq _ _ rfl rfl
    | with_reducible refine keeps_bind ?_ (fun _ => ?_)
    | with_reducible refine keeps_ite _ ?_ ?_)

theorem grow_pop_error (buffer_err : output_buffer) (err : gfc_error_buf) :
    Keeps CountersGrow (gfc_pop_error buffer_err err) := by
  unfold gfc_pop_error
  repeat' (first
    | with_reducible exact keeps_pure _
    | with_reducible exact keeps_halt _
    | with_reducible exact keeps_getState
    | with_reducible exact grow_xstrdup _
    | with_reducible exact grow_move_output_buffer _ _
    | with_reducible exact grow_modifyWorld _
    | with_reducible exact keeps_gcc_assert _
    | (with_reducible refine keeps_modifyState _ ?_) <;> intro _ <;>
      exact grow_of_eq _ _ rfl rfl
    | with_reducible refine keeps_bind ?_ (fun _ => ?_)
    | with_reducible refine keeps_ite _ ?_ ?_
    | split)

theorem grow_free_error (buffer_err : output_buffer) (err : gfc_error_buf) :
    Keeps CountersGrow (gfc_free_error buffer_err err) := by
  unfold gfc_free_error
  exact keeps_bind (grow_clear_pp_buffer _) (fun _ => keeps_pure _)

theorem grow_warning (X : Externals) (opt : Int) (gmsgid : List Char) (ap : List VaArg) :
    Keeps CountersGrow (gfc_warning X opt gmsgid ap) := by
  unfold gfc_warning
  repeat' (first
    | with_reducible exact keeps_pure _
    | with_reducible exact keeps_getState
    | with_reducible exact grow_clear_pp_warning_buffer
    | with_reducible exact grow_modifyWorld _
    | with_reducible exact grow_liftW _
    | (with_reducible refine keeps_modifyState _ ?_) <;> intro _ <;>
      exact grow_of_eq _ _ rfl rfl
    | with_reducible refine keeps_bind ?_ (fun _ => ?_)
    | with_reducible refine keeps_ite _ ?_ ?_)

theorem grow_error (X : Externals) (gmsgid : List Char) (ap : List VaArg) :
    Keeps CountersGrow (gfc_error X gmsgid ap) := by
  unfold gfc_error
  repeat' (first
    | with_reducible exact keeps_pure _
    | with_reducible exact keeps_getState
    | with_reducible exact grow_warning _ _ _ _
    | with_reducible exact grow_clear_pp_error_buffer
    | with_reducible exact grow_modifyWorld _
    | with_reducible exact grow_liftW _
    | with_reducible refine keeps_bind ?_ (fun _ => ?_)
    | with_reducible refine keeps_ite _ ?_ ?_)

theorem grow_std_text (X : Externals) (std : Nat) : Keeps CountersGrow (std_text X std) := by
  unfold std_text
  repeat' (first
    | with_reducible exact keeps_pure _
    | with_reducible exact keeps_halt _
    | with_reducible refine keeps_ite _ ?_ ?_)

theorem grow_notify_std_1 (X : Externals) (std : Nat) (gmsgid : List Char)
    (argp : List VaArg) : Keeps CountersGrow (gfc_notify_std_1 X std gmsgid argp) := by
  unfold gfc_notify_std_1
  repeat' (first
    | with_reducible exact keeps_pure _
    | with_reducible exact keeps_getState
    | with_reducible exact grow_std_text _ _
    | with_reducible exact grow_error_print _ _ _ _
    | with_reducible exact grow_error_char _
    | with_reducible exact grow_increment_error_count _
    | (with_reducible refine keeps_modifyState _ ?_) <;> intro _ <;>
      (first | exact grow_of_eq _ _ rfl rfl | exact grow_errors_succ _ | exact grow_warnings_succ _)
    | (with_reducible refine keeps_modifyState _ ?_) <;> intro _ <;> exact grow_setBuf _ _ _
    | with_reducible refine keeps_bind ?_ (fun _ => ?_)
    | with_reducible refine keeps_ite _ ?_ ?_)

theorem grow_notify_std (X : Externals) (std : Nat) (gmsgid : List Char)
    (argp : List VaArg) : Keeps CountersGrow (gfc_notify_std X std gmsgid argp) := by
  unfold gfc_notify_std
  repeat' (first
    | with_reducible exact keeps_pure _
    | with_reducible exact keeps_getState
    | with_reducible exact grow_std_text _ _
    | with_reducible exact grow_warning _ _ _ _
    | with_reducible exact grow_error _ _ _
    | with_reducible refine keeps_bind ?_ (fun _ => ?_)
    | with_reducible refine keeps_ite _ ?_ ?_)

theorem grow_internal_error {α : Type} (X : Externals) (gmsgid : List Char)
    (argp : List VaArg) : Keeps CountersGrow (gfc_internal_error X gmsgid argp : M α) := by
  unfold gfc_internal_error gfc_get_errors exit
  repeat' (first
    | with_reducible exact keeps_pure _
    | with_reducible exact keeps_halt _
    | with_reducible exact keeps_getState
    | with_reducible exact grow_liftW _
    | with_reducible refine keeps_bind ?_ (fun _ => ?_)
    | with_reducible refine keeps_ite _ ?_ ?_)

/-- Every operation other than `gfc_error_init_1` leaves each of the two
counters at least as large as it was. -/
theorem grow_op (X : Externals) (op : Op) (h : op ≠ .error_init_1) :
    Keeps CountersGrow (op.run X) := by
  cases op with
  | push_suppress_errors =>
    exact keeps_bind keeps_getState (fun _ => keeps_bind (keeps_gcc_assert _)
      (fun _ => keeps_modifyState _ (fun _ => grow_of_eq _ _ rfl rfl)))
  | pop_suppress_errors =>
    exact keeps_bind keeps_getState (fun _ => keeps_bind (keeps_gcc_assert _)
      (fun _ => keeps_modifyState _ (fun _ => grow_of_eq _ _ rfl rfl)))
  | error_init_1 => exact absurd rfl h
  | buffer_error flag => exact keeps_modifyState _ (fun _ => grow_of_eq _ _ rfl rfl)
  | print_wide_char c => exact keeps_discard (fun _ => grow_of_eq _ _ rfl rfl)
  | warning_1 gmsgid argp => exact grow_warning_1_body X gmsgid argp
  | warning opt gmsgid argp => exact keeps_discard (grow_warning X opt gmsgid argp)
  | notification_std std =>
    unfold Op.run gfc_notification_std
    repeat' (first
      | with_reducible exact keeps_pure _
      | with_reducible exact keeps_getState
      | with_reducible refine keeps_discard ?_
      | with_reducible refine keeps_bind ?_ (fun _ => ?_)
      | with_reducible refine keeps_ite _ ?_ ?_)
  | notify_std_1 std gmsgid argp => exact keeps_discard (grow_notify_std_1 X std gmsgid argp)
  | notify_std std gmsgid argp => exact keeps_discard (grow_notify_std X std gmsgid argp)
  | warning_now_1 gmsgid argp => exact grow_warning_now_1 X gmsgid argp
  | warning_now opt gmsgid argp =>
    exact keeps_discard (keeps_bind (grow_liftW _) (fun _ => keeps_pure _))
  | error_now gmsgid argp => exact keeps_bind (grow_liftW _) (fun _ => keeps_pure _)
  | fatal_error gmsgid argp => exact grow_fatal_error X gmsgid argp
  | clear_warning => exact grow_clear_warning
  | warning_check => exact grow_warning_check X
  | error_1 gmsgid argp => exact grow_error_1 X gmsgid argp
  | error gmsgid argp => exact grow_error X gmsgid argp
  | error_now_1 gmsgid argp => exact grow_error_now_1 X gmsgid argp
  | internal_error gmsgid argp => exact grow_internal_error X gmsgid argp
  | clear_error => exact grow_clear_error
  | error_flag_test =>
    exact keeps_discard (keeps_bind keeps_getState (fun _ => keeps_pure _))
  | error_check => exact keeps_discard (grow_error_check X)
  | push_error buffer_err err => exact keeps_discard (grow_push_error buffer_err err)
  | pop_error buffer_err err => exact keeps_discard (grow_pop_error buffer_err err)
  | free_error buffer_err err => exact keeps_discard (grow_free_error buffer_err err)
  | get_errors => exact keeps_discard (keeps_bind keeps_getState (fun _ => keeps_pure _))
  | errors_to_warnings f => exact keeps_modifyState _ (fun _ => grow_of_eq _ _ rfl rfl)
  | diagnostics_init =>
    unfold Op.run gfc_diagnostics_init
    exact grow_modifyWorld _
  | diagnostics_finish =>
    unfold Op.run gfc_diagnostics_finish
    exact keeps_bind (grow_modifyWorld _) (fun _ => grow_modifyWorld _)

theorem kept_modifyWorld (f : world → world) : Keeps CountersKept (modifyWorld f) :=
  fun _ => ⟨rfl, rfl⟩

theorem kept_clear_pp_buffer (b : output_buffer) : Keeps CountersKept (gfc_clear_pp_buffer b) :=
  keeps_bind (kept_modifyWorld _) (fun _ => keeps_pure _)

theorem kept_clear_pp_warning_buffer : Keeps CountersKept clear_pp_warning_buffer := by
  unfold clear_pp_warning_buffer
  repeat' (first
    | with_reducible exact keeps_getState
    | with_reducible exact kept_clear_pp_buffer _
    | with_reducible exact kept_modifyWorld _
    | with_reducible refine keeps_bind ?_ (fun _ => ?_))

theorem kept_clear_pp_error_buffer : Keeps CountersKept clear_pp_error_buffer := by
  unfold clear_pp_error_buffer
  repeat' (first
    | with_reducible exact keeps_getState
    | with_reducible exact kept_clear_pp_buffer _
    | with_reducible exact kept_modifyWorld _
    | with_reducible refine keeps_bind ?_ (fun _ => ?_))

theorem kept_clear_warning : Keeps CountersKept gfc_clear_warning := by
  unfold gfc_clear_warning
  repeat' (first
    | with_reducible exact kept_clear_pp_warning_buffer
    | (with_reducible refine keeps_modifyState _ ?_) <;> intro _ <;> exact ⟨rfl, rfl⟩
    | with_reducible refine keeps_bind ?_ (fun _ => ?_))

theorem kept_clear_error : Keeps CountersKept gfc_clear_error := by
  unfold gfc_clear_error
  repeat' (first
    | with_reducible exact kept_clear_pp_error_buffer
    | (with_reducible refine keeps_modifyState _ ?_) <;> intro _ <;> exact ⟨rfl, rfl⟩
    | with_reducible refine keeps_bind ?_ (fun _ => ?_))

theorem kept_move_output_buffer (from_buf to_buf : output_buffer) :
    Keeps CountersKept (gfc_move_output_buffer_from_to from_buf to_buf) := by
  unfold gfc_move_output_buffer_from_to
  repeat' (first
    | with_reducible exact keeps_pure _
    | with_reducible exact kept_clear_pp_buffer _
    | with_reducible refine keeps_bind ?_ (fun _ => ?_)
    | with_reducible refine keeps_ite _ ?_ ?_)

theorem kept_xstrdup (message : Option Mem) : Keeps CountersKept (xstrdup message) := by
  unfold xstrdup
  repeat' (first
    | with_reducible exact keeps_pure _
    | with_reducible exact keeps_halt _
    | split)

theorem kept_push_error (buffer_err : output_buffer) (err : gfc_error_buf) :
    Keeps CountersKept (gfc_push_error buffer_err err) := by
  unfold gfc_push_error
  repeat' (first
    | with_reducible exact keeps_pure _
    | with_reducible exact keeps_getState
    | with_reducible exact kept_xstrdup _
    | with_reducible exact kept_move_output_buffer _ _
    | with_reducible exact kept_modifyWorld _
    | (with_reducible refine keeps_modifyState _ ?_) <;> intro _ <;> exact ⟨rfl, rfl⟩
    | with_reducible refine keeps_bind ?_ (fun _ => ?_)
    | with_reducible refine keeps_ite _ ?_ ?_)

theorem kept_pop_error (buffer_err : output_buffer) (err : gfc_error_buf) :
    Keeps CountersKept (gfc_pop_error buffer_err err) := by
  unfold gfc_pop_error
  repeat' (first
    | with_reducible exact keeps_pure _
    | with_reducible exact keeps_halt _
    | with_reducible exact keeps_getState
    | with_reducible exact kept_xstrdup _
    | with_reducible exact kept_move_output_buffer _ _
    | with_reducible exact kept_modifyWorld _
    | with_reducible exact keeps_gcc_assert _
    | (with_reducible refine keeps_modifyState _ ?_) <;> intro _ <;> exact ⟨rfl, rfl⟩
    | with_reducible refine keeps_bind ?_ (fun _ => ?_)
    | with_reducible refine keeps_ite _ ?_ ?_
    | split)

theorem kept_free_error (buffer_err : output_buffer) (err : gfc_error_buf) :
    Keeps CountersKept (gfc_free_error buffer_err err) := by
  unfold gfc_free_error
  exact keeps_bind (kept_clear_pp_buffer _) (fun _ => keeps_pure _)

/-- C24: every operation of the module other than `gfc_error_init_1` leaves
the counter of errors and the counter of warnings greater than or equal to
what they were before the operation, whether it returns or ends the
process; and `gfc_push_error`, `gfc_pop_error`, `gfc_free_error`,
`gfc_clear_error` and `gfc_clear_warning` leave both counters as they
were. -/
theorem counters_never_decrease (X : Externals) (op : Op) (s : gfc_state)
    (h : op ≠ .error_init_1) :
    s.errors ≤ (op.run X s).state.errors ∧ s.warnings ≤ (op.run X s).state.warnings
    ∧ ((∃ buffer_err err, op = .push_error buffer_err err ∨ op = .pop_error buffer_err err
          ∨ op = .free_error buffer_err err) ∨ op = .clear_error ∨ op = .clear_warning →
        (op.run X s).state.errors = s.errors ∧ (op.run X s).state.warnings = s.warnings) := by
  refine ⟨(grow_op X op h s).1, (grow_op X op h s).2, ?_⟩
  rintro (⟨buffer_err, err, rfl | rfl | rfl⟩ | rfl | rfl)
  · exact keeps_discard (kept_push_error buffer_err err) s
  · exact keeps_discard (kept_pop_error buffer_err err) s
  · exact keeps_discard (kept_free_error buffer_err err) s
  · exact kept_clear_error s
  · exact kept_clear_warning s

/-- C24, witness: an error reported at once in the sample state raises the
counter of errors from 0 to 1 and leaves the counter of warnings at 0. -/
theorem counters_never_decrease_witness :
    sample_state.errors ≤ ((Op.error_1 "Syntax error".toList []).run sample_externals
        sample_state).state.errors
    ∧ ((Op.error_1 "Syntax error".toList []).run sample_externals sample_state).state.errors = 1
    ∧ ((Op.error_1 "Syntax error".toList []).run sample_externals sample_state).state.warnings
        = 0 :=
  ⟨(counters_never_decrease sample_externals (.error_1 "Syntax error".toList []) sample_state
    (fun h => nomatch h)).1, by decide!, by decide!⟩


/-! ## The capacity of the error buffer -/

instance : Frame Capacity where
  refl := fun _ => ⟨le_refl _, fun h => h⟩
  trans := fun h1 h2 => ⟨le_trans h1.1 h2.1, fun h => h2.2 (h1.2 h)⟩

theorem cap_of_eq (s s1 : gfc_state)
    (h1 : s1.error_buffer.allocated = s.error_buffer.allocated)
    (h2 : s1.error_buffer.message = s.error_buffer.message) : Capacity s s1 :=
  ⟨le_of_eq h1.symm, fun h => by rw [h2]; exact h⟩

theorem cap_message (s : gfc_state) (m : Mem) :
    Capacity s { s with error_buffer := { s.error_buffer with message := some m } } :=
  ⟨le_refl _, fun _ h => nomatch h⟩

theorem cap_setBuf_flag (s : gfc_state) (sel : BufSel) (f : Int) :
    Capacity s (s.setBuf sel { s.buf sel with flag := f }) := by
  cases sel <;> exact cap_of_eq _ _ rfl rfl

theorem cap_setBuf_index (s : gfc_state) (sel : BufSel) (i : Nat) :
    Capacity s (s.setBuf sel { s.buf sel with index := i }) := by
  cases sel <;> exact cap_of_eq _ _ rfl rfl

theorem grow_allocated (b : gfc_error_buf) : b.allocated ≤ (grow b).allocated := by
  unfold grow
  split
  · show b.allocated ≤ if b.allocated != 0 then b.allocated * 2 else 1000
    split
    · omega
    · rename_i h
      simp at h
      omega
  · exact le_refl _

theorem buffer_char_capacity (b b1 : gfc_error_buf) (c : Char)
    (h : buffer_char b c = some b1) : b.allocated ≤ b1.allocated ∧ b1.message ≠ none := by
  unfold buffer_char at h
  simp only [] at h
  split at h
  · cases h
  · split at h
    · cases h
      exact ⟨grow_allocated b, fun h => nomatch h⟩
    · cases h

theorem cap_error_char (c : Char) : Keeps Capacity (error_char c) := by
  intro s
  unfold error_char
  split
  · split
    · exact Frame.refl s
    · rename_i sel _
      split
      · exact Frame.refl s
      · rename_i b hb
        have hc := buffer_char_capacity _ _ _ hb
        cases sel
        · exact ⟨hc.1, fun _ => hc.2⟩
        · exact cap_of_eq _ _ rfl rfl
  · split
    · by_cases hn : c = '\n' <;> simp only [line_char, hn, if_true, if_false] <;>
        exact cap_of_eq _ _ rfl rfl
    · exact Frame.refl s

theorem emitted_capacity (s s1 : gfc_state) (h : Emitted s s1) : Capacity s s1 := by
  obtain ⟨cs, h⟩ := h
  induction cs generalizing s with
  | nil =>
    simp only [emit, pure_apply, Res.ok.injEq, true_and] at h
    subst h
    exact Frame.refl s
  | cons c cs ih =>
    simp only [emit, bind_apply] at h
    have h0 := cap_error_char c s
    cases h1 : error_char c s with
    | stop r s2 => simp [h1] at h
    | ok u s2 =>
      rw [h1] at h h0
      exact Frame.trans h0 (ih s2 h)

theorem cap_of_emitted {α : Type} {m : M α} (h : Keeps Emitted m) : Keeps Capacity m :=
  h.mono emitted_capacity

theorem cap_liftW {α : Type} (f : world → Except (Stop × world) (α × world)) :
    Keeps Capacity (liftW f) := by
  intro s
  unfold liftW
  split <;> exact cap_of_eq _ _ rfl rfl

theorem cap_modifyWorld (f : world → world) : Keeps Capacity (modifyWorld f) :=
  fun _ => cap_of_eq _ _ rfl rfl

theorem cap_error_print (X : Externals) (type format0 : List Char) (argp : List VaArg) :
    Keeps Capacity (error_print X type format0 argp) :=
  cap_of_emitted (keeps_error_print X type format0 argp)

theorem cap_fatal_error {α : Type} (X : Externals) (gmsgid : List Char) (argp : List VaArg) :
    Keeps Capacity (gfc_fatal_error X gmsgid argp : M α) :=
  keeps_bind (cap_liftW _) (fun _ => keeps_halt _)

theorem cap_increment_error_count (X : Externals) :
    Keeps Capacity (gfc_increment_error_count X) := by
  unfold gfc_increment_error_count
  repeat' (first
    | with_reducible exact keeps_pure _
    | with_reducible exact keeps_getState
    | with_reducible exact cap_fatal_error _ _ _
    | (with_reducible refine keeps_modifyState _ ?_) <;> intro _ <;>
      exact cap_of_eq _ _ rfl rfl
    | with_reducible refine keeps_bind ?_ (fun _ => ?_)
    | with_reducible refine keeps_ite _ ?_ ?_)

theorem cap_clear_pp_buffer (b : output_buffer) : Keeps Capacity (gfc_clear_pp_buffer b) :=
  keeps_bind (cap_modifyWorld _) (fun _ => keeps_pure _)

theorem cap_clear_pp_warning_buffer : Keeps Capacity clear_pp_warning_buffer := by
  unfold clear_pp_warning_buffer
  repeat' (first
    | with_reducible exact keeps_getState
    | with_reducible exact cap_clear_pp_buffer _
    | with_reducible exact cap_modifyWorld _
    | with_reducible refine keeps_bind ?_ (fun _ => ?_))

theorem cap_clear_pp_error_buffer : Keeps Capacity clear_pp_error_buffer := by
  unfold clear_pp_error_buffer
  repeat' (first
    | with_reducible exact keeps_getState
    | with_reducible exact cap_clear_pp_buffer _
    | with_reducible exact cap_modifyWorld _
    | with_reducible refine keeps_bind ?_ (fun _ => ?_))

theorem cap_start_buffer (sel : BufSel) : Keeps Capacity (start_buffer sel) := by
  intro s
  cases sel <;> exact cap_of_eq _ _ rfl rfl

theorem cap_warning_1_body (X : Externals) (gmsgid : List Char) (argp : List VaArg) :
    Keeps Capacity (warning_1_body X gmsgid argp) := by
  unfold warning_1_body
  repeat' (first
    | with_reducible exact keeps_pure _
    | with_reducible exact keeps_getState
    | with_reducible exact cap_start_buffer _
    | with_reducible exact cap_error_print _ _ _ _
    | with_reducible exact cap_error_char _
    | with_reducible exact cap_increment_error_count _
    | (with_reducible refine keeps_modifyState _ ?_) <;> intro _ <;>
      exact cap_of_eq _ _ rfl rfl
    | with_reducible refine keeps_bind ?_ (fun _ => ?_)
    | with_reducible refine keeps_ite _ ?_ ?_)

theorem cap_clear_warning : Keeps Capacity gfc_clear_warning := by
  unfold gfc_clear_warning
  repeat' (first
    | with_reducible exact cap_clear_pp_warning_buffer
    | (with_reducible refine keeps_modifyState _ ?_) <;> intro _ <;>
      exact cap_of_eq _ _ rfl rfl
    | with_reducible refine keeps_bind ?_ (fun _ => ?_))

theorem cap_fputs_message (m : Mem) : Keeps Capacity (fputs_message m) := by
  unfold fputs_message
  split
  · exact keeps_halt _
  · exact keeps_modifyState _ (fun _ => cap_of_eq _ _ rfl rfl)

theorem cap_pp_really_flush_warning : Keeps Capacity pp_really_flush_warning :=
  cap_modifyWorld _

theorem cap_pp_really_flush_error : Keeps Capacity pp_really_flush_error :=
  cap_modifyWorld _

theorem cap_warning_check (X : Externals) : Keeps Capacity (gfc_warning_check X) := by
  unfold gfc_warning_check
  repeat' (first
    | with_reducible exact keeps_exit _
    | with_reducible exact cap_pp_really_flush_warning
    | with_reducible exact cap_pp_really_flush_error
    | with_reducible exact keeps_pure _
    | with_reducible exact keeps_getState
    | with_reducible exact cap_fputs_message _
    | with_reducible exact cap_clear_warning
    | with_reducible exact cap_modifyWorld _
    | with_reducible exact cap_liftW _
    | with_reducible exact keeps_gcc_assert _
    | (with_reducible refine keeps_modifyState _ ?_) <;> intro _ <;>
      exact cap_of_eq _ _ rfl rfl
    | with_reducible refine keeps_bind ?_ (fun _ => ?_)
    | with_reducible refine keeps_ite _ ?_ ?_
    | split)

theorem cap_error_1 (X : Externals) (gmsgid : List Char) (argp : List VaArg) :
    Keeps Capacity (gfc_error_1 X gmsgid argp) := by
  unfold gfc_error_1
  repeat' (first
    | with_reducible exact keeps_pure _
    | with_reducible exact keeps_getState
    | with_reducible exact cap_start_buffer _
    | with_reducible exact cap_error_print _ _ _ _
    | with_reducible exact cap_error_char _
    | with_reducible exact cap_increment_error_count _
    | (with_reducible refine keeps_modifyState _ ?_) <;> intro _ <;>
      exact cap_of_eq _ _ rfl rfl
    | with_reducible refine keeps_bind ?_ (fun _ => ?_)
    | with_reducible refine keeps_ite _ ?_ ?_)

theorem cap_warning_now_1 (X : Externals) (gmsgid : List Char) (argp : List VaArg) :
    Keeps Capacity (gfc_warning_now_1 X gmsgid argp) := by
  unfold gfc_warning_now_1
  repeat' (first
    | with_reducible exact keeps_pure _
    | with_reducible exact keeps_getState
    | with_reducible exact cap_error_print _ _ _ _
    | with_reducible exact cap_error_char _
    | with_reducible exact cap_increment_error_count _
    | (with_reducible refine keeps_modifyState _ ?_) <;> intro _ <;>
      exact cap_of_eq _ _ rfl rfl
    | with_reducible refine keeps_bind ?_ (fun _ => ?_)
    | with_reducible refine keeps_ite _ ?_ ?_)

theorem cap_error_now_1 (X : Externals) (gmsgid : List Char) (argp : List VaArg) :
    Keeps Capacity (gfc_error_now_1 X gmsgid argp) := by
  unfold gfc_error_now_1
  repeat' (first
    | with_reducible exact keeps_exit _
    | with_reducible exact cap_pp_really_flush_warning
    | with_reducible exact cap_pp_really_flush_error
    | with_reducible exact keeps_pure _
    | with_reducible exact keeps_halt _
    | with_reducible exact keeps_getState
    | with_reducible exact cap_start_buffer _
    | with_reducible exact cap_error_print _ _ _ _
    | with_reducible exact cap_error_char _
    | with_reducible exact cap_increment_error_count _
    | (with_reducible refine keeps_modifyState _ ?_) <;> intro _ <;>
      exact cap_of_eq _ _ rfl rfl
    | with_reducible refine keeps_bind ?_ (fun _ => ?_)
    | with_reducible refine keeps_ite _ ?_ ?_)

theorem cap_clear_error : Keeps Capacity gfc_clear_error := by
  unfold gfc_clear_error
  repeat' (first
    | with_reducible exact cap_clear_pp_error_buffer
    | (with_reducible refine keeps_modifyState _ ?_) <;> intro _ <;>
      exact cap_of_eq _ _ rfl rfl
    | with_reducible refine keeps_bind ?_ (fun _ => ?_))

theorem cap_error_check (X : Externals) : Keeps Capacity (gfc_error_check X) := by
  unfold gfc_error_check
  repeat' (first
    | with_reducible exact keeps_exit _
    | with_reducible exact cap_pp_really_flush_warning
    | with_reducible exact cap_pp_really_flush_error
    | with_reducible exact keeps_pure _
    | with_reducible exact keeps_halt _
    | with_reducible exact keeps_getState
    | with_reducible exact cap_fputs_message _
    | with_reducible exact cap_clear_pp_error_buffer
    | with_reducible exact cap_increment_error_count _
    | with_reducible exact cap_modifyWorld _
    | with_reducible exact cap_liftW _
    | with_reducible exact keeps_gcc_assert _
    | (with_reducible refine keeps_modifyState _ ?_) <;> intro _ <;>
      exact cap_of_eq _ _ rfl rfl
    | with_reducible refine keeps_bind ?_ (fun _ => ?_)
    | with_reducible refine keeps_ite _ ?_ ?_
    | split)

theorem cap_move_output_buffer (from_buf to_buf : output_buffer) :
    Keeps Capacity (gfc_move_output_buffer_from_to from_buf to_buf) := by
  unfold gfc_move_output_buffer_from_to
  repeat' (first
    | with_reducible exact keeps_pure _
    | with_reducible exact cap_clear_pp_buffer _
    | with_reducible refine keeps_bind ?_ (fun _ => ?_)
    | with_reducible refine keeps_ite _ ?_ ?_)

theorem cap_xstrdup (message : Option Mem) : Keeps Capacity (xstrdup message) := by
  unfold xstrdup
  repeat' (first
    | with_reducible exact keeps_pure _
    | with_reducible exact keeps_halt _
    | split)

theorem cap_push_error (buffer_err : output_buffer) (err : gfc_error_buf) :
    Keeps Capacity (gfc_push_error buffer_err err) := by
  unfold gfc_push_error
  repeat' (first
    | with_reducible exact keeps_pure _
    | with_reducible exact keeps_getState
    | with_reducible exact cap_xstrdup _
    | with_reducible exact cap_move_output_buffer _ _
    | with_reducible exact cap_modifyWorld _
    | (with_reducible refine keeps_modifyState _ ?_) <;> intro _ <;>
      exact cap_of_eq _ _ rfl rfl
    | with_reducible refine keeps_bind ?_ (fun _ => ?_)
    | with_reducible refine keeps_ite _ ?_ ?_)

theorem cap_pop_error (buffer_err : output_buffer) (err : gfc_error_buf) :
    Keeps Capacity (gfc_pop_error buffer_err err) := by
  unfold gfc_pop_error
  repeat' (first
    | with_reducible exact keeps_pure _
    | with_reducible exact keeps_halt _
    | with_reducible exact keeps_getState
    | with_reducible exact cap_xstrdup _
    | with_reducible exact cap_move_output_buffer _ _
    | with_reducible exact cap_modifyWorld _
    | with_reducible exact keeps_gcc_assert _
    | (with_reducible refine keeps_modifyState _ ?_) <;> intro _ <;>
      (first | exact cap_of_eq _ _ rfl rfl | exact cap_message _ _)
    | with_reducible refine keeps_bind ?_ (fun _ => ?_)
    | with_reducible refine keeps_ite _ ?_ ?_
    | split)

theorem cap_free_error (buffer_err : output_buffer) (err : gfc_error_buf) :
    Keeps Capacity (gfc_free_error buffer_err err) := by
  unfold gfc_free_error
  exact keeps_bind (cap_clear_pp_buffer _) (fun _ => keeps_pure _)

theorem cap_warning (X : Externals) (opt : Int) (gmsgid : List Char) (ap : List VaArg) :
    Keeps Capacity (gfc_warning X opt gmsgid ap) := by
  unfold gfc_warning
  repeat' (first
    | with_reducible exact keeps_pure _
    | with_reducible exact keeps_getState
    | with_reducible exact cap_clear_pp_warning_buffer
    | with_reducible exact cap_modifyWorld _
    | with_reducible exact cap_liftW _
    | (with_reducible refine keeps_modifyState _ ?_) <;> intro _ <;>
      exact cap_of_eq _ _ rfl rfl
    | with_reducible refine keeps_bind ?_ (fun _ => ?_)
    | with_reducible refine keeps_ite _ ?_ ?_)

theorem cap_error (X : Externals) (gmsgid : List Char) (ap : List VaArg) :
    Keeps Capacity (gfc_error X gmsgid ap) := by
  unfold gfc_error
  repeat' (first
    | with_reducible exact keeps_pure _
    | with_reducible exact keeps_getState
    | with_reducible exact cap_warning _ _ _ _
    | with_reducible exact cap_clear_pp_error_buffer
    | with_reducible exact cap_modifyWorld _
    | with_reducible exact cap_liftW _
    | with_reducible refine keeps_bind ?_ (fun _ => ?_)
    | with_reducible refine keeps_ite _ ?_ ?_)

theorem cap_std_text (X : Externals) (std : Nat) : Keeps Capacity (std_text X std) := by
  unfold std_text
  repeat' (first
    | with_reducible exact keeps_pure _
    | with_reducible exact keeps_halt _
    | with_reducible refine keeps_ite _ ?_ ?_)

theorem cap_notify_std_1 (X : Externals) (std : Nat) (gmsgid : List Char)
    (argp : List VaArg) : Keeps Capacity (gfc_notify_std_1 X std gmsgid argp) := by
  unfold gfc_notify_std_1
  repeat' (first
    | with_reducible exact keeps_pure _
    | with_reducible exact keeps_getState
    | with_reducible exact cap_std_text _ _
    | with_reducible exact cap_error_print _ _ _ _
    | with_reducible exact cap_error_char _
    | with_reducible exact cap_increment_error_count _
    | (with_reducible refine keeps_modifyState _ ?_) <;> intro _ <;>
      (first | exact cap_of_eq _ _ rfl rfl | exact cap_message _ _)
    | (with_reducible refine keeps_modifyState _ ?_) <;> intro _ <;> (first | exact cap_setBuf_flag _ _ _ | exact cap_setBuf_index _ _ _)
    | with_reducible refine keeps_bind ?_ (fun _ => ?_)
    | with_reducible refine keeps_ite _ ?_ ?_)

theorem cap_notify_std (X : Externals) (std : Nat) (gmsgid : List Char)
    (argp : List VaArg) : Keeps Capacity (gfc_notify_std X std gmsgid argp) := by
  unfold gfc_notify_std
  repeat' (first
    | with_reducible exact keeps_pure _
    | with_reducible exact keeps_getState
    | with_reducible exact cap_std_text _ _
    | with_reducible exact cap_warning _ _ _ _
    | with_reducible exact cap_error _ _ _
    | with_reducible refine keeps_bind ?_ (fun _ => ?_)
    | with_reducible refine keeps_ite _ ?_ ?_)

theorem cap_internal_error {α : Type} (X : Externals) (gmsgid : List Char)
    (argp : List VaArg) : Keeps Capacity (gfc_internal_error X gmsgid argp : M α) := by
  unfold gfc_internal_error gfc_get_errors exit
  repeat' (first
    | with_reducible exact keeps_pure _
    | with_reducible exact keeps_halt _
    | with_reducible exact keeps_getState
    | with_reducible exact cap_liftW _
    | with_reducible refine keeps_bind ?_ (fun _ => ?_)
    | with_reducible refine keeps_ite _ ?_ ?_)

/-- No operation lowers the capacity of the error buffer or frees its block. -/
theorem cap_op (X : Externals) (op : Op) : Keeps Capacity (op.run X) := by
  cases op with
  | push_suppress_errors =>
    exact keeps_bind keeps_getState (fun _ => keeps_bind (keeps_gcc_assert _)
      (fun _ => keeps_modifyState _ (fun _ => cap_of_eq _ _ rfl rfl)))
  | pop_suppress_errors =>
    exact keeps_bind keeps_getState (fun _ => keeps_bind (keeps_gcc_assert _)
      (fun _ => keeps_modifyState _ (fun _ => cap_of_eq _ _ rfl rfl)))
  | error_init_1 =>
    unfold Op.run gfc_error_init_1 gfc_buffer_error
    repeat' (first
      | (with_reducible refine keeps_modifyState _ ?_) <;> intro _ <;>
      exact cap_of_eq _ _ rfl rfl
      | with_reducible refine keeps_bind ?_ (fun _ => ?_))
  | buffer_error flag => exact keeps_modifyState _ (fun _ => cap_of_eq _ _ rfl rfl)
  | print_wide_char c => exact keeps_discard (fun _ => cap_of_eq _ _ rfl rfl)
  | warning_1 gmsgid argp => exact cap_warning_1_body X gmsgid argp
  | warning opt gmsgid argp => exact keeps_discard (cap_warning X opt gmsgid argp)
  | notification_std std =>
    unfold Op.run gfc_notification_std
    repeat' (first
      | with_reducible exact keeps_pure _
      | with_reducible exact keeps_getState
      | with_reducible refine keeps_discard ?_
      | with_reducible refine keeps_bind ?_ (fun _ => ?_)
      | with_reducible refine keeps_ite _ ?_ ?_)
  | notify_std_1 std gmsgid argp => exact keeps_discard (cap_notify_std_1 X std gmsgid argp)
  | notify_std std gmsgid argp => exact keeps_discard (cap_notify_std X std gmsgid argp)
  | warning_now_1 gmsgid argp => exact cap_warning_now_1 X gmsgid argp
  | warning_now opt gmsgid argp =>
    exact keeps_discard (keeps_bind (cap_liftW _) (fun _ => keeps_pure _))
  | error_now gmsgid argp => exact keeps_bind (cap_liftW _) (fun _ => keeps_pure _)
  | fatal_error gmsgid argp => exact cap_fatal_error X gmsgid argp
  | clear_warning => exact cap_clear_warning
  | warning_check => exact cap_warning_check X
  | error_1 gmsgid argp => exact cap_error_1 X gmsgid argp
  | error gmsgid argp => exact cap_error X gmsgid argp
  | error_now_1 gmsgid argp => exact cap_error_now_1 X gmsgid argp
  | internal_error gmsgid argp => exact cap_internal_error X gmsgid argp
  | clear_error => exact cap_clear_error
  | error_flag_test =>
    exact keeps_discard (keeps_bind keeps_getState (fun _ => keeps_pure _))
  | error_check => exact keeps_discard (cap_error_check X)
  | push_error buffer_err err => exact keeps_discard (cap_push_error buffer_err err)
  | pop_error buffer_err err => exact keeps_discard (cap_pop_error buffer_err err)
  | free_error buffer_err err => exact keeps_discard (cap_free_error buffer_err err)
  | get_errors => exact keeps_discard (keeps_bind keeps_getState (fun _ => keeps_pure _))
  | errors_to_warnings f => exact keeps_modifyState _ (fun _ => cap_of_eq _ _ rfl rfl)
  | diagnostics_init =>
    unfold Op.run gfc_diagnostics_init
    exact cap_modifyWorld _
  | diagnostics_finish =>
    unfold Op.run gfc_diagnostics_finish
    exact keeps_bind (cap_modifyWorld _) (fun _ => cap_modifyWorld _)

theorem cap_runAll (X : Externals) (ops : List Op) : Keeps Capacity (Op.runAll X ops) := by
  induction ops with
  | nil => exact keeps_pure _
  | cons op ops ih => exact keeps_bind (cap_op X op) (fun _ => ih)

/-- What `gfc_pop_error` does with a snapshot whose message, when its flag is
set, is a string that fits in the block of the error buffer. -/
theorem pop_apply (buf : output_buffer) (e : gfc_error_buf) (s2 : gfc_state)
    (h : e.flag ≠ 0 → ∃ t dst, e.message = some (strBytes t) ∧ NUL ∉ t
      ∧ s2.error_buffer.message = some dst
      ∧ (strBytes t).length ≤ s2.error_buffer.allocated) :
    ∃ r s3, gfc_pop_error buf e s2 = .ok r s3 ∧ s3.error_buffer.flag = e.flag
      ∧ (e.flag ≠ 0 → s3.error_buffer.message.bind memStr = e.message.bind memStr)
      ∧ (e.flag = 0 → s3.error_buffer.message = s2.error_buffer.message)
      ∧ s3.w.pp_error_buffer.text = cstr buf.text := by
  unfold gfc_pop_error
  by_cases hf : e.flag = 0
  · simp [hf, move_apply]
    exact ⟨_, _, _, ⟨⟨rfl, rfl⟩, rfl⟩, rfl, rfl, rfl⟩
  · obtain ⟨t, dst, hm, hn, hd, hl⟩ := h hf
    have hx : memStr (strBytes t) = some t := by
      have := memStr_strBytes_append t []
      simpa [cstr_eq_self t hn] using this
    have hy : memStr (strBytes t ++ List.drop (strBytes t).length dst) = some t := by
      rw [memStr_strBytes_append, cstr_eq_self t hn]
    simp [hf, hm, hd, move_apply, xstrdup_apply _ t hx, hl, hx, hy]
    exact ⟨_, _, _, ⟨⟨rfl, rfl⟩, rfl⟩, rfl, hy, rfl⟩

/-- C27, as amended: `gfc_push_error` on an error buffer whose message, when
an error is pending, is a string inside its block, returns a snapshot: the
flag, a copy of the message when the flag is set, and the text of the
pretty-printer's error buffer up to its first NUL. After it no error is
pending: `gfc_error_flag_test` returns false. Whatever operations of the
module are called between, and return, `gfc_pop_error` of that snapshot
returns and leaves the flag of the error buffer equal to the snapshot's,
the text of the pretty-printer's error buffer equal to the snapshot's, and,
when the flag is set, the message of the error buffer equal, as a string, to
the snapshot's: nothing of what was buffered between is kept in them. When
the flag of the snapshot is clear the snapshot holds no message and the
bytes of the error buffer are left as they are. -/
theorem pop_restores_snapshot (X : Externals) (s : gfc_state) (buffer_err : output_buffer)
    (err : gfc_error_buf) (ops : List Op)
    (hmsg : s.error_buffer.flag ≠ 0 → ∃ m, s.error_buffer.message = some m
      ∧ m.length ≤ s.error_buffer.allocated ∧ (memStr m).isSome) :
    ∃ snap s1, gfc_push_error buffer_err err s = .ok snap s1
      ∧ gfc_error_flag_test s1 = .ok false s1
      ∧ snap.2.flag = s.error_buffer.flag
      ∧ (s.error_buffer.flag ≠ 0 →
          snap.2.message.bind memStr = s.error_buffer.message.bind memStr)
      ∧ snap.1.text = cstr s.w.pp_error_buffer.text
      ∧ ∀ s2, Op.runAll X ops s1 = .ok () s2 →
          ∃ r s3, gfc_pop_error snap.1 snap.2 s2 = .ok r s3
            ∧ s3.error_buffer.flag = snap.2.flag
            ∧ (snap.2.flag ≠ 0 →
                s3.error_buffer.message.bind memStr = snap.2.message.bind memStr)
            ∧ (snap.2.flag = 0 → s3.error_buffer.message = s2.error_buffer.message)
            ∧ s3.w.pp_error_buffer.text = snap.1.text := by
  have hp := push_apply s buffer_err err (fun hf => by
    obtain ⟨m, hm, _, ht⟩ := hmsg hf
    exact ⟨m, hm, ht⟩)
  refine ⟨_, _, hp, rfl, rfl, ?_, rfl, ?_⟩
  · intro hf
    obtain ⟨m, hm, hlen, ht⟩ := hmsg hf
    obtain ⟨t, ht⟩ := Option.isSome_iff_exists.mp ht
    obtain ⟨hn, rest, hr⟩ := memStr_eq_some m t ht
    have hx : memStr (strBytes t) = some t := by
      have := memStr_strBytes_append t []
      simpa [cstr_eq_self t hn] using this
    simp [hf, hm, ht, hx]
  · intro s2 h2
    have hc := cap_runAll X ops
      { s with error_buffer := { s.error_buffer with flag := 0 },
               w := { s.w with last_location := UNKNOWN_LOCATION,
                               pp_error_buffer := { s.w.pp_error_buffer with text := [] } } }
    rw [h2] at hc
    obtain ⟨r, s3, e, e1, e2, e3, e4⟩ := pop_apply
      { text := cstr s.w.pp_error_buffer.text, flush_p := false }
      { err with flag := s.error_buffer.flag,
                 message := if s.error_buffer.flag ≠ 0
                   then (s.error_buffer.message.bind memStr).map strBytes else err.message }
      s2 (fun hf => by
        obtain ⟨m, hm, hlen, ht⟩ := hmsg hf
        obtain ⟨t, ht⟩ := Option.isSome_iff_exists.mp ht
        obtain ⟨hn, rest, hr⟩ := memStr_eq_some m t ht
        have hd : s2.error_buffer.message ≠ none := hc.2 (by
          show s.error_buffer.message ≠ none
          rw [hm]
          exact fun h => nomatch h)
        obtain ⟨dst, hdst⟩ := Option.ne_none_iff_exists.mp hd
        refine ⟨t, dst, ?_, hn, hdst.symm, ?_⟩
        · simp [hf, hm, ht]
        · have h1 : (strBytes t).length ≤ m.length := by rw [hr]; simp
          have h2 : s.error_buffer.allocated ≤ s2.error_buffer.allocated := hc.1
          omega)
    exact ⟨r, s3, e, e1, e2, e3, by rw [e4, cstr_cstr]⟩

/-- C27, witness: an error is pending with the message "x" and the
pretty-printer's error buffer holds "note"; between the push and the pop
the error "y" is reported in buffered mode. -/
theorem pop_restores_snapshot_witness :
    ∃ snap s1, gfc_push_error sample_output_buffer empty_slot
        { pending_state with buffered_p := true } = .ok snap s1
      ∧ gfc_error_flag_test s1 = .ok false s1
      ∧ snap.2.flag = 1
      ∧ ∀ s2, Op.runAll sample_externals [.error_1 "y".toList []] s1 = .ok () s2 →
          ∃ r s3, gfc_pop_error snap.1 snap.2 s2 = .ok r s3
            ∧ s3.error_buffer.flag = snap.2.flag
            ∧ (snap.2.flag ≠ 0 →
                s3.error_buffer.message.bind memStr = snap.2.message.bind memStr)
            ∧ s3.w.pp_error_buffer.text = snap.1.text :=
  (pop_restores_snapshot sample_externals { pending_state with buffered_p := true }
    sample_output_buffer empty_slot [.error_1 "y".toList []]
    (fun _ => ⟨strBytes ['x'], rfl, by decide, by decide⟩)).imp
    (fun _ h => h.imp (fun _ h => ⟨h.1, h.2.1, h.2.2.1, fun s2 h2 =>
      (h.2.2.2.2.2 s2 h2).imp (fun _ h3 => h3.imp (fun _ h3 =>
        ⟨h3.1, h3.2.1, h3.2.2.1, h3.2.2.2.2⟩))⟩))

/-- C27, counterexample: no error is pending at the push, the message of
the snapshot is the null pointer of the caller; the error "y" is then
reported in buffered mode. After the pop the flag is clear, as in the
snapshot, but the bytes of the error buffer are those of "Error: y": they
are neither those of the snapshot nor those at the push. -/
theorem pop_restores_snapshot_counterexample :
    (∃ snap s1, gfc_push_error sample_output_buffer empty_slot buffered_state = .ok snap s1
      ∧ snap.2.flag = 0 ∧ snap.2.message = none)
    ∧ buffered_state.error_buffer.message = none
    ∧ (gfc_push_error sample_output_buffer empty_slot >>= fun snap =>
        Op.runAll sample_externals [.error_1 "y".toList []] >>= fun _ =>
        gfc_pop_error snap.1 snap.2) buffered_state
      = .ok (sample_output_buffer, empty_slot)
          ((gfc_push_error sample_output_buffer empty_slot >>= fun snap =>
            Op.runAll sample_externals [.error_1 "y".toList []] >>= fun _ =>
            gfc_pop_error snap.1 snap.2) buffered_state).state
    ∧ ((gfc_push_error sample_output_buffer empty_slot >>= fun snap =>
        Op.runAll sample_externals [.error_1 "y".toList []] >>= fun _ =>
        gfc_pop_error snap.1 snap.2) buffered_state).state.error_buffer.flag = 0
    ∧ ((gfc_push_error sample_output_buffer empty_slot >>= fun snap =>
        Op.runAll sample_externals [.error_1 "y".toList []] >>= fun _ =>
        gfc_pop_error snap.1 snap.2) buffered_state).state.error_buffer.message
      = some (strBytes "Error: y\n".toList) :=
  ⟨⟨_, _, push_apply buffered_state _ _ (fun h => absurd rfl h), rfl, rfl⟩, rfl, by decide!,
    by decide!, by decide!⟩


/-! ## The column of the marker -/

/-- The text printed for a character is as long as its display width. -/
theorem render_length (X : Externals) (c : Nat)
    (hX : X.gfc_wide_is_printable c = true → c % 256 ≠ 0) :
    (render X c).length = gfc_widechar_display_length X c := by
  rw [← print_wide_char_fst X c]
  unfold render print_wide_char_into_buffer
  by_cases hp : (X.gfc_wide_is_printable c || c == 9) = true
  · rw [if_pos hp]
    have hne : Char.ofNat ((if (c == 9) = true then 32 else c) % 256) ≠ NUL := by
      by_cases h9 : c = 9
      · subst h9
        decide
      · have hpr : X.gfc_wide_is_printable c = true := by simpa [h9] using hp
        have hb : (c == 9) = false := by simpa using h9
        rw [hb]
        exact ofNat_ne_nul _ (Nat.pos_of_ne_zero (hX hpr)) (Nat.mod_lt _ (by decide))
    simp only [cstr_cons _ _ hne, cstr_nul]
    simp
  · rw [if_neg hp]
    split
    · simp only [cstr_cons _ _ (xdigit_ne_nul _), cstr_cons _ _ (show '\\' ≠ NUL by decide),
        cstr_cons _ _ (show 'x' ≠ NUL by decide), cstr_nul]
      simp
    · split
      · simp only [cstr_cons _ _ (xdigit_ne_nul _), cstr_cons _ _ (show '\\' ≠ NUL by decide),
          cstr_cons _ _ (show 'u' ≠ NUL by decide), cstr_nul]
        simp
      · simp only [cstr_cons _ _ (xdigit_ne_nul _), cstr_cons _ _ (show '\\' ≠ NUL by decide),
          cstr_cons _ _ (show 'U' ≠ NUL by decide), cstr_nul]
        simp

theorem render_flatten_length (X : Externals) (line : List Nat)
    (hX : ∀ ch ∈ line, X.gfc_wide_is_printable ch = true → ch % 256 ≠ 0) :
    ((line.map (render X)).flatten).length
      = (line.map (gfc_widechar_display_length X)).sum := by
  induction line with
  | nil => rfl
  | cons c line ih =>
    simp only [List.map_cons, List.flatten_cons, List.length_append, List.sum_cons,
      render_length X c (hX c (List.mem_cons_self _ _)),
      ih (fun d hd => hX d (List.mem_cons_of_mem _ hd))]

theorem span_width_take (X : Externals) (line : List Nat) (c : Nat) (h : c ≤ line.length) :
    span_width X line 0 c = ((line.take c).map (gfc_widechar_display_length X)).sum := by
  unfold span_width
  rw [List.drop_zero, List.take_append_of_le_length h]

/-- C28, as amended: for every source line and every locus at the character
index `c` of the line, alone and with no horizontal scroll (`c` is at most
the terminal width less 5), `show_locus` prints after the empty line the
rendering of the first `n` characters of the line, a newline, and the marker
row: the marker '1' preceded by exactly as many spaces as the display widths
of the characters of the line before index `c` sum to. The rendering of these
characters is as many columns wide (a printable character being written as a
byte that is not NUL). So when the marked character is among the `n` that
are printed, the marker stands under the first column of its rendering; this
is the case of every character of the line when the display length of the
line does not exceed the terminal width. -/
theorem marker_column (X : Externals) (lb : gfc_linebuf) (c : Nat) (s : gfc_state)
    (hc : c ≤ lb.line.length) (hns : (c : Int) ≤ s.terminal_width - 5) :
    ∃ n, show_locus_excerpt X lb c (-1) s
        = emit (((lb.line.take n).map (render X)).flatten ++ ['\n']
            ++ (List.replicate (span_width X lb.line 0 c) ' ' ++ ['1', '\n'])) s
      ∧ span_width X lb.line 0 c
        = ((lb.line.take c).map (gfc_widechar_display_length X)).sum
      ∧ ((∀ ch ∈ lb.line, X.gfc_wide_is_printable ch = true → ch % 256 ≠ 0) →
          (((lb.line.take c).map (render X)).flatten).length = span_width X lb.line 0 c)
      ∧ (c < (lb.line.take n).length →
          ∃ rest, ((lb.line.take n).map (render X)).flatten
            = ((lb.line.take c).map (render X)).flatten
              ++ render X (lb.line.getD c 0) ++ rest)
      ∧ ((gfc_wide_display_length X lb.line : Int) ≤ s.terminal_width →
          lb.line.take n = wcs lb.line) := by
  have hoff : locus_offset s.terminal_width c = 0 := by
    unfold locus_offset
    rw [if_neg (by omega)]
  obtain ⟨n, e1, e2, e3⟩ := show_locus_line_run X lb 0 s.terminal_width (Nat.zero_le _)
  simp only [Int.toNat_zero, List.drop_zero] at e1 e2 e3
  have hrow := show_locus_markers_single X lb 0 c (-1) (by simpa using Nat.le_succ_of_le hc)
    (by decide)
  rw [Int.toNat_zero] at hrow
  refine ⟨n, ?_, span_width_take X lb.line c hc, ?_, ?_, e3⟩
  · unfold show_locus_excerpt
    have hc2 : (if (c : Int) = -1 then (-1 : Int) + 1 else -1) = -1 := by
      rw [if_neg (by omega)]
    have hcm : (if (c : Int) < -1 then (-1 : Int) else (c : Int)) = c := by
      rw [if_neg (by omega)]
    simp only [bind_apply, getState_apply, hc2, hcm, hoff, sub_zero, e1 s rfl, hrow]
    rw [emit_append (_ ++ ['\n']) _ s]
    rfl
  · intro hX
    rw [span_width_take X lb.line c hc]
    exact render_flatten_length X _ (fun ch hch => hX ch (List.mem_of_mem_take hch))
  · intro hlt
    have hcn : c < n := by
      rw [List.length_take] at hlt
      omega
    have hcl : c < lb.line.length := by
      rw [List.length_take] at hlt
      omega
    refine ⟨(((lb.line.take n).drop (c + 1)).map (render X)).flatten, ?_⟩
    have hsplit : lb.line.take n
        = lb.line.take c ++ lb.line.getD c 0 :: (lb.line.take n).drop (c + 1) := by
      have h1 : (lb.line.take n).take c = lb.line.take c := by
        rw [List.take_take, Nat.min_eq_left (le_of_lt hcn)]
      have h2 : (lb.line.take n)[c]? = some (lb.line.getD c 0) := by
        rw [List.getElem?_take_of_lt hcn, List.getD_eq_getElem?_getD,
          List.getElem?_eq_getElem hcl]
        rfl
      have h3 := List.take_append_drop c (lb.line.take n)
      rw [h1] at h3
      rw [List.drop_eq_getElem?_toList_append, h2] at h3
      exact h3.symm
    conv_lhs => rw [hsplit]
    simp only [List.map_append, List.map_cons, List.flatten_append, List.flatten_cons,
      List.append_assoc]

/-- C28, witness: the line 'a', 'b', 1, 'c', 'd' on 80 columns, the locus at
the 'c': the marker is preceded by 6 spaces, 1 for each of 'a' and 'b' and 4
for the character 1. -/
theorem marker_column_witness :
    ∃ n, show_locus_excerpt sample_externals short_escaped_line (3 : Nat) (-1) (width_state 80)
        = emit (((short_escaped_line.line.take n).map (render sample_externals)).flatten
            ++ ['\n'] ++ (List.replicate (span_width sample_externals short_escaped_line.line 0 3)
              ' ' ++ ['1', '\n'])) (width_state 80)
      ∧ span_width sample_externals short_escaped_line.line 0 3 = 6 :=
  (marker_column sample_externals short_escaped_line 3 (width_state 80) (by decide)
    (by decide)).imp (fun _ h => ⟨h.1, by decide⟩)

/-- C28, counterexample: the line 1, 1, 1, 1, 'a' on 10 columns, the locus
at the 'a', index 4, which needs no horizontal scroll. The excerpt is cut
after three of the characters, 12 columns, and the marker row is 16 spaces
and the marker: the marked character is not in the printed excerpt, and the
marker stands under none of its columns. -/
theorem marker_column_counterexample :
    locus_offset (width_state 10).terminal_width 4 = 0
    ∧ (show_locus_excerpt sample_externals escapes_line 4 (-1) (width_state 10)).state.w.stderr
      = "\\x01\\x01\\x01\n".toList ++ (List.replicate 16 ' ' ++ ['1', '\n'])
    ∧ span_width sample_externals escapes_line.line 0 4 = 16
    ∧ "\\x01\\x01\\x01".toList.length = 12
    ∧ 'a' ∉ "\\x01\\x01\\x01".toList := by
  refine ⟨?_, ?_, ?_, ?_, ?_⟩ <;> decide!


/-! ## The second loop of `error_print`: slots and arguments -/

theorem conv_step_value (cur : locus) (ty : ArgType) (pos : Nat) (cv cv1 : Conv)
    (h : conv_step cur ty pos cv = .ok cv1) (hl : is_locus_type ty = false) :
    ∃ a rest u, cv.argp = a :: rest ∧ arg_value ty a = some u
      ∧ cv1 = { cv with arg_u := cv.arg_u.set pos u, argp := rest } := by
  unfold conv_step at h
  split at h <;> first
    | exact absurd hl (by decide)
    | (rename_i e; cases h; exact ⟨_, _, _, e, rfl, rfl⟩)
    | cases h

theorem conv_step_locus (cur : locus) (ty : ArgType) (pos : Nat) (cv cv1 : Conv)
    (h : conv_step cur ty pos cv = .ok cv1) (hl : is_locus_type ty = true) :
    ∃ loc, cv1 = conv_locus cv pos loc (cv.argp.drop (slot_consumes ty))
      ∧ (ty = .TYPE_CURRENTLOC → loc = some cur)
      ∧ (ty = .TYPE_LOCUS → cv.argp.head? = some (.loc loc)) := by
  unfold conv_step at h
  split at h
  case h_2 => cases h; exact ⟨_, rfl, fun _ => rfl, fun e => nomatch e⟩
  case h_3 l rest e =>
    cases h
    refine ⟨l, ?_, (fun e => nomatch e), fun _ => ?_⟩
    · rw [e]
      rfl
    · rw [e]
      rfl
  all_goals first
    | exact absurd hl (by decide)
    | cases h

theorem args_before_succ (types : List ArgType) (n : Nat) (ty : ArgType)
    (h : types[n]? = some ty) :
    args_before types (n + 1) = args_before types n + slot_consumes ty := by
  unfold args_before
  rw [List.take_succ, h]
  simp

theorem loci_before_succ (types : List ArgType) (n : Nat) (ty : ArgType)
    (h : types[n]? = some ty) :
    loci_before types (n + 1) = loci_before types n + (if is_locus_type ty then 1 else 0) := by
  unfold loci_before
  rw [List.take_succ, h]
  by_cases hl : is_locus_type ty = true <;> simp [hl]

theorem loci_before_le_succ (types : List ArgType) (n : Nat) :
    loci_before types n ≤ loci_before types (n + 1) := by
  unfold loci_before
  rw [List.take_succ, List.filter_append, List.length_append]
  omega

theorem loci_before_mono (types : List ArgType) (m n : Nat) (h : m ≤ n) :
    loci_before types m ≤ loci_before types n := by
  induction n with
  | zero =>
    have : m = 0 := by omega
    rw [this]
  | succ n ih =>
    by_cases e : m = n + 1
    · rw [e]
    · exact le_trans (ih (by omega)) (loci_before_le_succ types n)

theorem loci_before_lt (types : List ArgType) (pos count : Nat) (ty : ArgType)
    (h : pos < count) (hty : types[pos]? = some ty) (hl : is_locus_type ty = true) :
    loci_before types pos + 1 ≤ loci_before types count := by
  have h1 := loci_before_succ types pos ty hty
  rw [if_pos hl] at h1
  rw [← h1]
  exact loci_before_mono types _ _ h

theorem drop_head (argp : List VaArg) (n : Nat) (a : VaArg) (rest : List VaArg)
    (h : argp.drop n = a :: rest) : argp[n]? = some a := by
  have := congrArg List.head? h
  simpa using this

theorem drop_tail (argp : List VaArg) (n : Nat) (a : VaArg) (rest : List VaArg)
    (h : argp.drop n = a :: rest) : argp.drop (n + 1) = rest := by
  have := congrArg (List.drop 1) h
  simpa [List.drop_drop, Nat.add_comm] using this

theorem conv_loop_snoc (cur : locus) (types : List ArgType) (count pos : Nat) (cv : Conv) :
    conv_loop cur types (count + 1) pos cv
      = match conv_loop cur types count pos cv with
        | .error r => .error r
        | .ok cv1 =>
          match types[pos + count]? with
          | none => .error .undefined
          | some ty => conv_step cur ty (pos + count) cv1 := by
  induction count generalizing pos cv with
  | zero =>
    simp only [conv_loop, List.get?_eq_getElem?, Nat.add_zero]
    cases types[pos]? with
    | none => rfl
    | some ty =>
      simp only []
      cases conv_step cur ty pos cv <;> rfl
  | succ count ih =>
    rw [conv_loop]
    simp only [List.get?_eq_getElem?]
    cases h1 : types[pos]? with
    | none => simp [conv_loop, h1]
    | some ty =>
      simp only []
      cases h2 : conv_step cur ty pos cv with
      | error r => simp [conv_loop, h1, h2]
      | ok cv1 =>
        simp only []
        rw [ih (pos + 1) cv1]
        conv_rhs => rw [conv_loop]
        simp only [List.get?_eq_getElem?, h1, h2]
        rw [show pos + 1 + count = pos + (count + 1) by omega]

theorem conv_inv_init (cur : locus) (types : List ArgType) (argp : List VaArg) :
    ConvInv cur types argp 0 (Conv.init argp) where
  argp_eq := by simp [Conv.init, args_before]
  have_eq := by simp [Conv.init, loci_before]
  len := by simp [Conv.init]
  value := fun pos ty h => absurd h (Nat.not_lt_zero _)
  text := fun pos ty h => absurd h (Nat.not_lt_zero _)
  first := fun pos ty h => absurd h (Nat.not_lt_zero _)
  last := fun pos ty h => absurd h (Nat.not_lt_zero _)

theorem conv_inv_value (cur : locus) (types : List ArgType) (argp : List VaArg) (count : Nat)
    (cv1 cv : Conv) (ty : ArgType) (hI : ConvInv cur types argp count cv1)
    (hty : types[count]? = some ty) (hc : count < MAX_ARGS)
    (hs : conv_step cur ty count cv1 = .ok cv) (hl : is_locus_type ty = false) :
    ConvInv cur types argp (count + 1) cv := by
  obtain ⟨a, rest, u, ha, hu, rfl⟩ := conv_step_value cur ty count cv1 cv hs hl
  have hd : argp.drop (args_before types count) = a :: rest := by rw [← hI.argp_eq, ha]
  have hsc : slot_consumes ty = 1 := by
    unfold slot_consumes
    rw [if_neg]
    rintro rfl
    exact absurd hl (by decide)
  have hab := args_before_succ types count ty hty
  have hlb := loci_before_succ types count ty hty
  rw [hsc] at hab
  simp only [hl, Bool.false_eq_true, if_false, Nat.add_zero] at hlb
  have hlen : count < cv1.arg_u.length := by rw [hI.len]; exact hc
  refine ⟨?_, ?_, ?_, ?_, ?_, ?_, ?_⟩
  · show rest = _
    rw [hab, drop_tail argp _ a rest hd]
  · show cv1.have_l1 = _
    rw [hlb, hI.have_eq]
  · show (cv1.arg_u.set count u).length = _
    rw [List.length_set, hI.len]
  · intro pos ty1 hp hty1 hl1
    show ∃ a, _ ∧ _ = (cv1.arg_u.set count u)[pos]?
    by_cases e : pos = count
    · subst e
      rw [hty] at hty1
      cases hty1
      exact ⟨a, drop_head argp _ a rest hd, by rw [List.getElem?_set_self hlen, hu]⟩
    · rw [List.getElem?_set_ne (Ne.symm e)]
      exact hI.value pos ty1 (by omega) hty1 hl1
  · intro pos ty1 hp hty1 hl1
    show (cv1.arg_u.set count u)[pos]? = _
    by_cases e : pos = count
    · subst e
      rw [hty] at hty1
      cases hty1
      rw [hl] at hl1
      cases hl1
    · rw [List.getElem?_set_ne (Ne.symm e)]
      exact hI.text pos ty1 (by omega) hty1 hl1
  · intro pos ty1 hp hty1 hl1 h0
    by_cases e : pos = count
    · subst e
      rw [hty] at hty1
      cases hty1
      rw [hl] at hl1
      cases hl1
    · exact hI.first pos ty1 (by omega) hty1 hl1 h0
  · intro pos ty1 hp hty1 hl1 h0 h1
    by_cases e : pos = count
    · subst e
      rw [hty] at hty1
      cases hty1
      rw [hl] at hl1
      cases hl1
    · rw [hlb] at h1
      exact hI.last pos ty1 (by omega) hty1 hl1 h0 h1

theorem conv_inv_locus (cur : locus) (types : List ArgType) (argp : List VaArg) (count : Nat)
    (cv1 cv : Conv) (ty : ArgType) (hI : ConvInv cur types argp count cv1)
    (hty : types[count]? = some ty) (hc : count < MAX_ARGS)
    (hs : conv_step cur ty count cv1 = .ok cv) (hl : is_locus_type ty = true) :
    ConvInv cur types argp (count + 1) cv := by
  obtain ⟨loc, rfl, hcur, hloc⟩ := conv_step_locus cur ty count cv1 cv hs hl
  have hab := args_before_succ types count ty hty
  have hlb := loci_before_succ types count ty hty
  rw [if_pos hl] at hlb
  have hlen : count < cv1.arg_u.length := by rw [hI.len]; exact hc
  have hargp : (conv_locus cv1 count loc (cv1.argp.drop (slot_consumes ty))).argp
      = argp.drop (args_before types (count + 1)) := by
    have : (conv_locus cv1 count loc (cv1.argp.drop (slot_consumes ty))).argp
        = cv1.argp.drop (slot_consumes ty) := by
      unfold conv_locus
      split <;> rfl
    rw [this, hI.argp_eq, List.drop_drop, hab]
  have hhead : ty = .TYPE_LOCUS → argp[args_before types count]? = some (.loc loc) := by
    intro e
    have := hloc e
    rw [hI.argp_eq, List.head?_drop] at this
    exact this
  cases hh : cv1.have_l1 with
  | false =>
    have h0 : loci_before types count = 0 := by
      have := hI.have_eq
      rw [hh] at this
      simpa using this.symm
    have hcv : conv_locus cv1 count loc (cv1.argp.drop (slot_consumes ty))
        = { cv1 with l1 := loc, have_l1 := true,
                     arg_u := cv1.arg_u.set count (.stringval "(1)".toList),
                     argp := cv1.argp.drop (slot_consumes ty) } := by
      simp [conv_locus, hh]
    rw [hcv] at hargp ⊢
    refine ⟨hargp, ?_, ?_, ?_, ?_, ?_, ?_⟩
    · show true = _
      rw [hlb]
      simp
    · show (cv1.arg_u.set count _).length = _
      rw [List.length_set, hI.len]
    · intro pos ty1 hp hty1 hl1
      show ∃ a, _ ∧ _ = (cv1.arg_u.set count _)[pos]?
      by_cases e : pos = count
      · subst e
        rw [hty] at hty1
        cases hty1
        rw [hl] at hl1
        cases hl1
      · rw [List.getElem?_set_ne (Ne.symm e)]
        exact hI.value pos ty1 (by omega) hty1 hl1
    · intro pos ty1 hp hty1 hl1
      show (cv1.arg_u.set count _)[pos]? = _
      by_cases e : pos = count
      · subst e
        rw [List.getElem?_set_self hlen, if_pos h0]
      · rw [List.getElem?_set_ne (Ne.symm e)]
        exact hI.text pos ty1 (by omega) hty1 hl1
    · intro pos ty1 hp hty1 hl1 hz
      by_cases e : pos = count
      · subst e
        rw [hty] at hty1
        cases hty1
        exact ⟨hcur, hhead⟩
      · have := loci_before_lt types pos count ty1 (by omega) hty1 hl1
        omega
    · intro pos ty1 hp hty1 hl1 hz h1
      by_cases e : pos = count
      · subst e
        omega
      · have := loci_before_lt types pos count ty1 (by omega) hty1 hl1
        omega
  | true =>
    have h0 : 0 < loci_before types count := by
      have := hI.have_eq
      rw [hh] at this
      simpa using this.symm
    have hcv : conv_locus cv1 count loc (cv1.argp.drop (slot_consumes ty))
        = { cv1 with l2 := loc, arg_u := cv1.arg_u.set count (.stringval "(2)".toList),
                     argp := cv1.argp.drop (slot_consumes ty) } := by
      simp [conv_locus, hh]
    rw [hcv] at hargp ⊢
    refine ⟨hargp, ?_, ?_, ?_, ?_, ?_, ?_⟩
    · show cv1.have_l1 = _
      rw [hh, hlb]
      simp
    · show (cv1.arg_u.set count _).length = _
      rw [List.length_set, hI.len]
    · intro pos ty1 hp hty1 hl1
      show ∃ a, _ ∧ _ = (cv1.arg_u.set count _)[pos]?
      by_cases e : pos = count
      · subst e
        rw [hty] at hty1
        cases hty1
        rw [hl] at hl1
        cases hl1
      · rw [List.getElem?_set_ne (Ne.symm e)]
        exact hI.value pos ty1 (by omega) hty1 hl1
    · intro pos ty1 hp hty1 hl1
      show (cv1.arg_u.set count _)[pos]? = _
      by_cases e : pos = count
      · subst e
        rw [List.getElem?_set_self hlen, if_neg (by omega)]
      · rw [List.getElem?_set_ne (Ne.symm e)]
        exact hI.text pos ty1 (by omega) hty1 hl1
    · intro pos ty1 hp hty1 hl1 hz
      by_cases e : pos = count
      · subst e
        omega
      · exact hI.first pos ty1 (by omega) hty1 hl1 hz
    · intro pos ty1 hp hty1 hl1 hz h1
      by_cases e : pos = count
      · subst e
        rw [hty] at hty1
        cases hty1
        exact ⟨hcur, hhead⟩
      · have := loci_before_lt types pos count ty1 (by omega) hty1 hl1
        omega

theorem conv_inv (cur : locus) (types : List ArgType) (argp : List VaArg) (count : Nat)
    (cv : Conv) (hc : count ≤ MAX_ARGS)
    (h : conv_loop cur types count 0 (Conv.init argp) = .ok cv) :
    ConvInv cur types argp count cv := by
  induction count generalizing cv with
  | zero =>
    cases h
    exact conv_inv_init cur types argp
  | succ count ih =>
    rw [conv_loop_snoc] at h
    cases h1 : conv_loop cur types count 0 (Conv.init argp) with
    | error r => simp [h1] at h
    | ok cv1 =>
      simp only [h1, Nat.zero_add] at h
      cases h2 : types[count]? with
      | none => simp [h2] at h
      | some ty =>
        simp only [h2] at h
        have hI := ih cv1 (by omega) h1
        by_cases hl : is_locus_type ty = true
        · exact conv_inv_locus cur types argp count cv1 cv ty hI h2 (by omega) h hl
        · exact conv_inv_value cur types argp count cv1 cv ty hI h2 (by omega) h
            (by simpa using hl)

/-- C22: the second loop of `error_print` takes the caller's arguments once
each, in the order of the slot indices 0, 1, 2 and so on: after `count`
slots what is left of the argument list is the list less as many arguments
as there are slots before `count` that are not of the type of `%C`, a slot of
that type taking none and every other slot one. A slot that names no locus
keeps the value of the argument whose index is the number of arguments taken
by the slots before it. The first slot, in this order, that names a locus
(`%C` or `%L`) is given the text "(1)" and its locus becomes locus 1; every
later one is given the text "(2)" and its locus becomes locus 2, the second
one when there are two. The order of the specifiers in the template plays
no part. -/
theorem arguments_in_slot_order (cur : locus) (types : List ArgType) (argp : List VaArg)
    (count : Nat) (cv : Conv) (hc : count ≤ MAX_ARGS)
    (h : conv_loop cur types count 0 (Conv.init argp) = .ok cv) :
    cv.argp = argp.drop (args_before types count)
    ∧ (∀ pos ty, pos < count → types[pos]? = some ty →
        args_before types (pos + 1)
          = args_before types pos + (if ty = .TYPE_CURRENTLOC then 0 else 1))
    ∧ (∀ pos ty, pos < count → types[pos]? = some ty → is_locus_type ty = false →
        ∃ a, argp[args_before types pos]? = some a ∧ arg_value ty a = cv.arg_u[pos]?)
    ∧ (∀ pos ty, pos < count → types[pos]? = some ty → is_locus_type ty = true →
        loci_before types pos = 0 →
        cv.arg_u[pos]? = some (.stringval "(1)".toList)
        ∧ (ty = .TYPE_CURRENTLOC → cv.l1 = some cur)
        ∧ (ty = .TYPE_LOCUS → argp[args_before types pos]? = some (.loc cv.l1)))
    ∧ (∀ pos ty, pos < count → types[pos]? = some ty → is_locus_type ty = true →
        0 < loci_before types pos →
        cv.arg_u[pos]? = some (.stringval "(2)".toList)
        ∧ (loci_before types count = loci_before types pos + 1 →
            (ty = .TYPE_CURRENTLOC → cv.l2 = some cur)
            ∧ (ty = .TYPE_LOCUS → argp[args_before types pos]? = some (.loc cv.l2)))) := by
  have hI := conv_inv cur types argp count cv hc h
  refine ⟨hI.argp_eq, ?_, hI.value, ?_, ?_⟩
  · intro pos ty _ hty
    exact args_before_succ types pos ty hty
  · intro pos ty hp hty hl h0
    have := hI.text pos ty hp hty hl
    rw [if_pos h0] at this
    exact ⟨this, hI.first pos ty hp hty hl h0⟩
  · intro pos ty hp hty hl h0
    have := hI.text pos ty hp hty hl
    rw [if_neg (by omega)] at this
    exact ⟨this, hI.last pos ty hp hty hl h0⟩

/-- C22, witness: the template "%2$L follows %1$L" with the loci at columns
3 and 7 of the line "abcdefghij" as its arguments, in this order. Slot 0,
named by the second specifier, takes the first argument and is locus 1; slot
1 takes the second argument and is locus 2; the message reads
"(2) follows (1)". -/
theorem arguments_in_slot_order_witness :
    (∀ pos ty, pos < 2 → [ArgType.TYPE_LOCUS, ArgType.TYPE_LOCUS][pos]? = some ty →
        is_locus_type ty = true →
        loci_before [ArgType.TYPE_LOCUS, ArgType.TYPE_LOCUS] pos = 0 →
        ((((List.replicate MAX_ARGS UVal.unset).set 0 (.stringval "(1)".toList)).set 1
            (.stringval "(2)".toList))[pos]? = some (.stringval "(1)".toList))
        ∧ (ty = .TYPE_CURRENTLOC → some (plain_locus 3) = some sample_world.gfc_current_locus)
        ∧ (ty = .TYPE_LOCUS →
            [VaArg.loc (some (plain_locus 3)), VaArg.loc (some (plain_locus 7))][
              args_before [ArgType.TYPE_LOCUS, ArgType.TYPE_LOCUS] pos]?
              = some (.loc (some (plain_locus 3)))))
    ∧ (error_print sample_externals "Error:".toList "%2$L follows %1$L".toList
        [.loc (some (plain_locus 3)), .loc (some (plain_locus 7))] sample_state).state.w.stderr
      = "file.f:10.3-7:\n\nabcdefghij\n   1   2\nError: (2) follows (1)\n".toList :=
  ⟨(arguments_in_slot_order sample_world.gfc_current_locus
      [ArgType.TYPE_LOCUS, ArgType.TYPE_LOCUS]
      [.loc (some (plain_locus 3)), .loc (some (plain_locus 7))] 2
      { arg_u := ((List.replicate MAX_ARGS UVal.unset).set 0 (.stringval "(1)".toList)).set 1
          (.stringval "(2)".toList),
        have_l1 := true, l1 := some (plain_locus 3), l2 := some (plain_locus 7), argp := [] }
      (by decide) rfl).2.2.2.1,
    by decide!⟩


/-! ## Where `error_print` can fail an assertion -/

theorem na_pure {α : Type} (a : α) : NoAssert (pure a : M α) := fun _ _ h => nomatch h

theorem na_undefined {α : Type} : NoAssert (halt .undefined : M α) := fun _ _ h => nomatch h

theorem na_getState : NoAssert getState := fun _ _ h => nomatch h

theorem na_bind {α β : Type} {m : M α} {f : α → M β} (hm : NoAssert m)
    (hf : ∀ a, NoAssert (f a)) : NoAssert (m >>= f) := by
  intro s s1 h
  simp only [bind_apply] at h
  cases e : m s with
  | ok a s2 =>
    rw [e] at h
    exact hf a s2 s1 h
  | stop r s2 =>
    rw [e] at h
    cases h
    exact hm s s1 e

theorem na_ite {α : Type} (c : Prop) [Decidable c] {m1 m2 : M α} (h1 : NoAssert m1)
    (h2 : NoAssert m2) : NoAssert (if c then m1 else m2) := by
  split
  · exact h1
  · exact h2

theorem na_error_char (c : Char) : NoAssert (error_char c) := by
  intro s s1 h
  unfold error_char at h
  split at h
  · split at h
    · cases h
    · split at h <;> cases h
  · split at h <;> cases h

theorem na_emit (cs : List Char) : NoAssert (emit cs) := by
  induction cs with
  | nil => exact na_pure _
  | cons c cs ih => exact na_bind (na_error_char c) (fun _ => ih)

theorem na_error_string (p : List Char) : NoAssert (error_string p) := by
  induction p with
  | nil => exact na_pure _
  | cons c p ih =>
    unfold error_string
    exact na_ite _ (na_pure _) (na_bind (na_error_char c) (fun _ => ih))

theorem na_error_uinteger (i : Nat) : NoAssert (error_uinteger i) := by
  unfold error_uinteger
  generalize (if i = 0 then (['0'], IBUF_LEN - 2) else ([], IBUF_LEN - 1) : List Char × Nat) = start
  dsimp only
  cases uinteger_digits start.2 i start.1 with
  | none => exact na_undefined
  | some ds => exact na_error_string _

theorem na_error_integer (i : Int) : NoAssert (error_integer i) := by
  unfold error_integer
  split
  · exact na_bind (na_error_char _) (fun _ => na_error_uinteger _)
  · exact na_error_uinteger _

theorem na_error_spaces (k : Nat) : NoAssert (error_spaces k) := by
  induction k with
  | zero => exact na_pure _
  | succ k ih => exact na_bind (na_error_char _) (fun _ => ih)

theorem na_line_at (line : List Nat) (i : Nat) : NoAssert (line_at line i) := by
  unfold line_at
  split
  · exact na_undefined
  · exact na_pure _

theorem na_spec_at (spec_u : List UVal) (n : Nat) : NoAssert (spec_at spec_u n) := by
  unfold spec_at
  split
  · exact na_undefined
  · exact na_pure _

theorem na_print_spec (c : Char) (format : List Char) (n : Nat) (spec_u : List UVal) :
    NoAssert (print_spec c format n spec_u) := by
  unfold print_spec
  repeat' (first
    | with_reducible exact na_pure _
    | with_reducible exact na_undefined
    | with_reducible exact na_error_char _
    | with_reducible exact na_error_string _
    | with_reducible exact na_error_integer _
    | with_reducible exact na_error_uinteger _
    | with_reducible exact na_spec_at _ _
    | with_reducible refine na_bind ?_ (fun _ => ?_)
    | with_reducible refine na_ite _ ?_ ?_
    | split)

theorem na_print_loop (fuel : Nat) (format : List Char) (n : Nat) (spec_u : List UVal) :
    NoAssert (print_loop fuel format n spec_u) := by
  induction fuel generalizing format n with
  | zero => exact na_undefined
  | succ fuel ih =>
    cases format with
    | nil => exact na_pure _
    | cons c format =>
      unfold print_loop
      repeat' (first
        | with_reducible exact na_pure _
        | with_reducible exact na_undefined
        | with_reducible exact na_error_char _
        | with_reducible exact na_print_spec _ _ _ _
        | with_reducible exact ih _ _
        | with_reducible refine na_bind ?_ (fun _ => ?_)
        | with_reducible refine na_ite _ ?_ ?_
        | split)


theorem liftE_bind_stop {α β : Type} (e : Except Stop α) (f : α → M β) (s s1 : gfc_state)
    (r : Stop) (h : (liftE e >>= f) s = .stop r s1) :
    (e = .error r ∧ s1 = s) ∨ ∃ a, e = .ok a ∧ f a s = .stop r s1 := by
  cases e with
  | error r1 =>
    left
    cases h
    exact ⟨rfl, rfl⟩
  | ok a => exact Or.inr ⟨a, rfl, h⟩

theorem copy_loop_no_assert (spec_pos : List Int) (arg_u : List UVal) (fuel n : Nat)
    (spec_u : List UVal) : copy_loop spec_pos arg_u fuel n spec_u ≠ .error .assertion := by
  induction fuel generalizing n spec_u with
  | zero => exact fun h => nomatch h
  | succ fuel ih =>
    unfold copy_loop
    split
    · exact fun h => nomatch h
    · split
      · split
        · exact fun h => nomatch h
        · exact ih _ _
      · exact fun h => nomatch h

/-- An assertion that fails in `error_print` fails in the first loop, on a
specifier, or in the second, on a slot, and before anything is printed. -/
theorem error_print_with_assert (show_loci : Option locus → Option locus → M Unit)
    (hsl : ∀ l1 l2, NoAssert (show_loci l1 l2)) (type format0 : List Char)
    (argp : List VaArg) (s s1 : gfc_state)
    (h : error_print_with show_loci type format0 argp s = .stop .assertion s1) :
    s1 = s ∧ (scan ((cstr format0).length + 1) (cstr format0) Scan.init = .error .assertion
      ∨ ∃ st, scan ((cstr format0).length + 1) (cstr format0) Scan.init = .ok st
        ∧ conv_loop s.w.gfc_current_locus st.arg_type (st.maxpos + 1).toNat 0 (Conv.init argp)
          = .error .assertion) := by
  unfold error_print_with at h
  rcases liftE_bind_stop _ _ _ _ _ h with ⟨e, rfl⟩ | ⟨st, e, h⟩
  · exact ⟨rfl, Or.inl e⟩
  · rcases liftE_bind_stop _ _ _ _ _ h with ⟨e2, rfl⟩ | ⟨cv, e2, h⟩
    · exact ⟨rfl, Or.inr ⟨st, e, e2⟩⟩
    · rcases liftE_bind_stop _ _ _ _ _ h with ⟨e3, rfl⟩ | ⟨spec_u, e3, h⟩
      · exact absurd e3 (copy_loop_no_assert _ _ _ _ _)
      · exfalso
        revert h
        refine (?_ : NoAssert _) s s1
        repeat' (first
          | with_reducible exact na_pure _
          | with_reducible exact na_error_char _
          | with_reducible exact na_error_string _
          | with_reducible exact na_print_loop _ _ _ _
          | with_reducible exact hsl _ _
          | with_reducible refine na_bind ?_ (fun _ => ?_)
          | with_reducible refine na_ite _ ?_ ?_)

theorem na_printf_included (name : List Char) (i : Int) :
    NoAssert (error_printf "    Included at %s:%d:".toList [.str name, .int i]) := by
  intro s s1 h
  obtain ⟨_, e | ⟨st, e, e2⟩⟩ := error_print_with_assert _ (fun _ _ => na_undefined) _ _ _ s s1 h
  · exact nomatch e
  · cases e
    exact nomatch e2

theorem na_printf_placeholder :
    NoAssert (error_printf "<During initialization>\n".toList []) := by
  rw [error_printf_placeholder]
  exact na_emit _

theorem na_show_includes (f : gfc_file) : NoAssert (show_includes f) := by
  induction f with
  | top _ _ => exact na_pure _
  | sub _ i up ih => exact na_bind (na_printf_included _ _) (fun _ => ih)

theorem na_show_line_loop (X : Externals) (line : List Nat) (fuel : Nat) (i : Int) (p : Nat) :
    NoAssert (show_line_loop X line fuel i p) := by
  induction fuel generalizing i p with
  | zero => exact na_pure _
  | succ fuel ih =>
    unfold show_line_loop
    repeat' (first
      | with_reducible exact na_pure _
      | with_reducible exact na_line_at _ _
      | with_reducible exact na_error_string _
      | with_reducible exact ih _ _
      | with_reducible refine na_bind ?_ (fun _ => ?_)
      | with_reducible refine na_ite _ ?_ ?_)

theorem na_marker_loop (X : Externals) (line : List Nat) (c1 c2 : Int) (k : Nat) (i : Int)
    (p : Nat) : NoAssert (marker_loop X line c1 c2 k i p) := by
  induction k generalizing i p with
  | zero => exact na_pure _
  | succ k ih =>
    unfold marker_loop
    repeat' (first
      | with_reducible exact na_pure _
      | with_reducible exact na_line_at _ _
      | with_reducible exact na_error_char _
      | with_reducible exact na_error_spaces _
      | with_reducible exact ih _ _
      | with_reducible refine na_bind ?_ (fun _ => ?_)
      | with_reducible refine na_ite _ ?_ ?_)

theorem na_show_locus_header (X : Externals) (lb : gfc_linebuf) (c1 c2 : Int) :
    NoAssert (show_locus_header X lb c1 c2) := by
  unfold show_locus_header
  repeat' (first
    | with_reducible exact na_pure _
    | with_reducible exact na_error_char _
    | with_reducible exact na_error_string _
    | with_reducible exact na_error_integer _
    | with_reducible refine na_bind ?_ (fun _ => ?_)
    | with_reducible refine na_ite _ ?_ ?_)

theorem na_show_locus_line (X : Externals) (lb : gfc_linebuf) (offset : Int) :
    NoAssert (show_locus_line X lb offset) := by
  unfold show_locus_line
  repeat' (first
    | with_reducible exact na_pure _
    | with_reducible exact na_undefined
    | with_reducible exact na_getState
    | with_reducible exact na_error_char _
    | with_reducible exact na_show_line_loop _ _ _ _ _
    | with_reducible refine na_bind ?_ (fun _ => ?_)
    | with_reducible refine na_ite _ ?_ ?_)

theorem na_show_locus_markers (X : Externals) (lb : gfc_linebuf) (offset c1 c2 cmax : Int) :
    NoAssert (show_locus_markers X lb offset c1 c2 cmax) := by
  unfold show_locus_markers
  repeat' (first
    | with_reducible exact na_pure _
    | with_reducible exact na_error_char _
    | with_reducible exact na_marker_loop _ _ _ _ _ _ _
    | with_reducible refine na_bind ?_ (fun _ => ?_)
    | with_reducible refine na_ite _ ?_ ?_)

theorem na_show_locus (X : Externals) (loc : locus) (c1 c2 : Int) :
    NoAssert (show_locus X loc c1 c2) := by
  unfold show_locus
  repeat' (first
    | with_reducible exact na_pure _
    | with_reducible exact na_undefined
    | with_reducible exact na_getState
    | with_reducible exact na_error_char _
    | with_reducible exact na_show_locus_header _ _ _ _
    | with_reducible exact na_show_includes _
    | with_reducible exact na_show_locus_line _ _ _
    | with_reducible exact na_show_locus_markers _ _ _ _ _ _
    | with_reducible refine na_bind ?_ (fun _ => ?_)
    | split)

theorem na_show_loci (X : Externals) (l1 l2 : Option locus) :
    NoAssert (show_loci X l1 l2) := by
  unfold show_loci
  repeat' (first
    | with_reducible exact na_pure _
    | with_reducible exact na_undefined
    | with_reducible exact na_getState
    | with_reducible exact na_printf_placeholder
    | with_reducible exact na_show_locus _ _ _ _
    | with_reducible refine na_bind ?_ (fun _ => ?_)
    | with_reducible refine na_ite _ ?_ ?_
    | split)

theorem na_error_print (X : Externals) (type format0 : List Char) (argp : List VaArg)
    (s s1 : gfc_state) (h : error_print X type format0 argp s = .stop .assertion s1) :
    s1 = s ∧ (scan ((cstr format0).length + 1) (cstr format0) Scan.init = .error .assertion
      ∨ ∃ st, scan ((cstr format0).length + 1) (cstr format0) Scan.init = .ok st
        ∧ conv_loop s.w.gfc_current_locus st.arg_type (st.maxpos + 1).toNat 0 (Conv.init argp)
          = .error .assertion) :=
  error_print_with_assert _ (na_show_loci X) _ _ _ s s1 h

theorem scan_type_typed (c : Char) (format : List Char) (ty : ArgType) (format2 : List Char)
    (h : scan_type c format = .ok (ty, format2)) : ty ≠ .NOTYPE := by
  unfold scan_type at h
  simp only [] at h
  split_ifs at h <;> cases h <;> exact fun e => nomatch e

theorem scan_inv_init : ScanInv Scan.init where
  len_t := by simp [Scan.init]
  len_s := by simp [Scan.init]
  n_le := Nat.zero_le _
  max_lt := by decide
  typed := fun p hp => by
    constructor
    · intro _ k hk
      exact absurd hk (Nat.not_lt_zero _)
    · intro _
      simp only [Scan.init, List.getElem?_replicate, hp, if_true]
  bound := fun k q hk => absurd hk (Nat.not_lt_zero _)
  top := Or.inl ⟨rfl, rfl⟩

theorem scan_inv_step (st : Scan) (pos : Int) (ty : ArgType) (hI : ScanInv st)
    (h0 : 0 ≤ pos) (h1 : pos < MAX_ARGS) (hn : st.n < MAX_ARGS) (hty : ty ≠ .NOTYPE) :
    ScanInv { pos := pos, maxpos := if pos > st.maxpos then pos else st.maxpos, n := st.n + 1,
              arg_type := st.arg_type.set pos.toNat ty,
              spec_pos := st.spec_pos.set st.n pos } := by
  have hpl : pos.toNat < st.arg_type.length := by
    rw [hI.len_t]
    omega
  have hnl : st.n < st.spec_pos.length := by
    rw [hI.len_s]
    exact hn
  refine ⟨?_, ?_, ?_, ?_, ?_, ?_, ?_⟩
  · show (st.arg_type.set pos.toNat ty).length = _
    rw [List.length_set, hI.len_t]
  · show (st.spec_pos.set st.n pos).length = _
    rw [List.length_set, hI.len_s]
  · show st.n + 1 ≤ MAX_ARGS
    omega
  · show (if pos > st.maxpos then pos else st.maxpos) < MAX_ARGS
    have := hI.max_lt
    split <;> omega
  · intro p hp
    show (st.arg_type.set pos.toNat ty)[p]? = some .NOTYPE
      ↔ ∀ k, k < st.n + 1 → (st.spec_pos.set st.n pos)[k]? ≠ some (p : Int)
    by_cases e : pos.toNat = p
    · subst e
      rw [List.getElem?_set_self hpl]
      constructor
      · intro h
        cases h
        exact absurd rfl hty
      · intro h
        have := h st.n (Nat.lt_succ_self _)
        rw [List.getElem?_set_self hnl] at this
        exact absurd (by rw [Int.toNat_of_nonneg h0]) this
    · rw [List.getElem?_set_ne e, hI.typed p hp]
      constructor
      · intro h k hk
        by_cases ek : k = st.n
        · subst ek
          rw [List.getElem?_set_self hnl]
          intro hc
          cases hc
          exact e (by simp)
        · rw [List.getElem?_set_ne (Ne.symm ek)]
          exact h k (by omega)
      · intro h k hk
        have := h k (Nat.lt_succ_of_lt hk)
        rwa [List.getElem?_set_ne (Nat.ne_of_gt hk)] at this
  · intro k q hk hq
    have hk1 : k < st.n + 1 := hk
    show 0 ≤ q ∧ q ≤ (if pos > st.maxpos then pos else st.maxpos)
    by_cases ek : k = st.n
    · subst ek
      rw [List.getElem?_set_self hnl] at hq
      cases hq
      constructor
      · exact h0
      · split <;> omega
    · rw [List.getElem?_set_ne (Ne.symm ek)] at hq
      have := hI.bound k q (by omega) hq
      constructor
      · exact this.1
      · split <;> omega
  · right
    show ∃ k, k < st.n + 1
      ∧ (st.spec_pos.set st.n pos)[k]? = some (if pos > st.maxpos then pos else st.maxpos)
    by_cases hgt : pos > st.maxpos
    · rw [if_pos hgt]
      exact ⟨st.n, Nat.lt_succ_self _, List.getElem?_set_self hnl⟩
    · rw [if_neg hgt]
      rcases hI.top with ⟨_, hm⟩ | ⟨k, hk, hq⟩
      · omega
      · exact ⟨k, by omega, by rw [List.getElem?_set_ne (by omega)]; exact hq⟩

theorem scan_inv (fuel : Nat) (format : List Char) (st st1 : Scan)
    (h : scan fuel format st = .ok st1) (hI : ScanInv st) : ScanInv st1 := by
  induction fuel generalizing format st with
  | zero => cases h
  | succ fuel ih =>
    cases format with
    | nil =>
      cases h
      exact hI
    | cons c format =>
      unfold scan at h
      split at h
      · exact ih _ _ h hI
      · split at h
        · exact ih _ _ h hI
        · split at h
          · cases h
          · rename_i pos format1 _
            simp only [] at h
            split at h
            · cases h
            · rename_i ty format2 hty
              split at h
              · rename_i hb
                exact ih _ _ h (scan_inv_step st pos ty hI hb.1 hb.2.1 hb.2.2
                  (scan_type_typed _ _ _ _ hty))
              · cases h

theorem conv_step_error (cur : locus) (ty : ArgType) (pos : Nat) (cv : Conv) (r : Stop)
    (h : conv_step cur ty pos cv = .error r) :
    (r = .assertion ∧ ty = .NOTYPE) ∨ r = .undefined := by
  unfold conv_step at h
  split at h <;> cases h
  · exact Or.inl ⟨rfl, rfl⟩
  · exact Or.inr rfl

theorem conv_step_ok (cur : locus) (ty : ArgType) (pos : Nat) (cv cv1 : Conv)
    (h : conv_step cur ty pos cv = .ok cv1) : ty ≠ .NOTYPE := by
  rintro rfl
  unfold conv_step at h
  split at h <;> contradiction

/-- How the second loop of `error_print` ends: it goes through when no slot
it reads is without a type, and otherwise fails the assertion on such a
slot, unless an argument is not of the type a slot reads. -/
theorem conv_loop_outcome (cur : locus) (types : List ArgType) (count pos : Nat) (cv : Conv) :
    (∀ cv1, conv_loop cur types count pos cv = .ok cv1 →
      ∀ p, pos ≤ p → p < pos + count → types[p]? ≠ some .NOTYPE)
    ∧ (∀ r, conv_loop cur types count pos cv = .error r →
      (r = .assertion ∧ ∃ p, pos ≤ p ∧ p < pos + count ∧ types[p]? = some .NOTYPE)
      ∨ r = .undefined) := by
  induction count generalizing pos cv with
  | zero =>
    constructor
    · intro _ _ p h1 h2
      omega
    · intro r h
      cases h
  | succ count ih =>
    unfold conv_loop
    simp only [List.get?_eq_getElem?]
    cases h1 : types[pos]? with
    | none =>
      constructor
      · intro _ h
        cases h
      · intro r h
        cases h
        exact Or.inr rfl
    | some ty =>
      simp only []
      cases h2 : conv_step cur ty pos cv with
      | error r1 =>
        constructor
        · intro _ h
          cases h
        · intro r h
          cases h
          rcases conv_step_error cur ty pos cv r1 h2 with ⟨e1, e2⟩ | e
          · exact Or.inl ⟨e1, pos, le_refl _, by omega, by rw [h1, e2]⟩
          · exact Or.inr e
      | ok cv1 =>
        simp only []
        obtain ⟨i1, i2⟩ := ih (pos + 1) cv1
        constructor
        · intro cv2 h p hp1 hp2
          by_cases e : p = pos
          · subst e
            rw [h1]
            intro hc
            cases hc
            exact conv_step_ok cur _ p cv cv1 h2 rfl
          · exact i1 cv2 h p (by omega) (by omega)
        · intro r h
          rcases i2 r h with ⟨e1, p, hp1, hp2, hp3⟩ | e
          · exact Or.inl ⟨e1, p, by omega, by omega, hp3⟩
          · exact Or.inr e

/-- C23: for a template whose specifiers are all well formed (the first
loop of `error_print` goes through it) and arguments of the types that the
slots read, `error_print` ends on a failed assertion if and only if some
slot index from 0 to `maxpos`, the highest slot that a specifier names, is
named by no specifier; the state is then as it was before the call, nothing
having been emitted. The slots named by no specifier are those left without
a type. -/
theorem untyped_slot_asserts (X : Externals) (type format0 : List Char) (argp : List VaArg)
    (s : gfc_state) (st : Scan)
    (hscan : scan ((cstr format0).length + 1) (cstr format0) Scan.init = .ok st)
    (hargs : conv_loop s.w.gfc_current_locus st.arg_type (st.maxpos + 1).toNat 0
      (Conv.init argp) ≠ .error .undefined) :
    ((∃ s1, error_print X type format0 argp s = .stop .assertion s1)
      ↔ ∃ p : Nat, (p : Int) ≤ st.maxpos ∧ ∀ k, k < st.n → st.spec_pos[k]? ≠ some (p : Int))
    ∧ (∀ s1, error_print X type format0 argp s = .stop .assertion s1 → s1 = s)
    ∧ (∀ p : Nat, (p : Int) ≤ st.maxpos →
        (st.arg_type[p]? = some .NOTYPE ↔ ∀ k, k < st.n → st.spec_pos[k]? ≠ some (p : Int)))
    ∧ ((st.n = 0 ∧ st.maxpos = -1) ∨ ∃ k, k < st.n ∧ st.spec_pos[k]? = some st.maxpos)
    ∧ (∀ k q, k < st.n → st.spec_pos[k]? = some q → 0 ≤ q ∧ q ≤ st.maxpos) := by
  have hI := scan_inv _ _ _ _ hscan scan_inv_init
  have hmax := hI.max_lt
  have htyped : ∀ p : Nat, (p : Int) ≤ st.maxpos →
      (st.arg_type[p]? = some .NOTYPE ↔ ∀ k, k < st.n → st.spec_pos[k]? ≠ some (p : Int)) :=
    fun p hp => hI.typed p (by omega)
  obtain ⟨o1, o2⟩ := conv_loop_outcome s.w.gfc_current_locus st.arg_type (st.maxpos + 1).toNat 0
    (Conv.init argp)
  refine ⟨⟨?_, ?_⟩, ?_, htyped, hI.top, hI.bound⟩
  · rintro ⟨s1, h⟩
    obtain ⟨_, e | ⟨st1, e, e2⟩⟩ := na_error_print X type format0 argp s s1 h
    · rw [hscan] at e
      cases e
    · rw [hscan] at e
      cases e
      rcases o2 _ e2 with ⟨_, p, _, hp2, hp3⟩ | e3
      · have hp : (p : Int) ≤ st.maxpos := by omega
        exact ⟨p, hp, (htyped p hp).mp hp3⟩
      · cases e3
  · rintro ⟨p, hp, hun⟩
    have hnt := (htyped p hp).mpr hun
    have hconv : conv_loop s.w.gfc_current_locus st.arg_type (st.maxpos + 1).toNat 0
        (Conv.init argp) = .error .assertion := by
      cases hc : conv_loop s.w.gfc_current_locus st.arg_type (st.maxpos + 1).toNat 0
          (Conv.init argp) with
      | ok cv => exact absurd hnt (o1 cv hc p (Nat.zero_le _) (by omega))
      | error r =>
        rcases o2 r hc with ⟨e, _⟩ | e
        · rw [e]
        · rw [hc, e] at hargs
          exact absurd rfl hargs
    refine ⟨s, ?_⟩
    unfold error_print error_print_with
    simp only [bind_apply, hscan, liftE, pure_apply, getState_apply]
    have hconv1 : conv_loop s.w.gfc_current_locus st.arg_type (st.maxpos + 1).toNat 0
        { arg_u := List.replicate MAX_ARGS .unset, have_l1 := false, l1 := none, l2 := none,
          argp := argp } = .error .assertion := hconv
    rw [hconv1]
    rfl
  · intro s1 h
    exact (na_error_print X type format0 argp s s1 h).1

/-- C23, witness: the template "%2$d" alone names slot 1 and leaves slot 0
without a type; `error_print` fails the assertion and the state is as it
was. -/
theorem untyped_slot_asserts_witness :
    error_print sample_externals "Error:".toList "%2$d".toList [.int 5] sample_state
      = .stop .assertion sample_state
    ∧ ((∃ s1, error_print sample_externals "Error:".toList "%2$d".toList [.int 5] sample_state
          = .stop .assertion s1)
      ↔ ∃ p : Nat, (p : Int) ≤ 1
          ∧ ∀ k, k < 1 → (Scan.init.spec_pos.set 0 1)[k]? ≠ some (p : Int)) :=
  ⟨by decide!,
    (untyped_slot_asserts sample_externals "Error:".toList "%2$d".toList [.int 5] sample_state
      { pos := 1, maxpos := 1, n := 1,
        arg_type := Scan.init.arg_type.set 1 ArgType.TYPE_INTEGER,
        spec_pos := Scan.init.spec_pos.set 0 1 }
      rfl (fun h => nomatch h)).1⟩


/-! ## Printing in buffered mode returns -/

theorem rb_pure {α : Type} (a : α) : ReturnsBuffered (pure a : M α) :=
  fun s _ h1 h2 h3 => ⟨a, s, rfl, h1, h2, h3⟩

theorem rb_bind {α β : Type} {m : M α} {f : α → M β} (hm : ReturnsBuffered m)
    (hf : ∀ a, ReturnsBuffered (f a)) : ReturnsBuffered (m >>= f) := by
  intro s sel h1 h2 h3
  obtain ⟨a, s1, e, i1, i2, i3⟩ := hm s sel h1 h2 h3
  obtain ⟨b, s2, e2, j1, j2, j3⟩ := hf a s1 sel i1 i2 i3
  exact ⟨b, s2, by rw [bind_ok e, e2], j1, j2, j3⟩

theorem rb_ite {α : Type} (c : Prop) [Decidable c] {m1 m2 : M α}
    (h1 : ReturnsBuffered m1) (h2 : ReturnsBuffered m2) :
    ReturnsBuffered (if c then m1 else m2) := by
  split
  · exact h1
  · exact h2

theorem buffer_char_valid (b : gfc_error_buf) (c : Char) (h : BufValid b) :
    ∃ b1, buffer_char b c = some b1 ∧ BufValid b1 := by
  obtain ⟨hm, hi⟩ := h
  unfold buffer_char grow
  by_cases hge : b.index ≥ b.allocated
  · simp only [hge, if_true]
    have hlt : b.index < (if (b.allocated != 0) = true then b.allocated * 2 else 1000) := by
      split
      · rename_i h0
        simp at h0
        omega
      · rename_i h0
        simp at h0
        omega
    rw [if_pos hlt]
    exact ⟨_, rfl, ⟨(fun h => nomatch h), Nat.succ_le_of_lt hlt⟩⟩
  · simp only [hge, if_false]
    cases hmsg : b.message with
    | none =>
      have := hm hmsg
      omega
    | some m =>
      simp only []
      rw [if_pos (by omega)]
      exact ⟨_, rfl, ⟨(fun h => nomatch h), by show b.index + 1 ≤ b.allocated; omega⟩⟩

theorem rb_error_char (c : Char) : ReturnsBuffered (error_char c) := by
  intro s sel h1 h2 h3
  obtain ⟨b1, e, hv⟩ := buffer_char_valid (s.buf sel) c h3
  refine ⟨(), s.setBuf sel b1, ?_, ?_, ?_, ?_⟩
  · rw [error_char_buffered c s sel h1 h2, e]
  · cases sel <;> exact h1
  · cases sel <;> exact h2
  · cases sel <;> exact hv

theorem rb_error_string (p : List Char) : ReturnsBuffered (error_string p) := by
  induction p with
  | nil => exact rb_pure _
  | cons c p ih =>
    unfold error_string
    split
    · exact rb_pure _
    · exact rb_bind (rb_error_char c) (fun _ => ih)

theorem rb_print_loop_plain (format : List Char) (fuel : Nat) (n : Nat)
    (spec_u : List UVal) (h : '%' ∉ format) (hfuel : format.length < fuel) :
    ReturnsBuffered (print_loop fuel format n spec_u) := by
  induction format generalizing fuel with
  | nil =>
    cases fuel with
    | zero => simp at hfuel
    | succ fuel => exact rb_pure _
  | cons c format ih =>
    cases fuel with
    | zero => simp at hfuel
    | succ fuel =>
      simp only [List.mem_cons, not_or] at h
      have hc : c ≠ '%' := fun e => h.1 e.symm
      simp only [print_loop, hc, ne_eq, not_false_eq_true, if_true]
      exact rb_bind (rb_error_char c) (fun _ => ih fuel h.2 (by simpa using hfuel))

/-- A template without a conversion specifier is printed into the current
buffer, with any severity text, whatever the arguments. -/
theorem rb_error_print_plain (X : Externals) (type format0 : List Char)
    (argp : List VaArg) (h : '%' ∉ cstr format0) :
    ReturnsBuffered (error_print X type format0 argp) := by
  intro s sel hs hc hv
  have e1 : conv_loop s.w.gfc_current_locus Scan.init.arg_type (Scan.init.maxpos + 1).toNat 0
      { arg_u := List.replicate MAX_ARGS UVal.unset, have_l1 := false, l1 := none, l2 := none,
        argp := argp }
      = .ok { arg_u := List.replicate MAX_ARGS UVal.unset, have_l1 := false, l1 := none,
              l2 := none, argp := argp } := rfl
  have e2 : copy_loop Scan.init.spec_pos (List.replicate MAX_ARGS UVal.unset) (MAX_ARGS + 1) 0
      (List.replicate MAX_ARGS UVal.unset) = .ok (List.replicate MAX_ARGS UVal.unset) := rfl
  unfold error_print error_print_with
  simp only [scan_plain (cstr format0) _ Scan.init h (Nat.lt_succ_self _), liftE, bind_apply,
    pure_apply, getState_apply, e1, e2]
  simp only [Bool.false_eq_true, if_false]
  refine (?_ : ReturnsBuffered _) s sel hs hc hv
  have hl := rb_print_loop_plain (cstr format0) ((cstr format0).length + 1) 0
    (List.replicate MAX_ARGS UVal.unset) h (Nat.lt_succ_self _)
  refine rb_ite _ ?_ ?_
  · exact rb_bind (rb_error_string _) (fun _ =>
      rb_bind (rb_error_char _) (fun _ =>
        rb_bind hl (fun _ => rb_error_char _)))
  · exact rb_bind (rb_pure _) (fun _ =>
      rb_bind hl (fun _ => rb_error_char _))

/-- A plain message is buffered as an error: the call returns. -/
theorem error_1_buffered_returns (X : Externals) (gmsgid : List Char) (argp : List VaArg)
    (s : gfc_state) (hbuf : s.buffered_p = true) (hsup : s.suppress_errors = 0)
    (hwne : s.warnings_not_errors = false) (hplain : '%' ∉ cstr gmsgid)
    (hblock : s.error_buffer.message = none → s.error_buffer.allocated = 0) :
    ∃ s1, gfc_error_1 X gmsgid argp s = .ok () s1 := by
  have hr : ReturnsBuffered (do
      error_print X "Error:".toList gmsgid argp
      error_char NUL) :=
    rb_bind (rb_error_print_plain X _ gmsgid argp hplain) (fun _ => rb_error_char _)
  obtain ⟨a, s1, e, i1, _, _⟩ := hr (started .error_buffer s) .error_buffer hbuf rfl
    ⟨hblock, Nat.zero_le _⟩
  refine ⟨s1, ?_⟩
  unfold gfc_error_1
  generalize "Error:".toList = ty at e ⊢
  simp only [bind_apply] at e
  simp only [bind_apply, getState_apply, hwne, Bool.false_eq_true, if_false, hsup,
    ne_eq, not_true_eq_false, start_buffer_apply]
  cases hp : error_print X ty gmsgid argp (started .error_buffer s) with
  | stop r sb => simp [hp] at e
  | ok u sb =>
    simp only [hp] at e ⊢
    rw [e]
    simp [i1]

/-- C29: `gfc_error_1` called while buffering is on, with no suppression and
errors not turned into warnings, commits nothing when it returns: what is
shared with the rest of the compiler, the error stream included, and the
two counters are as before the call. The flag of the error buffer is set,
and from its first byte on the buffer holds the text of this report, which
is what `error_print` handed to `error_char`, followed by a NUL, with the
index just after that NUL: what the buffer held before has been
overwritten from the start, not appended to. The call returns for every
message without a conversion specifier, the block of the error buffer being
there unless its capacity is 0. -/
theorem buffered_error_commits_nothing (X : Externals) (gmsgid : List Char)
    (argp : List VaArg) (s : gfc_state) (hbuf : s.buffered_p = true)
    (hsup : s.suppress_errors = 0) (hwne : s.warnings_not_errors = false) :
    (∀ s1, gfc_error_1 X gmsgid argp s = .ok () s1 →
      ∃ text rest,
        error_print X "Error:".toList gmsgid argp (started .error_buffer s)
          = emit text (started .error_buffer s)
        ∧ s1.w = s.w ∧ s1.errors = s.errors ∧ s1.warnings = s.warnings
        ∧ s1.warning_buffer = s.warning_buffer
        ∧ s1.error_buffer.flag = 1
        ∧ s1.error_buffer.index = text.length + 1
        ∧ s1.error_buffer.message = some (strBytes text ++ rest))
    ∧ ('%' ∉ cstr gmsgid →
        (s.error_buffer.message = none → s.error_buffer.allocated = 0) →
        ∃ s1, gfc_error_1 X gmsgid argp s = .ok () s1) := by
  refine ⟨?_, fun hplain hblock =>
    error_1_buffered_returns X gmsgid argp s hbuf hsup hwne hplain hblock⟩
  intro s1 hret
  unfold gfc_error_1 at hret
  generalize "Error:".toList = ty at hret ⊢
  simp only [bind_apply, getState_apply, hwne, Bool.false_eq_true, if_false, hsup,
    ne_eq, not_true_eq_false, start_buffer_apply] at hret
  cases hp : error_print X ty gmsgid argp (started .error_buffer s) with
  | stop r sb => simp [hp] at hret
  | ok u sb =>
    simp only [hp] at hret
    cases hn : error_char NUL sb with
    | stop r sc => simp [hn] at hret
    | ok u sc =>
      obtain ⟨text, rest, b1, ht, e, hm, hi, hf⟩ :=
        print_buffered X ty gmsgid argp .error_buffer s sb sc hbuf hp hn
      have hbc : sc.buffered_p = true := by
        rw [e]
        exact hbuf
      simp only [hn, getState_apply, hbc, not_true_eq_false, if_false, pure_apply,
        Res.ok.injEq, true_and] at hret
      subst hret
      refine ⟨text, rest, ht.symm, ?_, ?_, ?_, ?_, ?_, ?_, ?_⟩
      · rw [e]; rfl
      · rw [e]; rfl
      · rw [e]; rfl
      · rw [e]; rfl
      · rw [e]; exact hf
      · rw [e]; exact hi
      · rw [e]; exact hm

/-- C29, witness: the error "Syntax error" reported in buffered mode from
the sample state. The error buffer then holds "Error: Syntax error", a
newline and a NUL. -/
theorem buffered_error_commits_nothing_witness :
    (∃ text rest,
      error_print sample_externals "Error:".toList "Syntax error".toList []
          (started .error_buffer buffered_state)
        = emit text (started .error_buffer buffered_state)
      ∧ (gfc_error_1 sample_externals "Syntax error".toList [] buffered_state).state.w
        = buffered_state.w
      ∧ (gfc_error_1 sample_externals "Syntax error".toList [] buffered_state).state.errors
        = buffered_state.errors
      ∧ (gfc_error_1 sample_externals "Syntax error".toList [] buffered_state).state.warnings
        = buffered_state.warnings
      ∧ (gfc_error_1 sample_externals "Syntax error".toList []
          buffered_state).state.warning_buffer = buffered_state.warning_buffer
      ∧ (gfc_error_1 sample_externals "Syntax error".toList []
          buffered_state).state.error_buffer.flag = 1
      ∧ (gfc_error_1 sample_externals "Syntax error".toList []
          buffered_state).state.error_buffer.index = text.length + 1
      ∧ (gfc_error_1 sample_externals "Syntax error".toList []
          buffered_state).state.error_buffer.message = some (strBytes text ++ rest))
    ∧ (gfc_error_1 sample_externals "Syntax error".toList []
          buffered_state).state.error_buffer.message
        = some (strBytes "Error: Syntax error\n".toList) :=
  ⟨(buffered_error_commits_nothing sample_externals "Syntax error".toList [] buffered_state
    rfl rfl rfl).1 _ (by decide!), by decide!⟩


/-! ## The error stream in immediate mode -/

/-- What a sequence of calls of `error_char` does in immediate mode, from a
line under construction that holds no newline. -/
theorem emit_stream (cs : List Char) (s : gfc_state) (himm : s.buffered_p = false)
    (hl : '\n' ∉ s.line) :
    ∃ s1 u, emit cs s = .ok () s1
      ∧ s1.w.stderr = s.w.stderr ++ u
      ∧ u ++ s1.line = s.line ++ cs.filter (fun c => c != NUL)
      ∧ '\n' ∉ s1.line
      ∧ (u = [] ∨ u.getLast? = some '\n')
      ∧ s1.error_buffer = s.error_buffer ∧ s1.warning_buffer = s.warning_buffer
      ∧ s1.buffered_p = false := by
  induction cs generalizing s with
  | nil => exact ⟨s, [], rfl, by simp, by simp, hl, Or.inl rfl, rfl, rfl, himm⟩
  | cons c cs ih =>
    by_cases hc : c = NUL
    · obtain ⟨s1, u, e, e1, e2, e3, e4, e5, e6, e7⟩ := ih s himm hl
      refine ⟨s1, u, ?_, e1, ?_, e3, e4, e5, e6, e7⟩
      · have hnul : error_char NUL s = .ok () s := by
          rw [error_char_immediate NUL s himm]
          rfl
        simp only [emit, bind_apply, hc, hnul, e]
      · rw [e2]
        simp [hc]
    · have hb : (line_char c s).buffered_p = false := by
        rw [line_char_buffered_p]
        exact himm
      have hstep : emit (c :: cs) s = emit cs (line_char c s) := by
        simp only [emit, bind_apply, error_char_immediate c s himm, bne_iff_ne, ne_eq, hc,
          not_false_eq_true, if_true]
      have hf : (c :: cs).filter (fun c => c != NUL) = c :: cs.filter (fun c => c != NUL) := by
        simp [hc]
      by_cases hn : c = '\n'
      · have hline : (line_char c s).line = [] := by simp [line_char, hn]
        have hst : (line_char c s).w.stderr = s.w.stderr ++ (s.line ++ ['\n']) := by
          simp [line_char, hn]
        have he : (line_char c s).error_buffer = s.error_buffer := by simp [line_char, hn]
        have hw : (line_char c s).warning_buffer = s.warning_buffer := by simp [line_char, hn]
        obtain ⟨s1, u, e, e1, e2, e3, e4, e5, e6, e7⟩ := ih (line_char c s) hb (by simp [hline])
        refine ⟨s1, s.line ++ '\n' :: u, by rw [hstep, e], ?_, ?_, e3, ?_, by rw [e5, he],
          by rw [e6, hw], e7⟩
        · rw [e1, hst]
          simp
        · rw [hline] at e2
          rw [hf, hn]
          simp only [List.append_assoc, List.cons_append, List.nil_append] at e2 ⊢
          rw [e2]
        · right
          rcases e4 with e4 | e4
          · rw [e4]
            simp
          · cases u with
            | nil => simp at e4
            | cons a u =>
              rw [List.getLast?_append_of_ne_nil _ (by simp), List.getLast?_cons_cons]
              exact e4
      · have hline : (line_char c s).line = s.line ++ [c] := by simp [line_char, hn]
        have hst : (line_char c s).w.stderr = s.w.stderr := by simp [line_char, hn]
        have he : (line_char c s).error_buffer = s.error_buffer := by simp [line_char, hn]
        have hw : (line_char c s).warning_buffer = s.warning_buffer := by simp [line_char, hn]
        obtain ⟨s1, u, e, e1, e2, e3, e4, e5, e6, e7⟩ := ih (line_char c s) hb (by
          rw [hline]
          simp only [List.mem_append, List.mem_singleton, not_or]
          exact ⟨hl, fun h => hn h.symm⟩)
        refine ⟨s1, u, by rw [hstep, e], by rw [e1, hst], ?_, e3, e4, by rw [e5, he],
          by rw [e6, hw], e7⟩
        rw [e2, hline, hf]
        simp

/-- C38: in immediate mode a call of `error_char` with a NUL changes
nothing; with a newline it writes the line under construction and the
newline to the error stream and empties the line; with another character
it adds the character to the line and writes nothing. So every sequence of
calls, from an empty line, returns and has written to the error stream the
characters of the sequence that are not NUL, up to and including the last
newline, in order; those after the last newline are the line under
construction; and the two error buffers are as they were. -/
theorem immediate_stream (cs : List Char) (s : gfc_state) (himm : s.buffered_p = false)
    (hl : s.line = []) :
    (∃ s1 u, emit cs s = .ok () s1
      ∧ s1.w.stderr = s.w.stderr ++ u
      ∧ u ++ s1.line = cs.filter (fun c => c != NUL)
      ∧ '\n' ∉ s1.line
      ∧ (u = [] ∨ u.getLast? = some '\n')
      ∧ s1.error_buffer = s.error_buffer ∧ s1.warning_buffer = s.warning_buffer)
    ∧ (∀ (c : Char) (s0 : gfc_state), s0.buffered_p = false →
        ∃ s1, error_char c s0 = .ok () s1
          ∧ (c = NUL → s1 = s0)
          ∧ (c = '\n' → s1.w.stderr = s0.w.stderr ++ (s0.line ++ ['\n']) ∧ s1.line = [])
          ∧ (c ≠ NUL → c ≠ '\n' → s1.w.stderr = s0.w.stderr ∧ s1.line = s0.line ++ [c])
          ∧ s1.error_buffer = s0.error_buffer ∧ s1.warning_buffer = s0.warning_buffer)
    ∧ (∀ c cs1, emit (c :: cs1) = (error_char c >>= fun _ => emit cs1)) ∧ emit [] = pure () := by
  refine ⟨?_, ?_, fun _ _ => rfl, rfl⟩
  · obtain ⟨s1, u, e, e1, e2, e3, e4, e5, e6, _⟩ := emit_stream cs s himm (by simp [hl])
    rw [hl] at e2
    exact ⟨s1, u, e, e1, e2, e3, e4, e5, e6⟩
  · intro c s0 h0
    refine ⟨_, error_char_immediate c s0 h0, ?_, ?_, ?_, ?_, ?_⟩
    · intro hc
      simp [hc]
    · intro hc
      subst hc
      simp [line_char, NUL]
    · intro h1 h2
      simp [h1, h2, line_char]
    · by_cases h1 : c = NUL
      · simp [h1]
      · by_cases h2 : c = '\n'
        · subst h2
          simp [h1, line_char]
        · simp [h1, h2, line_char]
    · by_cases h1 : c = NUL
      · simp [h1]
      · by_cases h2 : c = '\n'
        · subst h2
          simp [h1, line_char]
        · simp [h1, h2, line_char]

/-- C38, witness: the characters 'a', NUL, 'b', newline, 'c' from the sample
state: "ab" and the newline are written, 'c' stays in the line. -/
theorem immediate_stream_witness :
    (∃ s1 u, emit ['a', NUL, 'b', '\n', 'c'] sample_state = .ok () s1
      ∧ s1.w.stderr = sample_state.w.stderr ++ u
      ∧ u ++ s1.line = ['a', NUL, 'b', '\n', 'c'].filter (fun c => c != NUL)
      ∧ '\n' ∉ s1.line
      ∧ (u = [] ∨ u.getLast? = some '\n')
      ∧ s1.error_buffer = sample_state.error_buffer
      ∧ s1.warning_buffer = sample_state.warning_buffer)
    ∧ (emit ['a', NUL, 'b', '\n', 'c'] sample_state).state.w.stderr = "ab\n".toList
    ∧ (emit ['a', NUL, 'b', '\n', 'c'] sample_state).state.line = ['c'] :=
  ⟨(immediate_stream ['a', NUL, 'b', '\n', 'c'] sample_state rfl rfl).1, by decide!, by decide!⟩


/-! ## The capacity and the index of the error buffers -/

instance : Frame Allocated where
  refl := fun _ => ⟨le_refl _, le_refl _⟩
  trans := fun h1 h2 => ⟨le_trans h1.1 h2.1, le_trans h1.2 h2.2⟩

theorem alloc_of_eq (s s1 : gfc_state)
    (h1 : s1.error_buffer.allocated = s.error_buffer.allocated)
    (h2 : s1.warning_buffer.allocated = s.warning_buffer.allocated) : Allocated s s1 :=
  ⟨le_of_eq h1.symm, le_of_eq h2.symm⟩

theorem alloc_setBuf_flag (s : gfc_state) (sel : BufSel) (f : Int) :
    Allocated s (s.setBuf sel { s.buf sel with flag := f }) := by
  cases sel <;> exact alloc_of_eq _ _ rfl rfl

theorem alloc_setBuf_index (s : gfc_state) (sel : BufSel) (i : Nat) :
    Allocated s (s.setBuf sel { s.buf sel with index := i }) := by
  cases sel <;> exact alloc_of_eq _ _ rfl rfl

theorem alloc_error_char (c : Char) : Keeps Allocated (error_char c) := by
  intro s
  unfold error_char
  split
  · split
    · exact Frame.refl s
    · rename_i sel _
      split
      · exact Frame.refl s
      · rename_i b hb
        have hc := buffer_char_capacity _ _ _ hb
        cases sel
        · exact ⟨hc.1, le_refl _⟩
        · exact ⟨le_refl _, hc.1⟩
  · split
    · by_cases hn : c = '\n' <;> simp only [line_char, hn, if_true, if_false] <;>
        exact alloc_of_eq _ _ rfl rfl
    · exact Frame.refl s

theorem emitted_allocated (s s1 : gfc_state) (h : Emitted s s1) : Allocated s s1 := by
  obtain ⟨cs, h⟩ := h
  induction cs generalizing s with
  | nil =>
    simp only [emit, pure_apply, Res.ok.injEq, true_and] at h
    subst h
    exact Frame.refl s
  | cons c cs ih =>
    simp only [emit, bind_apply] at h
    have h0 := alloc_error_char c s
    cases h1 : error_char c s with
    | stop r s2 => simp [h1] at h
    | ok u s2 =>
      rw [h1] at h h0
      exact Frame.trans h0 (ih s2 h)

theorem alloc_of_emitted {α : Type} {m : M α} (h : Keeps Emitted m) : Keeps Allocated m :=
  h.mono emitted_allocated

theorem alloc_liftW {α : Type} (f : world → Except (Stop × world) (α × world)) :
    Keeps Allocated (liftW f) := by
  intro s
  unfold liftW
  split <;> exact alloc_of_eq _ _ rfl rfl

theorem alloc_modifyWorld (f : world → world) : Keeps Allocated (modifyWorld f) :=
  fun _ => alloc_of_eq _ _ rfl rfl

theorem alloc_error_print (X : Externals) (type format0 : List Char) (argp : List VaArg) :
    Keeps Allocated (error_print X type format0 argp) :=
  alloc_of_emitted (keeps_error_print X type format0 argp)

theorem alloc_fatal_error {α : Type} (X : Externals) (gmsgid : List Char) (argp : List VaArg) :
    Keeps Allocated (gfc_fatal_error X gmsgid argp : M α) :=
  keeps_bind (alloc_liftW _) (fun _ => keeps_halt _)

theorem alloc_increment_error_count (X : Externals) :
    Keeps Allocated (gfc_increment_error_count X) := by
  unfold gfc_increment_error_count
  repeat' (first
    | with_reducible exact keeps_pure _
    | with_reducible exact keeps_getState
    | with_reducible exact alloc_fatal_error _ _ _
    | (with_reducible refine keeps_modifyState _ ?_) <;> intro _ <;>
      exact alloc_of_eq _ _ rfl rfl
    | with_reducible refine keeps_bind ?_ (fun _ => ?_)
    | with_reducible refine keeps_ite _ ?_ ?_)

theorem alloc_clear_pp_buffer (b : output_buffer) : Keeps Allocated (gfc_clear_pp_buffer b) :=
  keeps_bind (alloc_modifyWorld _) (fun _ => keeps_pure _)

theorem alloc_clear_pp_warning_buffer : Keeps Allocated clear_pp_warning_buffer := by
  unfold clear_pp_warning_buffer
  repeat' (first
    | with_reducible exact keeps_getState
    | with_reducible exact alloc_clear_pp_buffer _
    | with_reducible exact alloc_modifyWorld _
    | with_reducible refine keeps_bind ?_ (fun _ => ?_))

theorem alloc_clear_pp_error_buffer : Keeps Allocated clear_pp_error_buffer := by
  unfold clear_pp_error_buffer
  repeat' (first
    | with_reducible exact keeps_getState
    | with_reducible exact alloc_clear_pp_buffer _
    | with_reducible exact alloc_modifyWorld _
    | with_reducible refine keeps_bind ?_ (fun _ => ?_))

theorem alloc_start_buffer (sel : BufSel) : Keeps Allocated (start_buffer sel) := by
  intro s
  cases sel <;> exact alloc_of_eq _ _ rfl rfl

theorem alloc_warning_1_body (X : Externals) (gmsgid : List Char) (argp : List VaArg) :
    Keeps Allocated (warning_1_body X gmsgid argp) := by
  unfold warning_1_body
  repeat' (first
    | with_reducible exact keeps_pure _
    | with_reducible exact keeps_getState
    | with_reducible exact alloc_start_buffer _
    | with_reducible exact alloc_error_print _ _ _ _
    | with_reducible exact alloc_error_char _
    | with_reducible exact alloc_increment_error_count _
    | (with_reducible refine keeps_modifyState _ ?_) <;> intro _ <;>
      exact alloc_of_eq _ _ rfl rfl
    | with_reducible refine keeps_bind ?_ (fun _ => ?_)
    | with_reducible refine keeps_ite _ ?_ ?_)

theorem alloc_clear_warning : Keeps Allocated gfc_clear_warning := by
  unfold gfc_clear_warning
  repeat' (first
    | with_reducible exact alloc_clear_pp_warning_buffer
    | (with_reducible refine keeps_modifyState _ ?_) <;> intro _ <;>
      exact alloc_of_eq _ _ rfl rfl
    | with_reducible refine keeps_bind ?_ (fun _ => ?_))

theorem alloc_fputs_message (m : Mem) : Keeps Allocated (fputs_message m) := by
  unfold fputs_message
  split
  · exact keeps_halt _
  · exact keeps_modifyState _ (fun _ => alloc_of_eq _ _ rfl rfl)

theorem alloc_pp_really_flush_warning : Keeps Allocated pp_really_flush_warning :=
  alloc_modifyWorld _

theorem alloc_pp_really_flush_error : Keeps Allocated pp_really_flush_error :=
  alloc_modifyWorld _

theorem alloc_warning_check (X : Externals) : Keeps Allocated (gfc_warning_check X) := by
  unfold gfc_warning_check
  repeat' (first
    | with_reducible exact keeps_exit _
    | with_reducible exact alloc_pp_really_flush_warning
    | with_reducible exact alloc_pp_really_flush_error
    | with_reducible exact keeps_pure _
    | with_reducible exact keeps_getState
    | with_reducible exact alloc_fputs_message _
    | with_reducible exact alloc_clear_warning
    | with_reducible exact alloc_modifyWorld _
    | with_reducible exact alloc_liftW _
    | with_reducible exact keeps_gcc_assert _
    | (with_reducible refine keeps_modifyState _ ?_) <;> intro _ <;>
      exact alloc_of_eq _ _ rfl rfl
    | with_reducible refine keeps_bind ?_ (fun _ => ?_)
    | with_reducible refine keeps_ite _ ?_ ?_
    | split)

theorem alloc_error_1 (X : Externals) (gmsgid : List Char) (argp : List VaArg) :
    Keeps Allocated (gfc_error_1 X gmsgid argp) := by
  unfold gfc_error_1
  repeat' (first
    | with_reducible exact keeps_pure _
    | with_reducible exact keeps_getState
    | with_reducible exact alloc_start_buffer _
    | with_reducible exact alloc_error_print _ _ _ _
    | with_reducible exact alloc_error_char _
    | with_reducible exact alloc_increment_error_count _
    | (with_reducible refine keeps_modifyState _ ?_) <;> intro _ <;>
      exact alloc_of_eq _ _ rfl rfl
    | with_reducible refine keeps_bind ?_ (fun _ => ?_)
    | with_reducible refine keeps_ite _ ?_ ?_)

theorem alloc_warning_now_1 (X : Externals) (gmsgid : List Char) (argp : List VaArg) :
    Keeps Allocated (gfc_warning_now_1 X gmsgid argp) := by
  unfold gfc_warning_now_1
  repeat' (first
    | with_reducible exact keeps_pure _
    | with_reducible exact keeps_getState
    | with_reducible exact alloc_error_print _ _ _ _
    | with_reducible exact alloc_error_char _
    | with_reducible exact alloc_increment_error_count _
    | (with_reducible refine keeps_modifyState _ ?_) <;> intro _ <;>
      exact alloc_of_eq _ _ rfl rfl
    | with_reducible refine keeps_bind ?_ (fun _ => ?_)
    | with_reducible refine keeps_ite _ ?_ ?_)

theorem alloc_error_now_1 (X : Externals) (gmsgid : List Char) (argp : List VaArg) :
    Keeps Allocated (gfc_error_now_1 X gmsgid argp) := by
  unfold gfc_error_now_1
  repeat' (first
    | with_reducible exact keeps_exit _
    | with_reducible exact alloc_pp_really_flush_warning
    | with_reducible exact alloc_pp_really_flush_error
    | with_reducible exact keeps_pure _
    | with_reducible exact keeps_halt _
    | with_reducible exact keeps_getState
    | with_reducible exact alloc_start_buffer _
    | with_reducible exact alloc_error_print _ _ _ _
    | with_reducible exact alloc_error_char _
    | with_reducible exact alloc_increment_error_count _
    | (with_reducible refine keeps_modifyState _ ?_) <;> intro _ <;>
      exact alloc_of_eq _ _ rfl rfl
    | with_reducible refine keeps_bind ?_ (fun _ => ?_)
    | with_reducible refine keeps_ite _ ?_ ?_)

theorem alloc_clear_error : Keeps Allocated gfc_clear_error := by
  unfold gfc_clear_error
  repeat' (first
    | with_reducible exact alloc_clear_pp_error_buffer
    | (with_reducible refine keeps_modifyState _ ?_) <;> intro _ <;>
      exact alloc_of_eq _ _ rfl rfl
    | with_reducible refine keeps_bind ?_ (fun _ => ?_))

theorem alloc_error_check (X : Externals) : Keeps Allocated (gfc_error_check X) := by
  unfold gfc_error_check
  repeat' (first
    | with_reducible exact keeps_exit _
    | with_reducible exact alloc_pp_really_flush_warning
    | with_reducible exact alloc_pp_really_flush_error
    | with_reducible exact keeps_pure _
    | with_reducible exact keeps_halt _
    | with_reducible exact keeps_getState
    | with_reducible exact alloc_fputs_message _
    | with_reducible exact alloc_clear_pp_error_buffer
    | with_reducible exact alloc_increment_error_count _
    | with_reducible exact alloc_modifyWorld _
    | with_reducible exact alloc_liftW _
    | with_reducible exact keeps_gcc_assert _
    | (with_reducible refine keeps_modifyState _ ?_) <;> intro _ <;>
      exact alloc_of_eq _ _ rfl rfl
    | with_reducible refine keeps_bind ?_ (fun _ => ?_)
    | with_reducible refine keeps_ite _ ?_ ?_
    | split)

theorem alloc_move_output_buffer (from_buf to_buf : output_buffer) :
    Keeps Allocated (gfc_move_output_buffer_from_to from_buf to_buf) := by
  unfold gfc_move_output_buffer_from_to
  repeat' (first
    | with_reducible exact keeps_pure _
    | with_reducible exact alloc_clear_pp_buffer _
    | with_reducible refine keeps_bind ?_ (fun _ => ?_)
    | with_reducible refine keeps_ite _ ?_ ?_)

theorem alloc_xstrdup (message : Option Mem) : Keeps Allocated (xstrdup message) := by
  unfold xstrdup
  repeat' (first
    | with_reducible exact keeps_pure _
    | with_reducible exact keeps_halt _
    | split)

theorem alloc_push_error (buffer_err : output_buffer) (err : gfc_error_buf) :
    Keeps Allocated (gfc_push_error buffer_err err) := by
  unfold gfc_push_error
  repeat' (first
    | with_reducible exact keeps_pure _
    | with_reducible exact keeps_getState
    | with_reducible exact alloc_xstrdup _
    | with_reducible exact alloc_move_output_buffer _ _
    | with_reducible exact alloc_modifyWorld _
    | (with_reducible refine keeps_modifyState _ ?_) <;> intro _ <;>
      exact alloc_of_eq _ _ rfl rfl
    | with_reducible refine keeps_bind ?_ (fun _ => ?_)
    | with_reducible refine keeps_ite _ ?_ ?_)

theorem alloc_pop_error (buffer_err : output_buffer) (err : gfc_error_buf) :
    Keeps Allocated (gfc_pop_error buffer_err err) := by
  unfold gfc_pop_error
  repeat' (first
    | with_reducible exact keeps_pure _
    | with_reducible exact keeps_halt _
    | with_reducible exact keeps_getState
    | with_reducible exact alloc_xstrdup _
    | with_reducible exact alloc_move_output_buffer _ _
    | with_reducible exact alloc_modifyWorld _
    | with_reducible exact keeps_gcc_assert _
    | (with_reducible refine keeps_modifyState _ ?_) <;> intro _ <;>
      exact alloc_of_eq _ _ rfl rfl
    | with_reducible refine keeps_bind ?_ (fun _ => ?_)
    | with_reducible refine keeps_ite _ ?_ ?_
    | split)

theorem alloc_free_error (buffer_err : output_buffer) (err : gfc_error_buf) :
    Keeps Allocated (gfc_free_error buffer_err err) := by
  unfold gfc_free_error
  exact keeps_bind (alloc_clear_pp_buffer _) (fun _ => keeps_pure _)

theorem alloc_warning (X : Externals) (opt : Int) (gmsgid : List Char) (ap : List VaArg) :
    Keeps Allocated (gfc_warning X opt gmsgid ap) := by
  unfold gfc_warning
  repeat' (first
    | with_reducible exact keeps_pure _
    | with_reducible exact keeps_getState
    | with_reducible exact alloc_clear_pp_warning_buffer
    | with_reducible exact alloc_modifyWorld _
    | with_reducible exact alloc_liftW _
    | (with_reducible refine keeps_modifyState _ ?_) <;> intro _ <;>
      exact alloc_of_eq _ _ rfl rfl
    | with_reducible refine keeps_bind ?_ (fun _ => ?_)
    | with_reducible refine keeps_ite _ ?_ ?_)

theorem alloc_error (X : Externals) (gmsgid : List Char) (ap : List VaArg) :
    Keeps Allocated (gfc_error X gmsgid ap) := by
  unfold gfc_error
  repeat' (first
    | with_reducible exact keeps_pure _
    | with_reducible exact keeps_getState
    | with_reducible exact alloc_warning _ _ _ _
    | with_reducible exact alloc_clear_pp_error_buffer
    | with_reducible exact alloc_modifyWorld _
    | with_reducible exact alloc_liftW _
    | with_reducible refine keeps_bind ?_ (fun _ => ?_)
    | with_reducible refine keeps_ite _ ?_ ?_)

theorem alloc_std_text (X : Externals) (std : Nat) : Keeps Allocated (std_text X std) := by
  unfold std_text
  repeat' (first
    | with_reducible exact keeps_pure _
    | with_reducible exact keeps_halt _
    | with_reducible refine keeps_ite _ ?_ ?_)

theorem alloc_notify_std_1 (X : Externals) (std : Nat) (gmsgid : List Char)
    (argp : List VaArg) : Keeps Allocated (gfc_notify_std_1 X std gmsgid argp) := by
  unfold gfc_notify_std_1
  repeat' (first
    | with_reducible exact keeps_pure _
    | with_reducible exact keeps_getState
    | with_reducible exact alloc_std_text _ _
    | with_reducible exact alloc_error_print _ _ _ _
    | with_reducible exact alloc_error_char _
    | with_reducible exact alloc_increment_error_count _
    | (with_reducible refine keeps_modifyState _ ?_) <;> intro _ <;>
      exact alloc_of_eq _ _ rfl rfl
    | (with_reducible refine keeps_modifyState _ ?_) <;> intro _ <;> (first | exact alloc_setBuf_flag _ _ _ | exact alloc_setBuf_index _ _ _)
    | with_reducible refine keeps_bind ?_ (fun _ => ?_)
    | with_reducible refine keeps_ite _ ?_ ?_)

theorem alloc_notify_std (X : Externals) (std : Nat) (gmsgid : List Char)
    (argp : List VaArg) : Keeps Allocated (gfc_notify_std X std gmsgid argp) := by
  unfold gfc_notify_std
  repeat' (first
    | with_reducible exact keeps_pure _
    | with_reducible exact keeps_getState
    | with_reducible exact alloc_std_text _ _
    | with_reducible exact alloc_warning _ _ _ _
    | with_reducible exact alloc_error _ _ _
    | with_reducible refine keeps_bind ?_ (fun _ => ?_)
    | with_reducible refine keeps_ite _ ?_ ?_)

theorem alloc_internal_error {α : Type} (X : Externals) (gmsgid : List Char)
    (argp : List VaArg) : Keeps Allocated (gfc_internal_error X gmsgid argp : M α) := by
  unfold gfc_internal_error gfc_get_errors exit
  repeat' (first
    | with_reducible exact keeps_pure _
    | with_reducible exact keeps_halt _
    | with_reducible exact keeps_getState
    | with_reducible exact alloc_liftW _
    | with_reducible refine keeps_bind ?_ (fun _ => ?_)
    | with_reducible refine keeps_ite _ ?_ ?_)

/-- No operation lowers the capacity of either error buffer. -/
theorem alloc_op (X : Externals) (op : Op) : Keeps Allocated (op.run X) := by
  cases op with
  | push_suppress_errors =>
    exact keeps_bind keeps_getState (fun _ => keeps_bind (keeps_gcc_assert _)
      (fun _ => keeps_modifyState _ (fun _ => alloc_of_eq _ _ rfl rfl)))
  | pop_suppress_errors =>
    exact keeps_bind keeps_getState (fun _ => keeps_bind (keeps_gcc_assert _)
      (fun _ => keeps_modifyState _ (fun _ => alloc_of_eq _ _ rfl rfl)))
  | error_init_1 =>
    unfold Op.run gfc_error_init_1 gfc_buffer_error
    repeat' (first
      | (with_reducible refine keeps_modifyState _ ?_) <;> intro _ <;>
      exact alloc_of_eq _ _ rfl rfl
      | with_reducible refine keeps_bind ?_ (fun _ => ?_))
  | buffer_error flag => exact keeps_modifyState _ (fun _ => alloc_of_eq _ _ rfl rfl)
  | print_wide_char c => exact keeps_discard (fun _ => alloc_of_eq _ _ rfl rfl)
  | warning_1 gmsgid argp => exact alloc_warning_1_body X gmsgid argp
  | warning opt gmsgid argp => exact keeps_discard (alloc_warning X opt gmsgid argp)
  | notification_std std =>
    unfold Op.run gfc_notification_std
    repeat' (first
      | with_reducible exact keeps_pure _
      | with_reducible exact keeps_getState
      | with_reducible refine keeps_discard ?_
      | with_reducible refine keeps_bind ?_ (fun _ => ?_)
      | with_reducible refine keeps_ite _ ?_ ?_)
  | notify_std_1 std gmsgid argp => exact keeps_discard (alloc_notify_std_1 X std gmsgid argp)
  | notify_std std gmsgid argp => exact keeps_discard (alloc_notify_std X std gmsgid argp)
  | warning_now_1 gmsgid argp => exact alloc_warning_now_1 X gmsgid argp
  | warning_now opt gmsgid argp =>
    exact keeps_discard (keeps_bind (alloc_liftW _) (fun _ => keeps_pure _))
  | error_now gmsgid argp => exact keeps_bind (alloc_liftW _) (fun _ => keeps_pure _)
  | fatal_error gmsgid argp => exact alloc_fatal_error X gmsgid argp
  | clear_warning => exact alloc_clear_warning
  | warning_check => exact alloc_warning_check X
  | error_1 gmsgid argp => exact alloc_error_1 X gmsgid argp
  | error gmsgid argp => exact alloc_error X gmsgid argp
  | error_now_1 gmsgid argp => exact alloc_error_now_1 X gmsgid argp
  | internal_error gmsgid argp => exact alloc_internal_error X gmsgid argp
  | clear_error => exact alloc_clear_error
  | error_flag_test =>
    exact keeps_discard (keeps_bind keeps_getState (fun _ => keeps_pure _))
  | error_check => exact keeps_discard (alloc_error_check X)
  | push_error buffer_err err => exact keeps_discard (alloc_push_error buffer_err err)
  | pop_error buffer_err err => exact keeps_discard (alloc_pop_error buffer_err err)
  | free_error buffer_err err => exact keeps_discard (alloc_free_error buffer_err err)
  | get_errors => exact keeps_discard (keeps_bind keeps_getState (fun _ => keeps_pure _))
  | errors_to_warnings f => exact keeps_modifyState _ (fun _ => alloc_of_eq _ _ rfl rfl)
  | diagnostics_init =>
    unfold Op.run gfc_diagnostics_init
    exact alloc_modifyWorld _
  | diagnostics_finish =>
    unfold Op.run gfc_diagnostics_finish
    exact keeps_bind (alloc_modifyWorld _) (fun _ => alloc_modifyWorld _)

theorem grow_step (b : gfc_error_buf) :
    (grow b).allocated = (if b.index ≥ b.allocated
      then (if b.allocated = 0 then 1000 else 2 * b.allocated) else b.allocated)
    ∧ (grow b).index = b.index := by
  unfold grow
  by_cases hge : b.index ≥ b.allocated
  · rw [if_pos hge, if_pos hge]
    refine ⟨?_, rfl⟩
    show (if (b.allocated != 0) = true then b.allocated * 2 else 1000) = _
    by_cases h0 : b.allocated = 0
    · simp [h0]
    · simp [h0, Nat.mul_comm]
  · rw [if_neg hge, if_neg hge]
    exact ⟨rfl, rfl⟩

theorem buffer_char_step (b b1 : gfc_error_buf) (c : Char) (h : buffer_char b c = some b1) :
    b1.allocated = (if b.index ≥ b.allocated
      then (if b.allocated = 0 then 1000 else 2 * b.allocated) else b.allocated)
    ∧ b.index < b1.allocated ∧ b1.index = b.index + 1 := by
  have hg := grow_step b
  unfold buffer_char at h
  simp only [] at h
  split at h
  · cases h
  · split at h
    · rename_i hlt
      cases h
      refine ⟨hg.1, ?_, ?_⟩
      · show b.index < (grow b).allocated
        rw [← hg.2]
        exact hlt
      · show (grow b).index + 1 = b.index + 1
        rw [hg.2]
    · cases h

/-- C37: in buffered mode a call of `error_char` keeps `index <= allocated`
true of each of the two error buffers. When it returns it has stored the
character at the old index of the current buffer, which is below the
capacity it leaves, and raised the index by one; the capacity is changed
only when the index had reached it, to 1000 when it was 0 and to twice its
value otherwise; the other buffer is as it was. The call returns when the
block of the current buffer is there unless its capacity is 0, and a call
that does not return changes nothing. No operation of the module lowers the
capacity of either buffer. -/
theorem buffer_index_within (c : Char) (s : gfc_state) (hbuf : s.buffered_p = true) :
    (∀ sel, (s.buf sel).index ≤ (s.buf sel).allocated →
      ((error_char c s).state.buf sel).index ≤ ((error_char c s).state.buf sel).allocated)
    ∧ (∀ sel s1, s.cur_error_buffer = some sel → error_char c s = .ok () s1 →
        (s1.buf sel).allocated
          = (if (s.buf sel).index ≥ (s.buf sel).allocated
             then (if (s.buf sel).allocated = 0 then 1000 else 2 * (s.buf sel).allocated)
             else (s.buf sel).allocated)
        ∧ (s.buf sel).index < (s1.buf sel).allocated
        ∧ (s1.buf sel).index = (s.buf sel).index + 1
        ∧ (∀ sel2, sel2 ≠ sel → s1.buf sel2 = s.buf sel2))
    ∧ (∀ sel, s.cur_error_buffer = some sel → BufValid (s.buf sel) →
        ∃ s1, error_char c s = .ok () s1)
    ∧ (∀ r s1, error_char c s = .stop r s1 → s1 = s)
    ∧ (∀ (X : Externals) (op : Op) (s0 : gfc_state),
        s0.error_buffer.allocated ≤ (op.run X s0).state.error_buffer.allocated
        ∧ s0.warning_buffer.allocated ≤ (op.run X s0).state.warning_buffer.allocated) := by
  have hform : ∀ sel, s.cur_error_buffer = some sel →
      error_char c s = match buffer_char (s.buf sel) c with
        | none => .stop .undefined s
        | some b => .ok () (s.setBuf sel b) :=
    fun sel hc => error_char_buffered c s sel hbuf hc
  refine ⟨?_, ?_, ?_, fun r s1 h => error_char_stop_state c s r s1 h,
    fun X op s0 => alloc_op X op s0⟩
  · intro sel hidx
    cases hcur : s.cur_error_buffer with
    | none =>
      have : error_char c s = .stop .undefined s := by
        unfold error_char
        simp only [hbuf, if_true, hcur]
      rw [this]
      exact hidx
    | some sel0 =>
      rw [hform sel0 hcur]
      cases hb : buffer_char (s.buf sel0) c with
      | none => exact hidx
      | some b =>
        have hs := buffer_char_step _ _ _ hb
        cases sel0 <;> cases sel <;> first
          | exact hidx
          | (show b.index ≤ b.allocated
             omega)
  · intro sel s1 hcur h
    rw [hform sel hcur] at h
    cases hb : buffer_char (s.buf sel) c with
    | none => simp [hb] at h
    | some b =>
      simp only [hb, Res.ok.injEq, true_and] at h
      subst h
      have hs := buffer_char_step _ _ _ hb
      have e : (s.setBuf sel b).buf sel = b := by cases sel <;> rfl
      rw [e]
      refine ⟨hs.1, hs.2.1, hs.2.2, ?_⟩
      intro sel2 hne
      cases sel <;> cases sel2 <;> first | rfl | exact absurd rfl hne
  · intro sel hcur hv
    obtain ⟨b1, e, _⟩ := buffer_char_valid (s.buf sel) c hv
    exact ⟨_, by rw [hform sel hcur, e]⟩

/-- C37, witness: the first character stored in the error buffer of the
sample state, whose capacity is 0: the capacity becomes 1000 and the index
1. -/
theorem buffer_index_within_witness :
    (∀ sel s1, (started .error_buffer buffered_state).cur_error_buffer = some sel →
        error_char 'a' (started .error_buffer buffered_state) = .ok () s1 →
        (s1.buf sel).allocated
          = (if ((started .error_buffer buffered_state).buf sel).index
                ≥ ((started .error_buffer buffered_state).buf sel).allocated
             then (if ((started .error_buffer buffered_state).buf sel).allocated = 0 then 1000
                   else 2 * ((started .error_buffer buffered_state).buf sel).allocated)
             else ((started .error_buffer buffered_state).buf sel).allocated)
        ∧ ((started .error_buffer buffered_state).buf sel).index < (s1.buf sel).allocated
        ∧ (s1.buf sel).index = ((started .error_buffer buffered_state).buf sel).index + 1
        ∧ (∀ sel2, sel2 ≠ sel → s1.buf sel2 = (started .error_buffer buffered_state).buf sel2))
    ∧ (error_char 'a' (started .error_buffer buffered_state)).state.error_buffer.allocated = 1000
    ∧ (error_char 'a' (started .error_buffer buffered_state)).state.error_buffer.index = 1 :=
  ⟨(buffer_index_within 'a' (started .error_buffer buffered_state) rfl).2.1, by decide!,
    by decide!⟩


/-! ## The value returned for a feature of a standard -/

/-- The value that `gfc_notify_std_1` returns with suppression depth 0, when
it returns. -/
theorem notify_std_yields (X : Externals) (std : Nat) (gmsgid : List Char)
    (argp : List VaArg) (s : gfc_state) (hsup : s.suppress_errors = 0) (b : Bool)
    (s1 : gfc_state) (h : gfc_notify_std_1 X std gmsgid argp s = .ok b s1) :
    b = (decide ((s.w.allow_std &&& std) ≠ 0
            ∧ ¬ ((decide ((s.w.warn_std &&& std) ≠ 0) && ! s.w.inhibit_warnings) = true))
          || ((decide ((s.w.warn_std &&& std) ≠ 0) && ! s.w.inhibit_warnings)
              && ! s.w.warnings_are_errors)) := by
  by_cases hA : (s.w.allow_std &&& std) ≠ 0
      ∧ ¬ ((decide ((s.w.warn_std &&& std) ≠ 0) && ! s.w.inhibit_warnings) = true)
  · unfold gfc_notify_std_1 at h
    simp only [bind_apply, getState_apply] at h
    rw [if_pos hA] at h
    cases h
    rw [decide_eq_true hA]
    rfl
  · rw [notify_std_report X std gmsgid argp s _ rfl hA hsup] at h
    have hd : decide ((s.w.allow_std &&& std) ≠ 0
        ∧ ¬ ((decide ((s.w.warn_std &&& std) ≠ 0) && ! s.w.inhibit_warnings) = true)) = false :=
      decide_eq_false hA
    rw [hd, Bool.false_or]
    refine (?_ : Yields _ _) _ b s1 h
    repeat' (first
      | with_reducible exact yields_pure _
      | with_reducible refine yields_bind _ _ _ (fun _ => ?_)
      | with_reducible refine yields_ite _ _ ?_ ?_)

/-- With suppression depth 0 and in immediate mode, `gfc_notify_std_1`
returns for a message without a conversion specifier and a flag that
`std_text` names, when the error count has no ceiling. -/
theorem notify_std_returns (X : Externals) (std : Nat) (gmsgid : List Char)
    (argp : List VaArg) (s : gfc_state) (hsup : s.suppress_errors = 0)
    (himm : s.buffered_p = false) (hplain : '%' ∉ cstr gmsgid) (t : List Char)
    (hstd : std_text X std = pure t) (hmax : s.w.max_errors = 0) :
    ∃ b s1, gfc_notify_std_1 X std gmsgid argp s = .ok b s1 := by
  by_cases hA : (s.w.allow_std &&& std) ≠ 0
      ∧ ¬ ((decide ((s.w.warn_std &&& std) ≠ 0) && ! s.w.inhibit_warnings) = true)
  · refine ⟨true, s, ?_⟩
    unfold gfc_notify_std_1
    simp only [bind_apply, getState_apply]
    rw [if_pos hA]
    rfl
  · rw [notify_std_report X std gmsgid argp s _ rfl hA hsup]
    generalize (decide ((s.w.warn_std &&& std) ≠ 0) && ! s.w.inhibit_warnings) = warning
    obtain ⟨_, sp, hp, hb⟩ := returns_error_print_plain X
      (cstr (if warning = true then "Warning:".toList else "Error:".toList) ++ " ".toList ++ cstr t)
      gmsgid argp hplain
      (started (if warning = true then BufSel.warning_buffer else BufSel.error_buffer) s)
      (by simpa using himm)
    have hf := emitted_frame _ _ ((keeps_error_print X _ gmsgid argp).ok hp)
    have hm : sp.w.max_errors = 0 := by
      rw [hf]
      cases warning <;> exact hmax
    rw [hstd]
    simp only [bind_apply, pure_apply, hp, error_char_immediate NUL sp hb, bne_self_eq_false,
      Bool.false_eq_true, if_false, getState_apply, hb, not_false_eq_true, if_true]
    by_cases hc : warning = true ∧ ¬ s.w.warnings_are_errors = true
    · rw [if_pos hc]
      exact ⟨_, _, rfl⟩
    · clear hf
      rw [if_neg hc, bind_apply, increment_apply, if_neg (by simp [hm])]
      exact ⟨_, _, rfl⟩

/-- C35, as amended: the value that `gfc_notify_std_1` returns depends on
the suppression depth in one case only. While errors are suppressed the
call returns at once, true exactly when the feature is silently allowed or
warned about. With suppression depth 0 it returns, when it returns, true
exactly when the feature is silently allowed, or warned about without
warnings being treated as errors; it returns in immediate mode for every
message without a conversion specifier and every flag that names a standard
when the error count has no ceiling. So two states with the same settings
give the same value unless the feature is warned about and warnings are
treated as errors. -/
theorem notify_std_value (X : Externals) (std : Nat) (gmsgid : List Char)
    (argp : List VaArg) (s : gfc_state) :
    (s.suppress_errors ≠ 0 →
      gfc_notify_std_1 X std gmsgid argp s
        = .ok (decide ((s.w.allow_std &&& std) ≠ 0
                ∧ ¬ ((decide ((s.w.warn_std &&& std) ≠ 0) && ! s.w.inhibit_warnings) = true))
              || (decide ((s.w.warn_std &&& std) ≠ 0) && ! s.w.inhibit_warnings)) s)
    ∧ (s.suppress_errors = 0 → ∀ b s1, gfc_notify_std_1 X std gmsgid argp s = .ok b s1 →
        b = (decide ((s.w.allow_std &&& std) ≠ 0
                ∧ ¬ ((decide ((s.w.warn_std &&& std) ≠ 0) && ! s.w.inhibit_warnings) = true))
              || ((decide ((s.w.warn_std &&& std) ≠ 0) && ! s.w.inhibit_warnings)
                  && ! s.w.warnings_are_errors)))
    ∧ (s.suppress_errors = 0 → s.buffered_p = false → '%' ∉ cstr gmsgid →
        (∃ t, std_text X std = pure t) → s.w.max_errors = 0 →
        ∃ b s1, gfc_notify_std_1 X std gmsgid argp s = .ok b s1)
    ∧ (∀ s2 b b2 s1 s3, s2.w.allow_std = s.w.allow_std → s2.w.warn_std = s.w.warn_std →
        s2.w.inhibit_warnings = s.w.inhibit_warnings →
        s2.w.warnings_are_errors = s.w.warnings_are_errors →
        ¬ ((decide ((s.w.warn_std &&& std) ≠ 0) && ! s.w.inhibit_warnings) = true
            ∧ s.w.warnings_are_errors = true) →
        gfc_notify_std_1 X std gmsgid argp s = .ok b s1 →
        gfc_notify_std_1 X std gmsgid argp s2 = .ok b2 s3 → b = b2) := by
  have hsupp : ∀ s : gfc_state, s.suppress_errors ≠ 0 →
      gfc_notify_std_1 X std gmsgid argp s
        = .ok (decide ((s.w.allow_std &&& std) ≠ 0
                ∧ ¬ ((decide ((s.w.warn_std &&& std) ≠ 0) && ! s.w.inhibit_warnings) = true))
              || (decide ((s.w.warn_std &&& std) ≠ 0) && ! s.w.inhibit_warnings)) s := by
    intro s hsup
    unfold gfc_notify_std_1
    simp only [bind_apply, getState_apply]
    by_cases hA : (s.w.allow_std &&& std) ≠ 0
        ∧ ¬ ((decide ((s.w.warn_std &&& std) ≠ 0) && ! s.w.inhibit_warnings) = true)
    · rw [if_pos hA, decide_eq_true hA]
      rfl
    · rw [if_neg hA, if_pos hsup, decide_eq_false hA]
      rfl
  have hval : ∀ (s : gfc_state) (b : Bool) (s1 : gfc_state),
      ¬ ((decide ((s.w.warn_std &&& std) ≠ 0) && ! s.w.inhibit_warnings) = true
            ∧ s.w.warnings_are_errors = true) →
      gfc_notify_std_1 X std gmsgid argp s = .ok b s1 →
      b = (decide ((s.w.allow_std &&& std) ≠ 0
                ∧ ¬ ((decide ((s.w.warn_std &&& std) ≠ 0) && ! s.w.inhibit_warnings) = true))
              || (decide ((s.w.warn_std &&& std) ≠ 0) && ! s.w.inhibit_warnings)) := by
    intro s b s1 hn h
    by_cases hsup : s.suppress_errors = 0
    · rw [notify_std_yields X std gmsgid argp s hsup b s1 h]
      cases hw : (decide ((s.w.warn_std &&& std) ≠ 0) && ! s.w.inhibit_warnings)
      · simp
      · cases hwe : s.w.warnings_are_errors
        · simp
        · exact absurd ⟨hw, hwe⟩ hn
    · rw [hsupp s hsup] at h
      cases h
      rfl
  refine ⟨hsupp s, fun hsup b s1 h => notify_std_yields X std gmsgid argp s hsup b s1 h,
    fun hsup himm hplain ⟨t, ht⟩ hmax =>
      notify_std_returns X std gmsgid argp s hsup himm hplain t ht hmax, ?_⟩
  intro s2 b b2 s1 s3 e1 e2 e3 e4 hn h h2
  rw [hval s b s1 hn h, hval s2 b2 s3 (by rw [e2, e3, e4]; exact hn) h2, e1, e2, e3]

/-- C35, witness: a feature of Fortran 2003 in the sample state that warns
about such features, with warnings not treated as errors: the call returns
true, as it does while errors are suppressed. -/
theorem notify_std_value_witness :
    (∃ s1, gfc_notify_std_1 sample_externals 16 "ASSOCIATE construct".toList [] std_warn_state
        = .ok true s1)
    ∧ gfc_notify_std_1 sample_externals 16 "ASSOCIATE construct".toList []
        { std_warn_state with suppress_errors := 1 }
      = .ok true { std_warn_state with suppress_errors := 1 } :=
  ⟨by
    obtain ⟨b, s1, h⟩ := (notify_std_value sample_externals 16 "ASSOCIATE construct".toList []
      std_warn_state).2.2.1 rfl rfl (by decide) ⟨_, rfl⟩ rfl
    have hb := (notify_std_value sample_externals 16 "ASSOCIATE construct".toList []
      std_warn_state).2.1 rfl b s1 h
    rw [hb] at h
    exact ⟨s1, h⟩,
   (notify_std_value sample_externals 16 "ASSOCIATE construct".toList []
      { std_warn_state with suppress_errors := 1 }).1 (by decide)⟩

/-- C35, counterexample: a feature of Fortran 2003 that is warned about,
with warnings treated as errors. While errors are suppressed
`gfc_notify_std_1` returns true; with suppression depth 0, in a state that
is the same otherwise, it returns false. -/
theorem notify_std_value_counterexample :
    gfc_notify_std_1 sample_externals 16 "ASSOCIATE construct".toList []
        { std_werror_state with suppress_errors := 1 }
      = .ok true { std_werror_state with suppress_errors := 1 }
    ∧ std_werror_state.suppress_errors = 0
    ∧ (∃ s1, gfc_notify_std_1 sample_externals 16 "ASSOCIATE construct".toList []
        std_werror_state = .ok false s1)
    ∧ std_werror_state.w.warnings_are_errors = true
    ∧ gfc_notification_std 16 std_werror_state = .ok .WARNING std_werror_state := by
  refine ⟨by decide!, rfl, ?_, rfl, by decide!⟩
  exact ⟨(gfc_notify_std_1 sample_externals 16 "ASSOCIATE construct".toList []
    std_werror_state).state, by decide!⟩


/-! ## An error reported at once and the check that follows -/

/-- In immediate mode `error_char` leaves the two error buffers and the
choice of the current one as they were. -/
theorem emit_immediate_buffers (cs : List Char) (s s1 : gfc_state) (himm : s.buffered_p = false)
    (h : emit cs s = .ok () s1) :
    s1.error_buffer = s.error_buffer ∧ s1.warning_buffer = s.warning_buffer
    ∧ s1.cur_error_buffer = s.cur_error_buffer := by
  induction cs generalizing s with
  | nil =>
    cases h
    exact ⟨rfl, rfl, rfl⟩
  | cons c cs ih =>
    simp only [emit, bind_apply, error_char_immediate c s himm] at h
    by_cases hc : c = NUL
    · subst hc
      simp only [bne_self_eq_false, Bool.false_eq_true, if_false] at h
      exact ih s himm h
    · have hc1 : (c != NUL) = true := by simpa using hc
      simp only [hc1, if_true] at h
      have hb : (line_char c s).buffered_p = false := by
        rw [line_char_buffered_p]
        exact himm
      obtain ⟨e1, e2, e3⟩ := ih (line_char c s) hb h
      refine ⟨e1.trans ?_, e2.trans ?_, e3.trans ?_⟩ <;>
        (by_cases hnl : c = '\n' <;> simp [line_char, hnl])

/-- What printing a report in immediate mode leaves. -/
theorem error_print_immediate_frame (X : Externals) (ty gmsgid : List Char)
    (argp : List VaArg) (s sp : gfc_state) (himm : s.buffered_p = false)
    (hp : error_print X ty gmsgid argp s = .ok () sp) :
    sp.error_buffer = s.error_buffer ∧ sp.errors = s.errors ∧ sp.buffered_p = false
    ∧ sp.w.max_errors = s.w.max_errors ∧ sp.w.flag_fatal_errors = s.w.flag_fatal_errors
    ∧ sp.w.pp_error_buffer = s.w.pp_error_buffer := by
  have hk := (keeps_error_print X ty gmsgid argp).ok hp
  have hf := emitted_frame _ _ hk
  obtain ⟨cs, hcs⟩ := hk
  have hb := (emit_immediate_buffers cs s sp himm hcs).1
  refine ⟨hb, ?_, ?_, ?_, ?_, ?_⟩
  · rw [hf]
  · rw [hf]
    exact himm
  · rw [hf]
  · rw [hf]
  · rw [hf]

/-- The function `gfc_error_check` when the flag of the error buffer is
set: when it returns, it returns true and has counted one more error. -/
theorem error_check_counts (X : Externals) (s : gfc_state) (b : Bool) (s2 : gfc_state)
    (hf : s.error_buffer.flag ≠ 0) (h : gfc_error_check X s = .ok b s2) :
    b = true ∧ ∃ t, s2 = error_flushed t s
      ∧ ((s.error_buffer.message = none ∧ t = [])
          ∨ ∃ m, s.error_buffer.message = some m ∧ memStr m = some t) := by
  have key : ∀ t, ((s.error_buffer.message = none ∧ t = [])
      ∨ ∃ m, s.error_buffer.message = some m ∧ memStr m = some t) →
      b = true ∧ s2 = error_flushed t s := by
    intro t ht
    rw [error_check_flagged X s t hf ht] at h
    split at h
    · obtain ⟨r, s3, e⟩ := fatal_error_stops (α := Bool) X
        "Error count reached limit of %d.".toList [.int s.w.max_errors] (error_flushed t s)
      rw [e] at h
      cases h
    · split at h
      · cases h
      · cases h
        exact ⟨rfl, rfl⟩
  cases hm : s.error_buffer.message with
  | none =>
    obtain ⟨e1, e2⟩ := key [] (Or.inl ⟨hm, rfl⟩)
    exact ⟨e1, [], e2, Or.inl ⟨rfl, rfl⟩⟩
  | some m =>
    cases hs : memStr m with
    | none =>
      exfalso
      unfold gfc_error_check at h
      rw [bind_apply, getState_apply] at h
      simp only [hf, ne_eq, not_false_eq_true, decide_True, if_true, hm] at h
      rw [bind_apply] at h
      have e : fputs_message m s = .stop .undefined s := by
        unfold fputs_message
        rw [hs]
        rfl
      rw [e] at h
      cases h
    | some t =>
      obtain ⟨e1, e2⟩ := key t (Or.inr ⟨m, hm, hs⟩)
      exact ⟨e1, t, e2, Or.inr ⟨m, rfl, hs⟩⟩

/-- The state that `gfc_error_1` leaves when it returns from a report in
immediate mode. -/
theorem error_1_immediate_leaves (X : Externals) (gmsgid : List Char) (argp : List VaArg)
    (s s1 : gfc_state) (himm : s.buffered_p = false) (hsup : s.suppress_errors = 0)
    (hwne : s.warnings_not_errors = false) (h : gfc_error_1 X gmsgid argp s = .ok () s1) :
    s1.errors = s.errors + 1
    ∧ s1.error_buffer = { s.error_buffer with flag := 1, index := 0 }
    ∧ s1.w.max_errors = s.w.max_errors ∧ s1.w.flag_fatal_errors = s.w.flag_fatal_errors := by
  cases hp : error_print X "Error:".toList gmsgid argp (started .error_buffer s) with
  | stop r sp =>
    exfalso
    unfold gfc_error_1 at h
    generalize "Error:".toList = ty at hp h
    simp [hwne, hsup, start_buffer_apply, hp] at h
  | ok u sp =>
    cases u
    obtain ⟨e1, e2, _, e4, e5, _⟩ := error_print_immediate_frame X _ gmsgid argp _ sp
      (by simpa using himm) hp
    rw [error_1_immediate X gmsgid argp s sp himm hsup hwne hp, increment_apply] at h
    split at h
    · obtain ⟨r, s3, e⟩ := fatal_error_stops (α := Unit) X
        "Error count reached limit of %d.".toList [.int sp.w.max_errors]
        { sp with errors := sp.errors + 1 }
      rw [e] at h
      cases h
    · cases h
      exact ⟨by show sp.errors + 1 = s.errors + 1; rw [e2]; rfl, e1, e4, e5⟩

/-- The function `gfc_error_now_1` once the text is printed. -/
theorem error_now_1_apply (X : Externals) (gmsgid : List Char) (argp : List VaArg)
    (s sp : gfc_state)
    (hp : error_print X "Error:".toList gmsgid argp
      { started .error_buffer s with buffered_p := false } = .ok () sp) :
    gfc_error_now_1 X gmsgid argp s = (do
      gfc_increment_error_count X
      modifyState (fun s1 => { s1 with buffered_p := s.buffered_p })
      if s.w.flag_fatal_errors then exit .FATAL_EXIT_CODE) sp := by
  obtain ⟨_, _, hb, _⟩ := error_print_immediate_frame X _ gmsgid argp _ sp rfl hp
  unfold gfc_error_now_1
  generalize "Error:".toList = ty at hp ⊢
  have e : (modifyState (fun s => { s with buffered_p := false }) (started .error_buffer s))
      = .ok () { started .error_buffer s with buffered_p := false } := rfl
  simp only [bind_apply, start_buffer_apply, getState_apply, e, hp,
    error_char_immediate NUL sp hb, bne_self_eq_false, Bool.false_eq_true, if_false]
  rfl

/-- The state that `gfc_error_now_1` leaves when it returns. -/
theorem error_now_1_leaves (X : Externals) (gmsgid : List Char) (argp : List VaArg)
    (s s1 : gfc_state) (h : gfc_error_now_1 X gmsgid argp s = .ok () s1) :
    s1.errors = s.errors + 1
    ∧ s1.error_buffer = { s.error_buffer with flag := 1, index := 0 }
    ∧ s1.w.max_errors = s.w.max_errors ∧ s1.w.flag_fatal_errors = s.w.flag_fatal_errors := by
  cases hp : error_print X "Error:".toList gmsgid argp
      { started .error_buffer s with buffered_p := false } with
  | stop r sp =>
    exfalso
    unfold gfc_error_now_1 at h
    generalize "Error:".toList = ty at hp h
    have e : (modifyState (fun s => { s with buffered_p := false }) (started .error_buffer s))
        = .ok () { started .error_buffer s with buffered_p := false } := rfl
    simp only [bind_apply, start_buffer_apply, getState_apply, e, hp] at h
    cases h
  | ok u sp =>
    cases u
    obtain ⟨e1, e2, _, e4, e5, _⟩ := error_print_immediate_frame X _ gmsgid argp _ sp rfl hp
    rw [error_now_1_apply X gmsgid argp s sp hp, bind_apply, increment_apply] at h
    by_cases hc : sp.w.max_errors ≠ 0 ∧ sp.errors + 1 ≥ sp.w.max_errors
    · rw [if_pos hc] at h
      obtain ⟨r, s3, e⟩ := fatal_error_stops (α := Unit) X
        "Error count reached limit of %d.".toList [.int sp.w.max_errors]
        { sp with errors := sp.errors + 1 }
      rw [e] at h
      cases h
    · rw [if_neg hc] at h
      simp only [bind_apply, modifyState_apply] at h
      split at h
      · cases h
      · cases h
        exact ⟨by show sp.errors + 1 = s.errors + 1; rw [e2]; rfl, e1, e4, e5⟩

/-- In immediate mode `gfc_error_1` returns from the report of a message
without a conversion specifier when the error count has no ceiling. -/
theorem error_1_immediate_returns (X : Externals) (gmsgid : List Char) (argp : List VaArg)
    (s : gfc_state) (himm : s.buffered_p = false) (hsup : s.suppress_errors = 0)
    (hwne : s.warnings_not_errors = false) (hplain : '%' ∉ cstr gmsgid)
    (hmax : s.w.max_errors = 0) : ∃ s1, gfc_error_1 X gmsgid argp s = .ok () s1 := by
  obtain ⟨_, sp, hp, _⟩ := returns_error_print_plain X "Error:".toList gmsgid argp hplain
    (started .error_buffer s) (by simpa using himm)
  obtain ⟨_, _, _, e4, _, _⟩ := error_print_immediate_frame X _ gmsgid argp _ sp
    (by simpa using himm) hp
  have hm : sp.w.max_errors = 0 := e4.trans hmax
  rw [error_1_immediate X gmsgid argp s sp himm hsup hwne hp, increment_apply,
    if_neg (by simp [hm])]
  exact ⟨_, rfl⟩

/-- The function `gfc_error_now_1` returns from the report of a message
without a conversion specifier when the error count has no ceiling and
`flag_fatal_errors` is not set. -/
theorem error_now_1_returns (X : Externals) (gmsgid : List Char) (argp : List VaArg)
    (s : gfc_state) (hplain : '%' ∉ cstr gmsgid) (hmax : s.w.max_errors = 0)
    (hff : s.w.flag_fatal_errors = false) : ∃ s1, gfc_error_now_1 X gmsgid argp s = .ok () s1 := by
  obtain ⟨_, sp, hp, _⟩ := returns_error_print_plain X "Error:".toList gmsgid argp hplain
    { started .error_buffer s with buffered_p := false } rfl
  obtain ⟨_, _, _, e4, _, _⟩ := error_print_immediate_frame X _ gmsgid argp _ sp rfl hp
  have hm : sp.w.max_errors = 0 := e4.trans hmax
  rw [error_now_1_apply X gmsgid argp s sp hp, bind_apply, increment_apply,
    if_neg (by simp [hm])]
  simp only [bind_apply, modifyState_apply, hff, Bool.false_eq_true, if_false]
  exact ⟨_, rfl⟩

/-- C34: the code does not count every error once. An error that
`gfc_error_1` reports in immediate mode, or `gfc_error_now_1` reports, is
counted by the call, which leaves the flag of the error buffer set and the
message of the buffer as it was. A following `gfc_error_check` therefore
finds an error pending: when it returns it returns true, it has written the
message that the buffer held before the report, cleared the flag and
counted the same error once more, so that the count is 2 above what it was
before the report. For a message without a conversion specifier, no ceiling
on the count, `flag_fatal_errors` not set and a buffer whose message is
absent or terminated, both reports and the check that follows return. -/
theorem immediate_error_counted_again (X : Externals) (gmsgid : List Char)
    (argp : List VaArg) (s : gfc_state) (himm : s.buffered_p = false)
    (hsup : s.suppress_errors = 0) (hwne : s.warnings_not_errors = false) :
    (∀ s1, (gfc_error_1 X gmsgid argp s = .ok () s1
        ∨ gfc_error_now_1 X gmsgid argp s = .ok () s1) →
      s1.errors = s.errors + 1 ∧ s1.error_buffer.flag = 1
      ∧ s1.error_buffer.message = s.error_buffer.message
      ∧ ∀ b s2, gfc_error_check X s1 = .ok b s2 →
          b = true ∧ s2.errors = s.errors + 2 ∧ s2.error_buffer.flag = 0
          ∧ ∃ t, s2.w.stderr = s1.w.stderr ++ t
            ∧ ((s.error_buffer.message = none ∧ t = [])
              ∨ ∃ m, s.error_buffer.message = some m ∧ memStr m = some t))
    ∧ (∀ t, '%' ∉ cstr gmsgid → s.w.max_errors = 0 → s.w.flag_fatal_errors = false →
        ((s.error_buffer.message = none ∧ t = [])
          ∨ ∃ m, s.error_buffer.message = some m ∧ memStr m = some t) →
        ∃ s1 s3, gfc_error_1 X gmsgid argp s = .ok () s1
          ∧ gfc_error_check X s1 = .ok true (error_flushed t s1)
          ∧ gfc_error_now_1 X gmsgid argp s = .ok () s3
          ∧ gfc_error_check X s3 = .ok true (error_flushed t s3)) := by
  have hleaves : ∀ s1, (gfc_error_1 X gmsgid argp s = .ok () s1
        ∨ gfc_error_now_1 X gmsgid argp s = .ok () s1) →
      s1.errors = s.errors + 1
      ∧ s1.error_buffer = { s.error_buffer with flag := 1, index := 0 }
      ∧ s1.w.max_errors = s.w.max_errors
      ∧ s1.w.flag_fatal_errors = s.w.flag_fatal_errors := fun s1 h =>
    h.elim (error_1_immediate_leaves X gmsgid argp s s1 himm hsup hwne)
      (error_now_1_leaves X gmsgid argp s s1)
  refine ⟨?_, ?_⟩
  · intro s1 h
    obtain ⟨e1, e2, _, _⟩ := hleaves s1 h
    have hflag : s1.error_buffer.flag = 1 := by rw [e2]
    have hmsg : s1.error_buffer.message = s.error_buffer.message := by rw [e2]
    refine ⟨e1, hflag, hmsg, ?_⟩
    intro b s2 hc
    obtain ⟨hb, t, hs2, ht⟩ := error_check_counts X s1 b s2 (by rw [hflag]; decide) hc
    refine ⟨hb, ?_, ?_, t, ?_, ?_⟩
    · rw [hs2]
      show s1.errors + 1 = s.errors + 2
      omega
    · rw [hs2]
      rfl
    · rw [hs2]
      rfl
    · rw [hmsg] at ht
      exact ht
  · intro t hplain hmax hff ht
    obtain ⟨s1, h1⟩ := error_1_immediate_returns X gmsgid argp s himm hsup hwne hplain hmax
    obtain ⟨s3, h3⟩ := error_now_1_returns X gmsgid argp s hplain hmax hff
    have hcheck : ∀ s1, (gfc_error_1 X gmsgid argp s = .ok () s1
        ∨ gfc_error_now_1 X gmsgid argp s = .ok () s1) →
        gfc_error_check X s1 = .ok true (error_flushed t s1) := by
      intro s1 h
      obtain ⟨_, e2, e3, e4⟩ := hleaves s1 h
      have hflag : s1.error_buffer.flag = 1 := by rw [e2]
      have hmsg : s1.error_buffer.message = s.error_buffer.message := by rw [e2]
      rw [error_check_flagged X s1 t (by rw [hflag]; decide) (by rw [hmsg]; exact ht),
        if_neg (by simp [e3, hmax]), e4, hff]
      rfl
    exact ⟨s1, s3, h1, hcheck s1 (Or.inl h1), h3, hcheck s3 (Or.inr h3)⟩

/-- C34, witness: the error "Syntax error" reported in the sample state, by
`gfc_error_1` and by `gfc_error_now_1`: both return and the check that
follows returns true; after `gfc_error_1` and the check the count is 2. -/
theorem immediate_error_counted_again_witness :
    (∃ s1 s3, gfc_error_1 sample_externals "Syntax error".toList [] sample_state = .ok () s1
      ∧ gfc_error_check sample_externals s1 = .ok true (error_flushed [] s1)
      ∧ gfc_error_now_1 sample_externals "Syntax error".toList [] sample_state = .ok () s3
      ∧ gfc_error_check sample_externals s3 = .ok true (error_flushed [] s3))
    ∧ (gfc_error_1 sample_externals "Syntax error".toList [] sample_state).state.errors = 1
    ∧ (gfc_error_check sample_externals
        (gfc_error_1 sample_externals "Syntax error".toList [] sample_state).state).state.errors
      = 2
    ∧ (gfc_error_check sample_externals
        (gfc_error_now_1 sample_externals "Syntax error".toList [] sample_state).state).state.errors
      = 2
    ∧ (gfc_error_check sample_externals
        (gfc_error_1 sample_externals "Syntax error".toList [] sample_state).state).state.w.stderr
      = "Error: Syntax error\n".toList :=
  ⟨(immediate_error_counted_again sample_externals "Syntax error".toList [] sample_state
      rfl rfl rfl).2 [] (by decide) rfl rfl (Or.inl ⟨rfl, rfl⟩),
    by decide!, by decide!, by decide!, by decide!⟩


/-! ## The width of the excerpt -/

theorem display_length_le_ten (X : Externals) (c : Nat) :
    gfc_widechar_display_length X c ≤ 10 := by
  unfold gfc_widechar_display_length
  split
  · decide
  · split
    · decide
    · split <;> decide

/-- The loop that prints the source line, with the widths of what it
prints: the characters before the last one printed take fewer columns than
the count `i` the loop starts with. -/
theorem show_line_loop_width (X : Externals) (line : List Nat) (fuel : Nat) (i : Int) (p : Nat)
    (hi : i ≤ gfc_wide_display_length X (line.drop p)) (hf : i ≤ fuel) :
    ∃ n, show_line_loop X line fuel i p
        = emit ((((line.drop p).take n).map (render X)).flatten)
      ∧ (∀ c ∈ (line.drop p).take n, c ≠ 0)
      ∧ (i = gfc_wide_display_length X (line.drop p) → (line.drop p).take n = wcs (line.drop p))
      ∧ (i ≤ 0 → n = 0)
      ∧ (0 < i →
          0 < n ∧ n ≤ (line.drop p).length
          ∧ ((((line.drop p).take (n - 1)).map (gfc_widechar_display_length X)).sum : Int) < i
          ∧ i ≤ ((((line.drop p).take n).map (gfc_widechar_display_length X)).sum : Int)) := by
  induction fuel generalizing i p with
  | zero =>
    have hi0 : i ≤ 0 := by simpa using hf
    refine ⟨0, by simp [show_line_loop, emit], by simp, ?_, fun _ => rfl, fun h => by omega⟩
    intro e
    have h0 : gfc_wide_display_length X (line.drop p) = 0 := by
      have : (0 : Int) ≤ gfc_wide_display_length X (line.drop p) := Int.ofNat_nonneg _
      omega
    simp [wcs_of_display_length_le_zero X _ h0]
  | succ fuel ih =>
    by_cases hpos : i > 0
    · cases hd : line.drop p with
      | nil =>
        rw [hd] at hi
        simp only [gfc_wide_display_length, Nat.cast_zero] at hi
        omega
      | cons c rest =>
        rw [hd] at hi
        by_cases hc : c = 0
        · simp only [gfc_wide_display_length, hc, if_true, Nat.cast_zero] at hi
          omega
        · obtain ⟨hl, hr⟩ := line_at_of_drop line p c rest hd
          simp only [gfc_wide_display_length, hc, if_false, Nat.cast_add] at hi
          have hw := display_length_pos X c
          obtain ⟨n, e1, e2, e3, e4, e5⟩ := ih (i - gfc_widechar_display_length X c) (p + 1)
            (by rw [hr]; omega) (by push_cast at hf; omega)
          rw [hr] at e1 e2 e3 e5
          refine ⟨n + 1, ?_, ?_, ?_, fun h => by omega, fun _ => ?_⟩
          · simp only [show_line_loop, hpos, if_true, hl, pure_bind_M, print_wide_char_fst]
            rw [e1, error_string_eq_emit, emit_bind_emit]
            simp [render]
          · intro d hdm
            simp only [List.take_succ_cons, List.mem_cons] at hdm
            rcases hdm with rfl | hdm
            · exact hc
            · exact e2 d hdm
          · intro e
            simp only [gfc_wide_display_length, hc, if_false, Nat.cast_add] at e
            rw [List.take_succ_cons, e3 (by omega)]
            simp [wcs, List.takeWhile_cons, hc]
          · by_cases hrest : 0 < i - (gfc_widechar_display_length X c : Int)
            · obtain ⟨h1, h2, h3, h4⟩ := e5 hrest
              obtain ⟨m, hm⟩ : ∃ m, n = m + 1 := ⟨n - 1, by omega⟩
              subst hm
              refine ⟨Nat.succ_pos _, by simp only [List.length_cons]; omega, ?_, ?_⟩
              · simp only [Nat.add_sub_cancel] at h3 ⊢
                simp only [List.take_succ_cons, List.map_cons, List.sum_cons, Nat.cast_add]
                omega
              · simp only [List.take_succ_cons, List.map_cons, List.sum_cons, Nat.cast_add]
                  at h4 ⊢
                omega
            · have hn0 : n = 0 := e4 (by omega)
              subst hn0
              refine ⟨Nat.succ_pos _, by simp, ?_, ?_⟩
              · simpa using hpos
              · simp only [List.take_succ_cons, List.take_zero, List.map_cons, List.map_nil,
                  List.sum_cons, List.sum_nil, Nat.cast_add, Nat.cast_zero]
                omega
    · refine ⟨0, by simp [show_line_loop, hpos, emit], by simp, ?_, fun _ => rfl,
        fun h => absurd h hpos⟩
      intro e
      have h0 : gfc_wide_display_length X (line.drop p) = 0 := by
        have : (0 : Int) ≤ gfc_wide_display_length X (line.drop p) := Int.ofNat_nonneg _
        omega
      simp [wcs_of_display_length_le_zero X _ h0]

theorem sum_take_succ_le (X : Externals) (l : List Nat) (n : Nat) (hn : 0 < n) :
    ((l.take n).map (gfc_widechar_display_length X)).sum
      ≤ ((l.take (n - 1)).map (gfc_widechar_display_length X)).sum + 10 := by
  obtain ⟨m, rfl⟩ : ∃ m, n = m + 1 := ⟨n - 1, by omega⟩
  simp only [Nat.add_sub_cancel]
  induction l generalizing m with
  | nil => simp
  | cons c l ih =>
    cases m with
    | zero =>
      have := display_length_le_ten X c
      simp
      omega
    | succ m =>
      have := ih m (Nat.succ_pos _)
      simp only [List.take_succ_cons, List.map_cons, List.sum_cons]
      omega

/-- C32: the excerpt can pass the width of the terminal. For every source
line, every terminal width `w` and every scroll offset within the line, the
excerpt that `show_locus` prints is the rendering of the first `n`
characters of the line from the offset, none of them the terminator, and a
newline. When the part of the line from the offset has display width at
most `w`, the excerpt is the rendering of every character of that part and
occupies at most `w` columns, as claimed. Otherwise the count starts at
`w - 1` and a character is printed whole for as long as the count is
positive: the characters before the last one printed occupy fewer than
`w - 1` columns, and the excerpt up to `w + 8`, which is more than `w` when
the last character is printed as an escape. The rendering of these
characters is as many columns wide as their display widths sum to (a
printable character being written as a byte that is not NUL). -/
theorem excerpt_width (X : Externals) (lb : gfc_linebuf) (offset : Int) (w : Int)
    (hn : offset.toNat ≤ lb.line.length) :
    ∃ n, (∀ s : gfc_state, s.terminal_width = w → show_locus_line X lb offset s
          = emit ((((lb.line.drop offset.toNat).take n).map (render X)).flatten ++ ['\n']) s)
      ∧ (∀ (loc : locus) (c1 c2 : Int) (s : gfc_state), loc.lb = some lb →
          s.terminal_width = w →
          offset = locus_offset w (if c1 < (if c1 = c2 then c2 + 1 else c2)
            then (if c1 = c2 then c2 + 1 else c2) else c1) →
          show_locus X loc c1 c2 s = (do
            show_locus_header X lb c1 c2
            show_includes lb.file
            error_char '\n'
            emit ((((lb.line.drop offset.toNat).take n).map (render X)).flatten ++ ['\n'])
            show_locus_markers X lb offset (c1 - offset)
              ((if c1 = c2 then c2 + 1 else c2) - offset)
              ((if c1 < (if c1 = c2 then c2 + 1 else c2)
                then (if c1 = c2 then c2 + 1 else c2) else c1) - offset)) s)
      ∧ (∀ c ∈ (lb.line.drop offset.toNat).take n, c ≠ 0)
      ∧ ((gfc_wide_display_length X (lb.line.drop offset.toNat) : Int) ≤ w →
          (lb.line.drop offset.toNat).take n = wcs (lb.line.drop offset.toNat)
          ∧ ((((lb.line.drop offset.toNat).take n).map
                (gfc_widechar_display_length X)).sum : Int) ≤ w)
      ∧ (w < (gfc_wide_display_length X (lb.line.drop offset.toNat) : Int) →
          (n = 0 ∨ ((((lb.line.drop offset.toNat).take (n - 1)).map
                (gfc_widechar_display_length X)).sum : Int) < w - 1)
          ∧ (n = 0 ∨ ((((lb.line.drop offset.toNat).take n).map
                (gfc_widechar_display_length X)).sum : Int) ≤ w + 8))
      ∧ ((∀ ch ∈ lb.line, X.gfc_wide_is_printable ch = true → ch % 256 ≠ 0) →
          ((((lb.line.drop offset.toNat).take n).map (render X)).flatten).length
            = (((lb.line.drop offset.toNat).take n).map (gfc_widechar_display_length X)).sum) := by
  have hd : (lb.line ++ [0]).drop offset.toNat = lb.line.drop offset.toNat ++ [0] :=
    List.drop_append_of_le_length hn
  have hne : lb.line.drop offset.toNat ++ [0] ≠ [] := by simp
  let i0 : Int := gfc_wide_display_length X (lb.line.drop offset.toNat)
  let i : Int := if i0 > w then w - 1 else i0
  have hi : i ≤ gfc_wide_display_length X (lb.line.drop offset.toNat) := by
    show (if i0 > w then w - 1 else i0) ≤ i0
    split <;> omega
  obtain ⟨n, e1, e2, e3, e4, e5⟩ := show_line_loop_width X lb.line i.toNat i offset.toNat hi
    (Int.self_le_toNat i)
  have hline : ∀ s : gfc_state, s.terminal_width = w → show_locus_line X lb offset s
      = emit ((((lb.line.drop offset.toNat).take n).map (render X)).flatten ++ ['\n']) s := by
    intro s hs
    unfold show_locus_line
    simp only [bind_apply, getState_apply, hd, hne, if_false, display_length_append_zero, hs]
    rw [emit_append, ← e1]
    simp only [bind_apply, error_char_eq_emit]
  refine ⟨n, hline, ?_, e2, ?_, ?_, ?_⟩
  · intro loc c1 c2 s hlb hs ho
    rw [show_locus_parts X loc lb c1 c2 hlb]
    refine bind_congr_width (keeps_show_locus_header X lb c1 c2) s (fun _ s1 h1 => ?_)
    refine bind_congr_width (keeps_show_includes lb.file) s1 (fun _ s2 h2 => ?_)
    refine bind_congr_width (keeps_error_char '\n') s2 (fun _ s3 h3 => ?_)
    have h3w : s3.terminal_width = w := by rw [h3, h2, h1, hs]
    unfold show_locus_excerpt
    simp only [bind_apply, getState_apply, h3w, ← ho, hline s3 h3w]
  · intro hle
    have hii : i = gfc_wide_display_length X (lb.line.drop offset.toNat) := by
      show (if i0 > w then w - 1 else i0) = i0
      rw [if_neg (by omega)]
    have hw := e3 hii
    refine ⟨hw, ?_⟩
    rw [hw]
    have := gfc_wide_display_length_eq_sum X (lb.line.drop offset.toNat)
    unfold display_width_sum at this
    unfold wcs
    rw [← this]
    exact hle
  · intro hlt
    have hii : i = w - 1 := by
      show (if i0 > w then w - 1 else i0) = w - 1
      rw [if_pos hlt]
    by_cases hpos : 0 < i
    · obtain ⟨h1, _, h3, _⟩ := e5 hpos
      have h10 := sum_take_succ_le X (lb.line.drop offset.toNat) n h1
      refine ⟨Or.inr (by omega), Or.inr (by omega)⟩
    · have hn0 := e4 (by omega)
      exact ⟨Or.inl hn0, Or.inl hn0⟩
  · intro hX
    exact render_flatten_length X _
      (fun ch hch => hX ch (List.mem_of_mem_drop (List.mem_of_mem_take hch)))

/-- C32, witness: the line 'a', 'b', 1, 'c', 'd' from its start on 80
columns: all of it is printed, on 8 columns. -/
theorem excerpt_width_witness :
    ∃ n, (∀ s : gfc_state, s.terminal_width = 80 →
          show_locus_line sample_externals short_escaped_line 0 s
          = emit ((((short_escaped_line.line.drop 0).take n).map
              (render sample_externals)).flatten ++ ['\n']) s)
      ∧ ((((short_escaped_line.line.drop 0).take n).map
            (gfc_widechar_display_length sample_externals)).sum : Int) ≤ 80
      ∧ (show_locus_line sample_externals short_escaped_line 0
          (width_state 80)).state.w.stderr = "ab\\x01cd\n".toList :=
  (excerpt_width sample_externals short_escaped_line 0 80 (by decide)).imp
    (fun _ h => ⟨h.1, (h.2.2.2.1 (by decide)).2, by decide!⟩)

/-- C32, at the failing input: the line 1, 1, 1, 1, 'a' on a terminal of 6
columns, the locus at its first character. The part of the line from the
offset 0 is 17 columns wide, so the count starts at 5 and two characters
are printed, the second one whole: the excerpt occupies 8 columns, more
than the 6 of the terminal. -/
theorem excerpt_width_counterexample :
    (show_locus sample_externals { nextc := 0, lb := some escapes_line } 0 (-1)
        (width_state 6)).state.w.stderr
      = "file.f:10:\n\n".toList ++ "\\x01\\x01".toList ++ "\n1\n".toList
    ∧ "\\x01\\x01".toList
      = ((escapes_line.line.take 2).map (render sample_externals)).flatten
    ∧ ((escapes_line.line.take 2).map (gfc_widechar_display_length sample_externals)).sum = 8
    ∧ (width_state 6).terminal_width = 6
    ∧ locus_offset 6 0 = 0
    ∧ gfc_wide_display_length sample_externals escapes_line.line = 17 := by
  refine ⟨?_, ?_, ?_, ?_, ?_, ?_⟩ <;> decide!


/-! ## The indices that `show_locus` reads -/

theorem line_at_beyond (line : List Nat) (p : Nat) (h : line.length < p) :
    line_at line p = halt .undefined := by
  unfold line_at
  have : (line ++ [0]).get? p = none := by
    rw [List.get?_eq_none]
    simp
    omega
  rw [this]

/-- The marker loop over characters of the line, its terminator included,
reads them all and prints a row. -/
theorem marker_loop_defined (X : Externals) (line : List Nat) (c1 c2 : Int) (k : Nat) (i : Int)
    (p : Nat) (hb : p + k ≤ line.length + 1) :
    ∃ row, marker_loop X line c1 c2 k i p = emit row := by
  induction k generalizing i p with
  | zero => exact ⟨[], by simp [marker_loop, emit]⟩
  | succ k ih =>
    have hp : p ≤ line.length := by omega
    obtain ⟨row, e⟩ := ih (i + 1) (p + 1) (by omega)
    rw [marker_loop_succ, line_at_of_le line p hp, pure_bind_M, e]
    by_cases h1 : i = c1
    · rw [if_pos h1]
      simp only [error_char_eq_emit, error_spaces_eq_emit, emit_bind_emit,
        bind_assoc_M, emit_bind_emit_bind]
      exact ⟨_, rfl⟩
    · rw [if_neg h1]
      by_cases h2 : i = c2
      · rw [if_pos h2]
        simp only [error_char_eq_emit, error_spaces_eq_emit,
          emit_bind_emit, bind_assoc_M, emit_bind_emit_bind]
        exact ⟨_, rfl⟩
      · rw [if_neg h2]
        simp only [error_spaces_eq_emit, emit_bind_emit]
        exact ⟨_, rfl⟩

theorem show_locus_markers_defined (X : Externals) (lb : gfc_linebuf) (offset c1 c2 cmax : Int)
    (hb : offset.toNat + cmax.toNat ≤ lb.line.length + 1) :
    ∃ row, show_locus_markers X lb offset c1 c2 cmax = emit row := by
  obtain ⟨row, e⟩ := marker_loop_defined X lb.line c1 c2 cmax.toNat 0 offset.toNat hb
  unfold show_locus_markers
  rw [e]
  by_cases h1 : ((cmax.toNat : Nat) : Int) = c1
  · simp only [if_pos h1, error_char_eq_emit, emit_bind_emit, emit_bind_emit_bind,
      bind_assoc_M]
    exact ⟨_, rfl⟩
  · by_cases h2 : ((cmax.toNat : Nat) : Int) = c2
    · simp only [if_neg h1, if_pos h2, error_char_eq_emit, emit_bind_emit,
        emit_bind_emit_bind, bind_assoc_M]
      exact ⟨_, rfl⟩
    · simp only [if_neg h1, if_neg h2, error_char_eq_emit, emit_bind_emit, emit_bind_emit_bind,
        bind_assoc_M, pure_bind_M]
      exact ⟨_, rfl⟩

/-- C33: for every source line of `n` characters before its terminator,
every terminal width of at least 6 and columns between -1 (no marker, as
`show_loci` passes it) and `n`, the scroll offset of `show_locus` lies
between 0 and `n`, the marker loop reads the indices from the offset to
below `cmax`, which is at most `n + 1` after the tie-break, and all the
reads of the line succeed: the statements of `show_locus` that read the line
print the rendering of characters of the line from the offset, a newline
and a marker row. A read of the line is defined exactly for the indices 0
to `n`, the terminator included. -/
theorem locus_reads_within (X : Externals) (lb : gfc_linebuf) (c1 c2 : Int) (s : gfc_state)
    (c2b cmax offset : Int)
    (h2 : c2b = if c1 = c2 then c2 + 1 else c2)
    (hm : cmax = if c1 < c2b then c2b else c1)
    (ho : offset = locus_offset s.terminal_width cmax)
    (hw : 6 ≤ s.terminal_width)
    (h1l : -1 ≤ c1) (h1u : c1 ≤ lb.line.length) (h2l : -1 ≤ c2) (h2u : c2 ≤ lb.line.length) :
    0 ≤ offset ∧ offset ≤ lb.line.length ∧ offset ≤ cmax ∧ cmax ≤ lb.line.length + 1
    ∧ offset.toNat + (cmax - offset).toNat ≤ lb.line.length + 1
    ∧ (∃ k row, offset.toNat + ((lb.line.drop offset.toNat).take k).length ≤ lb.line.length
        ∧ show_locus_excerpt X lb c1 c2 s
          = emit ((((lb.line.drop offset.toNat).take k).map (render X)).flatten ++ ['\n']
              ++ row) s)
    ∧ (∀ p, p ≤ lb.line.length → line_at lb.line p = pure ((lb.line ++ [0]).getD p 0))
    ∧ (∀ p, lb.line.length < p → line_at lb.line p = halt .undefined)
    ∧ (∀ loc : locus, loc.lb = some lb →
        show_locus X loc c1 c2 = (do
          show_locus_header X lb c1 c2
          show_includes lb.file
          error_char '\n'
          show_locus_excerpt X lb c1 c2)) := by
  have hc2b : -1 ≤ c2b ∧ c2b ≤ lb.line.length + 1 := by
    rw [h2]
    split <;> constructor <;> omega
  have hcm : 0 ≤ cmax ∧ cmax ≤ lb.line.length + 1 := by
    rw [hm]
    split
    · constructor <;> omega
    · rename_i hlt
      have : c1 ≠ -1 ∨ c2b ≤ -1 := by omega
      by_cases hc1 : c1 = -1
      · exfalso
        rw [h2] at hlt
        split at hlt <;> omega
      · constructor <;> omega
  have hoff : 0 ≤ offset ∧ offset ≤ lb.line.length ∧ offset ≤ cmax := by
    rw [ho]
    unfold locus_offset
    split <;> refine ⟨?_, ?_, ?_⟩ <;> omega
  have hsum : offset.toNat + (cmax - offset).toNat ≤ lb.line.length + 1 := by omega
  obtain ⟨row, hrow⟩ := show_locus_markers_defined X lb offset (c1 - offset) (c2b - offset)
    (cmax - offset) hsum
  obtain ⟨k, e⟩ := show_locus_excerpt_run X lb c1 c2 s c2b cmax offset row h2 hm ho
    (by omega) hrow
  refine ⟨hoff.1, hoff.2.1, hoff.2.2, hcm.2, hsum, ⟨k, row, ?_, e⟩,
    fun p hp => line_at_of_le lb.line p hp, fun p hp => line_at_beyond lb.line p hp,
    fun loc hlb => show_locus_parts X loc lb c1 c2 hlb⟩
  rw [List.length_take, List.length_drop]
  omega

/-- C33, witness: both markers at the terminator of the line "abcdefghij",
index 10, on a terminal of 6 columns: the second column is moved to 11, the
offset is 10, and the one index that the marker loop reads is 10, the
terminator, which counts for 4 columns. -/
theorem locus_reads_within_witness :
    (0 : Int) ≤ 10 ∧ (10 : Int) ≤ plain_line.line.length ∧ (10 : Int) ≤ 11
    ∧ (11 : Int) ≤ plain_line.line.length + 1
    ∧ (10 : Int).toNat + ((11 : Int) - 10).toNat ≤ plain_line.line.length + 1
    ∧ (show_locus_excerpt sample_externals plain_line 10 10 (width_state 6)).state.w.stderr
        = "\n1   2\n".toList :=
  have h := locus_reads_within sample_externals plain_line 10 10 (width_state 6) 11 11 10
    (by decide) (by decide) (by decide) (by decide) (by decide) (by decide) (by decide)
    (by decide)
  ⟨h.1, h.2.1, h.2.2.1, h.2.2.2.1, h.2.2.2.2.1, by decide!⟩


/-! ## The indices into the arrays `arg` and `spec` -/

/-- The first loop of `error_print` leaves the entries of `spec` from `n` on
as they were initialised, with `pos = -1`. -/
theorem scan_rest (fuel : Nat) (format : List Char) (st st1 : Scan)
    (h : scan fuel format st = .ok st1)
    (hI : ∀ k, st.n ≤ k → k < MAX_ARGS → st.spec_pos[k]? = some (-1)) :
    ∀ k, st1.n ≤ k → k < MAX_ARGS → st1.spec_pos[k]? = some (-1) := by
  induction fuel generalizing format st with
  | zero => cases h
  | succ fuel ih =>
    cases format with
    | nil =>
      cases h
      exact hI
    | cons c format =>
      unfold scan at h
      split at h
      · exact ih _ _ h hI
      · split at h
        · exact ih _ _ h hI
        · split at h
          · cases h
          · rename_i pos format1 _
            simp only [] at h
            split at h
            · cases h
            · rename_i ty format2 hty
              split at h
              · refine ih _ _ h ?_
                intro k hk hk2
                have hk1 : st.n + 1 ≤ k := hk
                show (st.spec_pos.set st.n pos)[k]? = some (-1)
                rw [List.getElem?_set_ne (by omega)]
                exact hI k (by omega) hk2
              · cases h

/-- The third loop of `error_print` when every entry of `spec` from `n` on
holds a slot index: it reads the element after the last. -/
theorem copy_loop_full (spec_pos : List Int) (arg_u : List UVal) (fuel n : Nat)
    (spec_u : List UVal)
    (hall : ∀ k q, n ≤ k → spec_pos[k]? = some q → 0 ≤ q ∧ q.toNat < arg_u.length) :
    copy_loop spec_pos arg_u fuel n spec_u = .error .undefined := by
  induction fuel generalizing n spec_u with
  | zero => rfl
  | succ fuel ih =>
    unfold copy_loop
    simp only [List.get?_eq_getElem?]
    cases hq : spec_pos[n]? with
    | none => rfl
    | some q =>
      obtain ⟨h0, h1⟩ := hall n q (le_refl _) hq
      simp only [ge_iff_le, h0, if_true, List.getElem?_eq_getElem h1]
      exact ih (n + 1) _ (fun k q hk => hall k q (by omega))

/-- The third loop of `error_print` when an entry of `spec` at or after `n`
is not in use: it ends there, within the array. -/
theorem copy_loop_partial (spec_pos : List Int) (arg_u : List UVal) (m : Nat) (d fuel n : Nat)
    (spec_u : List UVal) (hd : n + d = m) (hf : d < fuel)
    (hall : ∀ k, k < m → ∃ q, spec_pos[k]? = some q ∧ 0 ≤ q ∧ q.toNat < arg_u.length)
    (hend : spec_pos[m]? = some (-1)) :
    ∃ r, copy_loop spec_pos arg_u fuel n spec_u = .ok r := by
  induction d generalizing fuel n spec_u with
  | zero =>
    obtain ⟨fuel, rfl⟩ : ∃ f, fuel = f + 1 := ⟨fuel - 1, by omega⟩
    have e : n = m := by omega
    subst e
    unfold copy_loop
    simp only [List.get?_eq_getElem?, hend]
    exact ⟨_, rfl⟩
  | succ d ih =>
    obtain ⟨fuel, rfl⟩ : ∃ f, fuel = f + 1 := ⟨fuel - 1, by omega⟩
    obtain ⟨q, hq, h0, h1⟩ := hall n (by omega)
    unfold copy_loop
    simp only [List.get?_eq_getElem?, hq, ge_iff_le, h0, if_true, List.getElem?_eq_getElem h1]
    exact ih fuel (n + 1) _ (by omega) (by omega)

/-- C31: where the code leaves the arrays. For a template that the first
loop of `error_print` scans through and arguments that the second loop
takes, every index used up to there lies within 0..9: at most 10 entries of
`spec` are in use, every slot index is at most `maxpos`, which is below 10,
and both arrays have their 10 elements. The entries of `spec` that are not
in use still hold `pos = -1`. With fewer than 10 specifiers the loop
`for (n = 0; spec[n].pos >= 0; n++)` ends at the first of them, within the
array. With exactly 10 specifiers no entry is left to end it: the loop
reads `spec[10]`, one element beyond the array, and `error_print` stops
there before anything is printed. -/
theorem spec_index_beyond_array (X : Externals) (type format0 : List Char)
    (argp : List VaArg) (s : gfc_state) (st : Scan) (cv : Conv)
    (hscan : scan ((cstr format0).length + 1) (cstr format0) Scan.init = .ok st)
    (hconv : conv_loop s.w.gfc_current_locus st.arg_type (st.maxpos + 1).toNat 0
      (Conv.init argp) = .ok cv) :
    st.n ≤ MAX_ARGS ∧ st.maxpos < MAX_ARGS ∧ st.arg_type.length = MAX_ARGS
    ∧ st.spec_pos.length = MAX_ARGS ∧ cv.arg_u.length = MAX_ARGS
    ∧ (∀ k q, k < st.n → st.spec_pos[k]? = some q → 0 ≤ q ∧ q < MAX_ARGS)
    ∧ (∀ k, st.n ≤ k → k < MAX_ARGS → st.spec_pos[k]? = some (-1))
    ∧ (st.n < MAX_ARGS →
        ∃ r, copy_loop st.spec_pos cv.arg_u (MAX_ARGS + 1) 0 (List.replicate MAX_ARGS .unset)
          = .ok r)
    ∧ (st.n = MAX_ARGS →
        st.spec_pos[MAX_ARGS]? = none
        ∧ (∀ k, k < MAX_ARGS → ∃ q, st.spec_pos[k]? = some q ∧ 0 ≤ q)
        ∧ copy_loop st.spec_pos cv.arg_u (MAX_ARGS + 1) 0 (List.replicate MAX_ARGS .unset)
          = .error .undefined
        ∧ error_print X type format0 argp s = .stop .undefined s) := by
  have hI := scan_inv _ _ _ _ hscan scan_inv_init
  have hrest := scan_rest _ _ _ _ hscan
    (fun k _ hk => by simp only [Scan.init, List.getElem?_replicate, hk, if_true])
  have hmax := hI.max_lt
  have hlen : cv.arg_u.length = MAX_ARGS :=
    (conv_inv s.w.gfc_current_locus st.arg_type argp _ cv (by omega) hconv).len
  have hbound : ∀ k q, k < st.n → st.spec_pos[k]? = some q → 0 ≤ q ∧ q < MAX_ARGS := by
    intro k q hk hq
    have := hI.bound k q hk hq
    constructor <;> omega
  have hsome : ∀ k, k < st.n → ∃ q, st.spec_pos[k]? = some q ∧ 0 ≤ q
      ∧ q.toNat < cv.arg_u.length := by
    intro k hk
    have hkl : k < st.spec_pos.length := by
      rw [hI.len_s]
      exact lt_of_lt_of_le hk hI.n_le
    have hq := List.getElem?_eq_getElem hkl
    have hb := hbound k _ hk hq
    exact ⟨_, hq, hb.1, by rw [hlen]; omega⟩
  refine ⟨hI.n_le, hmax, hI.len_t, hI.len_s, hlen, hbound, hrest, ?_, ?_⟩
  · intro hn
    exact copy_loop_partial st.spec_pos cv.arg_u st.n st.n (MAX_ARGS + 1) 0 _ (by omega)
      (by omega) hsome (hrest st.n (le_refl _) hn)
  · intro hn
    have hnone : st.spec_pos[MAX_ARGS]? = none := by
      rw [List.getElem?_eq_none_iff, hI.len_s]
    have hfull : copy_loop st.spec_pos cv.arg_u (MAX_ARGS + 1) 0
        (List.replicate MAX_ARGS .unset) = .error .undefined := by
      refine copy_loop_full _ _ _ _ _ (fun k q _ hq => ?_)
      have hk : k < st.n := by
        by_contra hge
        have : st.spec_pos[k]? = none := by
          rw [List.getElem?_eq_none_iff, hI.len_s]
          omega
        rw [this] at hq
        cases hq
      have hb := hbound k q hk hq
      exact ⟨hb.1, by rw [hlen]; omega⟩
    refine ⟨hnone, fun k hk => ?_, hfull, ?_⟩
    · obtain ⟨q, hq, h0, _⟩ := hsome k (by omega)
      exact ⟨q, hq, h0⟩
    · have hconv2 : conv_loop s.w.gfc_current_locus st.arg_type (st.maxpos + 1).toNat 0
          { arg_u := List.replicate MAX_ARGS UVal.unset, have_l1 := false, l1 := none,
            l2 := none, argp := argp } = .ok cv := hconv
      unfold error_print error_print_with
      simp only [bind_apply, hscan, liftE, pure_apply, getState_apply, hconv2, hfull]
      rfl

/-- C31, witness: the template "%s%s%s%s%s%s%s%s%s%s" with ten strings, in
the sample state: the ten entries of `spec` hold the slots 0 to 9, the loop
reads `spec[10]` and nothing is printed. -/
theorem spec_index_beyond_array_witness :
    (10 = MAX_ARGS →
      ([0, 1, 2, 3, 4, 5, 6, 7, 8, 9] : List Int)[MAX_ARGS]? = none
      ∧ (∀ k, k < MAX_ARGS → ∃ q, ([0, 1, 2, 3, 4, 5, 6, 7, 8, 9] : List Int)[k]? = some q
          ∧ 0 ≤ q)
      ∧ copy_loop [0, 1, 2, 3, 4, 5, 6, 7, 8, 9]
          (List.replicate MAX_ARGS (UVal.stringval ['a'])) (MAX_ARGS + 1) 0
          (List.replicate MAX_ARGS .unset) = .error .undefined
      ∧ error_print sample_externals "Error:".toList "%s%s%s%s%s%s%s%s%s%s".toList
          (List.replicate 10 (VaArg.str ['a'])) sample_state = .stop .undefined sample_state)
    ∧ (error_print sample_externals "Error:".toList "%s%s%s%s%s%s%s%s%s%s".toList
          (List.replicate 10 (VaArg.str ['a'])) sample_state).state.w.stderr = [] :=
  ⟨(spec_index_beyond_array sample_externals "Error:".toList "%s%s%s%s%s%s%s%s%s%s".toList
      (List.replicate 10 (VaArg.str ['a'])) sample_state
      { pos := 9, maxpos := 9, n := 10,
        arg_type := List.replicate MAX_ARGS ArgType.TYPE_STRING,
        spec_pos := [0, 1, 2, 3, 4, 5, 6, 7, 8, 9] }
      { arg_u := List.replicate MAX_ARGS (UVal.stringval ['a']), have_l1 := false, l1 := none,
        l2 := none, argp := [] } rfl rfl).2.2.2.2.2.2.2.2,
    by decide!⟩


/-! ## The text of a report does not depend on the mode -/

section traced

variable {α β : Type} {w : Int} {cur : locus}

theorem traced_liftE (e : Except Stop α) : Traced w cur (liftE e) :=
  ⟨[], e, fun _ _ _ => rfl⟩

theorem traced_pure (a : α) : Traced w cur (pure a : M α) := traced_liftE (.ok a)

theorem traced_halt (r : Stop) : Traced w cur (halt r : M α) := traced_liftE (.error r)

theorem traced_emit (cs : List Char) : Traced w cur (emit cs) := by
  refine ⟨cs, .ok (), fun s _ _ => ?_⟩
  simp only [bind_apply]
  cases emit cs s <;> rfl

theorem traced_error_char (c : Char) : Traced w cur (error_char c) := by
  rw [error_char_eq_emit]
  exact traced_emit _

theorem traced_bind {m : M α} {f : α → M β} (hm : Traced w cur m)
    (hf : ∀ a, Traced w cur (f a)) : Traced w cur (m >>= f) := by
  obtain ⟨t1, r1, h1⟩ := hm
  cases r1 with
  | error r =>
    refine ⟨t1, .error r, fun s hs hc => ?_⟩
    simp only [bind_apply, h1 s hs hc]
    cases emit t1 s <;> rfl
  | ok a =>
    obtain ⟨t2, r2, h2⟩ := hf a
    refine ⟨t1 ++ t2, r2, fun s hs hc => ?_⟩
    simp only [bind_apply, h1 s hs hc, emit_append t1 t2 s]
    cases e : emit t1 s with
    | stop r s1 => rfl
    | ok u s1 =>
      have hfr := emitted_frame s s1 ⟨t1, e⟩
      have e1 : s1.terminal_width = w := by rw [hfr]; exact hs
      have e2 : s1.w.gfc_current_locus = cur := by rw [hfr]; exact hc
      have := h2 s1 e1 e2
      simp only [bind_apply] at this
      exact this

theorem traced_ite (c : Prop) [Decidable c] {m1 m2 : M α} (h1 : Traced w cur m1)
    (h2 : Traced w cur m2) : Traced w cur (if c then m1 else m2) := by
  split
  · exact h1
  · exact h2

theorem traced_getState_bind {f : gfc_state → M α}
    (h : ∀ s0 : gfc_state, s0.terminal_width = w → s0.w.gfc_current_locus = cur →
      Traced w cur (f s0))
    (hdep : ∀ s s0 : gfc_state, s.terminal_width = s0.terminal_width →
      s.w.gfc_current_locus = s0.w.gfc_current_locus → f s = f s0) :
    Traced w cur (getState >>= f) := by
  obtain ⟨t, r, ht⟩ := h (state_at w cur) rfl rfl
  refine ⟨t, r, fun s hs hc => ?_⟩
  simp only [bind_apply, getState_apply]
  rw [hdep s (state_at w cur) hs hc]
  exact ht s hs hc

theorem traced_error_string (p : List Char) : Traced w cur (error_string p) := by
  rw [error_string_eq_emit]
  exact traced_emit _

theorem traced_error_uinteger (i : Nat) : Traced w cur (error_uinteger i) := by
  unfold error_uinteger
  generalize (if i = 0 then (['0'], IBUF_LEN - 2) else ([], IBUF_LEN - 1) : List Char × Nat) = start
  dsimp only
  cases uinteger_digits start.2 i start.1 with
  | none => exact traced_halt _
  | some ds => exact traced_error_string _

theorem traced_error_integer (i : Int) : Traced w cur (error_integer i) := by
  unfold error_integer
  split
  · exact traced_bind (traced_error_char _) (fun _ => traced_error_uinteger _)
  · exact traced_error_uinteger _

theorem traced_error_spaces (k : Nat) : Traced w cur (error_spaces k) := by
  rw [error_spaces_eq_emit]
  exact traced_emit _

theorem traced_line_at (line : List Nat) (i : Nat) : Traced w cur (line_at line i) := by
  unfold line_at
  split
  · exact traced_halt _
  · exact traced_pure _

theorem traced_spec_at (spec_u : List UVal) (n : Nat) : Traced w cur (spec_at spec_u n) := by
  unfold spec_at
  split
  · exact traced_halt _
  · exact traced_pure _

theorem traced_print_spec (c : Char) (format : List Char) (n : Nat) (spec_u : List UVal) :
    Traced w cur (print_spec c format n spec_u) := by
  unfold print_spec
  repeat' (first
    | with_reducible exact traced_pure _
    | with_reducible exact traced_halt _
    | with_reducible exact traced_error_char _
    | with_reducible exact traced_error_string _
    | with_reducible exact traced_error_integer _
    | with_reducible exact traced_error_uinteger _
    | with_reducible exact traced_spec_at _ _
    | with_reducible refine traced_bind ?_ (fun _ => ?_)
    | with_reducible refine traced_ite _ ?_ ?_
    | split)

theorem traced_print_loop (fuel : Nat) (format : List Char) (n : Nat) (spec_u : List UVal) :
    Traced w cur (print_loop fuel format n spec_u) := by
  induction fuel generalizing format n with
  | zero => exact traced_halt _
  | succ fuel ih =>
    cases format with
    | nil => exact traced_pure _
    | cons c format =>
      unfold print_loop
      repeat' (first
        | with_reducible exact traced_pure _
        | with_reducible exact traced_halt _
        | with_reducible exact traced_error_char _
        | with_reducible exact traced_print_spec _ _ _ _
        | with_reducible exact ih _ _
        | with_reducible refine traced_bind ?_ (fun _ => ?_)
        | with_reducible refine traced_ite _ ?_ ?_
        | split)

theorem traced_error_print_with (show_loci : Option locus → Option locus → M Unit)
    (h : ∀ l1 l2, Traced w cur (show_loci l1 l2)) (type format0 : List Char)
    (argp : List VaArg) : Traced w cur (error_print_with show_loci type format0 argp) := by
  unfold error_print_with
  repeat' (first
    | with_reducible exact traced_pure _
    | with_reducible exact traced_halt _
    | with_reducible exact traced_liftE _
    | with_reducible exact traced_error_char _
    | with_reducible exact traced_error_string _
    | with_reducible exact traced_print_loop _ _ _ _
    | with_reducible exact h _ _
    | with_reducible refine traced_getState_bind (fun s0 h1 h2 => ?_) (fun s s0 h1 h2 => by simp only [h1, h2])
    | with_reducible refine traced_bind ?_ (fun _ => ?_)
    | with_reducible refine traced_ite _ ?_ ?_)

theorem traced_error_printf (gmsgid : List Char) (argp : List VaArg) :
    Traced w cur (error_printf gmsgid argp) :=
  traced_error_print_with _ (fun _ _ => traced_halt _) _ _ _

theorem traced_show_includes (f : gfc_file) : Traced w cur (show_includes f) := by
  induction f with
  | top _ _ => exact traced_pure _
  | sub _ i up ih => exact traced_bind (traced_error_printf _ _) (fun _ => ih)

theorem traced_show_line_loop (X : Externals) (line : List Nat) (fuel : Nat) (i : Int) (p : Nat) :
    Traced w cur (show_line_loop X line fuel i p) := by
  induction fuel generalizing i p with
  | zero => exact traced_pure _
  | succ fuel ih =>
    unfold show_line_loop
    repeat' (first
      | with_reducible exact traced_pure _
      | with_reducible exact traced_line_at _ _
      | with_reducible exact traced_error_string _
      | with_reducible exact ih _ _
      | with_reducible refine traced_bind ?_ (fun _ => ?_)
      | with_reducible refine traced_ite _ ?_ ?_)

theorem traced_marker_loop (X : Externals) (line : List Nat) (c1 c2 : Int) (k : Nat) (i : Int)
    (p : Nat) : Traced w cur (marker_loop X line c1 c2 k i p) := by
  induction k generalizing i p with
  | zero => exact traced_pure _
  | succ k ih =>
    unfold marker_loop
    repeat' (first
      | with_reducible exact traced_pure _
      | with_reducible exact traced_line_at _ _
      | with_reducible exact traced_error_char _
      | with_reducible exact traced_error_spaces _
      | with_reducible exact ih _ _
      | with_reducible refine traced_bind ?_ (fun _ => ?_)
      | with_reducible refine traced_ite _ ?_ ?_)

theorem traced_show_locus_header (X : Externals) (lb : gfc_linebuf) (c1 c2 : Int) :
    Traced w cur (show_locus_header X lb c1 c2) := by
  unfold show_locus_header
  repeat' (first
    | with_reducible exact traced_pure _
    | with_reducible exact traced_error_char _
    | with_reducible exact traced_error_string _
    | with_reducible exact traced_error_integer _
    | with_reducible refine traced_bind ?_ (fun _ => ?_)
    | with_reducible refine traced_ite _ ?_ ?_)

theorem traced_show_locus_line (X : Externals) (lb : gfc_linebuf) (offset : Int) :
    Traced w cur (show_locus_line X lb offset) := by
  unfold show_locus_line
  repeat' (first
    | with_reducible exact traced_pure _
    | with_reducible exact traced_halt _
    | with_reducible exact traced_error_char _
    | with_reducible exact traced_show_line_loop _ _ _ _ _
    | with_reducible refine traced_getState_bind (fun s0 h1 h2 => ?_) (fun s s0 h1 h2 => by simp only [h1, h2])
    | with_reducible refine traced_bind ?_ (fun _ => ?_)
    | with_reducible refine traced_ite _ ?_ ?_)

theorem traced_show_locus_markers (X : Externals) (lb : gfc_linebuf) (offset c1 c2 cmax : Int) :
    Traced w cur (show_locus_markers X lb offset c1 c2 cmax) := by
  unfold show_locus_markers
  repeat' (first
    | with_reducible exact traced_pure _
    | with_reducible exact traced_error_char _
    | with_reducible exact traced_marker_loop _ _ _ _ _ _ _
    | with_reducible refine traced_bind ?_ (fun _ => ?_)
    | with_reducible refine traced_ite _ ?_ ?_)

theorem traced_show_locus (X : Externals) (loc : locus) (c1 c2 : Int) :
    Traced w cur (show_locus X loc c1 c2) := by
  unfold show_locus
  repeat' (first
    | with_reducible exact traced_pure _
    | with_reducible exact traced_halt _
    | with_reducible exact traced_error_char _
    | with_reducible exact traced_show_locus_header _ _ _ _
    | with_reducible exact traced_show_includes _
    | with_reducible exact traced_show_locus_line _ _ _
    | with_reducible exact traced_show_locus_markers _ _ _ _ _ _
    | with_reducible refine traced_getState_bind (fun s0 h1 h2 => ?_) (fun s s0 h1 h2 => by simp only [h1, h2])
    | with_reducible refine traced_bind ?_ (fun _ => ?_)
    | split)

theorem traced_show_loci (X : Externals) (l1 l2 : Option locus) :
    Traced w cur (show_loci X l1 l2) := by
  unfold show_loci
  repeat' (first
    | with_reducible exact traced_pure _
    | with_reducible exact traced_halt _
    | with_reducible exact traced_error_printf _ _
    | with_reducible exact traced_show_locus _ _ _ _
    | with_reducible refine traced_getState_bind (fun s0 h1 h2 => ?_) (fun s s0 h1 h2 => by simp only [h1, h2])
    | with_reducible refine traced_bind ?_ (fun _ => ?_)
    | with_reducible refine traced_ite _ ?_ ?_
    | split)

theorem traced_error_print (X : Externals) (type format0 : List Char) (argp : List VaArg) :
    Traced w cur (error_print X type format0 argp) :=
  traced_error_print_with _ (traced_show_loci X) _ _ _

end traced

/-! ## A warning reported at once and a warning buffered and flushed -/

theorem endsLine_newline : EndsLine (error_char '\n') := by
  intro s s1 a himm h
  rw [error_char_immediate '\n' s himm] at h
  cases h
  rfl

theorem endsLine_bind {α β : Type} {m : M α} {f : α → M β} (hm : Keeps Emitted m)
    (hf : ∀ a, EndsLine (f a)) : EndsLine (m >>= f) := by
  intro s s1 b himm h
  rw [bind_apply] at h
  cases e : m s with
  | stop r s2 =>
    rw [e] at h
    cases h
  | ok a s2 =>
    rw [e] at h
    have hfr := emitted_frame s s2 (hm.ok e)
    exact hf a s2 s1 b (by rw [hfr]; exact himm) h

theorem endsLine_ite {α : Type} (c : Prop) [Decidable c] {m1 m2 : M α} (h1 : EndsLine m1)
    (h2 : EndsLine m2) : EndsLine (if c then m1 else m2) := by
  split
  · exact h1
  · exact h2

theorem endsLine_error_print (X : Externals) (type format0 : List Char) (argp : List VaArg) :
    EndsLine (error_print X type format0 argp) := by
  unfold error_print error_print_with
  repeat' (first
    | with_reducible exact endsLine_newline
    | with_reducible exact keeps_pure _
    | with_reducible exact keeps_getState
    | with_reducible exact keeps_liftE _
    | with_reducible exact keeps_error_char _
    | with_reducible exact keeps_error_string _
    | with_reducible exact keeps_print_loop _ _ _ _
    | with_reducible exact keeps_show_loci _ _ _
    | with_reducible refine endsLine_bind ?_ (fun _ => ?_)
    | with_reducible refine endsLine_ite _ ?_ ?_)

theorem rb_emit (cs : List Char) : ReturnsBuffered (emit cs) := by
  induction cs with
  | nil => exact rb_pure _
  | cons c cs ih => exact rb_bind (rb_error_char c) (fun _ => ih)

/-- What a text and its final NUL leave in a buffer that a report has been
started in. -/
theorem emit_nul_buffered (cs : List Char) (sel : BufSel) (s sc : gfc_state)
    (hbuf : s.buffered_p = true)
    (hall : emit (cs ++ [NUL]) (started sel s) = .ok () sc) :
    ∃ rest b1, sc = (started sel s).setBuf sel b1
      ∧ b1.message = some (strBytes cs ++ rest) ∧ b1.index = cs.length + 1
      ∧ b1.flag = 1 := by
  obtain ⟨b1, e, j1, j2, j3, j4⟩ := emit_buffered (cs ++ [NUL]) _ _ sel []
    ((s.buf sel).message.getD []) (by simpa using hbuf) (by simp [started])
    (by cases sel <;> simp [started, gfc_state.buf, gfc_state.setBuf])
    (by cases sel <;> simp [started, gfc_state.buf, gfc_state.setBuf]) hall
  have hm : b1.message = some (strBytes cs ++ List.drop (cs.length + 1)
      ((s.buf sel).message.getD [])) := by
    cases hb1 : b1.message with
    | none => exact absurd hb1 (j4 (by simp))
    | some m =>
      rw [hb1] at j2
      simp only [Option.getD_some] at j2
      rw [j2]
      simp [strBytes]
  refine ⟨_, b1, e, hm, by simpa using j1, ?_⟩
  rw [j3]
  cases sel <;> rfl

theorem print_loop_plain_eq (format : List Char) (fuel : Nat) (n : Nat)
    (spec_u : List UVal) (h : '%' ∉ format) (hfuel : format.length < fuel) :
    print_loop fuel format n spec_u = emit format := by
  induction format generalizing fuel with
  | nil =>
    cases fuel with
    | zero => simp at hfuel
    | succ fuel => rfl
  | cons c format ih =>
    cases fuel with
    | zero => simp at hfuel
    | succ fuel =>
      simp only [List.mem_cons, not_or] at h
      have hc : c ≠ '%' := fun e => h.1 e.symm
      simp only [print_loop, hc, ne_eq, not_false_eq_true, if_true, emit]
      rw [ih fuel h.2 (by simpa using hfuel)]

/-- The text of a report with the label "Warning:" whose template holds no
conversion specifier. -/
theorem warning_print_plain (X : Externals) (format0 : List Char) (argp : List VaArg)
    (h : '%' ∉ cstr format0) :
    error_print X "Warning:".toList format0 argp
      = emit ("Warning: ".toList ++ cstr format0 ++ ['\n']) := by
  funext s
  have e1 : conv_loop s.w.gfc_current_locus Scan.init.arg_type (Scan.init.maxpos + 1).toNat 0
      { arg_u := List.replicate MAX_ARGS UVal.unset, have_l1 := false, l1 := none, l2 := none,
        argp := argp }
      = .ok { arg_u := List.replicate MAX_ARGS UVal.unset, have_l1 := false, l1 := none,
              l2 := none, argp := argp } := rfl
  have e2 : copy_loop Scan.init.spec_pos (List.replicate MAX_ARGS UVal.unset) (MAX_ARGS + 1) 0
      (List.replicate MAX_ARGS UVal.unset) = .ok (List.replicate MAX_ARGS UVal.unset) := rfl
  have e3 : (peek "Warning:".toList ≠ NUL) := by decide
  have e4 : error_string "Warning:".toList = emit "Warning:".toList := by
    rw [error_string_eq_emit]
    rfl
  unfold error_print error_print_with
  simp only [scan_plain (cstr format0) _ Scan.init h (Nat.lt_succ_self _), liftE, bind_apply,
    pure_apply, getState_apply, e1, e2]
  simp only [Bool.false_eq_true, if_false, e3, not_false_eq_true, if_true, ne_eq]
  rw [print_loop_plain_eq (cstr format0) _ 0 _ h (Nat.lt_succ_self _), e4, error_char_eq_emit,
    error_char_eq_emit]
  simp only [pure_bind_M, emit_bind_emit_bind, emit_bind_emit]
  refine congrFun (congrArg emit ?_) s
  simp

theorem fatal_error_not_ok {α : Type} (X : Externals) (gmsgid : List Char) (argp : List VaArg)
    (s : gfc_state) (b : α) (s1 : gfc_state) :
    (gfc_fatal_error X gmsgid argp : M α) s ≠ .ok b s1 := by
  intro h
  obtain ⟨r, s3, e⟩ := fatal_error_stops (α := α) X gmsgid argp s
  rw [e] at h
  cases h

/-- A warning reported at once, the state holding no partial line, when the
report prints the text `text` and then ends as `res` says: the call returns
only when `res` is a return, and has then written the text without its NUL
characters, left no partial line, and counted one warning, and one error
when warnings are treated as errors. -/
theorem warning_immediate_text (X : Externals) (gmsgid : List Char) (argp : List VaArg)
    (s si : gfc_state) (text : List Char) (res : Except Stop Unit)
    (himm : s.buffered_p = false) (hline : s.line = [])
    (hinh : s.w.inhibit_warnings = false)
    (ht : error_print X "Warning:".toList gmsgid argp (started .warning_buffer s)
      = (emit text >>= fun _ => liftE res) (started .warning_buffer s))
    (hret : gfc_warning_1 X gmsgid argp s = .ok () si) :
    res = .ok ()
    ∧ si.w.stderr = s.w.stderr ++ text.filter (fun c => c != NUL) ∧ si.line = []
    ∧ si.warnings = s.warnings + 1
    ∧ si.errors = (if s.w.warnings_are_errors then s.errors + 1 else s.errors) := by
  have hend := endsLine_error_print X "Warning:".toList gmsgid argp (started .warning_buffer s)
  have himmW := warning_1_immediate X gmsgid argp s
  have hkeep := keeps_error_print X "Warning:".toList gmsgid argp
  have hTl : (started .warning_buffer s).line = [] := hline
  have hTb : (started .warning_buffer s).buffered_p = false := himm
  cases hp : error_print X "Warning:".toList gmsgid argp (started .warning_buffer s) with
  | stop r sp =>
    exfalso
    unfold gfc_warning_1 warning_1_body at hret
    generalize "Warning:".toList = ty at hret hp
    simp only [bind_apply, getState_apply, hinh, Bool.false_eq_true, if_false,
      start_buffer_apply] at hret
    simp [hp] at hret
  | ok u sp =>
    cases u
    obtain ⟨s1, u1, e1, e2, e3, _, _, _, _, _⟩ := emit_stream text (started .warning_buffer s)
      hTb (by rw [hTl]; simp)
    rw [hp, bind_apply, e1] at ht
    cases res with
    | error r => cases ht
    | ok a =>
      have hsp : sp = s1 := by
        simp only [liftE, pure_apply, Res.ok.injEq] at ht
        exact ht.2
      subst hsp
      have hl : sp.line = [] := hend sp () hTb hp
      have hu : u1 = text.filter (fun c => c != NUL) := by
        rw [hl, hTl] at e3
        simpa using e3
      have hf := emitted_frame _ _ (hkeep.ok hp)
      have hse : sp.errors = s.errors := by rw [hf]; rfl
      have hst : sp.w.stderr = s.w.stderr ++ text.filter (fun c => c != NUL) := by
        rw [e2, hu]
        rfl
      rw [himmW sp himm hinh hp] at hret
      refine ⟨rfl, ?_⟩
      cases hwe : s.w.warnings_are_errors with
      | false =>
        rw [hwe] at hret
        simp only [Bool.false_eq_true, if_false, Res.ok.injEq, true_and] at hret
        subst hret
        exact ⟨hst, hl, rfl, hse⟩
      | true =>
        rw [hwe, if_pos rfl, increment_apply] at hret
        split at hret
        · exact absurd hret (fatal_error_not_ok _ _ _ _ _ _)
        · simp only [Res.ok.injEq, true_and] at hret
          subst hret
          refine ⟨hst, hl, rfl, ?_⟩
          show sp.errors + 1 = s.errors + 1
          rw [hse]

/-- A warning reported in buffered mode, the block of the warning buffer
being there unless its capacity is 0, when the report prints the text
`text` and returns: the call returns, and the check that follows returns,
having written the text up to its first NUL and counted one warning and no
error. -/
theorem warning_buffered_text (X : Externals) (gmsgid : List Char) (argp : List VaArg)
    (s : gfc_state) (text : List Char) (hbuf : s.buffered_p = true)
    (hinh : s.w.inhibit_warnings = false)
    (hvalid : s.warning_buffer.message = none → s.warning_buffer.allocated = 0)
    (ht : error_print X "Warning:".toList gmsgid argp (started .warning_buffer s)
      = (emit text >>= fun _ => liftE (.ok ())) (started .warning_buffer s)) :
    ∃ sb sc, gfc_warning_1 X gmsgid argp s = .ok () sb
      ∧ gfc_warning_check X sb = .ok () sc
      ∧ sc.w.stderr = s.w.stderr ++ cstr text
      ∧ sc.warnings = s.warnings + 1 ∧ sc.errors = s.errors := by
  obtain ⟨_, sbp, hb1, hb2, hb3, hb4⟩ := rb_emit text (started .warning_buffer s)
    .warning_buffer hbuf rfl ⟨hvalid, Nat.zero_le _⟩
  obtain ⟨_, sc0, hn1, hn2, hn3, hn4⟩ := rb_error_char NUL sbp .warning_buffer hb2 hb3 hb4
  have hpb : error_print X "Warning:".toList gmsgid argp (started .warning_buffer s)
      = .ok () sbp := by
    rw [ht, bind_apply, hb1]
    rfl
  have hall : emit (text ++ [NUL]) (started .warning_buffer s) = .ok () sc0 := by
    rw [emit_append, bind_ok hb1]
    simp [emit, hn1]
  obtain ⟨rest, b1, e, hm, hi, hfl⟩ := emit_nul_buffered text .warning_buffer s sc0 hbuf hall
  have hw1 : gfc_warning_1 X gmsgid argp s = .ok () sc0 := by
    unfold gfc_warning_1 warning_1_body
    generalize "Warning:".toList = ty at hpb
    simp only [bind_apply, getState_apply, hinh, Bool.false_eq_true, if_false,
      start_buffer_apply, hpb, hn1, hn2, not_true_eq_false, pure_apply]
  have hflag : sc0.warning_buffer.flag ≠ 0 := by
    rw [e]
    show b1.flag ≠ 0
    rw [hfl]
    decide
  have hmsg : sc0.warning_buffer.message = some (strBytes text ++ rest) := by
    rw [e]
    exact hm
  refine ⟨sc0, _, hw1, warning_check_pending X sc0 text rest hflag hmsg, ?_, ?_, ?_⟩
  · show sc0.w.stderr ++ cstr text = _
    rw [e]
    rfl
  · show sc0.warnings + 1 = _
    rw [e]
    rfl
  · show sc0.errors = _
    rw [e]
    rfl

theorem warning_1_inhibited (X : Externals) (gmsgid : List Char) (argp : List VaArg)
    (s : gfc_state) (hinh : s.w.inhibit_warnings = true) :
    gfc_warning_1 X gmsgid argp s = .ok () s := by
  unfold gfc_warning_1 warning_1_body
  simp only [bind_apply, getState_apply, hinh, if_true]
  rfl

/-- In immediate mode `gfc_warning_1` returns from the report of a message
without a conversion specifier, when warnings are not treated as errors or
the error count has no ceiling. -/
theorem warning_1_immediate_returns (X : Externals) (gmsgid : List Char) (argp : List VaArg)
    (s : gfc_state) (himm : s.buffered_p = false) (hinh : s.w.inhibit_warnings = false)
    (hplain : '%' ∉ cstr gmsgid)
    (hmax : s.w.warnings_are_errors = false ∨ s.w.max_errors = 0) :
    ∃ si, gfc_warning_1 X gmsgid argp s = .ok () si := by
  obtain ⟨_, sp, hp, _⟩ := returns_error_print_plain X "Warning:".toList gmsgid argp hplain
    (started .warning_buffer s) himm
  have hf := emitted_frame _ _ ((keeps_error_print X "Warning:".toList gmsgid argp).ok hp)
  have hm : sp.w.max_errors = s.w.max_errors := by rw [hf]; rfl
  rw [warning_1_immediate X gmsgid argp s sp himm hinh hp]
  cases hwe : s.w.warnings_are_errors with
  | false => exact ⟨_, rfl⟩
  | true =>
    have h0 : s.w.max_errors = 0 := by
      rcases hmax with h | h
      · rw [hwe] at h
        cases h
      · exact h
    rw [if_pos rfl, increment_apply, if_neg (fun hc => hc.1 (hm.trans h0))]
    exact ⟨_, rfl⟩

/-- C36, as amended: for every message and every state with no partial
line pending, warnings not being inhibited and the block of the warning
buffer being there unless its capacity is 0, the report prints one text,
the same in both modes. When `gfc_warning_1` in immediate mode returns, it
has written the text without its NUL characters and counted one warning,
and `gfc_warning_1` in buffered mode followed by `gfc_warning_check`
returns too, having written the text up to its first NUL and counted one
warning: the same warning count, and the same bytes when the text holds no
NUL, as for every message without a conversion specifier. The error count
is the same when warnings are not treated as errors; when they are, the
report at once counts one error and the buffered one none. With warnings
inhibited the call does nothing in either mode. -/
theorem buffered_warning_same_output (X : Externals) (gmsgid : List Char)
    (argp : List VaArg) (s : gfc_state) (hline : s.line = [])
    (hvalid : s.warning_buffer.message = none → s.warning_buffer.allocated = 0) :
    (s.w.inhibit_warnings = true → ∀ b : Bool,
      gfc_warning_1 X gmsgid argp { s with buffered_p := b } = .ok () { s with buffered_p := b })
    ∧ (s.w.inhibit_warnings = false → ∃ text : List Char,
        ('%' ∉ cstr gmsgid → text = "Warning: ".toList ++ cstr gmsgid ++ ['\n'] ∧ NUL ∉ text)
        ∧ ∀ si, gfc_warning_1 X gmsgid argp { s with buffered_p := false } = .ok () si →
          si.w.stderr = s.w.stderr ++ text.filter (fun c => c != NUL) ∧ si.line = []
          ∧ si.warnings = s.warnings + 1
          ∧ si.errors = (if s.w.warnings_are_errors then s.errors + 1 else s.errors)
          ∧ ∃ sb sc, gfc_warning_1 X gmsgid argp { s with buffered_p := true } = .ok () sb
            ∧ gfc_warning_check X sb = .ok () sc
            ∧ sc.w.stderr = s.w.stderr ++ cstr text
            ∧ sc.warnings = si.warnings ∧ sc.errors = s.errors
            ∧ (s.w.warnings_are_errors = false → sc.errors = si.errors)
            ∧ (s.w.warnings_are_errors = true → si.errors = sc.errors + 1)
            ∧ (NUL ∉ text → sc.w.stderr = si.w.stderr))
    ∧ (s.w.inhibit_warnings = false → '%' ∉ cstr gmsgid →
        (s.w.warnings_are_errors = false ∨ s.w.max_errors = 0) →
        ∃ si, gfc_warning_1 X gmsgid argp { s with buffered_p := false } = .ok () si) := by
  refine ⟨?_, ?_, ?_⟩
  · intro hinh b
    exact warning_1_inhibited X gmsgid argp _ hinh
  · intro hinh
    have core : ∀ (text : List Char) (res : Except Stop Unit),
        (∀ s0 : gfc_state, s0.terminal_width = s.terminal_width →
          s0.w.gfc_current_locus = s.w.gfc_current_locus →
          error_print X "Warning:".toList gmsgid argp s0
            = (emit text >>= fun _ => liftE res) s0) →
        ∀ si, gfc_warning_1 X gmsgid argp { s with buffered_p := false } = .ok () si →
          si.w.stderr = s.w.stderr ++ text.filter (fun c => c != NUL) ∧ si.line = []
          ∧ si.warnings = s.warnings + 1
          ∧ si.errors = (if s.w.warnings_are_errors then s.errors + 1 else s.errors)
          ∧ ∃ sb sc, gfc_warning_1 X gmsgid argp { s with buffered_p := true } = .ok () sb
            ∧ gfc_warning_check X sb = .ok () sc
            ∧ sc.w.stderr = s.w.stderr ++ cstr text
            ∧ sc.warnings = si.warnings ∧ sc.errors = s.errors
            ∧ (s.w.warnings_are_errors = false → sc.errors = si.errors)
            ∧ (s.w.warnings_are_errors = true → si.errors = sc.errors + 1)
            ∧ (NUL ∉ text → sc.w.stderr = si.w.stderr) := by
      intro text res ht si hret
      obtain ⟨hres, h1, h2, h3, h4⟩ := warning_immediate_text X gmsgid argp
        { s with buffered_p := false } si text res rfl hline hinh (ht _ rfl rfl) hret
      subst hres
      obtain ⟨sb, sc, k1, k2, k3, k4, k5⟩ := warning_buffered_text X gmsgid argp
        { s with buffered_p := true } text rfl hinh hvalid (ht _ rfl rfl)
      replace h1 : si.w.stderr = s.w.stderr ++ text.filter (fun c => c != NUL) := h1
      replace h3 : si.warnings = s.warnings + 1 := h3
      replace h4 : si.errors = (if s.w.warnings_are_errors then s.errors + 1 else s.errors) :=
        h4
      replace k3 : sc.w.stderr = s.w.stderr ++ cstr text := k3
      replace k4 : sc.warnings = s.warnings + 1 := k4
      replace k5 : sc.errors = s.errors := k5
      refine ⟨h1, h2, h3, h4, sb, sc, k1, k2, k3, k4.trans h3.symm, k5, ?_, ?_, ?_⟩
      · intro hwe
        rw [hwe] at h4
        exact k5.trans h4.symm
      · intro hwe
        rw [hwe] at h4
        rw [h4, k5]
        rfl
      · intro hn
        have e1 : text.filter (fun c => c != NUL) = text := by
          rw [List.filter_eq_self]
          intro c hc
          simp only [bne_iff_ne, ne_eq]
          intro e
          exact hn (e ▸ hc)
        rw [k3, h1, e1, cstr_eq_self text hn]
    by_cases hplain : '%' ∈ cstr gmsgid
    · obtain ⟨text, res, ht⟩ : Traced s.terminal_width s.w.gfc_current_locus
          (error_print X "Warning:".toList gmsgid argp) := traced_error_print X _ gmsgid argp
      exact ⟨text, fun h => absurd hplain h, core text res ht⟩
    · refine ⟨"Warning: ".toList ++ cstr gmsgid ++ ['\n'], fun _ => ⟨rfl, ?_⟩,
        core _ (.ok ()) (fun s0 _ _ => ?_)⟩
      · have := nul_not_mem_cstr gmsgid
        simp only [List.mem_append, List.mem_singleton, not_or]
        refine ⟨⟨by decide, this⟩, by decide⟩
      · rw [warning_print_plain X gmsgid argp hplain]
        simp only [bind_apply]
        cases emit ("Warning: ".toList ++ cstr gmsgid ++ ['\n']) s0 <;> rfl
  · intro hinh hplain hmax
    exact warning_1_immediate_returns X gmsgid argp _ rfl hinh hplain hmax

/-- C36, witness: the warning "unused variable" in the sample state, whose
warning buffer has no block yet: at once and buffered then flushed, the
bytes "Warning: unused variable" and a newline are written and one warning
is counted, and no error. -/
theorem buffered_warning_same_output_witness :
    (∃ si, gfc_warning_1 sample_externals "unused variable".toList []
        { sample_state with buffered_p := false } = .ok () si)
    ∧ (gfc_warning_1 sample_externals "unused variable".toList []
        { sample_state with buffered_p := false }).state.w.stderr
      = "Warning: unused variable\n".toList
    ∧ (gfc_warning_check sample_externals
        (gfc_warning_1 sample_externals "unused variable".toList []
          { sample_state with buffered_p := true }).state).state.w.stderr
      = "Warning: unused variable\n".toList
    ∧ (gfc_warning_check sample_externals
        (gfc_warning_1 sample_externals "unused variable".toList []
          { sample_state with buffered_p := true }).state).state.warnings = 1 :=
  ⟨(buffered_warning_same_output sample_externals "unused variable".toList [] sample_state
      rfl (fun _ => rfl)).2.2 rfl (by decide) (Or.inl rfl),
    by decide!, by decide!, by decide!⟩

/-- C36, counterexample. With warnings treated as errors, the warning
"unused variable" reported at once counts one error; reported in buffered
mode and flushed by `gfc_warning_check` it counts none, the bytes written
and the warning count being the same. And the warning "a%cb" with the
character NUL as argument writes "Warning: ab" and a newline at once, but
only "Warning: a" when it is buffered and flushed. -/
theorem buffered_warning_same_output_counterexample :
    werror_state.line = [] ∧ werror_state.w.warnings_are_errors = true
    ∧ (gfc_warning_1 sample_externals "unused variable".toList []
        { werror_state with buffered_p := false }).state.errors = 1
    ∧ (gfc_warning_check sample_externals
        (gfc_warning_1 sample_externals "unused variable".toList []
          { werror_state with buffered_p := true }).state).state.errors = 0
    ∧ (gfc_warning_1 sample_externals "unused variable".toList []
        { werror_state with buffered_p := false }).state.w.stderr
      = "Warning: unused variable\n".toList
    ∧ (gfc_warning_check sample_externals
        (gfc_warning_1 sample_externals "unused variable".toList []
          { werror_state with buffered_p := true }).state).state.w.stderr
      = "Warning: unused variable\n".toList
    ∧ (gfc_warning_1 sample_externals "a%cb".toList [.int 0]
        { sample_state with buffered_p := false }).state.w.stderr = "Warning: ab\n".toList
    ∧ (gfc_warning_check sample_externals
        (gfc_warning_1 sample_externals "a%cb".toList [.int 0]
          { sample_state with buffered_p := true }).state).state.w.stderr
      = "Warning: a".toList := by
  refine ⟨?_, ?_, ?_, ?_, ?_, ?_, ?_, ?_⟩ <;> decide!


/-! ## Two loci at the same column -/

/-- The positions of the two markers in a marker row for a pair. -/
theorem pair_row_positions (k d : Nat) (hd : 0 < d) :
    (List.replicate k ' ' ++ '1' :: List.replicate (d - 1) ' ' ++ ['2', '\n'])[k]? = some '1'
    ∧ (List.replicate k ' ' ++ '1' :: List.replicate (d - 1) ' ' ++ ['2', '\n'])[k + d]?
      = some '2' := by
  obtain ⟨e, rfl⟩ : ∃ e, d = e + 1 := ⟨d - 1, by omega⟩
  simp only [Nat.add_sub_cancel, List.append_assoc, List.cons_append]
  constructor
  · rw [List.getElem?_append_right (by simp)]
    simp
  · rw [List.getElem?_append_right (by simp)]
    simp only [List.length_replicate, Nat.add_sub_cancel_left, List.getElem?_cons_succ]
    rw [List.getElem?_append_right (by simp)]
    simp

/-- C8, as amended: on a terminal of width at least 10, for two loci whose
`lb` point to the same line buffer, at the same column `c` of its line,
`show_loci` prints one excerpt whose marker row holds both markers and
nothing but spaces besides: as many spaces as the display widths of the
characters from the scroll offset up to `c` sum to, then '1', then as many
spaces as the display width of the character at `c` less one, then '2'. So
'1' is at the position that the first count gives and '2' at a later one:
the markers are on two columns and neither is dropped. They are the
adjacent pair "12" when the character at `c` is displayed in one column.
When the characters from the offset up to `c` are displayed in one column
each, '1' is at position `c - offset` of the row, which is column `c` when
there is no scroll (`c + 1` is at most the width less 5). -/
theorem same_column_pair (X : Externals) (l1 l2 : locus) (lb lb2 : gfc_linebuf) (c : Nat)
    (s : gfc_state) (h1 : l1.lb = some lb) (h2 : l2.lb = some lb2) (hp : lb2.addr = lb.addr)
    (hn1 : l1.nextc = c) (hn2 : l2.nextc = c) (hc : c ≤ lb.line.length)
    (hw : 10 ≤ s.terminal_width) :
    ∃ n a : Nat, (a : Int) = c - locus_offset s.terminal_width (c + 1)
      ∧ (locus_offset s.terminal_width (c + 1)).toNat + a = c
      ∧ show_loci X (some l1) (some l2) s = (do
          show_locus_header X lb c c
          show_includes lb.file
          error_char '\n'
          emit ((((lb.line.drop (locus_offset s.terminal_width (c + 1)).toNat).take n).map
            (render X)).flatten ++ ['\n'])
          emit (List.replicate
              (span_width X lb.line (locus_offset s.terminal_width (c + 1)).toNat a) ' '
            ++ '1' :: List.replicate
              (gfc_widechar_display_length X ((lb.line ++ [0]).getD c 0) - 1) ' '
            ++ ['2', '\n'])) s
      ∧ (List.replicate
              (span_width X lb.line (locus_offset s.terminal_width (c + 1)).toNat a) ' '
            ++ '1' :: List.replicate
              (gfc_widechar_display_length X ((lb.line ++ [0]).getD c 0) - 1) ' '
            ++ ['2', '\n'])[span_width X lb.line
              (locus_offset s.terminal_width (c + 1)).toNat a]? = some '1'
      ∧ (List.replicate
              (span_width X lb.line (locus_offset s.terminal_width (c + 1)).toNat a) ' '
            ++ '1' :: List.replicate
              (gfc_widechar_display_length X ((lb.line ++ [0]).getD c 0) - 1) ' '
            ++ ['2', '\n'])[span_width X lb.line
              (locus_offset s.terminal_width (c + 1)).toNat a
              + gfc_widechar_display_length X ((lb.line ++ [0]).getD c 0)]? = some '2'
      ∧ 0 < gfc_widechar_display_length X ((lb.line ++ [0]).getD c 0)
      ∧ (gfc_widechar_display_length X ((lb.line ++ [0]).getD c 0) = 1 →
          List.replicate (span_width X lb.line (locus_offset s.terminal_width (c + 1)).toNat a) ' '
            ++ '1' :: List.replicate
              (gfc_widechar_display_length X ((lb.line ++ [0]).getD c 0) - 1) ' '
            ++ ['2', '\n']
          = List.replicate (span_width X lb.line (locus_offset s.terminal_width (c + 1)).toNat a) ' '
            ++ ['1', '2', '\n'])
      ∧ ((∀ j, j < a → gfc_widechar_display_length X
            ((lb.line ++ [0]).getD ((locus_offset s.terminal_width (c + 1)).toNat + j) 0) = 1) →
          span_width X lb.line (locus_offset s.terminal_width (c + 1)).toNat a = a)
      ∧ ((c : Int) + 1 ≤ s.terminal_width - 5 →
          locus_offset s.terminal_width (c + 1) = 0 ∧ a = c) := by
  have hoff : 0 ≤ locus_offset s.terminal_width (c + 1)
      ∧ locus_offset s.terminal_width (c + 1) ≤ c := by
    unfold locus_offset
    split <;> constructor <;> omega
  obtain ⟨ho1, ho2⟩ := hoff
  obtain ⟨n, e1, _, _⟩ := show_locus_line_run X lb (locus_offset s.terminal_width (c + 1))
    s.terminal_width (by omega)
  obtain ⟨a, ha⟩ : ∃ a : Nat, (a : Int) = c - locus_offset s.terminal_width (c + 1) :=
    ⟨(c - locus_offset s.terminal_width (c + 1)).toNat, by omega⟩
  have hpos := display_length_pos X ((lb.line ++ [0]).getD c 0)
  have hrow := pair_row_positions
    (span_width X lb.line (locus_offset s.terminal_width (c + 1)).toNat a)
    (gfc_widechar_display_length X ((lb.line ++ [0]).getD c 0)) hpos
  refine ⟨n, a, ha, by omega, ?_, hrow.1, hrow.2, hpos, ?_, ?_, ?_⟩
  · unfold show_loci
    have hm : ¬ (l1.lb_addr ≠ l2.lb_addr
        ∨ (if (c : Int) < c then (c : Int) - c else (c : Int) - c) > s.terminal_width - 10) := by
      have e : l1.lb_addr = l2.lb_addr := by
        unfold locus.lb_addr
        rw [h1, h2]
        simp [hp]
      simp only [lt_self_iff_false, if_false, sub_self, ne_eq, e, not_true_eq_false, false_or]
      omega
    simp only [h1, hn1, hn2, bind_apply, getState_apply, hm, if_false]
    rw [show_locus_eq X l1 lb c c s h1]
    have hlt : (c : Int) < c + 1 := by omega
    simp only [if_true, hlt]
    refine bind_congr_width (keeps_show_locus_header X lb c c) s (fun _ s1 g1 => ?_)
    refine bind_congr_width (keeps_show_includes lb.file) s1 (fun _ s2 g2 => ?_)
    refine bind_congr_width (keeps_error_char '\n') s2 (fun _ s3 g3 => ?_)
    have hk1 : (c : Int) + 1 - locus_offset s.terminal_width (c + 1) = (a : Int) + 1 := by omega
    have hidx : (locus_offset s.terminal_width (c + 1)).toNat + a = c := by omega
    rw [hk1, ← ha, show_locus_markers_pair X lb _ _ (by omega), hidx]
    simp only [bind_apply, e1 s3 (by rw [g3, g2, g1])]
  · intro hone
    rw [hone]
    simp
  · intro h
    exact span_width_ones X lb.line _ _ (by omega) h
  · intro hns
    have e0 : locus_offset s.terminal_width (c + 1) = 0 := by
      unfold locus_offset
      rw [if_neg (by omega)]
    exact ⟨e0, by omega⟩

/-- C8, witness: two loci at column 5 of the line "abcdefghij" on a
terminal of width 80: the marker row is five spaces and "12". -/
theorem same_column_pair_witness :
    ((5 : Nat) ≤ plain_line.line.length ∧ 10 ≤ (width_state 80).terminal_width)
    ∧ (∃ a : Nat,
      (a : Int) = (5 : Nat) - locus_offset (width_state 80).terminal_width ((5 : Nat) + 1)
      ∧ (locus_offset (width_state 80).terminal_width ((5 : Nat) + 1)).toNat + a = 5)
    ∧ (show_loci sample_externals (some { nextc := 5, lb := some plain_line })
        (some { nextc := 5, lb := some plain_line }) (width_state 80)).state.w.stderr
      = "file.f:10.5-5:\n\nabcdefghij\n     12\n".toList :=
  ⟨⟨by decide, by decide⟩,
   (same_column_pair sample_externals { nextc := (5 : Nat), lb := some plain_line }
     { nextc := (5 : Nat), lb := some plain_line } plain_line plain_line 5 (width_state 80)
     rfl rfl rfl rfl rfl (by decide) (by decide)).elim
     (fun _ h => h.imp (fun _ h => ⟨h.1, h.2.1⟩)),
   by decide!⟩

/-- C8, counterexample. On a terminal of width 80, for two loci at column
2 of the line 'a', 'b', 1, 'c', 'd', whose character at column 2 is printed
as "\x01", the marker row is "  1   2": the markers are three columns
apart, not the adjacent pair "12". For two loci at column 3 of that line the
marker row is six spaces and "12": '1' is at column 6, not at column 3. On a
terminal of width 9, for two loci at column 5 of the line "abcdefghij", two
excerpts are printed, the first with the marker '1' alone and the second
with the marker '2' alone. -/
theorem same_column_pair_counterexample :
    (show_loci sample_externals (some { nextc := 2, lb := some short_escaped_line })
        (some { nextc := 2, lb := some short_escaped_line }) (width_state 80)).state.w.stderr
      = "file.f:10.2-2:\n\nab\\x01cd\n  1   2\n".toList
    ∧ (show_loci sample_externals (some { nextc := 3, lb := some short_escaped_line })
        (some { nextc := 3, lb := some short_escaped_line }) (width_state 80)).state.w.stderr
      = "file.f:10.3-3:\n\nab\\x01cd\n      12\n".toList
    ∧ (show_loci sample_externals (some { nextc := 5, lb := some plain_line })
        (some { nextc := 5, lb := some plain_line }) (width_state 9)).state.w.stderr
      = "file.f:10.5:\n\nbcdefghij\n    1\nfile.f:10.5:\n\nbcdefghij\n    2\n".toList := by
  refine ⟨?_, ?_, ?_⟩ <;> decide!


/-! ## The layout that `show_loci` chooses, by cases -/

theorem show_locus_null (X : Externals) (loc : locus) (c1 c2 : Int) (h : loc.lb = none) :
    show_locus X loc c1 c2 = halt .undefined := by
  unfold show_locus
  simp only [h]

/-- The function `show_loci` when both loci are there and the first has a
line: the statements from the computation of `c2` on. -/
theorem show_loci_both (X : Externals) (loc1 loc2 : locus) (lb1 : gfc_linebuf)
    (s : gfc_state) (hlb1 : loc1.lb = some lb1) :
    show_loci X (some loc1) (some loc2) s
      = if loc1.lb_addr ≠ loc2.lb_addr ∨ |loc1.nextc - loc2.nextc| > s.terminal_width - 10
        then (do
          show_locus X loc1 loc1.nextc (-1)
          show_locus X loc2 (-1) loc2.nextc) s
        else show_locus X loc1 loc1.nextc loc2.nextc s := by
  have habs : ∀ a b : Int, (if a < b then b - a else a - b) = |a - b| := by
    intro a b
    split
    · rw [abs_of_nonpos (by omega)]
      omega
    · rw [abs_of_nonneg (by omega)]
  unfold show_loci
  simp only [hlb1, bind_apply, getState_apply, habs]
  split <;> rfl

/-- C17, as amended: `show_loci` chooses its layout as follows. If the
first locus or its line is absent it emits only the placeholder line
"<During initialization>" and an empty line. If the second locus is absent
it renders the first alone. If both are present with their lines, the two
`lb` point to the same line buffer and the columns differ by at most
`terminal_width - 10`, it renders one excerpt for both. Otherwise, the
pointers being different or the columns further apart, it renders two
independent excerpts, the first for the first locus alone and the second
for the second locus alone; when the second locus has no line, the first
excerpt is rendered and `show_locus` then reads through the null pointer.
An excerpt follows the header, the including files and an empty line. On a
terminal of width at least 5, the excerpt for one locus alone, at a column
of its line, ends with a marker row of spaces and its marker only, '1' for
the first locus and '2' for the second; the excerpt for both, at columns of
the line no more than `terminal_width - 10` apart, ends with a marker row
that holds both markers, the marker of the leftmost column first ('1' first
when the columns are the same), and spaces. -/
theorem show_loci_layout (X : Externals) (l1 l2 : Option locus) (s : gfc_state) :
    ((l1 = none ∨ ∃ loc1, l1 = some loc1 ∧ loc1.lb = none) →
      show_loci X l1 l2 = emit "<During initialization>\n\n".toList)
    ∧ (∀ loc1 lb1, l1 = some loc1 → loc1.lb = some lb1 → l2 = none →
        show_loci X l1 l2 = show_locus X loc1 loc1.nextc (-1))
    ∧ (∀ loc1 loc2 lb1 lb2, l1 = some loc1 → l2 = some loc2 → loc1.lb = some lb1 →
        loc2.lb = some lb2 → lb1.addr = lb2.addr →
        |loc1.nextc - loc2.nextc| ≤ s.terminal_width - 10 →
        show_loci X l1 l2 s = show_locus X loc1 loc1.nextc loc2.nextc s)
    ∧ (∀ loc1 loc2 lb1 lb2, l1 = some loc1 → l2 = some loc2 → loc1.lb = some lb1 →
        loc2.lb = some lb2 →
        (lb1.addr ≠ lb2.addr ∨ |loc1.nextc - loc2.nextc| > s.terminal_width - 10) →
        show_loci X l1 l2 s = (do
          show_locus X loc1 loc1.nextc (-1)
          show_locus X loc2 (-1) loc2.nextc) s)
    ∧ (∀ loc1 loc2 lb1, l1 = some loc1 → l2 = some loc2 → loc1.lb = some lb1 →
        loc2.lb = none →
        show_loci X l1 l2 s = (do
          show_locus X loc1 loc1.nextc (-1)
          halt .undefined) s)
    ∧ (∀ loc lb c1 c2, loc.lb = some lb → show_locus X loc c1 c2 = (do
          show_locus_header X lb c1 c2
          show_includes lb.file
          error_char '\n'
          show_locus_excerpt X lb c1 c2))
    ∧ (∀ (lb : gfc_linebuf) (c : Int), 5 ≤ s.terminal_width → 0 ≤ c → c ≤ lb.line.length →
        (∃ n x : Nat, show_locus_excerpt X lb c (-1) s
          = emit ((((lb.line.drop (locus_offset s.terminal_width c).toNat).take n).map
              (render X)).flatten ++ ['\n'] ++ (List.replicate x ' ' ++ ['1', '\n'])) s)
        ∧ (∃ n x : Nat, show_locus_excerpt X lb (-1) c s
          = emit ((((lb.line.drop (locus_offset s.terminal_width c).toNat).take n).map
              (render X)).flatten ++ ['\n'] ++ (List.replicate x ' ' ++ ['2', '\n'])) s))
    ∧ (∀ (lb : gfc_linebuf) (c1 c2 : Int), 0 ≤ c1 → c1 ≤ lb.line.length → 0 ≤ c2 →
        c2 ≤ lb.line.length → |c1 - c2| ≤ s.terminal_width - 10 →
        ∃ off n x y : Nat, (off : Int) ≤ c1 ∧ (off : Int) ≤ c2 ∧ show_locus_excerpt X lb c1 c2 s
          = emit ((((lb.line.drop off).take n).map (render X)).flatten ++ ['\n']
              ++ (List.replicate x ' ' ++ (if c1 ≤ c2 then '1' else '2') :: List.replicate y ' '
                ++ [if c1 ≤ c2 then '2' else '1', '\n'])) s) := by
  refine ⟨show_loci_placeholder X l1 l2, ?_, ?_, ?_, ?_, ?_, ?_, ?_⟩
  · intro loc1 lb1 h1 hlb h2
    subst h1 h2
    exact show_loci_single X loc1 lb1 hlb
  · intro loc1 loc2 lb1 lb2 h1 h2 hlb1 hlb2 hp hm
    subst h1 h2
    rw [show_loci_both X loc1 loc2 lb1 s hlb1, if_neg]
    intro hc
    rcases hc with hc | hc
    · apply hc
      unfold locus.lb_addr
      rw [hlb1, hlb2]
      simp [hp]
    · omega
  · intro loc1 loc2 lb1 lb2 h1 h2 hlb1 hlb2 hm
    subst h1 h2
    rw [show_loci_both X loc1 loc2 lb1 s hlb1, if_pos]
    rcases hm with hm | hm
    · left
      unfold locus.lb_addr
      rw [hlb1, hlb2]
      simpa using hm
    · exact Or.inr hm
  · intro loc1 loc2 lb1 h1 h2 hlb1 hlb2
    subst h1 h2
    rw [show_loci_both X loc1 loc2 lb1 s hlb1, if_pos, show_locus_null X loc2 _ _ hlb2]
    left
    unfold locus.lb_addr
    rw [hlb1, hlb2]
    simp
  · intro loc lb c1 c2 hlb
    exact show_locus_parts X loc lb c1 c2 hlb
  · intro lb c hw h0 hc
    exact ⟨excerpt_first_alone X lb c s hw h0 hc, excerpt_second_alone X lb c s hw h0 hc⟩
  · intro lb c1 c2 h1 h1b h2 h2b hm
    exact excerpt_both X lb c1 c2 s h1 h1b h2 h2b hm

/-- C17, witness: two loci at the columns 2 and 6 of the line
"abcdefghij" on a terminal of width 80 are shown in one excerpt; the same
loci on a terminal of width 12 in two, as are a locus of that line and one
of another line buffer, be it one with the same characters. -/
theorem show_loci_layout_witness :
    show_loci sample_externals (some { nextc := 2, lb := some plain_line })
        (some { nextc := 6, lb := some plain_line }) (width_state 80)
      = show_locus sample_externals { nextc := 2, lb := some plain_line } 2 6 (width_state 80)
    ∧ (show_loci sample_externals (some { nextc := 2, lb := some plain_line })
        (some { nextc := 6, lb := some plain_line }) (width_state 80)).state.w.stderr
      = "file.f:10.2-6:\n\nabcdefghij\n  1   2\n".toList
    ∧ (show_loci sample_externals (some { nextc := 6, lb := some plain_line })
        (some { nextc := 2, lb := some plain_line }) (width_state 80)).state.w.stderr
      = "file.f:10.6-2:\n\nabcdefghij\n  2   1\n".toList
    ∧ (show_loci sample_externals (some { nextc := 2, lb := some plain_line })
        (some { nextc := 6, lb := some plain_line }) (width_state 12)).state.w.stderr
      = "file.f:10.2:\n\nabcdefghij\n  1\nfile.f:10.6:\n\nabcdefghij\n      2\n".toList
    ∧ (show_loci sample_externals (some { nextc := 2, lb := some plain_line })
        (some { nextc := 6, lb := some (second_linebuf long_line.line) })
        (width_state 80)).state.w.stderr
      = "file.f:10.2:\n\nabcdefghij\n  1\nfile.f:11.6:\n\nabcdefghijklmnop\n      2\n".toList
    ∧ plain_line.line = (second_linebuf plain_line.line).line
    ∧ (show_loci sample_externals (some { nextc := 2, lb := some plain_line })
        (some { nextc := 6, lb := some (second_linebuf plain_line.line) })
        (width_state 80)).state.w.stderr
      = "file.f:10.2:\n\nabcdefghij\n  1\nfile.f:11.6:\n\nabcdefghij\n      2\n".toList :=
  ⟨(show_loci_layout sample_externals (some { nextc := 2, lb := some plain_line })
      (some { nextc := 6, lb := some plain_line }) (width_state 80)).2.2.1
      { nextc := 2, lb := some plain_line } { nextc := 6, lb := some plain_line } plain_line
      plain_line rfl rfl rfl rfl rfl (by decide),
   by decide!, by decide!, by decide!, by decide!, rfl, by decide!⟩

/-- C17, counterexample. With no first locus, `show_loci` writes the
placeholder line and then an empty line: "<During initialization>" and two
newlines. On a terminal of width 4, the loci at the columns 2 and 5 of the
line "abcdefghij" are shown in two excerpts, neither of which has a marker:
both marker rows are empty. For a second locus that is present without a
line, the excerpt of the first locus is written and the call then stops on
the read through the null pointer: two excerpts are not rendered. -/
theorem show_loci_layout_counterexample :
    (show_loci sample_externals none none sample_state).state.w.stderr
      = "<During initialization>\n\n".toList
    ∧ (show_loci sample_externals (some { nextc := 2, lb := some plain_line })
        (some { nextc := 5, lb := some plain_line }) (width_state 4)).state.w.stderr
      = "file.f:10.2:\n\ndef\n\nfile.f:10.5:\n\nghij\n\n".toList
    ∧ (show_loci sample_externals (some { nextc := 2, lb := some plain_line })
        (some { nextc := 5, lb := none }) sample_state).state.w.stderr
      = "file.f:10.2:\n\nabcdefghij\n  1\n".toList
    ∧ show_loci sample_externals (some { nextc := 2, lb := some plain_line })
        (some { nextc := 5, lb := none }) sample_state
      = .stop .undefined (show_loci sample_externals (some { nextc := 2, lb := some plain_line })
        (some { nextc := 5, lb := none }) sample_state).state := by
  refine ⟨?_, ?_, ?_, ?_⟩ <;> decide!

end GfcError
